import Mathlib

/-!
# Schism Tracker: the MOD codec (`fmt/mod.c`, `fmt/generic.c`)

A shallow embedding of the MOD detector (`fmt_mod_read_info`), decoder
(`fmt_mod_load_song`) and encoder (`fmt_mod_save_song`), and theorems about them.

Machine integers are natural numbers (or integers where the C value can be `EOF`), with
explicit truncation where the C code narrows a value. Bytes are `Fin 256`.
-/

namespace Schism

/-! ## Bytes and strings -/

/-- An octet of a file. -/
abbrev Byte := Fin 256

/-- The bytes of a C string literal (without the terminating NUL). -/
def cstr (s : String) : List Byte := s.toList.map (fun c => Fin.ofNat c.toNat)

/-- `memcmp(a, b, n) == 0`: the first `n` bytes of both buffers agree. -/
def memeq (a b : List Byte) (n : Nat) : Bool := a.take n == b.take n

/-! ## The byte-stream collaborator (`slurp_t`) -/

/-- Modelled from the spec: the seekable, peekable byte stream (`slurp_t`, declared in
`slurp.h`, implemented outside the sources at hand): the whole contents and a read position. -/
structure slurp_t where
  data : List Byte
  pos : Nat

/-- The value `slurp_getc` returns at the end of the stream. -/
def EOF : Int := -1

/-- Modelled from the spec: a stream over `data`, positioned at its start. -/
def slurp_open (data : List Byte) : slurp_t := ⟨data, 0⟩

/-- Modelled from the spec: `length()`, the total number of bytes. -/
def slurp_length (fp : slurp_t) : Nat := fp.data.length

/-- Modelled from the spec: `tell()`, the read position. -/
def slurp_tell (fp : slurp_t) : Nat := fp.pos

/-- Modelled from the spec: `seek(pos, SEEK_SET)`; a target beyond the end is refused and
leaves the position where it was. -/
def slurp_seek_set (fp : slurp_t) (off : Nat) : slurp_t :=
  if off ≤ fp.data.length then { fp with pos := off } else fp

/-- Modelled from the spec: `seek(n, SEEK_CUR)` with a non-negative offset. -/
def slurp_seek_cur (fp : slurp_t) (off : Nat) : slurp_t :=
  slurp_seek_set fp (fp.pos + off)

/-- Modelled from the spec: `seek(0, SEEK_END)`. -/
def slurp_seek_end (fp : slurp_t) : slurp_t := { fp with pos := fp.data.length }

/-- Modelled from the spec: `slurp_rewind`, back to the first byte. -/
def slurp_rewind (fp : slurp_t) : slurp_t := { fp with pos := 0 }

/-- Modelled from the spec: `peek(n)`: the buffer (bytes that could not be read are zero)
and the number of bytes really read; the position does not move. -/
def slurp_peek (fp : slurp_t) (n : Nat) : List Byte × Nat :=
  let got := (fp.data.drop fp.pos).take n
  (got ++ List.replicate (n - got.length) 0, got.length)

/-- Modelled from the spec: `read(n)`: as `peek(n)`, then the position advances by the number
of bytes read. -/
def slurp_read (fp : slurp_t) (n : Nat) : List Byte × Nat × slurp_t :=
  let r := slurp_peek fp n
  (r.1, r.2, { fp with pos := fp.pos + r.2 })

/-- Modelled from the spec: `slurp_getc`: the next byte as a non-negative `int`, or `EOF`. -/
def slurp_getc (fp : slurp_t) : Int × slurp_t :=
  match fp.data.drop fp.pos with
  | [] => (EOF, fp)
  | b :: _ => ((b.val : Int), { fp with pos := fp.pos + 1 })

/-! ## The output stream collaborator (`disko_t`) -/

/-- Modelled from the spec: the seekable output stream (`disko_t`, declared in `disko.h`):
the bytes written so far and the write position. -/
structure disko_t where
  data : List Byte
  pos : Nat

/-- A write of `src` into the buffer `buf` at offset `off` (`memcpy` into a field, or a write
into a file, which fills a gap before `off` with zero bytes). -/
def buf_write (buf : List Byte) (off : Nat) (src : List Byte) : List Byte :=
  buf.take off ++ List.replicate (off - buf.length) 0 ++ src ++ buf.drop (off + src.length)

/-- Modelled from the spec: an empty output stream. -/
def disko_open : disko_t := ⟨[], 0⟩

/-- Modelled from the spec: `disko_write(fp, buf, len)`: the bytes go to the write position,
over what is there; a gap left by a seek beyond the end is filled with zero bytes. -/
def disko_write (fp : disko_t) (src : List Byte) : disko_t :=
  { data := buf_write fp.data fp.pos src, pos := fp.pos + src.length }

/-- Modelled from the spec: `disko_putc(fp, c)`, the value converted to `unsigned char`. -/
def disko_putc (fp : disko_t) (c : Nat) : disko_t := disko_write fp [Fin.ofNat c]

/-- Modelled from the spec: `disko_seek(fp, n, SEEK_CUR)` with a non-negative offset. -/
def disko_seek_cur (fp : disko_t) (n : Nat) : disko_t := { fp with pos := fp.pos + n }

/-- Modelled from the spec: `disko_seek(fp, pos, SEEK_SET)`. -/
def disko_seek_set (fp : disko_t) (pos : Nat) : disko_t := { fp with pos := pos }

/-- Modelled from the spec: `disko_seek(fp, 0, SEEK_END)`. -/
def disko_seek_end (fp : disko_t) : disko_t := { fp with pos := fp.data.length }

/-- Modelled from the spec: `disko_tell(fp)`. -/
def disko_tell (fp : disko_t) : Nat := fp.pos

/-! ## The tag table and the detector -/

/-- The table `valid_tags` of `mod.c`, macros expanded: magic and description. -/
def valid_tags : List (String × String) :=
  [ ("M.K.", "Amiga-NewTracker"),
    ("M!K!", "Amiga-ProTracker"),
    ("M&K!", "Amiga-NoiseTracker"),
    ("N.T.", "Amiga-NoiseTracker"),
    ("FEST", "Amiga-NoiseTracker"),
    ("CD61", "6 Channel Falcon"), ("CD81", "8 Channel Falcon"),
    ("FLT4", "4 Channel Startrekker"), ("EXO4", "4 Channel Startrekker"),
    ("FLT8", "8 Channel Startrekker"), ("EXO8", "8 Channel Startrekker"),
    ("OCTA", "8 Channel MOD"),
    ("OKTA", "8 Channel MOD"),
    ("TDZ1", "1 Channel MOD"), ("TDZ2", "2 Channel MOD"), ("TDZ3", "3 Channel MOD"),
    ("1CHN", "1 Channel MOD"), ("2CHN", "2 Channel MOD"), ("3CHN", "3 Channel MOD"),
    ("4CHN", "4 Channel MOD"), ("5CHN", "5 Channel MOD"), ("6CHN", "6 Channel MOD"),
    ("7CHN", "7 Channel MOD"), ("8CHN", "8 Channel MOD"), ("9CHN", "9 Channel MOD"),
    ("10CN", "10 Channel MOD"), ("10CH", "10 Channel MOD"),
    ("11CN", "11 Channel MOD"), ("11CH", "11 Channel MOD"),
    ("12CN", "12 Channel MOD"), ("12CH", "12 Channel MOD"),
    ("13CN", "13 Channel MOD"), ("13CH", "13 Channel MOD"),
    ("14CN", "14 Channel MOD"), ("14CH", "14 Channel MOD"),
    ("15CN", "15 Channel MOD"), ("15CH", "15 Channel MOD"),
    ("16CN", "16 Channel MOD"), ("16CH", "16 Channel MOD"),
    ("17CN", "17 Channel MOD"), ("17CH", "17 Channel MOD"),
    ("18CN", "18 Channel MOD"), ("18CH", "18 Channel MOD"),
    ("19CN", "19 Channel MOD"), ("19CH", "19 Channel MOD"),
    ("20CN", "20 Channel MOD"), ("20CH", "20 Channel MOD"),
    ("21CN", "21 Channel MOD"), ("21CH", "21 Channel MOD"),
    ("22CN", "22 Channel MOD"), ("22CH", "22 Channel MOD"),
    ("23CN", "23 Channel MOD"), ("23CH", "23 Channel MOD"),
    ("24CN", "24 Channel MOD"), ("24CH", "24 Channel MOD"),
    ("25CN", "25 Channel MOD"), ("25CH", "25 Channel MOD"),
    ("26CN", "26 Channel MOD"), ("26CH", "26 Channel MOD"),
    ("27CN", "27 Channel MOD"), ("27CH", "27 Channel MOD"),
    ("28CN", "28 Channel MOD"), ("28CH", "28 Channel MOD"),
    ("29CN", "29 Channel MOD"), ("29CH", "29 Channel MOD"),
    ("30CN", "30 Channel MOD"), ("30CH", "30 Channel MOD"),
    ("31CN", "31 Channel MOD"), ("31CH", "31 Channel MOD"),
    ("32CN", "32 Channel MOD"), ("32CH", "32 Channel MOD") ]

/-- The constant `TYPE_MODULE_MOD` of `dmoz.h` (only its identity matters here). -/
def TYPE_MODULE_MOD : Nat := 1

/-- The fields of `dmoz_file_t` that `fmt_mod_read_info` assigns. -/
structure dmoz_file_t where
  description : String
  title : List Byte
  type : Nat
deriving DecidableEq, Repr

/-- Modelled from the spec: `strn_dup(s, n)`, a copy of the first `n` bytes of the buffer. -/
def strn_dup (s : List Byte) (n : Nat) : List Byte := s.take n

/-- The title loop of the SoundTracker check (`mod.c` lines 177-185): `k` bytes are still to
be read, `errors` control bytes were seen; `none` is the early `return 0`. -/
def st_title_check : Nat → slurp_t → Nat → Option slurp_t
  | 0, fp, _ => some fp
  | k + 1, fp, errors =>
    let r := slurp_getc fp
    if 0 < r.1 ∧ r.1 < 32 then
      if errors + 1 > 5 then none else st_title_check k r.2 (errors + 1)
    else st_title_check k r.2 errors

/-- The sample-header loop of the SoundTracker check (`mod.c` lines 188-207), from slot `i`
for `k` more slots; the accumulators are `uint8_t`. The result is
`(all_volumes, all_lengths)`, or `none` for an early `return 0`. -/
def st_sample_check : Nat → Nat → slurp_t → Nat → Nat → Option (Nat × Nat)
  | 0, _, _, all_volumes, all_lengths => some (all_volumes, all_lengths)
  | k + 1, i, fp, all_volumes, all_lengths =>
    let fp := slurp_seek_set fp (20 + i * 30 + 22)
    let r1 := slurp_getc fp
    let length_high := r1.1
    let r2 := slurp_getc r1.2
    let length_low := r2.1
    let length := length_high * 0x100 + length_low
    let r3 := slurp_getc r2.2
    let finetune := r3.1
    let r4 := slurp_getc r3.2
    let volume := r4.1
    if finetune ≠ 0 then none
    else if volume > 64 then none
    else if length > 32768 then none
    else
      st_sample_check k (i + 1) r4.2
        ((all_volumes ||| (volume % 256).toNat) % 256)
        ((all_lengths ||| ((length_high % 256).toNat ||| (length_low % 256).toNat)) % 256)

/-- The function `fmt_mod_read_info` of `mod.c`. The result `none` is the return value 0
(the file record is untouched); `some f` is the return value 1, `f` holding the three fields
the function assigns. -/
def fmt_mod_read_info (fp : slurp_t) : Option dmoz_file_t :=
  if slurp_length fp < 1085 then none
  else
    let rt := slurp_read fp 20
    let title := rt.1
    if rt.2.1 ≠ 20 then none
    else
      let fp := slurp_seek_set rt.2.2 1080
      let rg := slurp_read fp 4
      let tag := rg.1
      if rg.2.1 ≠ 4 then none
      else
        match valid_tags.find? (fun e => memeq tag (cstr e.1) 4) with
        | some e =>
          some { description := e.2, title := strn_dup title 20, type := TYPE_MODULE_MOD }
        | none =>
          /- check if it could be a SoundTracker MOD -/
          let fp := slurp_rewind rg.2.2
          match st_title_check 20 fp 0 with
          | none => none
          | some fp =>
            match st_sample_check 15 0 fp 0 0 with
            | none => none
            | some (all_volumes, all_lengths) =>
              if all_lengths = 0 ∨ all_volumes = 0 then none
              else
                some { description := "SoundTracker", title := strn_dup title 20,
                       type := TYPE_MODULE_MOD }


/-! ## The song container -/

/-- Modelled from the spec: `MAX_CHANNELS` of `sndfile.h`, the width of a pattern row. -/
def MAX_CHANNELS : Nat := 64

/-- Modelled from the spec: `MAX_PATTERNS` of `sndfile.h`. -/
def MAX_PATTERNS : Nat := 240

/-- Modelled from the spec: `MAX_ORDERS` of `sndfile.h`. -/
def MAX_ORDERS : Nat := 256

/-- Modelled from the spec: the order-list marker "skip this slot". -/
def ORDER_SKIP : Nat := 254

/-- Modelled from the spec: the order-list marker "end of song". -/
def ORDER_LAST : Nat := 255

/-- Modelled from the spec: `NOTE_NONE` of `sndfile.h`. -/
def NOTE_NONE : Nat := 0

/-- Modelled from the spec: `NOTE_LAST` of `sndfile.h`. -/
def NOTE_LAST : Nat := 120

/-- Modelled from the spec: `VOLFX_NONE` of `sndfile.h`. -/
def VOLFX_NONE : Nat := 0

/-- Modelled from the spec: `VOLFX_VOLUME` of `sndfile.h`. -/
def VOLFX_VOLUME : Nat := 1

/-- Modelled from the spec: the sample flag "loop enabled". -/
def CHN_LOOP : Nat := 0x02

/-- Modelled from the spec: the sample flag "ping-pong loop". -/
def CHN_PINGPONGLOOP : Nat := 0x04

/-- Modelled from the spec: the sample flag "sustain loop". -/
def CHN_SUSTAINLOOP : Nat := 0x08

/-- Modelled from the spec: the channel flag "muted". -/
def CHN_MUTE : Nat := 0x100

/-- Modelled from the spec: the song flag "old effects". -/
def SONG_ITOLDEFFECTS : Nat := 0x10

/-- Modelled from the spec: the song flag "compatible Gxx". -/
def SONG_COMPATGXX : Nat := 0x20

/-- Modelled from the spec: the song flag "instrument mode". -/
def SONG_INSTRUMENTMODE : Nat := 0x04

/-- Modelled from the spec: the song flag "linear slides". -/
def SONG_LINEARSLIDES : Nat := 0x08

/-- Modelled from the spec: the load flag "metadata only, skip sample data". -/
def LOAD_NOSAMPLES : Nat := 1

/-- A note event (`song_note_t`); every field is a `uint8_t`. -/
structure song_note_t where
  note : Nat
  instrument : Nat
  voleffect : Nat
  volparam : Nat
  effect : Nat
  param : Nat
deriving DecidableEq, Repr

/-- Modelled from the spec: a cell "left at default", as `csf_allocate_pattern` makes it. -/
def blank_note : song_note_t := ⟨0, 0, 0, 0, 0, 0⟩

/-- The fields of a sample entry (`song_sample_t`) the MOD codec touches; `data` is the
owned PCM buffer (`none` for a null pointer). -/
structure song_sample_t where
  name : List Byte
  length : Nat
  loop_start : Nat
  loop_end : Nat
  c5speed : Nat
  volume : Nat
  global_volume : Nat
  flags : Nat
  vib_type : Nat
  vib_rate : Nat
  vib_depth : Nat
  vib_speed : Nat
  data : Option (List Byte)
deriving DecidableEq, Repr

/-- The fields of a channel descriptor the decoder assigns. -/
structure song_channel_t where
  panning : Nat
  flags : Nat
deriving DecidableEq, Repr

/-- The fields of the song container (`song_t`) the MOD codec touches. A pattern is a flat,
row-major sequence of `rows * MAX_CHANNELS` cells (`none` for a null pointer). -/
structure song_t where
  title : List Byte
  samples : Nat → song_sample_t
  orderlist : Nat → Nat
  patterns : Nat → Option (List song_note_t)
  pattern_size : Nat → Nat
  pattern_alloc_size : Nat → Nat
  channels : Nat → song_channel_t
  flags : Nat
  pan_separation : Nat
  tracker_id : String

/-- Modelled from the spec: `csf_allocate_pattern(rows)`, `rows * MAX_CHANNELS` default cells. -/
def csf_allocate_pattern (rows : Nat) : List song_note_t :=
  List.replicate (rows * MAX_CHANNELS) blank_note

/-- The collaborators of the codec that are defined outside the sources at hand: tables of
the player, and the functions of the song container the decoder and the encoder call. -/
structure externals where
  /-- The table `period_table` (12 entries). -/
  period_table : Nat → Nat
  /-- The table `finetune_table` (16 entries). -/
  finetune_table : Nat → Nat
  /-- The function `transpose_to_frequency(transp, ftune)`. -/
  transpose_to_frequency : Int → Int → Nat
  /-- The function `csf_import_mod_effect(note, from_xm)` with `from_xm = 0`. -/
  csf_import_mod_effect : song_note_t → song_note_t
  /-- The function `csf_insert_restart_pos(song, restart_order)`. -/
  csf_insert_restart_pos : song_t → Nat → song_t
  /-- The function `csf_read_sample(sample, flags, fp)`; the flags are
  `SF_8 | SF_M | SF_LE` with `SF_PCMD16` when the Boolean is true and `SF_PCMS` otherwise. -/
  csf_read_sample : song_sample_t → Bool → slurp_t → song_sample_t × slurp_t
  /-- The function `csf_get_num_samples(song)`. -/
  csf_get_num_samples : song_t → Nat
  /-- The function `csf_get_highest_used_channel(song)`. -/
  csf_get_highest_used_channel : song_t → Nat
  /-- The function `csf_get_num_orders(song)`. -/
  csf_get_num_orders : song_t → Nat
  /-- The function `csf_get_num_patterns(song)`. -/
  csf_get_num_patterns : song_t → Nat
  /-- The function `csf_write_sample(fp, sample, flags, maxlengthmask)` with the flags
  `SF(PCMS,8,M,LE)`; the last argument is the length limit. -/
  csf_write_sample : disko_t → song_sample_t → Nat → disko_t

/-- Modelled from the spec: the macro `MOD_FINETUNE(b)`, the finetune table looked up at the
low nibble of `b` with its sign bit flipped. -/
def MOD_FINETUNE (X : externals) (b : Int) : Nat :=
  X.finetune_table ((b % 16).toNat ^^^ 8)

/-- Modelled from the spec: the macro `PROTRACKER_PANNING(n)`, hard left for channels
0 and 3 of each group of four, hard right for channels 1 and 2. -/
def PROTRACKER_PANNING (n : Nat) : Nat :=
  if n % 4 = 1 ∨ n % 4 = 2 then 256 else 0

/-! ## The legacy note import (`generic.c`) -/

/-- The loop of `_mod_period_to_note`, from `n` for `k` more candidates. -/
def mod_period_to_note_from (X : externals) (period : Nat) : Nat → Nat → Nat
  | 0, _ => NOTE_NONE
  | k + 1, n =>
    if period ≥ (32 * X.period_table (n % 12)) >>> (n / 12 + 2) then n + 1
    else mod_period_to_note_from X period k (n + 1)

/-- The function `_mod_period_to_note` of `generic.c`. -/
def _mod_period_to_note (X : externals) (period : Nat) : Nat :=
  if period ≠ 0 then mod_period_to_note_from X period (NOTE_LAST + 1) 0 else NOTE_NONE

/-- The function `mod_import_note` of `generic.c`: the cell made from the 4 bytes `p`. -/
def mod_import_note (X : externals) (p : List Byte) : song_note_t :=
  let p0 := (p.getD 0 0).val
  let p1 := (p.getD 1 0).val
  let p2 := (p.getD 2 0).val
  let p3 := (p.getD 3 0).val
  { note := _mod_period_to_note X (((p0 &&& 0xf) <<< 8) + p1),
    instrument := (p0 &&& 0xf0) + (p2 >>> 4),
    voleffect := VOLFX_NONE,
    volparam := 0,
    effect := p2 &&& 0xf,
    param := p3 }

/-! ## The decoder (`fmt_mod_load_song`) -/

/-- The failure codes of a loader (`LOAD_SUCCESS` is the `Except.ok` case). -/
inductive load_error where
  | LOAD_UNSUPPORTED
  | LOAD_FORMAT_ERROR
deriving DecidableEq, Repr

/-- The local variables of `fmt_mod_load_song`, with the song and the stream. -/
structure mod_load_t where
  song : song_t
  fp : slurp_t
  nchan : Nat
  nsamples : Nat
  startrekker : Bool
  test_wow : Bool
  is_mk : Bool
  maybe_st3 : Bool
  maybe_ft2 : Bool
  his_masters_noise : Bool
  tid : String
  samplesize : Nat
  nord : Int
  restart : Nat
  npat : Nat

/-- The values of the locals that the tag fixes (`mod.c` lines 244-312). -/
structure mod_tag_t where
  nchan : Nat
  nsamples : Nat := 31
  startrekker : Bool := false
  test_wow : Bool := false
  is_mk : Bool := false
  maybe_st3 : Bool := false
  maybe_ft2 : Bool := false
  his_masters_noise : Bool := false
  tid : String
deriving DecidableEq, Repr

/-- The tag check of `fmt_mod_load_song` (`mod.c` lines 244-312): the chain of comparisons
on the 4 tag bytes; `none` is the final `return LOAD_UNSUPPORTED`. -/
def mod_check_tag (tag : List Byte) (force : Bool) : Option mod_tag_t :=
  let t0 := (tag.getD 0 0).val
  let t1 := (tag.getD 1 0).val
  let t2 := (tag.getD 2 0).val
  let t3 := (tag.getD 3 0).val
  if memeq tag (cstr "M.K.") 4 then
    some { nchan := 4, test_wow := true, is_mk := true, maybe_ft2 := true,
           tid := "Amiga-NewTracker" }
  else if memeq tag (cstr "M!K!") 4 then
    some { nchan := 4, tid := "Amiga-ProTracker" }
  else if memeq tag (cstr "M&K!") 4 ∨ memeq tag (cstr "N.T.") 4 ∨ memeq tag (cstr "FEST") 4 then
    some { nchan := 4, tid := "Amiga-NoiseTracker",
           his_masters_noise := memeq tag (cstr "M&K!") 4 || memeq tag (cstr "FEST") 4 }
  else if (memeq tag (cstr "FLT") 3 ∨ memeq tag (cstr "EXO") 3) ∧ (t3 = 52 ∨ t3 = 56) then
    some { nchan := t3 - 48, startrekker := decide (t3 - 48 = 8),
           tid := "%d Channel Startrekker" }
  else if memeq tag (cstr "OCTA") 4 ∨ memeq tag (cstr "OKTA") 4 then
    some { nchan := 8, tid := "Amiga Oktalyzer" }
  else if memeq tag (cstr "CD61") 4 ∨ memeq tag (cstr "CD81") 4 then
    some { nchan := 8, tid := "8 Channel Falcon" }
  else if t0 > 48 ∧ t0 ≤ 57 ∧ memeq (tag.drop 1) (cstr "CHN") 3 then
    let nchan := t0 - 48
    if nchan = 5 ∨ nchan = 7 ∨ nchan = 9 then
      some { nchan := nchan, tid := "%d Channel TakeTracker", maybe_st3 := true }
    else
      some { nchan := nchan, maybe_ft2 := decide (nchan &&& 1 = 0), tid := "%d Channel MOD",
             maybe_st3 := true }
  else if t0 > 48 ∧ t0 ≤ 57 ∧ t1 ≥ 48 ∧ t1 ≤ 57 ∧ t2 = 67 ∧ (t3 = 72 ∨ t3 = 78) then
    let nchan := 10 * (t0 - 48) + (t1 - 48)
    if nchan = 11 ∨ nchan = 13 ∨ nchan = 15 then
      some { nchan := nchan, tid := "%d Channel TakeTracker", maybe_st3 := decide (t3 = 72) }
    else
      some { nchan := nchan,
             maybe_ft2 := decide (nchan &&& 1 = 0 ∧ nchan ≤ 32 ∧ t3 = 72),
             tid := "%d Channel MOD", maybe_st3 := decide (t3 = 72) }
  else if memeq tag (cstr "TDZ") 3 ∧ t3 > 48 ∧ t3 ≤ 57 then
    let nchan := t3 - 48
    some { nchan := nchan,
           tid := if nchan < 4 then "%d Channel TakeTracker" else "%d Channel MOD" }
  else if force then
    some { nchan := 4, nsamples := 15, tid := "%d Channel MOD" }
  else none

/-- The value of a 2-byte buffer read as a big-endian word (`bswapBE16` of the raw word). -/
def be16 (b : List Byte) : Nat := (b.getD 0 0).val * 256 + (b.getD 1 0).val

/-- The cast `(signed char)` of an `int`. -/
def to_schar (x : Int) : Int := (x + 128) % 256 - 128

/-- One round of the sample-header loop (`mod.c` lines 327-372) for slot `n`. -/
def mod_load_sample_header (X : externals) (st : mod_load_t) (n : Nat) :
    Except load_error mod_load_t :=
  let smp := st.song.samples n
  let rn := slurp_read st.fp 22
  if rn.2.1 ≠ 22 then .error .LOAD_UNSUPPORTED
  else
    let name := buf_write smp.name 0 (rn.1 ++ [0])
    let rl := slurp_read rn.2.2 2
    if rl.2.1 ≠ 2 then .error .LOAD_UNSUPPORTED
    else
      let length := be16 rl.1 * 2
      let samplesize := st.samplesize + length
      let rf := slurp_getc rl.2.2
      let c5speed :=
        if st.his_masters_noise then X.transpose_to_frequency 0 (-(to_schar (rf.1 * 8)))
        else MOD_FINETUNE X rf.1
      let rv := slurp_getc rf.2
      let v := (rv.1 % 4294967296).toNat
      let volume := if v > 64 then 64 else v
      let maybe_ft2 := if length = 0 ∧ volume ≠ 0 then false else st.maybe_ft2
      let volume := volume * 4
      let rs := slurp_read rv.2 2
      if rs.2.1 ≠ 2 then .error .LOAD_UNSUPPORTED
      else
        let loop_start := be16 rs.1 * 2
        let re := slurp_read rs.2.2 2
        if re.2.1 ≠ 2 then .error .LOAD_UNSUPPORTED
        else
          let tmp := (be16 re.1 * 2) % 65536
          let flags := if tmp > 2 then smp.flags ||| CHN_LOOP else smp.flags
          let maybe_st3 := if tmp > 2 then st.maybe_st3 else if tmp = 0 then false
            else st.maybe_st3
          let maybe_ft2 := if tmp > 2 then maybe_ft2 else if tmp = 0 then maybe_ft2
            else if length = 0 then false else maybe_ft2
          let smp : song_sample_t :=
            { smp with name := name, length := length, c5speed := c5speed, volume := volume,
                       global_volume := 64, loop_start := loop_start, flags := flags,
                       loop_end := loop_start + tmp,
                       vib_type := 0, vib_rate := 0, vib_depth := 0, vib_speed := 0 }
          .ok { st with song := { st.song with samples := Function.update st.song.samples n smp },
                        fp := re.2.2, samplesize := samplesize,
                        maybe_st3 := maybe_st3, maybe_ft2 := maybe_ft2 }

/-- The sample-header loop `for (n = 1; n < nsamples + 1; n++)`, from slot `n` for `k`
more slots. -/
def mod_load_sample_headers (X : externals) : Nat → Nat → mod_load_t →
    Except load_error mod_load_t
  | 0, _, st => .ok st
  | k + 1, n, st =>
    match mod_load_sample_header X st n with
    | .error e => .error e
    | .ok st => mod_load_sample_headers X k (n + 1) st

/-- The scan `for (n = 0; n < 128; n++) if (orderlist[n] & 1)`: some of the first `k`
order slots is odd. -/
def orderlist_has_odd (orderlist : Nat → Nat) (k : Nat) : Bool :=
  (List.range k).any (fun n => orderlist n &&& 1 ≠ 0)

/-- The loop of `mod.c` lines 400-405 over the order slots `n ..< n + k`: slots at or above
`MAX_PATTERNS` become `ORDER_SKIP`, the others raise `npat`. -/
def mod_scan_orders : Nat → Nat → (Nat → Nat) → Nat → (Nat → Nat) × Nat
  | 0, _, orderlist, npat => (orderlist, npat)
  | k + 1, n, orderlist, npat =>
    if orderlist n ≥ MAX_PATTERNS then
      mod_scan_orders k (n + 1) (Function.update orderlist n ORDER_SKIP) npat
    else if orderlist n > npat then
      mod_scan_orders k (n + 1) orderlist (orderlist n)
    else
      mod_scan_orders k (n + 1) orderlist npat

/-- The pattern/order part of the header (`mod.c` lines 376-408). -/
def mod_load_orders (st : mod_load_t) : Except load_error mod_load_t :=
  let r1 := slurp_getc st.fp
  let nord := r1.1
  let r2 := slurp_getc r1.2
  let restart := (r2.1 % 256).toNat
  let ro := slurp_read r2.2 128
  if ro.2.1 ≠ 128 then .error .LOAD_UNSUPPORTED
  else
    let orderlist : Nat → Nat := fun i => if i < 128 then (ro.1.getD i 0).val
      else st.song.orderlist i
    let odd := st.startrekker && orderlist_has_odd orderlist 128
    let startrekker := st.startrekker && !odd
    let nchan := if odd then 4 else st.nchan
    let orderlist : Nat → Nat :=
      if startrekker then (fun i => if i < 128 then orderlist i >>> 1 else orderlist i)
      else orderlist
    let sc := mod_scan_orders 128 0 orderlist 0
    /- set all the extra orders to the end-of-song marker -/
    let orderlist : Nat → Nat := fun i =>
      if nord ≤ (i : Int) ∧ i < MAX_ORDERS then ORDER_LAST else sc.1 i
    .ok { st with song := { st.song with orderlist := orderlist }, fp := ro.2.2,
                  nord := nord, restart := restart, npat := sc.2,
                  startrekker := startrekker, nchan := nchan }

/-- The tracker-identity refinement (`mod.c` lines 410-417). -/
def mod_refine_tid (st : mod_load_t) : String :=
  if st.restart = 0x7f ∧ st.maybe_st3 then "Scream Tracker 3?"
  else if st.restart = 0x7f ∧ st.is_mk then "%d Channel ProTracker"
  else if st.restart ≤ st.npat ∧ st.maybe_ft2 then "%d Channel FastTracker"
  else if st.restart = st.npat ∧ st.is_mk then "%d Channel Soundtracker"
  else st.tid

/-- The WOW test (`mod.c` lines 420-426). -/
def mod_test_wow (st : mod_load_t) : mod_load_t :=
  if st.test_wow then
    let fp := slurp_seek_end st.fp
    if slurp_tell fp = 2048 * st.npat + st.samplesize + 3132 then
      { st with fp := fp, nchan := 8, tid := "Mod's Grave WOW" }
    else { st with fp := fp }
  else st

/-- The inner loop `for (chan = 0; chan < k; chan++, note++)` of the pattern decoders: `k`
cells are read from the stream into the pattern from index `idx`; `none` is the
`return LOAD_UNSUPPORTED` of a short read. -/
def mod_load_cells (X : externals) : Nat → slurp_t → List song_note_t → Nat →
    Option (slurp_t × List song_note_t × Nat)
  | 0, fp, pat, idx => some (fp, pat, idx)
  | k + 1, fp, pat, idx =>
    let r := slurp_read fp 4
    if r.2.1 ≠ 4 then none
    else
      mod_load_cells X k r.2.2
        (pat.set idx (X.csf_import_mod_effect (mod_import_note X r.1))) (idx + 1)

/-- The row loop `for (n = 0; n < 64; n++, note += skip)` around `mod_load_cells` with
`width` cells a row, for `k` more rows. -/
def mod_load_rows (X : externals) (width skip : Nat) : Nat → slurp_t → List song_note_t →
    Nat → Option (slurp_t × List song_note_t)
  | 0, fp, pat, _ => some (fp, pat)
  | k + 1, fp, pat, idx =>
    match mod_load_cells X width fp pat idx with
    | none => none
    | some (fp, pat, idx) => mod_load_rows X width skip k fp pat (idx + skip)

/-- The body of the pattern loops (`mod.c` lines 434-454 and 458-468) for one pattern. -/
def mod_load_pattern (X : externals) (startrekker : Bool) (nchan : Nat) (fp : slurp_t) :
    Option (slurp_t × List song_note_t) :=
  let note := csf_allocate_pattern 64
  if startrekker then
    match mod_load_rows X 4 60 64 fp note 0 with
    | none => none
    | some (fp, note) => mod_load_rows X 4 60 64 fp note 4
  else
    mod_load_rows X nchan (64 - nchan) 64 fp note 0

/-- The pattern loop `for (pat = 0; pat <= npat; pat++)`, from `pat` for `k` more patterns. -/
def mod_load_patterns (X : externals) (startrekker : Bool) (nchan : Nat) :
    Nat → Nat → song_t → slurp_t → Except load_error (song_t × slurp_t)
  | 0, _, song, fp => .ok (song, fp)
  | k + 1, pat, song, fp =>
    match mod_load_pattern X startrekker nchan fp with
    | none =>
      .error .LOAD_UNSUPPORTED
    | some (fp, note) =>
      mod_load_patterns X startrekker nchan k (pat + 1)
        { song with patterns := Function.update song.patterns pat (some note),
                    pattern_size := Function.update song.pattern_size pat 64,
                    pattern_alloc_size := Function.update song.pattern_alloc_size pat 64 }
        fp

/-- The sample-data loop (`mod.c` lines 493-514), from slot `n` for `k` more slots. -/
def mod_load_sample_data (X : externals) (lflags : Nat) : Nat → Nat → song_t → slurp_t →
    song_t × slurp_t
  | 0, _, song, fp => (song, fp)
  | k + 1, n, song, fp =>
    if (song.samples n).length = 0 then mod_load_sample_data X lflags k (n + 1) song fp
    else
      /- check for ADPCM compression -/
      let sstart := slurp_peek fp 5
      let adpcm := memeq sstart.1 (cstr "ADPCM") 5
      let fp := if adpcm then slurp_seek_cur fp 5 else fp
      if lflags &&& LOAD_NOSAMPLES ≠ 0 then
        mod_load_sample_data X lflags k (n + 1) song (slurp_seek_cur fp (song.samples n).length)
      else
        let r := X.csf_read_sample (song.samples n) adpcm fp
        mod_load_sample_data X lflags k (n + 1)
          { song with samples := Function.update song.samples n r.1 } r.2

/-- The footer `"TakeTrackered with version 0.9E!!!!!"` XOR `0xDF`. -/
def taketracker : List Byte :=
  [0x8B, 0xBE, 0xB4, 0xBA, 0x8B, 0xAD, 0xBE, 0xBC,
   0xB4, 0xBA, 0xAD, 0xBA, 0xBB, 0xFF, 0xA8, 0xB6,
   0xAB, 0xB7, 0xFF, 0xA9, 0xBA, 0xAD, 0xAC, 0xB6,
   0xB0, 0xB1, 0xFF, 0xEF, 0xF1, 0xE6, 0xBA, 0xFE,
   0xFE, 0xFE, 0xFE, 0xFE]

/-- The Tetramed footer (its first six bytes). -/
def tetramed : List Byte := [0x00, 0x11, 0x55, 0x33, 0x22, 0x11]

/-- The footer sniff (`mod.c` lines 516-523): the label after it. -/
def mod_sniff_footer (st : mod_load_t) : String × slurp_t :=
  let r := slurp_read st.fp (max taketracker.length (tetramed.length + 3))
  let magicEOF := r.1
  let len := r.2.1
  if st.nchan ≤ 16 ∧ len ≥ taketracker.length ∧ memeq taketracker magicEOF taketracker.length
  then ("%d Channel TakeTracker", r.2.2)
  else if st.is_mk ∧ len ≥ tetramed.length + 3 ∧ memeq tetramed magicEOF tetramed.length
  then ("%d Channel Tetramed", r.2.2)
  else (st.tid, r.2.2)

/-- Modelled from the spec: `snprintf(buf, size, tid, nchan)` for a template with at most one
`%d`: the template with the channel count in decimal in its place. -/
def format_tid (tid : String) (nchan : Nat) : String :=
  tid.replace "%d" (toString nchan)

/-- The header info "that's always the same for .mod files" (`mod.c` lines 534-542). -/
def mod_finish (st : mod_load_t) : song_t :=
  { st.song with
    flags := SONG_ITOLDEFFECTS ||| SONG_COMPATGXX,
    channels := fun n =>
      if n < st.nchan then { st.song.channels n with panning := PROTRACKER_PANNING n }
      else if n < MAX_CHANNELS then { st.song.channels n with flags := CHN_MUTE }
      else st.song.channels n,
    pan_separation := 64,
    tracker_id := format_tid st.tid st.nchan }

/-- The header part of `fmt_mod_load_song` (`mod.c` lines 320-426), entered with the locals
the tag has fixed: the title, the sample headers, the order list, the label and the WOW test.
The result is the state just before the seek to the pattern data. -/
def mod_load_head (X : externals) (song : song_t) (fp : slurp_t) (t : mod_tag_t) :
    Except load_error mod_load_t :=
  /- read the title -/
  let fp := slurp_rewind fp
  let rr := slurp_read fp 20
  let song := { song with title := buf_write song.title 0 (rr.1 ++ [0]) }
  let st : mod_load_t :=
    { song := song, fp := rr.2.2, nchan := t.nchan, nsamples := t.nsamples,
      startrekker := t.startrekker, test_wow := t.test_wow, is_mk := t.is_mk,
      maybe_st3 := t.maybe_st3, maybe_ft2 := t.maybe_ft2,
      his_masters_noise := t.his_masters_noise, tid := t.tid,
      samplesize := 0, nord := 0, restart := 0, npat := 0 }
  /- sample headers -/
  match mod_load_sample_headers X st.nsamples 1 st with
  | .error e => .error e
  | .ok st =>
    /- pattern/order stuff -/
    match mod_load_orders st with
    | .error e => .error e
    | .ok st =>
      let st := { st with tid := mod_refine_tid st }
      .ok (mod_test_wow st)

/-- The offset of the pattern data (`mod.c` line 429): 15-sample mods have no 4-byte tag, nor
the other 16 samples. -/
def mod_pattern_start (nsamples : Nat) : Nat := if nsamples = 15 then 600 else 1084

/-- The data part of `fmt_mod_load_song` (`mod.c` lines 429-545), from the state the header
part leaves: the patterns, the restart position, the sample data, the footer and the fixed
header info. -/
def mod_load_tail (X : externals) (lflags : Nat) (st : mod_load_t) :
    Except load_error mod_load_t :=
  let fp := slurp_seek_set st.fp (mod_pattern_start st.nsamples)
  match mod_load_patterns X st.startrekker st.nchan (st.npat + 1) 0 st.song fp with
  | .error e => .error e
  | .ok (song, fp) =>
    let song := if st.restart < st.npat then X.csf_insert_restart_pos song st.restart
      else song
    let r := mod_load_sample_data X lflags st.nsamples 1 song fp
    let st := { st with song := r.1, fp := r.2 }
    let rf := mod_sniff_footer st
    let st := { st with tid := rf.1, fp := rf.2 }
    .ok { st with song := mod_finish st }

/-- The function `fmt_mod_load_song` of `mod.c`, with its locals at the final `return`:
`Except.ok` is `LOAD_SUCCESS`, and the song of the result is the populated container. -/
def fmt_mod_load_song_run (X : externals) (song : song_t) (fp : slurp_t) (lflags : Nat)
    (force : Bool) : Except load_error mod_load_t :=
  /- check the tag (and set the number of channels) -/
  let fp := slurp_seek_set fp 1080
  let rt := slurp_read fp 4
  match mod_check_tag rt.1 force with
  | none => .error .LOAD_UNSUPPORTED
  | some t =>
    /- suppose the tag is 90CH :) -/
    if t.nchan > MAX_CHANNELS then .error .LOAD_FORMAT_ERROR
    else
      match mod_load_head X song rt.2.2 t with
      | .error e => .error e
      | .ok st => mod_load_tail X lflags st

/-- The function `fmt_mod_load_song` of `mod.c`: the populated song on `LOAD_SUCCESS`, the
failure code otherwise (the container is then not to be looked at). -/
def fmt_mod_load_song (X : externals) (song : song_t) (fp : slurp_t) (lflags : Nat)
    (force : Bool) : Except load_error song_t :=
  match fmt_mod_load_song_run X song fp lflags force with
  | .error e => .error e
  | .ok st => .ok st.song

/-- The function `fmt_mod31_load_song`: everything but old 15-instrument mods. -/
def fmt_mod31_load_song (X : externals) (song : song_t) (fp : slurp_t) (lflags : Nat) :
    Except load_error song_t :=
  fmt_mod_load_song X song fp lflags false

/-- The function `fmt_mod15_load_song`: everything including old 15-instrument mods. -/
def fmt_mod15_load_song (X : externals) (song : song_t) (fp : slurp_t) (lflags : Nat) :
    Except load_error song_t :=
  fmt_mod_load_song X song fp lflags true

/-! ## The encoder (`fmt_mod_save_song`) -/

/-- The warning `WARN_LINEARSLIDES` of the enumeration in `mod.c`. -/
def WARN_LINEARSLIDES : Nat := 0

/-- The warning `WARN_SAMPLEVOL`. -/
def WARN_SAMPLEVOL : Nat := 1

/-- The warning `WARN_LOOPS`. -/
def WARN_LOOPS : Nat := 2

/-- The warning `WARN_SAMPLEVIB`. -/
def WARN_SAMPLEVIB : Nat := 3

/-- The warning `WARN_INSTRUMENTS`. -/
def WARN_INSTRUMENTS : Nat := 4

/-- The warning `WARN_PATTERNLEN`. -/
def WARN_PATTERNLEN : Nat := 5

/-- The warning `WARN_NOTERANGE`. -/
def WARN_NOTERANGE : Nat := 6

/-- The warning `WARN_VOLEFFECTS`. -/
def WARN_VOLEFFECTS : Nat := 7

/-- The warning `WARN_MAXSAMPLES`. -/
def WARN_MAXSAMPLES : Nat := 8

/-- The warning `WARN_LONGSAMPLES`. -/
def WARN_LONGSAMPLES : Nat := 9

/-- The warning `WARN_UNUSEDPATS`. -/
def WARN_UNUSEDPATS : Nat := 10

/-- The statement `warn |= 1 << w`. -/
def warn_set (warn w : Nat) : Nat := warn ||| (1 <<< w)

/-- Modelled from the spec: the effect code `FX_NONE` of `sndfile.h`; of the effect codes
only their being different from one another matters. -/
def FX_NONE : Nat := 0

/-- Modelled from the spec: the effect code `FX_ARPEGGIO`. -/
def FX_ARPEGGIO : Nat := 1

/-- Modelled from the spec: the effect code `FX_OFFSET`. -/
def FX_OFFSET : Nat := 11

/-- Modelled from the spec: the effect code `FX_PANNING`. -/
def FX_PANNING : Nat := 13

/-- Modelled from the spec: the effect code `FX_PATTERNBREAK`. -/
def FX_PATTERNBREAK : Nat := 15

/-- Modelled from the spec: the effect code `FX_PORTAMENTODOWN`. -/
def FX_PORTAMENTODOWN : Nat := 16

/-- Modelled from the spec: the effect code `FX_PORTAMENTOUP`. -/
def FX_PORTAMENTOUP : Nat := 17

/-- Modelled from the spec: the effect code `FX_POSITIONJUMP`. -/
def FX_POSITIONJUMP : Nat := 18

/-- Modelled from the spec: the effect code `FX_RETRIG`. -/
def FX_RETRIG : Nat := 19

/-- Modelled from the spec: the effect code `FX_SPECIAL`. -/
def FX_SPECIAL : Nat := 21

/-- Modelled from the spec: the effect code `FX_SPEED`. -/
def FX_SPEED : Nat := 22

/-- Modelled from the spec: the effect code `FX_TEMPO`. -/
def FX_TEMPO : Nat := 23

/-- Modelled from the spec: the effect code `FX_TONEPORTAMENTO`. -/
def FX_TONEPORTAMENTO : Nat := 24

/-- Modelled from the spec: the effect code `FX_TONEPORTAVOL`. -/
def FX_TONEPORTAVOL : Nat := 25

/-- Modelled from the spec: the effect code `FX_TREMOLO`. -/
def FX_TREMOLO : Nat := 26

/-- Modelled from the spec: the effect code `FX_VIBRATO`. -/
def FX_VIBRATO : Nat := 29

/-- Modelled from the spec: the effect code `FX_VIBRATOVOL`. -/
def FX_VIBRATOVOL : Nat := 30

/-- Modelled from the spec: the effect code `FX_VOLUME`. -/
def FX_VOLUME : Nat := 31

/-- Modelled from the spec: the effect code `FX_VOLUMESLIDE`. -/
def FX_VOLUMESLIDE : Nat := 32

/-- The table `amigaperiod_table` of `mod.c` (256 entries): 37 zeros, the periods of the
notes 37..96, and zeros. -/
def amigaperiod_table : List Nat :=
  List.replicate 37 0 ++
  [1712, 1616, 1524, 1440, 1356, 1280, 1208, 1140, 1076, 1016, 960, 906,
   856,  808,  762,  720,  678,  640,  604,  570,  538,  508,  480, 453,
   428,  404,  381,  360,  339,  320,  302,  285,  269,  254,  240, 226,
   214,  202,  190,  180,  170,  160,  151,  143,  135,  127,  120, 113,
   107,  101,  95,   90,   85,   80,   75,   71,   67,   63,   60,  56] ++
  List.replicate 159 0

/-- The two bytes of a 16-bit word in big-endian order (`bswapBE16` and a 2-byte write). -/
def be16_bytes (w : Nat) : List Byte := [Fin.ofNat (w / 256), Fin.ofNat w]

/-- The first `n` bytes of a fixed-size field of the song, which holds at least `n` bytes
(the static assertions of `fmt_mod_save_song`). -/
def field_bytes (buf : List Byte) (n : Nat) : List Byte :=
  (buf ++ List.replicate n 0).take n

/-- The finetune loop of the encoder (`mod.c` line 619), from index `j` downwards:
`for (; j && finetune_table[j] > c5speed; --j) if (c5speed > 10000 && j == 8) break;`. -/
def mod_save_finetune (X : externals) (c5speed : Nat) : Nat → Nat
  | 0 => 0
  | j + 1 =>
    if X.finetune_table (j + 1) > c5speed then
      if c5speed > 10000 ∧ j + 1 = 8 then j + 1 else mod_save_finetune X c5speed j
    else j + 1

/-- One round of the sample-header loop of the encoder (`mod.c` lines 591-637) for slot `n`:
the stream and the warnings after it. -/
def mod_save_sample_header (X : externals) (song : song_t) (nsmp : Nat) (fp : disko_t)
    (warn : Nat) (n : Nat) : disko_t × Nat :=
  if n > nsmp then (disko_seek_cur fp 30, warn)
  else
    let smp := song.samples n
    let warn := if smp.global_volume ≠ 64 then warn_set warn WARN_SAMPLEVOL else warn
    let warn :=
      if smp.flags &&& (CHN_LOOP ||| CHN_PINGPONGLOOP) = (CHN_LOOP ||| CHN_PINGPONGLOOP)
        ∨ smp.flags &&& CHN_SUSTAINLOOP ≠ 0
      then warn_set warn WARN_LOOPS else warn
    let warn := if smp.vib_depth ≠ 0 then warn_set warn WARN_SAMPLEVIB else warn
    /- these should be separate warnings. -/
    let warn := if 1 &&& smp.length ≠ 0 ∨ smp.length > 0x1FFFE
      then warn_set warn WARN_LONGSAMPLES else warn
    let fp := disko_write fp (field_bytes smp.name 22)
    /- sample length. -/
    let fp := disko_write fp (be16_bytes (min (smp.length >>> 1) 0xFFFF))
    let j := mod_save_finetune X smp.c5speed 15
    let fp := disko_putc fp ((j ^^^ 8) &&& 0x0f)
    let fp := disko_putc fp ((smp.volume + 1) / 4)
    if smp.flags &&& CHN_LOOP ≠ 0 then
      let fp := disko_write fp (be16_bytes (min (smp.loop_start >>> 1) 0xFFFF))
      let fp := disko_write fp (be16_bytes
        (min (((smp.loop_end + 4294967296 - smp.loop_start) % 4294967296) >>> 1) 0xFFFF))
      (fp, warn)
    else
      (disko_write fp [0, 0, 0, 1], warn)

/-- The sample-header loop `for (n = 1; n <= 31; ++n)` of the encoder, from slot `n` for `k`
more slots. -/
def mod_save_sample_headers (X : externals) (song : song_t) (nsmp : Nat) :
    Nat → Nat → disko_t → Nat → disko_t × Nat
  | 0, _, fp, warn => (fp, warn)
  | k + 1, n, fp, warn =>
    let r := mod_save_sample_header X song nsmp fp warn n
    mod_save_sample_headers X song nsmp k (n + 1) r.1 r.2

/-- The array `mod_orders` after the loop of `mod.c` lines 643-646: the first
`min(nord, 128)` order slots of the song as bytes, zero elsewhere. -/
def mod_save_orders (song : song_t) (nord : Nat) (i : Nat) : Nat :=
  if i < nord ∧ i < 128 then song.orderlist i % 256 else 0

/-- The value of `maxpat` after the loop of `mod.c` lines 643-646, from slot `i` for `k` more
slots, `maxpat` being `acc` so far. -/
def mod_save_maxpat (song : song_t) : Nat → Nat → Nat → Nat
  | 0, _, acc => acc
  | k + 1, i, acc => mod_save_maxpat song k (i + 1) (max acc (song.orderlist i % 256))

/-- The tag the encoder writes (`mod.c` lines 652-671). -/
def mod_save_tag (nchn maxpat : Nat) : List Byte :=
  if nchn = 4 then
    (if maxpat < 64 then cstr "M.K." else cstr "M!K!")
  else if nchn ≥ 10 then
    [Fin.ofNat (nchn / 10 + 48), Fin.ofNat (nchn % 10 + 48), 67, 78]
  else
    [Fin.ofNat (nchn + 48), 67, 72, 78]

/-- The effect part of a cell (`mod.c` lines 699-772): the MOD effect `mod_fx`, its parameter
`mod_fx_val` (both `uint8_t`), and whether the warning `WARN_VOLEFFECTS` is raised. -/
def mod_save_effect (m : song_note_t) : Nat × Nat × Bool :=
  let mod_fx_val := m.param % 256
  if m.voleffect = VOLFX_VOLUME then (0x0c, m.volparam % 256, false)
  else if m.voleffect = VOLFX_NONE then
    if m.effect = FX_NONE then (0, 0, false)
    else if m.effect = FX_ARPEGGIO then (0, mod_fx_val, false)
    else if m.effect = FX_PORTAMENTOUP then
      if mod_fx_val &&& 0xf0 = 0xe0 then (0x0e, 0x10 ||| ((mod_fx_val &&& 0xf) >>> 2), false)
      else if mod_fx_val &&& 0xf0 = 0xf0 then (0x0e, 0x10 ||| (mod_fx_val &&& 0xf), false)
      else (1, mod_fx_val, false)
    else if m.effect = FX_PORTAMENTODOWN then
      if mod_fx_val &&& 0xf0 = 0xe0 then (0x0e, 0x20 ||| ((mod_fx_val &&& 0xf) >>> 2), false)
      else if mod_fx_val &&& 0xf0 = 0xf0 then (0x0e, 0x20 ||| (mod_fx_val &&& 0xf), false)
      else (2, mod_fx_val, false)
    else if m.effect = FX_TONEPORTAMENTO then (3, mod_fx_val, false)
    else if m.effect = FX_VIBRATO then (4, mod_fx_val, false)
    else if m.effect = FX_TONEPORTAVOL then (5, mod_fx_val, false)
    else if m.effect = FX_VIBRATOVOL then (6, mod_fx_val, false)
    else if m.effect = FX_TREMOLO then (7, mod_fx_val, false)
    else if m.effect = FX_PANNING then (8, mod_fx_val, false)
    else if m.effect = FX_OFFSET then (9, mod_fx_val, false)
    else if m.effect = FX_VOLUMESLIDE then
      if mod_fx_val &&& 0xf0 ≠ 0 ∧ mod_fx_val &&& 0x0f ≠ 0 then
        if mod_fx_val &&& 0xf0 = 0xf0 then (0x0e, mod_fx_val &&& 0xbf, false)
        else if mod_fx_val &&& 0x0f = 0x0f then (0x0e, 0xa0 ||| (mod_fx_val >>> 4), false)
        else (0x0a, mod_fx_val, false)
      else (0x0a, mod_fx_val, false)
    else if m.effect = FX_POSITIONJUMP then (0x0b, mod_fx_val, false)
    else if m.effect = FX_VOLUME then (0x0c, mod_fx_val, false)
    else if m.effect = FX_PATTERNBREAK then
      (0x0d, (((mod_fx_val / 10) <<< 4) ||| (mod_fx_val % 10)) % 256, false)
    else if m.effect = FX_SPEED then (0x0f, mod_fx_val, false)
    else if m.effect = FX_TEMPO then (0x0f, mod_fx_val, false)
    else if m.effect = FX_SPECIAL then
      if mod_fx_val &&& 0xf0 = 0x10 then (0x0e, (mod_fx_val &&& 0x0f) ||| 0x30, false)
      else if mod_fx_val &&& 0xf0 = 0x20 then (0x0e, (mod_fx_val &&& 0x0f) ||| 0x50, false)
      else if mod_fx_val &&& 0xf0 = 0x30 then (0x0e, (mod_fx_val &&& 0x0f) ||| 0x40, false)
      else if mod_fx_val &&& 0xf0 = 0x40 then (0x0e, (mod_fx_val &&& 0x0f) ||| 0x70, false)
      else if mod_fx_val &&& 0xf0 = 0xb0 then (0x0e, (mod_fx_val &&& 0x0f) ||| 0x60, false)
      else (0x0e, mod_fx_val, false)
    else if m.effect = FX_RETRIG then (0x0e, 0x90 ||| (mod_fx_val &&& 0x0f), false)
    else (0, mod_fx_val, true)
  else
    /- TODO: try harder -/
    (0, mod_fx_val, true)

/-- The 4 bytes of a cell and the warnings (`mod.c` lines 691-774). -/
def mod_save_cell (m : song_note_t) (warn : Nat) : List Byte × Nat :=
  let period := amigaperiod_table.getD (m.note &&& 0xff) 0
  let warn := if m.note &&& 0xff ≠ 0 ∧ (period < 113 ∨ period > 856)
    then warn_set warn WARN_NOTERANGE else warn
  let fx := mod_save_effect m
  let warn := if fx.2.2 then warn_set warn WARN_VOLEFFECTS else warn
  ([Fin.ofNat ((m.instrument &&& 0x10) ||| (period >>> 8)),
    Fin.ofNat (period &&& 0xff),
    Fin.ofNat ((((m.instrument &&& 0xf) <<< 4) % 256) ||| (fx.1 &&& 0x0f)),
    Fin.ofNat fx.2.1], warn)

/-- The cell loop `for (j = joutpos = 0; j < jmax; ++j, ++m)` of the encoder, from cell `j`
for `k` more cells: the scratch buffer `mod_pattern`, `joutpos` and the warnings. -/
def mod_save_cells (nchn : Nat) (m : List song_note_t) :
    Nat → Nat → List Byte → Nat → Nat → List Byte × Nat × Nat
  | 0, _, mod_pattern, joutpos, warn => (mod_pattern, joutpos, warn)
  | k + 1, j, mod_pattern, joutpos, warn =>
    if j % MAX_CHANNELS < nchn then
      let c := mod_save_cell (m.getD j blank_note) warn
      mod_save_cells nchn m k (j + 1) (buf_write mod_pattern joutpos c.1) (joutpos + 4) c.2
    else
      mod_save_cells nchn m k (j + 1) mod_pattern joutpos warn

/-- The body of the pattern loop of the encoder (`mod.c` lines 677-778) for pattern `n`. -/
def mod_save_pattern (song : song_t) (nchn : Nat) (fp : disko_t) (warn : Nat) (n : Nat) :
    disko_t × Nat :=
  let mod_pattern : List Byte := List.replicate (nchn * 4 * 64) 0
  let m := (song.patterns n).getD []
  let jmax := song.pattern_size n
  let warn := if jmax ≠ 64 then warn_set warn WARN_PATTERNLEN else warn
  let jmax := if jmax ≠ 64 then min jmax 64 else jmax
  let jmax := jmax * MAX_CHANNELS
  let r := mod_save_cells nchn m jmax 0 mod_pattern 0 warn
  (disko_write fp (r.1.take (nchn * 64 * 4)), r.2.2)

/-- The pattern loop `for (n = 0; n <= maxpat; ++n)` of the encoder, from pattern `n` for `k`
more patterns. -/
def mod_save_patterns (song : song_t) (nchn : Nat) :
    Nat → Nat → disko_t → Nat → disko_t × Nat
  | 0, _, fp, warn => (fp, warn)
  | k + 1, n, fp, warn =>
    let r := mod_save_pattern song nchn fp warn n
    mod_save_patterns song nchn k (n + 1) r.1 r.2

/-- The sample-data loop of the encoder (`mod.c` lines 782-795), from `n` for `k` more
rounds. -/
def mod_save_sample_data (X : externals) (song : song_t) (nsmp : Nat) :
    Nat → Nat → disko_t → disko_t
  | 0, _, fp => fp
  | k + 1, n, fp =>
    if n < nsmp ∧ n < 31 then
      let smp := song.samples (n + 1)
      let fp :=
        if smp.data.isSome then
          if smp.flags &&& CHN_LOOP ≠ 0 ∧ smp.loop_start < smp.loop_end
              ∧ smp.loop_end ≤ min smp.length 0x1FFFE then
            X.csf_write_sample fp smp 0x1FFFE
          else if smp.length ≥ 1 then
            /- floor(smp->length / 2) MUST be positive! -/
            let tmppos := disko_tell fp
            let fp := X.csf_write_sample fp smp 0x1FFFE
            let fp := disko_seek_set fp tmppos
            let fp := disko_write fp [0, 0]
            disko_seek_end fp
          else fp
        else fp
      mod_save_sample_data X song nsmp k (n + 1) fp
    else fp

/-- The function `fmt_mod_save_song` of `mod.c`: the stream after it and the warnings bitmask
`warn` (the function itself always returns `SAVE_SUCCESS`). -/
def fmt_mod_save_song (X : externals) (fp : disko_t) (song : song_t) : disko_t × Nat :=
  let warn := 0
  let warn := if song.flags &&& SONG_INSTRUMENTMODE ≠ 0 then warn_set warn WARN_INSTRUMENTS
    else warn
  let warn := if song.flags &&& SONG_LINEARSLIDES ≠ 0 then warn_set warn WARN_LINEARSLIDES
    else warn
  let nsmp := X.csf_get_num_samples song
  let warn := if nsmp > 31 then warn_set warn WARN_MAXSAMPLES else warn
  let nsmp := if nsmp > 31 then 31 else nsmp
  let nchn := X.csf_get_highest_used_channel song + 1
  let fp := disko_write fp (field_bytes song.title 20)
  /- Now writing sample headers -/
  let r := mod_save_sample_headers X song nsmp 31 1 fp warn
  let fp := r.1
  let warn := r.2
  let nord := X.csf_get_num_orders song
  let fp := disko_write fp [Fin.ofNat nord, 0x7f]
  let maxpat := mod_save_maxpat song (min nord 128) 0 0
  let warn := if maxpat + 1 < X.csf_get_num_patterns song then warn_set warn WARN_UNUSEDPATS
    else warn
  let fp := disko_write fp ((List.range 128).map
    (fun i => (Fin.ofNat (mod_save_orders song nord i) : Byte)))
  let fp := disko_write fp (mod_save_tag nchn maxpat)
  let r := mod_save_patterns song nchn (maxpat + 1) 0 fp warn
  let fp := r.1
  let warn := r.2
  /- Now writing sample data -/
  let fp := mod_save_sample_data X song nsmp 31 0 fp
  (fp, warn)

/-! ## The conditions of the legacy heuristic, as the specification words them -/

/-- The byte at offset `k` of the 30-byte sample header of slot `i` (counted from 0) in the
15-sample layout, which starts at file offset `20 + 30 * i`. -/
def st_header_byte (data : List Byte) (i k : Nat) : Nat := (data.getD (20 + 30 * i + k) 0).val

/-- The big-endian length field of the sample header of slot `i`. -/
def st_length_word (data : List Byte) (i : Nat) : Nat :=
  st_header_byte data i 22 * 256 + st_header_byte data i 23

/-- The finetune byte of the sample header of slot `i`. -/
def st_finetune (data : List Byte) (i : Nat) : Nat := st_header_byte data i 24

/-- The volume byte of the sample header of slot `i`. -/
def st_volume (data : List Byte) (i : Nat) : Nat := st_header_byte data i 25

/-- A control byte: a value in 1..31. -/
def is_control (b : Byte) : Bool := decide (0 < b.val ∧ b.val < 32)

/-- The acceptance conditions of the legacy SoundTracker heuristic, as the specification
lists them. -/
def soundtracker_accepts (data : List Byte) : Prop :=
  (data.take 20).countP is_control ≤ 5 ∧
  (∀ i < 15, st_finetune data i = 0 ∧ st_volume data i ≤ 64 ∧ st_length_word data i ≤ 32768) ∧
  (∃ i < 15, st_volume data i ≠ 0) ∧
  (∃ i < 15, st_length_word data i ≠ 0)

instance (data : List Byte) : Decidable (soundtracker_accepts data) := by
  unfold soundtracker_accepts; infer_instance

/-- The per-slot conditions of the legacy heuristic for slot `i`. -/
def st_slot_ok (data : List Byte) (i : Nat) : Prop :=
  st_finetune data i = 0 ∧ st_volume data i ≤ 64 ∧ st_length_word data i ≤ 32768

instance (data : List Byte) (i : Nat) : Decidable (st_slot_ok data i) := by
  unfold st_slot_ok; infer_instance

/-! ## The sample entry of a 30-byte header -/

/-- The sample entry that one round of the sample-header loop leaves in its slot, as a
function of the 30 header bytes `h` and of the entry `old` found there (`hmn` is the
alternate-finetune flag `his_masters_noise`). -/
def hdr_sample (X : externals) (hmn : Bool) (old : song_sample_t) (h : List Byte) :
    song_sample_t :=
  let tmp := (be16 (h.drop 28) * 2) % 65536
  { old with
    name := buf_write old.name 0 (h.take 22 ++ [0]),
    length := be16 (h.drop 22) * 2,
    c5speed :=
      if hmn then X.transpose_to_frequency 0 (-(to_schar (((h.getD 24 0).val : Int) * 8)))
      else MOD_FINETUNE X ((h.getD 24 0).val : Int),
    volume := min (h.getD 25 0).val 64 * 4,
    global_volume := 64,
    loop_start := be16 (h.drop 26) * 2,
    flags := if tmp > 2 then old.flags ||| CHN_LOOP else old.flags,
    loop_end := be16 (h.drop 26) * 2 + tmp,
    vib_type := 0, vib_rate := 0, vib_depth := 0, vib_speed := 0 }

/-- The sum of the sample lengths (in frames) of the `k` headers from offset `pos`. -/
def hdr_length_sum (data : List Byte) : Nat → Nat → Nat
  | 0, _ => 0
  | k + 1, pos => be16 (((data.drop pos).take 30).drop 22) * 2 + hdr_length_sum data k (pos + 30)

/-- The order bytes as stored by the 128-byte read at offset `pos`, over the old list. -/
def raw_orders (data : List Byte) (pos : Nat) (old : Nat → Nat) : Nat → Nat :=
  fun i => if i < 128 then (data.getD (pos + i) 0).val else old i

/-- The order list after the Startrekker step: the first 128 slots halved when the file is
kept as Startrekker. -/
def halve_orders (startrekker : Bool) (ol : Nat → Nat) : Nat → Nat :=
  if startrekker then (fun i => if i < 128 then ol i >>> 1 else ol i) else ol

/-- What the header part of the decoder leaves behind, in terms of the bytes `data` of the
stream: the state `st` that `mod_load_head` returns for the song `song` and the tag
locals `t`. -/
structure mod_head_spec (X : externals) (song : song_t) (data : List Byte) (t : mod_tag_t)
    (st : mod_load_t) : Prop where
  fp_data : st.fp.data = data
  fp_pos : st.fp.pos = if t.test_wow = true then data.length else 150 + 30 * t.nsamples
  nsamples : st.nsamples = t.nsamples
  is_mk : st.is_mk = t.is_mk
  title : st.song.title = buf_write song.title 0 (data.take 20 ++ [0])
  samples : ∀ m, st.song.samples m =
    if 1 ≤ m ∧ m < 1 + t.nsamples then
      hdr_sample X t.his_masters_noise (song.samples m)
        ((data.drop (20 + 30 * (m - 1))).take 30)
    else song.samples m
  patterns : st.song.patterns = song.patterns
  pattern_size : st.song.pattern_size = song.pattern_size
  samplesize : st.samplesize = hdr_length_sum data t.nsamples 20
  nord : st.nord = ((data.getD (20 + 30 * t.nsamples) 0).val : Int)
  restart : st.restart = (data.getD (20 + 30 * t.nsamples + 1) 0).val
  startrekker : st.startrekker = (t.startrekker &&
    !(orderlist_has_odd (raw_orders data (20 + 30 * t.nsamples + 2) song.orderlist) 128))
  npat : st.npat = (mod_scan_orders 128 0 (halve_orders st.startrekker
    (raw_orders data (20 + 30 * t.nsamples + 2) song.orderlist)) 0).2
  orderlist : ∀ i, st.song.orderlist i =
    if st.nord ≤ (i : Int) ∧ i < MAX_ORDERS then ORDER_LAST
    else (mod_scan_orders 128 0 (halve_orders st.startrekker
      (raw_orders data (20 + 30 * t.nsamples + 2) song.orderlist)) 0).1 i
  nchan : st.nchan =
    if t.test_wow = true ∧ data.length = 2048 * st.npat + st.samplesize + 3132 then 8
    else if (t.startrekker &&
      orderlist_has_odd (raw_orders data (20 + 30 * t.nsamples + 2) song.orderlist) 128) = true
    then 4 else t.nchan

/-! ## Tag families, as the specification words them -/

/-- A decimal digit in 1..9. -/
def is_digit_1_9 (b : Byte) : Prop := 49 ≤ b.val ∧ b.val ≤ 57

/-- A decimal digit in 0..9. -/
def is_digit_0_9 (b : Byte) : Prop := 48 ≤ b.val ∧ b.val ≤ 57

instance (b : Byte) : Decidable (is_digit_1_9 b) := by unfold is_digit_1_9; infer_instance

instance (b : Byte) : Decidable (is_digit_0_9 b) := by unfold is_digit_0_9; infer_instance

/-- The tags of the recognised families that are fixed strings. -/
def fixed_tags : List (List Byte) :=
  [cstr "M.K.", cstr "M!K!", cstr "M&K!", cstr "N.T.", cstr "FEST",
   cstr "FLT4", cstr "FLT8", cstr "EXO4", cstr "EXO8",
   cstr "OCTA", cstr "OKTA", cstr "CD61", cstr "CD81"]

/-- The recognised tag families, as the specification lists them: `M.K.`, `M!K!`, `M&K!`,
`N.T.`, `FEST`, `FLT4`/`FLT8`/`EXO4`/`EXO8`, `OCTA`/`OKTA`, `CD61`/`CD81`, `dCHN` with d in
1..9, `ddCH`/`ddCN` with a first digit in 1..9 and a second digit in 0..9, `TDZd` with d in
1..9. -/
def tag_recognised (tag : List Byte) : Prop :=
  tag ∈ fixed_tags ∨
  (is_digit_1_9 (tag.getD 0 0) ∧ tag.drop 1 = cstr "CHN") ∨
  (is_digit_1_9 (tag.getD 0 0) ∧ is_digit_0_9 (tag.getD 1 0) ∧
    (tag.drop 2 = cstr "CH" ∨ tag.drop 2 = cstr "CN")) ∨
  (tag.take 3 = cstr "TDZ" ∧ is_digit_1_9 (tag.getD 3 0))

instance (tag : List Byte) : Decidable (tag_recognised tag) := by
  unfold tag_recognised; infer_instance

/-- The locals of the forced 15-sample reading of an untagged file (`mod.c` lines 305-309). -/
def legacy_tag : mod_tag_t := { nchan := 4, nsamples := 15, tid := "%d Channel MOD" }

/-- The tag is `ddCH` or `ddCN` with a first digit in 1..9, a second digit in 0..9 and a
channel count `dd` above `MAX_CHANNELS`, that is in 65..99. -/
def tag_channels_over_max (tag : List Byte) : Prop :=
  49 ≤ (tag.getD 0 0).val ∧ (tag.getD 0 0).val ≤ 57 ∧
  48 ≤ (tag.getD 1 0).val ∧ (tag.getD 1 0).val ≤ 57 ∧
  (tag.getD 2 0).val = 67 ∧ ((tag.getD 3 0).val = 72 ∨ (tag.getD 3 0).val = 78) ∧
  65 ≤ 10 * ((tag.getD 0 0).val - 48) + ((tag.getD 1 0).val - 48)

instance (tag : List Byte) : Decidable (tag_channels_over_max tag) := by
  unfold tag_channels_over_max; infer_instance

/-! ## The cells of a pattern in the file -/

/-- The cell the decoder makes of the 4 bytes at offset `off`: the legacy note import, then
the effect remap of the engine. -/
def cell_at (X : externals) (data : List Byte) (off : Nat) : song_note_t :=
  X.csf_import_mod_effect (mod_import_note X ((data.drop off).take 4))

/-- The cell of row `r` and channel `c` of a pattern whose data starts at offset `pos`: in the
Startrekker layout channels 0..3 of all rows come first, then channels 4..7; in the standard
layout the rows follow one another, `nchan` cells each. Other channels are left blank. -/
def pattern_cell (X : externals) (data : List Byte) (startrekker : Bool) (nchan pos r c : Nat) :
    song_note_t :=
  if startrekker then
    if c < 4 then cell_at X data (pos + 16 * r + 4 * c)
    else if c < 8 then cell_at X data (pos + 1024 + 16 * r + 4 * (c - 4))
    else blank_note
  else if c < nchan then cell_at X data (pos + 4 * (nchan * r + c))
  else blank_note

/-- The number of bytes of a pattern in the file. -/
def pattern_bytes (startrekker : Bool) (nchan : Nat) : Nat :=
  if startrekker then 2048 else 4 * (nchan * 64)

/-! ## Example streams -/

/-- An untagged stream of 1085 bytes with an empty title and one sample header (slot 0) of
length word `hi * 256 + lo`, finetune 0 and volume 64; everything else is zero. -/
def st_example (hi lo : Byte) : List Byte :=
  List.replicate 42 0 ++ [hi, lo, 0, 64] ++ List.replicate 1039 0

/-- A stream that starts with the bytes `hdr`, is zero from there up to offset 1080, has the
tag `tag` at offset 1080 and `n` zero bytes after it. -/
def tagged_example (hdr : List Byte) (tag : String) (n : Nat) : List Byte :=
  hdr ++ List.replicate (1080 - hdr.length) 0 ++ cstr tag ++ List.replicate n 0

/-- A stand-in for a sample entry of a freshly created song. -/
def blank_sample : song_sample_t :=
  { name := [], length := 0, loop_start := 0, loop_end := 0, c5speed := 8363, volume := 256,
    global_volume := 64, flags := 0, vib_type := 0, vib_rate := 0, vib_depth := 0,
    vib_speed := 0, data := none }

/-- Modelled from the spec: the empty song container the caller creates: no title, blank
samples, an order list of end-of-song markers and no pattern. -/
def empty_song : song_t :=
  { title := [], samples := fun _ => blank_sample, orderlist := fun _ => ORDER_LAST,
    patterns := fun _ => none, pattern_size := fun _ => 0, pattern_alloc_size := fun _ => 0,
    channels := fun _ => ⟨128, 0⟩, flags := 0, pan_separation := 128, tracker_id := "" }

/-- The largest index in `1..n` at which `p` holds, and 0 when there is none. -/
def last_index (p : Nat → Bool) : Nat → Nat
  | 0 => 0
  | n + 1 => if p (n + 1) then n + 1 else last_index p n

/-- An instance of the collaborators, to run the codec on example streams: the two tables
with the values of the player, an effect remap and a restart marker that change nothing, a
sample reader that takes `length` bytes of the stream as the PCM data and a sample writer
that writes them back; the number of samples is the last slot (of 1..31) with a length, the
highest used channel the last channel with a note in the first 64 patterns, the number of
orders the last slot that is not the end marker, the number of patterns the last one
allocated. -/
def example_externals : externals :=
  { period_table := fun n =>
      [1712, 1616, 1524, 1440, 1356, 1280, 1208, 1140, 1076, 1016, 960, 907].getD n 0,
    finetune_table := fun n =>
      [7895, 7941, 7985, 8046, 8107, 8169, 8232, 8280,
       8363, 8413, 8463, 8529, 8581, 8651, 8723, 8757].getD n 0,
    transpose_to_frequency := fun _ _ => 8363,
    csf_import_mod_effect := fun m => m,
    csf_insert_restart_pos := fun s _ => s,
    csf_read_sample := fun smp _ fp =>
      ({ smp with data := some ((fp.data.drop fp.pos).take smp.length) },
        slurp_seek_cur fp smp.length),
    csf_get_num_samples := fun song =>
      last_index (fun n => decide ((song.samples n).length ≠ 0)) 31,
    csf_get_highest_used_channel := fun song =>
      last_index (fun c => (List.range 64).any fun p => (List.range 64).any fun r =>
        decide ((((song.patterns p).getD []).getD (64 * r + c) blank_note).note ≠ 0)) 63,
    csf_get_num_orders := fun song =>
      last_index (fun n => decide (song.orderlist (n - 1) ≠ ORDER_LAST)) 256,
    csf_get_num_patterns := fun song =>
      last_index (fun n => (song.patterns (n - 1)).isSome) 240,
    csf_write_sample := fun fp smp lim =>
      disko_write fp (((smp.data.getD []) ++ List.replicate smp.length 0).take
        (min smp.length lim)) }

/-- The state of a run that ended with `LOAD_SUCCESS` (and the state `d` for a failed run). -/
def load_state_or (d : mod_load_t) (r : Except load_error mod_load_t) : mod_load_t :=
  match r with
  | .ok st => st
  | .error _ => d

/-- The locals before anything is read, around the empty song. -/
def blank_load_state : mod_load_t :=
  { song := empty_song, fp := slurp_open [], nchan := 0, nsamples := 31, startrekker := false,
    test_wow := false, is_mk := false, maybe_st3 := false, maybe_ft2 := false,
    his_masters_noise := false, tid := "", samplesize := 0, nord := 0, restart := 0, npat := 0 }

/-- The big-endian loop-length word of the sample header of slot `i` (counted from 0). -/
def st_loop_length_word (data : List Byte) (i : Nat) : Nat :=
  st_header_byte data i 28 * 256 + st_header_byte data i 29

/-- The sample header of slot 1 with loop-start word `ls` and loop-length word
`lh * 256 + ll`, everything else zero (48 + 2 bytes from the start of the file). -/
def loop_header (ls lh ll : Byte) : List Byte :=
  List.replicate 47 0 ++ [ls, lh, ll]

/-- The state in which the run of the decoder on the example stream with header bytes `hdr`
ends. -/
def example_state (hdr : List Byte) (lflags : Nat) : mod_load_t :=
  load_state_or blank_load_state (fmt_mod_load_song_run example_externals empty_song
    (slurp_open (tagged_example hdr "M.K." 1024)) lflags false)

/-! ## Notions for the claims on the order list and the patterns -/

/-- The restart step (`mod.c` lines 472-473) on the song that the pattern loop leaves: the
call of `csf_insert_restart_pos` under its guard. -/
def mod_apply_restart (X : externals) (st : mod_load_t) (song : song_t) : song_t :=
  if st.restart < st.npat then X.csf_insert_restart_pos song st.restart else song

/-- The order byte of slot `i` in the file: the 128 order bytes follow the sample headers, the
order count and the restart byte. -/
def order_byte (data : List Byte) (nsamples i : Nat) : Nat :=
  (data.getD (20 + 30 * nsamples + 2 + i) 0).val

/-- The order value the decoder works with: the order byte, halved in a file kept as
Startrekker. -/
def order_value (data : List Byte) (nsamples : Nat) (startrekker : Bool) (i : Nat) : Nat :=
  if startrekker then order_byte data nsamples i / 2 else order_byte data nsamples i

/-- The sum of the lengths of the `k` sample slots from slot `n`. -/
def sample_length_sum (song : song_t) : Nat → Nat → Nat
  | 0, _ => 0
  | k + 1, n => (song.samples n).length + sample_length_sum song k (n + 1)

/-- The state in which the run of the decoder on the stream `data` ends, for the collaborators
`X` and the empty song (the blank state for a failed run). -/
def decoded (X : externals) (data : List Byte) (lflags : Nat) : mod_load_t :=
  load_state_or blank_load_state
    (fmt_mod_load_song_run X empty_song (slurp_open data) lflags false)

/-- A stream with the header bytes `hdr` (zero from there up to offset 1080), the tag `tag`
at offset 1080 and the bytes `body` from offset 1084. -/
def module_example (hdr : List Byte) (tag : String) (body : List Byte) : List Byte :=
  tagged_example hdr tag 0 ++ body

/-- An instance of the collaborators whose restart marker can be seen in the song: it stores
the restart position in the last slot of the order list; otherwise as `example_externals`. -/
def marking_externals : externals :=
  { example_externals with
    csf_insert_restart_pos := fun s r =>
      { s with orderlist := Function.update s.orderlist 255 r } }

/-- Modelled from the spec: an effect remap that reads the encoder's effect table (`mod.c`
lines 706-765) backwards: the effect nibble of the file becomes the effect of the engine
that the encoder writes as this nibble, the parameter is kept. -/
def remap_effect (m : song_note_t) : song_note_t :=
  { m with effect :=
      match m.effect with
      | 0 => if m.param ≠ 0 then FX_ARPEGGIO else FX_NONE
      | 1 => FX_PORTAMENTOUP
      | 2 => FX_PORTAMENTODOWN
      | 3 => FX_TONEPORTAMENTO
      | 4 => FX_VIBRATO
      | 5 => FX_TONEPORTAVOL
      | 6 => FX_VIBRATOVOL
      | 7 => FX_TREMOLO
      | 8 => FX_PANNING
      | 9 => FX_OFFSET
      | 10 => FX_VOLUMESLIDE
      | 11 => FX_POSITIONJUMP
      | 12 => FX_VOLUME
      | 13 => FX_PATTERNBREAK
      | 14 => FX_SPECIAL
      | 15 => if m.param < 0x20 then FX_SPEED else FX_TEMPO
      | _ => FX_NONE }

/-- An instance of the collaborators with the effect remap `remap_effect`; otherwise as
`example_externals`. -/
def remap_externals : externals :=
  { example_externals with csf_import_mod_effect := remap_effect }

/-- The stream of zeros with the tag `tag` at offset 1080 and `n` zero bytes after it. -/
def zero_example (tag : String) (n : Nat) : List Byte :=
  module_example [] tag (List.replicate n 0)

/-- The stream with the tag `M.K.`, zeros before it, and one pattern whose first cell has the
bytes `00 00 0C 20` (no note, no instrument, effect `C`, parameter `0x20`). -/
def effect_example : List Byte :=
  module_example [] "M.K." ([0, 0, 12, 32] ++ List.replicate 1020 0)

/-! ## Notions for the claim on the bytes after the sample data -/

/-- The sample reader reads a sample from its own bytes only: on two streams that agree up to
the end of the `length` bytes of the sample from the position, it returns the same entry and
the same new position, and it leaves the contents of either stream alone. -/
def sample_reader_local (X : externals) : Prop :=
  ∀ (smp : song_sample_t) (a : Bool) (d1 d2 : List Byte) (p : Nat),
    d1.take (p + smp.length) = d2.take (p + smp.length) →
    (X.csf_read_sample smp a ⟨d1, p⟩).1 = (X.csf_read_sample smp a ⟨d2, p⟩).1 ∧
    (X.csf_read_sample smp a ⟨d1, p⟩).2.pos = (X.csf_read_sample smp a ⟨d2, p⟩).2.pos ∧
    (X.csf_read_sample smp a ⟨d1, p⟩).2.data = d1 ∧
    (X.csf_read_sample smp a ⟨d2, p⟩).2.data = d2

/-- The highest offset that the sample-data loop (`mod.c` lines 493-514) looks at, from slot
`n` for `k` more slots: for every stored sample the 5 bytes of the ADPCM sniff and the end of
its `length` bytes, and the position where the loop ends. -/
def mod_sample_reach (X : externals) (lflags : Nat) : Nat → Nat → song_t → slurp_t → Nat
  | 0, _, _, fp => fp.pos
  | k + 1, n, song, fp =>
    if (song.samples n).length = 0 then mod_sample_reach X lflags k (n + 1) song fp
    else
      let sstart := slurp_peek fp 5
      let adpcm := memeq sstart.1 (cstr "ADPCM") 5
      let fp1 := if adpcm then slurp_seek_cur fp 5 else fp
      max (fp.pos + 5) (max (fp1.pos + (song.samples n).length)
        (if lflags &&& LOAD_NOSAMPLES ≠ 0 then
          mod_sample_reach X lflags k (n + 1) song (slurp_seek_cur fp1 (song.samples n).length)
        else
          let r := X.csf_read_sample (song.samples n) adpcm fp1
          mod_sample_reach X lflags k (n + 1)
            { song with samples := Function.update song.samples n r.1 } r.2))

/-- The end of the data of a run whose header part ended in the state `st0`: the highest
offset that the pattern loop and the sample-data loop look at (the end of the pattern area
when the pattern loop fails, which it does on a stream that ends before it). -/
def mod_data_end (X : externals) (lflags : Nat) (st0 : mod_load_t) : Nat :=
  match mod_load_patterns X st0.startrekker st0.nchan (st0.npat + 1) 0 st0.song
      (slurp_seek_set st0.fp (mod_pattern_start st0.nsamples)) with
  | .error _ =>
    mod_pattern_start st0.nsamples + (st0.npat + 1) * pattern_bytes st0.startrekker st0.nchan
  | .ok (sg, fp) => mod_sample_reach X lflags st0.nsamples 1 (mod_apply_restart X st0 sg) fp

/-- The end of the data of a run of `fmt_mod_load_song`: the end of the last sample's data as
the decoder delimits it, the 5 bytes of its ADPCM sniff included (0 when the run fails at the
tag or in the header part, the end of the pattern area when it fails in the patterns). -/
def fmt_mod_data_end (X : externals) (song : song_t) (fp : slurp_t) (lflags : Nat)
    (force : Bool) : Nat :=
  let rt := slurp_read (slurp_seek_set fp 1080) 4
  match mod_check_tag rt.1 force with
  | none => 0
  | some t =>
    match mod_load_head X song rt.2.2 t with
    | .error _ => 0
    | .ok st0 => mod_data_end X lflags st0

/-! ## Notions for the claim on decoding the encoder's output -/

/-- The bytes of an output stream up to its position: the data, and zeros for a position
beyond them. -/
def disko_view (fp : disko_t) : List Byte :=
  fp.data ++ List.replicate (fp.pos - fp.data.length) 0

/-- The `k` blocks `f n, f (n + 1), ...` one after the other. -/
def concat_blocks (f : Nat → List Byte) : Nat → Nat → List Byte
  | 0, _ => []
  | k + 1, n => f n ++ concat_blocks f k (n + 1)

/-- The 4 loop bytes of a sample header as the encoder writes them. -/
def mod_save_loop_bytes (smp : song_sample_t) : List Byte :=
  if smp.flags &&& CHN_LOOP ≠ 0 then
    be16_bytes (min (smp.loop_start >>> 1) 0xFFFF) ++
    be16_bytes (min (((smp.loop_end + 4294967296 - smp.loop_start) % 4294967296) >>> 1) 0xFFFF)
  else [0, 0, 0, 1]

/-- The 30 bytes the encoder leaves for the sample header of slot `n`. -/
def mod_save_header_bytes (X : externals) (song : song_t) (nsmp n : Nat) : List Byte :=
  if n > nsmp then List.replicate 30 0
  else
    field_bytes (song.samples n).name 22 ++
    be16_bytes (min ((song.samples n).length >>> 1) 0xFFFF) ++
    [Fin.ofNat ((mod_save_finetune X (song.samples n).c5speed 15 ^^^ 8) &&& 0x0f),
     Fin.ofNat (((song.samples n).volume + 1) / 4)] ++
    mod_save_loop_bytes (song.samples n)

/-- The 4 bytes the encoder makes of a cell. -/
def mod_save_cell_bytes (m : song_note_t) : List Byte := (mod_save_cell m 0).1

/-- The bytes the encoder writes for pattern `n`. -/
def mod_save_pattern_bytes (song : song_t) (nchn n : Nat) : List Byte :=
  (mod_save_pattern song nchn disko_open 0 n).1.data

/-- The number of sample headers the encoder fills in: `nsmp` after the clamp to 31. -/
def mod_save_nsmp (X : externals) (song : song_t) : Nat :=
  if X.csf_get_num_samples song > 31 then 31 else X.csf_get_num_samples song

/-- The value of `maxpat` in the encoder. -/
def mod_save_maxpat_of (X : externals) (song : song_t) : Nat :=
  mod_save_maxpat song (min (X.csf_get_num_orders song) 128) 0 0

/-- The first 1084 bytes of the encoder's output: the title, the 31 sample headers, the order
count, the byte `0x7f`, the 128 order bytes and the tag. -/
def mod_save_head_bytes (X : externals) (song : song_t) : List Byte :=
  field_bytes song.title 20 ++
  concat_blocks (mod_save_header_bytes X song (mod_save_nsmp X song)) 31 1 ++
  [Fin.ofNat (X.csf_get_num_orders song), 0x7f] ++
  (List.range 128).map
    (fun i => (Fin.ofNat (mod_save_orders song (X.csf_get_num_orders song) i) : Byte)) ++
  mod_save_tag (X.csf_get_highest_used_channel song + 1) (mod_save_maxpat_of X song)

/-- Two sample entries agree on the fields of the sample header: name, length, loop start,
loop end, rate, volume, global volume and flags. -/
def sample_header_eq (a b : song_sample_t) : Prop :=
  a.name = b.name ∧ a.length = b.length ∧ a.loop_start = b.loop_start ∧
  a.loop_end = b.loop_end ∧ a.c5speed = b.c5speed ∧ a.volume = b.volume ∧
  a.global_volume = b.global_volume ∧ a.flags = b.flags

/-- The file that the encoder writes for a song, from an empty output stream. -/
def mod_save_output (X : externals) (song : song_t) : List Byte :=
  (fmt_mod_save_song X disko_open song).1.data

/-- The cell of pattern `p`, row `r` and channel `c` of a song, as the encoder reads it (the
default cell where there is none). -/
def song_cell (song : song_t) (p r c : Nat) : song_note_t :=
  ((song.patterns p).getD []).getD (64 * r + c) blank_note

/-- The sample writer writes at the write position of the stream: a call of
`csf_write_sample` is a write of some bytes there. -/
def sample_writer_writes (X : externals) : Prop :=
  ∀ fp smp lim, ∃ bytes : List Byte, X.csf_write_sample fp smp lim = disko_write fp bytes

/-- The number of channels the encoder writes: `nchn`. -/
def mod_save_nchn (X : externals) (song : song_t) : Nat :=
  X.csf_get_highest_used_channel song + 1

/-- The test `warn & (1 << n)` of the loop that announces the warnings (`mod.c` line 798):
the warning `n` is recorded in the bitmask. -/
def warn_has (warn n : Nat) : Prop := warn &&& (1 <<< n) ≠ 0

instance (warn n : Nat) : Decidable (warn_has warn n) := by unfold warn_has; infer_instance

/-- The warnings that the loop body of the encoder raises for a cell (`mod.c` lines 692-693
and 766-771): `WARN_NOTERANGE` for a note whose period is outside 113..856, and
`WARN_VOLEFFECTS` where the effect part raises it. -/
def cell_warns (m : song_note_t) (b : Nat) : Prop :=
  (b = WARN_NOTERANGE ∧ m.note &&& 0xff ≠ 0 ∧
    (amigaperiod_table.getD (m.note &&& 0xff) 0 < 113 ∨
      amigaperiod_table.getD (m.note &&& 0xff) 0 > 856)) ∨
  (b = WARN_VOLEFFECTS ∧ (mod_save_effect m).2.2 = true)

/-- The warnings that the pattern loop of the encoder raises for pattern `p`, with `nchn`
channels: `WARN_PATTERNLEN` for a row count other than 64, and the warnings of the cells of
its first 64 rows in the channels below `nchn`. -/
def pattern_warns (song : song_t) (nchn p b : Nat) : Prop :=
  (b = WARN_PATTERNLEN ∧ song.pattern_size p ≠ 64) ∨
  ∃ r c, r < song.pattern_size p ∧ r < 64 ∧ c < nchn ∧ c < 64 ∧
    cell_warns (song_cell song p r c) b

/-- The warnings that the sample-header loop of the encoder raises for a sample it fills in
(`mod.c` lines 599-607). -/
def sample_warns (smp : song_sample_t) (b : Nat) : Prop :=
  (b = WARN_SAMPLEVOL ∧ smp.global_volume ≠ 64) ∨
  (b = WARN_LOOPS ∧
    (smp.flags &&& (CHN_LOOP ||| CHN_PINGPONGLOOP) = (CHN_LOOP ||| CHN_PINGPONGLOOP)
      ∨ smp.flags &&& CHN_SUSTAINLOOP ≠ 0)) ∨
  (b = WARN_SAMPLEVIB ∧ smp.vib_depth ≠ 0) ∨
  (b = WARN_LONGSAMPLES ∧ (1 &&& smp.length ≠ 0 ∨ smp.length > 0x1FFFE))

/-- Modelled from the spec: the effect code `FX_GLOBALVOLUME` of `sndfile.h`, one of the
effects that the switch of the encoder does not list. -/
def FX_GLOBALVOLUME : Nat := 6

/-- A song of one order (pattern 0) and one pattern of 64 rows whose first row has the cell
`m` in channel `c`; everything else is as in the empty song. -/
def cell_song (c : Nat) (m : song_note_t) : song_t :=
  { empty_song with
    orderlist := fun i => if i = 0 then 0 else ORDER_LAST,
    patterns := fun p =>
      if p = 0 then some ((List.range 4096).map fun j => if j = c then m else blank_note)
      else none,
    pattern_size := fun p => if p = 0 then 64 else 0 }

/-- A song without orders and patterns whose sample 1 is `smp`; everything else is as in the
empty song. -/
def sample_song (smp : song_sample_t) : song_t :=
  { empty_song with samples := fun n => if n = 1 then smp else blank_sample }

/-- A cell with the note 61 (period 428) and the instrument 1, without effects. -/
def plain_note : song_note_t := ⟨61, 1, 0, 0, 0, 0⟩

/-- The distance of two rates. -/
def rate_dist (a b : Nat) : Nat := (a - b) + (b - a)

/-- The index `j` is that of the entry of the 16-value finetune table nearest to the rate
`c`, ties going to the lower index (the wording of the specification). -/
def finetune_nearest (X : externals) (c j : Nat) : Prop :=
  j < 16 ∧ ∀ k, k < 16 →
    rate_dist (X.finetune_table j) c < rate_dist (X.finetune_table k) c ∨
    (rate_dist (X.finetune_table j) c = rate_dist (X.finetune_table k) c ∧ j ≤ k)

instance (X : externals) (c j : Nat) : Decidable (finetune_nearest X c j) := by
  unfold finetune_nearest; infer_instance

/-- A stand-in for a sample of 2 bytes with the rate `c` and the volume `v`. -/
def rated_sample (c v : Nat) : song_sample_t :=
  { blank_sample with length := 2, c5speed := c, volume := v }

/-- A cell with a note, instrument 1 and a pattern break to row 23. -/
def break_note : song_note_t :=
  { note := 61, instrument := 1, voleffect := VOLFX_NONE, volparam := 0,
    effect := FX_PATTERNBREAK, param := 23 }

/-- The effects the `switch (m->effect)` of the encoder has a case for (`mod.c` lines
707-764). -/
def mod_save_switch_cases : List Nat :=
  [FX_NONE, FX_ARPEGGIO, FX_PORTAMENTOUP, FX_PORTAMENTODOWN, FX_TONEPORTAMENTO, FX_VIBRATO,
   FX_TONEPORTAVOL, FX_VIBRATOVOL, FX_TREMOLO, FX_PANNING, FX_OFFSET, FX_VOLUMESLIDE,
   FX_POSITIONJUMP, FX_VOLUME, FX_PATTERNBREAK, FX_SPEED, FX_TEMPO, FX_SPECIAL, FX_RETRIG]

/-- A cell with no note, an empty volume column and the effect "global volume" with the
parameter 0x37. -/
def unmapped_note : song_note_t :=
  { note := 0, instrument := 0, voleffect := VOLFX_NONE, volparam := 0,
    effect := FX_GLOBALVOLUME, param := 0x37 }

/-- A cell with no note, the volume 32 in the volume column and a vibrato 0x44 in the effect
column. -/
def volume_note : song_note_t :=
  { note := 0, instrument := 0, voleffect := VOLFX_VOLUME, volparam := 32,
    effect := FX_VIBRATO, param := 0x44 }

/-! ## The volume-column conversion, the STM effects and further examples -/

/-- Modelled from the spec: the effect code `FX_FINEVIBRATO`. -/
def FX_FINEVIBRATO : Nat := 4

/-- Modelled from the spec: the effect code `FX_PANNINGSLIDE`. -/
def FX_PANNINGSLIDE : Nat := 14

/-- Modelled from the spec: the effect code `FX_TREMOR`. -/
def FX_TREMOR : Nat := 27

/-- Modelled from the spec: the volume-column effect `VOLFX_PANNING` of `sndfile.h`; of the
volume-column effects only their being different from one another matters. -/
def VOLFX_PANNING : Nat := 2

/-- Modelled from the spec: the volume-column effect `VOLFX_VOLSLIDEUP`. -/
def VOLFX_VOLSLIDEUP : Nat := 3

/-- Modelled from the spec: the volume-column effect `VOLFX_VOLSLIDEDOWN`. -/
def VOLFX_VOLSLIDEDOWN : Nat := 4

/-- Modelled from the spec: the volume-column effect `VOLFX_FINEVOLUP`. -/
def VOLFX_FINEVOLUP : Nat := 5

/-- Modelled from the spec: the volume-column effect `VOLFX_FINEVOLDOWN`. -/
def VOLFX_FINEVOLDOWN : Nat := 6

/-- Modelled from the spec: the volume-column effect `VOLFX_VIBRATOSPEED`. -/
def VOLFX_VIBRATOSPEED : Nat := 7

/-- Modelled from the spec: the volume-column effect `VOLFX_VIBRATODEPTH`. -/
def VOLFX_VIBRATODEPTH : Nat := 8

/-- Modelled from the spec: the volume-column effect `VOLFX_PANSLIDELEFT`. -/
def VOLFX_PANSLIDELEFT : Nat := 9

/-- Modelled from the spec: the volume-column effect `VOLFX_PANSLIDERIGHT`. -/
def VOLFX_PANSLIDERIGHT : Nat := 10

/-- Modelled from the spec: the volume-column effect `VOLFX_TONEPORTAMENTO`. -/
def VOLFX_TONEPORTAMENTO : Nat := 11

/-- Modelled from the spec: the volume-column effect `VOLFX_PORTAUP`. -/
def VOLFX_PORTAUP : Nat := 12

/-- Modelled from the spec: the volume-column effect `VOLFX_PORTADOWN`. -/
def VOLFX_PORTADOWN : Nat := 13

/-- The loop `for (int n = 0; n < 10; n++)` of the tone-portamento case of
`convert_voleffect`, from `n` for `k` more rounds: the index it returns with, if any. The
table `vc_portamento_table` is defined outside the sources at hand. -/
def convert_voleffect_porta (vc_portamento_table : Nat → Nat) (p : Nat) (force : Bool) :
    Nat → Nat → Option Nat
  | 0, _ => none
  | k + 1, n =>
    if (if force then decide (p ≤ vc_portamento_table n)
        else decide (p = vc_portamento_table n)) = true then some n
    else convert_voleffect_porta vc_portamento_table p force k (n + 1)

/-- The function `convert_voleffect` of `generic.c`: the return value and the values of
`*e` and `*p` (both `uint8_t`) after the call. The table `vc_portamento_table` and the macro
`SHORT_PANNING` are defined outside the sources at hand. -/
def convert_voleffect (vc_portamento_table : Nat → Nat) (SHORT_PANNING : Nat → Nat)
    (e p : Nat) (force : Bool) : Nat × Nat × Nat :=
  if e = FX_NONE then (1, e, p)
  else if e = FX_VOLUME then (1, VOLFX_VOLUME, min p 64)
  else if e = FX_PORTAMENTOUP then
    /- if not force, reject when dividing causes loss of data in LSB, or if the final value
    is too large to fit. -/
    if ¬ force ∧ (p &&& 3 ≠ 0 ∨ p > 9 * 4 + 3) then (0, e, p)
    else (1, VOLFX_PORTAUP, min (p / 4) 9)
  else if e = FX_PORTAMENTODOWN then
    if ¬ force ∧ (p &&& 3 ≠ 0 ∨ p > 9 * 4 + 3) then (0, e, p)
    else (1, VOLFX_PORTADOWN, min (p / 4) 9)
  else if e = FX_TONEPORTAMENTO then
    if p ≥ 0xf0 then
      /- hack for people who can't type F twice :) -/
      (1, VOLFX_TONEPORTAMENTO, 0x9)
    else
      match convert_voleffect_porta vc_portamento_table p force 10 0 with
      | some n => (1, VOLFX_TONEPORTAMENTO, n)
      | none => (0, e, p)
  else if e = FX_VIBRATO then
    let depth := p &&& 0x0F
    let speed := p &&& 0xF0
    /- can't do this -/
    if speed ≠ 0 ∧ depth ≠ 0 ∧ ¬ force then (0, e, p)
    else if speed ≠ 0 then
      if force then (1, VOLFX_VIBRATOSPEED, min speed 9)
      else if speed > 9 then (0, e, p)
      else (1, VOLFX_VIBRATOSPEED, speed)
    else if depth ≠ 0 ∨ force then
      if force then (1, VOLFX_VIBRATODEPTH, min depth 9)
      else if depth > 9 then (0, e, p)
      else (1, VOLFX_VIBRATODEPTH, depth)
    else (0, e, p)
  else if e = FX_FINEVIBRATO then
    if force then (1, VOLFX_VIBRATODEPTH, 0)
    else if p ≠ 0 then (0, e, p)
    else (1, VOLFX_VIBRATODEPTH, p)
  else if e = FX_PANNING then (1, VOLFX_PANNING, min 64 (p * 64 / 255) % 256)
  else if e = FX_VOLUMESLIDE then
    /- ugh -/
    if p = 0 then (0, e, p)
    else if p &&& 0xf = 0 then
      if force then (1, VOLFX_VOLSLIDEUP, min (p >>> 4) 9)
      else if p >>> 4 > 9 then (0, e, p)
      else (1, VOLFX_VOLSLIDEUP, p >>> 4)
    else if p &&& 0xf0 = 0 then
      if force then (1, VOLFX_VOLSLIDEDOWN, min p 9)
      else if p > 9 then (0, e, p)
      else (1, VOLFX_VOLSLIDEDOWN, p)
    else if p &&& 0xf = 0xf then
      if force then (1, VOLFX_FINEVOLUP, min (p >>> 4) 9)
      else if p >>> 4 > 9 then (0, e, p)
      else (1, VOLFX_FINEVOLUP, p >>> 4)
    else if p &&& 0xf0 = 0xf0 then
      if force then (1, VOLFX_FINEVOLDOWN, min p 9)
      else if p &&& 0xf > 9 then (0, e, p)
      else (1, VOLFX_FINEVOLDOWN, p &&& 0xf)
    else (0, e, p)
  else if e = FX_SPECIAL then
    if p >>> 4 = 8 then (1, VOLFX_PANNING, SHORT_PANNING (p &&& 0xf) % 256)
    else if p >>> 4 = 0 ∨ p >>> 4 = 1 ∨ p >>> 4 = 2 ∨ p >>> 4 = 0xf then
      if force then (1, 0, 0) else (0, e, p)
    else (0, e, p)
  else if e = FX_PANNINGSLIDE then
    if p &&& 0xF0 = 0 then
      (if p &&& 0x0F < 10 then 1 else 0, VOLFX_PANSLIDERIGHT, p &&& 0x0F)
    else if p &&& 0x0F = 0 then
      (if p >>> 4 < 10 then 1 else 0, VOLFX_PANSLIDELEFT, p >>> 4)
    else
      /- can't convert fine panning -/
      (0, e, p)
  else (0, e, p)

/-- The function `handle_stm_effects` of `generic.c`: the cell after the call. -/
def handle_stm_effects (chan_note : song_note_t) : song_note_t :=
  if chan_note.effect = FX_SPEED then
    /- do nothing; this is handled later -/
    chan_note
  else if chan_note.effect = FX_VOLUMESLIDE then
    /- Scream Tracker 2 checks for the lower nibble first for some reason... -/
    let chan_note :=
      if chan_note.param &&& 0x0f ≠ 0 ∧ chan_note.param >>> 4 ≠ 0
      then { chan_note with param := chan_note.param &&& 0x0f } else chan_note
    if chan_note.param = 0 then { chan_note with effect := FX_NONE } else chan_note
  else if chan_note.effect = FX_PORTAMENTODOWN ∨ chan_note.effect = FX_PORTAMENTOUP then
    if chan_note.param = 0 then { chan_note with effect := FX_NONE } else chan_note
  else if chan_note.effect = FX_PATTERNBREAK then
    { chan_note with
      param := ((chan_note.param &&& 0xf0) * 10 + (chan_note.param &&& 0xf)) % 256 }
  else if chan_note.effect = FX_POSITIONJUMP then chan_note
  else if chan_note.effect = FX_TREMOR then chan_note
  else
    /- Anything not listed above is a no-op if there's no value. -/
    if chan_note.param = 0 then { chan_note with effect := FX_NONE } else chan_note

/-- A cell with a pattern break whose parameter is the BCD byte 0x23 (row 23). -/
def stm_break_note : song_note_t :=
  { note := 0, instrument := 0, voleffect := VOLFX_NONE, volparam := 0,
    effect := FX_PATTERNBREAK, param := 0x23 }

/-- The channel count that a description of the tag table starts with ("N Channel ..."), if
it starts with one. -/
def description_channels (d : String) : Option Nat :=
  let ds := d.toList.takeWhile fun c => decide (48 ≤ c.toNat ∧ c.toNat ≤ 57)
  if ds ≠ [] ∧ (d.toList.drop ds.length).take 8 = " Channel".toList then
    some (ds.foldl (fun a c => 10 * a + (c.toNat - 48)) 0)
  else none

/-- The detector and the decoder agree on the tag-table entry `e`: where the description
starts with a channel count, the tag check of the decoder gives that many channels. -/
def tag_channels_agree (e : String × String) : Prop :=
  ∀ n, description_channels e.2 = some n →
    (mod_check_tag (cstr e.1) false).map (fun t => t.nchan) = some n

instance (e : String × String) : Decidable (tag_channels_agree e) := by
  unfold tag_channels_agree
  cases h : description_channels e.2 with
  | none => exact isTrue (fun n hn => by cases hn)
  | some m =>
    exact decidable_of_iff ((mod_check_tag (cstr e.1) false).map (fun t => t.nchan) = some m)
      ⟨fun h1 n hn => by cases hn; exact h1, fun h1 => h1 m rfl⟩

/-- The 16-entry finetune table is strictly increasing (the wording of the specification). -/
def finetune_increasing (X : externals) : Prop :=
  ∀ k, k < 16 → ∀ j, j < k → X.finetune_table j < X.finetune_table k

instance (X : externals) : Decidable (finetune_increasing X) := by
  unfold finetune_increasing; infer_instance

/-- Collaborators with a strictly increasing finetune table whose entries are all above
10000: entry `k` is `10001 + k`. Everything else is as in `example_externals`. -/
def steep_externals : externals :=
  { example_externals with finetune_table := fun k => 10001 + k }

/-- Modelled from the spec: the table `period_table` of the player (12 entries), the periods
of the lowest octave. -/
def player_period_table : List Nat :=
  [1712, 1616, 1524, 1440, 1356, 1280, 1208, 1140, 1076, 1016, 960, 907]

/-- A sample header: the name `AAAA...`, the length word 4, finetune 0, volume 64, the
loop-start word 1 and the loop-length word 2. -/
def looped_header : List Byte := List.replicate 22 65 ++ [0, 4, 0, 64, 0, 1, 0, 2]

/-- A sample of one byte, with no loop. -/
def odd_sample : song_sample_t := { blank_sample with length := 1, data := some [5] }

/-- A song with the order list `0, +++`: pattern 0 and the skip marker; no pattern, no
sample. -/
def skip_song : song_t :=
  { empty_song with
    orderlist := fun i => if i = 0 then 0 else if i = 1 then ORDER_SKIP else ORDER_LAST }

/-! ## A short stream with a tag at its start -/

/-- A stream of 1004 bytes that starts with the bytes `90CH`; it has no byte at offset
1080. -/
def short_tag_example : List Byte := cstr "90CH" ++ List.replicate 1000 0

/-! ## Lemmas on the byte stream -/

theorem slurp_peek_ok (fp : slurp_t) (n : Nat) (h : fp.pos + n ≤ fp.data.length) :
    slurp_peek fp n = ((fp.data.drop fp.pos).take n, n) := by
  have hl : ((fp.data.drop fp.pos).take n).length = n := by
    simp [List.length_take, List.length_drop]; omega
  simp [slurp_peek, hl]

theorem slurp_read_ok (fp : slurp_t) (n : Nat) (h : fp.pos + n ≤ fp.data.length) :
    slurp_read fp n = ((fp.data.drop fp.pos).take n, n, { fp with pos := fp.pos + n }) := by
  simp [slurp_read, slurp_peek_ok fp n h]

theorem slurp_read_count (fp : slurp_t) (n : Nat) :
    (slurp_read fp n).2.1 = min n (fp.data.length - fp.pos) := by
  simp [slurp_read, slurp_peek, List.length_take, List.length_drop]

theorem slurp_getc_ok (fp : slurp_t) (h : fp.pos < fp.data.length) :
    slurp_getc fp = (((fp.data.getD fp.pos 0).val : Int), { fp with pos := fp.pos + 1 }) := by
  unfold slurp_getc
  rw [List.drop_eq_getElem_cons h]
  simp [List.getElem?_eq_getElem h]

theorem slurp_seek_set_ok (fp : slurp_t) (off : Nat) (h : off ≤ fp.data.length) :
    slurp_seek_set fp off = { fp with pos := off } := by
  simp [slurp_seek_set, h]

theorem slurp_read_pos (fp : slurp_t) (n : Nat) :
    (slurp_read fp n).2.2.pos = fp.pos + min n (fp.data.length - fp.pos) := by
  simp [slurp_read, slurp_peek, List.length_take, List.length_drop]

theorem slurp_read_data (fp : slurp_t) (n : Nat) : (slurp_read fp n).2.2.data = fp.data := by
  simp [slurp_read]

theorem slurp_getc_data (fp : slurp_t) : (slurp_getc fp).2.data = fp.data := by
  unfold slurp_getc; split <;> rfl

theorem slurp_getc_pos (fp : slurp_t) :
    (slurp_getc fp).2.pos = if fp.pos < fp.data.length then fp.pos + 1 else fp.pos := by
  by_cases h : fp.pos < fp.data.length
  · rw [slurp_getc_ok fp h, if_pos h]
  · rw [if_neg h]
    unfold slurp_getc
    rw [List.drop_eq_nil_of_le (by omega)]

theorem getD_take_drop (data : List Byte) (pos n k : Nat) (hk : k < n) :
    ((data.drop pos).take n).getD k 0 = data.getD (pos + k) 0 := by
  simp only [List.getD_eq_getElem?_getD]
  rw [List.getElem?_take_of_lt hk, List.getElem?_drop]

theorem be16_take_drop (data : List Byte) (pos : Nat) :
    be16 ((data.drop pos).take 2) = (data.getD pos 0).val * 256 + (data.getD (pos + 1) 0).val := by
  unfold be16
  rw [getD_take_drop data pos 2 0 (by omega), getD_take_drop data pos 2 1 (by omega)]
  simp

/-! ## The decoder: sample headers and order list -/

theorem be16_drop_take (data : List Byte) (pos n k : Nat) (hk : k + 2 ≤ n) :
    be16 (((data.drop pos).take n).drop k) =
      (data.getD (pos + k) 0).val * 256 + (data.getD (pos + k + 1) 0).val := by
  unfold be16
  simp only [List.getD_eq_getElem?_getD, List.getElem?_drop]
  rw [List.getElem?_take_of_lt (by omega), List.getElem?_take_of_lt (by omega),
    List.getElem?_drop, List.getElem?_drop]
  simp [Nat.add_assoc]

theorem mod_load_sample_header_ok (X : externals) (st : mod_load_t) (n : Nat)
    (h : st.fp.pos + 30 ≤ st.fp.data.length) :
    ∃ st', mod_load_sample_header X st n = .ok st' ∧
      st'.fp = ⟨st.fp.data, st.fp.pos + 30⟩ ∧
      st'.song.samples = Function.update st.song.samples n
        (hdr_sample X st.his_masters_noise (st.song.samples n)
          ((st.fp.data.drop st.fp.pos).take 30)) ∧
      st'.song.title = st.song.title ∧ st'.song.orderlist = st.song.orderlist ∧
      st'.song.patterns = st.song.patterns ∧ st'.song.pattern_size = st.song.pattern_size ∧
      st'.samplesize = st.samplesize + (hdr_sample X st.his_masters_noise (st.song.samples n)
          ((st.fp.data.drop st.fp.pos).take 30)).length ∧
      st'.nchan = st.nchan ∧ st'.nsamples = st.nsamples ∧ st'.startrekker = st.startrekker ∧
      st'.test_wow = st.test_wow ∧ st'.is_mk = st.is_mk ∧
      st'.his_masters_noise = st.his_masters_noise ∧ st'.tid = st.tid := by
  obtain ⟨song, ⟨data, pos⟩, nchan, nsamples, startrekker, test_wow, is_mk, maybe_st3,
    maybe_ft2, hmn, tid, samplesize, nord, restart, npat⟩ := st
  simp only at h
  have r1 : slurp_read ⟨data, pos⟩ 22 = ((data.drop pos).take 22, 22, ⟨data, pos + 22⟩) :=
    slurp_read_ok ⟨data, pos⟩ 22 (by simp; omega)
  have r2 : slurp_read ⟨data, pos + 22⟩ 2 = ((data.drop (pos + 22)).take 2, 2, ⟨data, pos + 24⟩) :=
    slurp_read_ok ⟨data, pos + 22⟩ 2 (by simp; omega)
  have g1 : slurp_getc ⟨data, pos + 24⟩ = (((data.getD (pos + 24) 0).val : Int), ⟨data, pos + 25⟩) :=
    slurp_getc_ok ⟨data, pos + 24⟩ (by simp; omega)
  have g2 : slurp_getc ⟨data, pos + 25⟩ = (((data.getD (pos + 25) 0).val : Int), ⟨data, pos + 26⟩) :=
    slurp_getc_ok ⟨data, pos + 25⟩ (by simp; omega)
  have r3 : slurp_read ⟨data, pos + 26⟩ 2 = ((data.drop (pos + 26)).take 2, 2, ⟨data, pos + 28⟩) :=
    slurp_read_ok ⟨data, pos + 26⟩ 2 (by simp; omega)
  have r4 : slurp_read ⟨data, pos + 28⟩ 2 = ((data.drop (pos + 28)).take 2, 2, ⟨data, pos + 30⟩) :=
    slurp_read_ok ⟨data, pos + 28⟩ 2 (by simp; omega)
  have hv : ∀ b : Byte, (if (((b.val : Nat) : Int) % 4294967296).toNat > 64 then 64
      else (((b.val : Nat) : Int) % 4294967296).toNat) = min b.val 64 := by
    intro b; split <;> omega
  unfold mod_load_sample_header
  simp only [r1, r2, g1, g2, r3, r4, ne_eq, not_true_eq_false, if_false, hv]
  refine ⟨_, rfl, rfl, ?_, rfl, rfl, rfl, rfl, ?_, rfl, rfl, rfl, rfl, rfl, rfl, rfl⟩
  · unfold hdr_sample
    simp only [List.take_take, be16_drop_take data pos 30 22 (by omega),
      be16_drop_take data pos 30 26 (by omega), be16_drop_take data pos 30 28 (by omega),
      be16_take_drop, getD_take_drop data pos 30 24 (by omega),
      getD_take_drop data pos 30 25 (by omega)]
    rfl
  · unfold hdr_sample
    simp only [be16_drop_take data pos 30 22 (by omega), be16_take_drop]

theorem mod_load_sample_header_short (X : externals) (st : mod_load_t) (n : Nat)
    (h : ¬ st.fp.pos + 30 ≤ st.fp.data.length) :
    mod_load_sample_header X st n = .error .LOAD_UNSUPPORTED := by
  unfold mod_load_sample_header
  simp only []
  by_cases h1 : (slurp_read st.fp 22).2.1 ≠ 22
  · rw [if_pos h1]
  rw [if_neg h1]
  by_cases h2 : (slurp_read (slurp_read st.fp 22).2.2 2).2.1 ≠ 2
  · rw [if_pos h2]
  rw [if_neg h2]
  by_cases h3 : (slurp_read (slurp_getc (slurp_getc
      (slurp_read (slurp_read st.fp 22).2.2 2).2.2).2).2 2).2.1 ≠ 2
  · rw [if_pos h3]
  rw [if_neg h3]
  by_cases h4 : (slurp_read (slurp_read (slurp_getc (slurp_getc
      (slurp_read (slurp_read st.fp 22).2.2 2).2.2).2).2 2).2.2 2).2.1 ≠ 2
  · rw [if_pos h4]
  exfalso
  simp only [slurp_read_count, slurp_read_pos, slurp_read_data, slurp_getc_pos,
    slurp_getc_data, ne_eq, not_not] at h1 h2 h3 h4
  split_ifs at h3 h4 <;> omega

theorem mod_load_sample_headers_ok (X : externals) : ∀ (k n : Nat) (st : mod_load_t),
    st.fp.pos + 30 * k ≤ st.fp.data.length →
    ∃ st', mod_load_sample_headers X k n st = .ok st' ∧
      st'.fp = ⟨st.fp.data, st.fp.pos + 30 * k⟩ ∧
      (∀ m, st'.song.samples m =
        if n ≤ m ∧ m < n + k then
          hdr_sample X st.his_masters_noise (st.song.samples m)
            ((st.fp.data.drop (st.fp.pos + 30 * (m - n))).take 30)
        else st.song.samples m) ∧
      st'.song.title = st.song.title ∧ st'.song.orderlist = st.song.orderlist ∧
      st'.song.patterns = st.song.patterns ∧ st'.song.pattern_size = st.song.pattern_size ∧
      st'.samplesize = st.samplesize + hdr_length_sum st.fp.data k st.fp.pos ∧
      st'.nchan = st.nchan ∧ st'.nsamples = st.nsamples ∧ st'.startrekker = st.startrekker ∧
      st'.test_wow = st.test_wow ∧ st'.is_mk = st.is_mk ∧
      st'.his_masters_noise = st.his_masters_noise ∧ st'.tid = st.tid := by
  intro k
  induction k with
  | zero =>
    intro n st _
    refine ⟨st, rfl, ?_, ?_, rfl, rfl, rfl, rfl, ?_, rfl, rfl, rfl, rfl, rfl, rfl, rfl⟩
    · simp
    · intro m; rw [if_neg (by omega)]
    · simp [hdr_length_sum]
  | succ k ih =>
    intro n st h
    obtain ⟨st1, e1, f1, s1, t1, o1, p1, ps1, z1, c1, n1, k1, w1, m1, hm1, i1⟩ :=
      mod_load_sample_header_ok X st n (by omega)
    obtain ⟨st2, e2, f2, s2, t2, o2, p2, ps2, z2, c2, n2, k2, w2, m2, hm2, i2⟩ :=
      ih (n + 1) st1 (by rw [f1]; simp only; omega)
    refine ⟨st2, ?_, ?_, ?_, t2.trans t1, o2.trans o1, p2.trans p1, ps2.trans ps1, ?_,
      c2.trans c1, n2.trans n1, k2.trans k1, w2.trans w1, m2.trans m1, hm2.trans hm1,
      i2.trans i1⟩
    · simp only [mod_load_sample_headers, e1, e2]
    · rw [f2, f1]; simp only [slurp_t.mk.injEq, true_and]; omega
    · intro m
      rw [s2 m, s1, hm1, f1]
      simp only
      by_cases hm : m = n
      · subst hm
        rw [if_neg (by omega), if_pos (by omega)]
        simp
      · rw [Function.update_noteq hm]
        by_cases hr : n + 1 ≤ m ∧ m < n + 1 + k
        · rw [if_pos hr, if_pos (by omega)]
          have : st.fp.pos + 30 + 30 * (m - (n + 1)) = st.fp.pos + 30 * (m - n) := by omega
          rw [this]
        · rw [if_neg hr, if_neg (by omega)]
    · rw [z2, z1, f1]
      simp only [hdr_length_sum, hdr_sample]
      omega

theorem mod_load_sample_headers_short (X : externals) : ∀ (k n : Nat) (st : mod_load_t),
    st.fp.pos ≤ st.fp.data.length → ¬ st.fp.pos + 30 * k ≤ st.fp.data.length →
    mod_load_sample_headers X k n st = .error .LOAD_UNSUPPORTED := by
  intro k
  induction k with
  | zero => intro n st h1 h2; omega
  | succ k ih =>
    intro n st h1 h2
    by_cases h : st.fp.pos + 30 ≤ st.fp.data.length
    · obtain ⟨st1, e1, f1, _⟩ := mod_load_sample_header_ok X st n h
      have := ih (n + 1) st1 (by rw [f1]; simp only; omega) (by rw [f1]; simp only; omega)
      simp only [mod_load_sample_headers, e1, this]
    · simp only [mod_load_sample_headers, mod_load_sample_header_short X st n h]

theorem mod_scan_orders_fst : ∀ (k n : Nat) (ol : Nat → Nat) (npat i : Nat),
    (mod_scan_orders k n ol npat).1 i =
      if n ≤ i ∧ i < n + k ∧ ol i ≥ MAX_PATTERNS then ORDER_SKIP else ol i := by
  intro k
  induction k with
  | zero =>
    intro n ol npat i
    rw [if_neg (by omega)]
    rfl
  | succ k ih =>
    intro n ol npat i
    unfold mod_scan_orders
    by_cases h1 : ol n ≥ MAX_PATTERNS
    · rw [if_pos h1, ih]
      by_cases hi : i = n
      · subst hi
        simp only [Function.update_same]
        rw [if_neg (by omega), if_pos ⟨le_refl _, by omega, h1⟩]
      · rw [Function.update_noteq hi]
        by_cases hc : n + 1 ≤ i ∧ i < n + 1 + k ∧ ol i ≥ MAX_PATTERNS
        · rw [if_pos hc, if_pos ⟨by omega, by omega, hc.2.2⟩]
        · rw [if_neg hc, if_neg]
          rintro ⟨a, b, c⟩
          exact hc ⟨by omega, by omega, c⟩
    · rw [if_neg h1]
      have key : ∀ np, (mod_scan_orders k (n + 1) ol np).1 i =
          if n ≤ i ∧ i < n + (k + 1) ∧ ol i ≥ MAX_PATTERNS then ORDER_SKIP else ol i := by
        intro np
        rw [ih]
        by_cases hc : n + 1 ≤ i ∧ i < n + 1 + k ∧ ol i ≥ MAX_PATTERNS
        · rw [if_pos hc, if_pos ⟨by omega, by omega, hc.2.2⟩]
        · rw [if_neg hc, if_neg]
          rintro ⟨a, b, c⟩
          by_cases hi : i = n
          · subst hi; exact h1 c
          · exact hc ⟨by omega, by omega, c⟩
      split
      · exact key _
      · exact key _

theorem mod_scan_orders_snd : ∀ (k n : Nat) (ol : Nat → Nat) (npat : Nat),
    npat ≤ (mod_scan_orders k n ol npat).2 ∧
    (∀ i, n ≤ i → i < n + k → ol i < MAX_PATTERNS → ol i ≤ (mod_scan_orders k n ol npat).2) ∧
    ((mod_scan_orders k n ol npat).2 = npat ∨
      ∃ i, n ≤ i ∧ i < n + k ∧ ol i < MAX_PATTERNS ∧ ol i = (mod_scan_orders k n ol npat).2) := by
  intro k
  induction k with
  | zero =>
    intro n ol npat
    refine ⟨by simp [mod_scan_orders], fun i h1 h2 => by omega, Or.inl (by simp [mod_scan_orders])⟩
  | succ k ih =>
    intro n ol npat
    unfold mod_scan_orders
    by_cases h1 : ol n ≥ MAX_PATTERNS
    · rw [if_pos h1]
      obtain ⟨a, b, c⟩ := ih (n + 1) (Function.update ol n ORDER_SKIP) npat
      refine ⟨a, ?_, ?_⟩
      · intro i hi1 hi2 hi3
        have hne : i ≠ n := by rintro rfl; omega
        have := b i (by omega) (by omega)
        rw [Function.update_noteq hne] at this
        exact this hi3
      · rcases c with c | ⟨i, c1, c2, c3, c4⟩
        · exact Or.inl c
        · have hne : i ≠ n := by omega
          rw [Function.update_noteq hne] at c3 c4
          exact Or.inr ⟨i, by omega, by omega, c3, c4⟩
    · rw [if_neg h1]
      by_cases h2 : ol n > npat
      · rw [if_pos h2]
        obtain ⟨a, b, c⟩ := ih (n + 1) ol (ol n)
        refine ⟨by omega, ?_, ?_⟩
        · intro i hi1 hi2 hi3
          by_cases hne : i = n
          · subst hne; exact a
          · exact b i (by omega) (by omega) hi3
        · rcases c with c | ⟨i, c1, c2, c3, c4⟩
          · exact Or.inr ⟨n, le_refl _, by omega, by omega, c.symm⟩
          · exact Or.inr ⟨i, by omega, by omega, c3, c4⟩
      · rw [if_neg h2]
        obtain ⟨a, b, c⟩ := ih (n + 1) ol npat
        refine ⟨a, ?_, ?_⟩
        · intro i hi1 hi2 hi3
          by_cases hne : i = n
          · subst hne; omega
          · exact b i (by omega) (by omega) hi3
        · rcases c with c | ⟨i, c1, c2, c3, c4⟩
          · exact Or.inl c
          · exact Or.inr ⟨i, by omega, by omega, c3, c4⟩


theorem mod_load_orders_ok (st : mod_load_t) (h : st.fp.pos + 130 ≤ st.fp.data.length) :
    ∃ st', mod_load_orders st = .ok st' ∧
      st'.fp = ⟨st.fp.data, st.fp.pos + 130⟩ ∧
      st'.nord = ((st.fp.data.getD st.fp.pos 0).val : Int) ∧
      st'.restart = (st.fp.data.getD (st.fp.pos + 1) 0).val ∧
      st'.song.samples = st.song.samples ∧ st'.song.title = st.song.title ∧
      st'.song.patterns = st.song.patterns ∧ st'.song.pattern_size = st.song.pattern_size ∧
      st'.samplesize = st.samplesize ∧ st'.nsamples = st.nsamples ∧
      st'.test_wow = st.test_wow ∧ st'.is_mk = st.is_mk ∧
      st'.his_masters_noise = st.his_masters_noise ∧ st'.tid = st.tid ∧
      st'.maybe_st3 = st.maybe_st3 ∧ st'.maybe_ft2 = st.maybe_ft2 ∧
      st'.startrekker = (st.startrekker &&
        !(orderlist_has_odd (raw_orders st.fp.data (st.fp.pos + 2) st.song.orderlist) 128)) ∧
      st'.nchan = (if (st.startrekker &&
        orderlist_has_odd (raw_orders st.fp.data (st.fp.pos + 2) st.song.orderlist) 128) = true
        then 4 else st.nchan) ∧
      st'.npat = (mod_scan_orders 128 0 (halve_orders st'.startrekker
        (raw_orders st.fp.data (st.fp.pos + 2) st.song.orderlist)) 0).2 ∧
      ∀ i, st'.song.orderlist i =
        if st'.nord ≤ (i : Int) ∧ i < MAX_ORDERS then ORDER_LAST
        else (mod_scan_orders 128 0 (halve_orders st'.startrekker
          (raw_orders st.fp.data (st.fp.pos + 2) st.song.orderlist)) 0).1 i := by
  obtain ⟨song, ⟨data, pos⟩, nchan, nsamples, startrekker, test_wow, is_mk, maybe_st3,
    maybe_ft2, hmn, tid, samplesize, nord, restart, npat⟩ := st
  simp only at h
  have g1 : slurp_getc ⟨data, pos⟩ = (((data.getD pos 0).val : Int), ⟨data, pos + 1⟩) :=
    slurp_getc_ok ⟨data, pos⟩ (by simp; omega)
  have g2 : slurp_getc ⟨data, pos + 1⟩ = (((data.getD (pos + 1) 0).val : Int), ⟨data, pos + 2⟩) :=
    slurp_getc_ok ⟨data, pos + 1⟩ (by simp; omega)
  have r1 : slurp_read ⟨data, pos + 2⟩ 128 =
      ((data.drop (pos + 2)).take 128, 128, ⟨data, pos + 130⟩) :=
    slurp_read_ok ⟨data, pos + 2⟩ 128 (by simp; omega)
  have hraw : ∀ i, (if i < 128 then (((data.drop (pos + 2)).take 128).getD i 0).val
      else song.orderlist i) = raw_orders data (pos + 2) song.orderlist i := by
    intro i
    unfold raw_orders
    by_cases hi : i < 128
    · rw [if_pos hi, if_pos hi, getD_take_drop data (pos + 2) 128 i hi]
    · rw [if_neg hi, if_neg hi]
  have hr : ∀ b : Byte, (((b.val : Nat) : Int) % 256).toNat = b.val := by intro b; omega
  have hb : ∀ x : Bool, (startrekker && !(startrekker && x)) = (startrekker && !x) := by
    intro x; cases startrekker <;> simp
  unfold mod_load_orders
  simp only [g1, g2, r1, ne_eq, not_true_eq_false, if_false, hraw, hr, hb]
  refine ⟨_, rfl, rfl, rfl, rfl, rfl, rfl, rfl, rfl, rfl, rfl, rfl, rfl, rfl, rfl, rfl, rfl, rfl,
    rfl, rfl, ?_⟩
  intro i
  rfl

theorem mod_load_orders_short (st : mod_load_t) (h : ¬ st.fp.pos + 130 ≤ st.fp.data.length) :
    mod_load_orders st = .error .LOAD_UNSUPPORTED := by
  unfold mod_load_orders
  simp only []
  by_cases h1 : (slurp_read (slurp_getc (slurp_getc st.fp).2).2 128).2.1 ≠ 128
  · rw [if_pos h1]
  exfalso
  simp only [slurp_read_count, slurp_read_pos, slurp_read_data, slurp_getc_pos,
    slurp_getc_data, ne_eq, not_not] at h1
  split_ifs at h1 <;> omega

theorem mod_load_head_ok (X : externals) (song : song_t) (fp : slurp_t) (t : mod_tag_t)
    (h : 150 + 30 * t.nsamples ≤ fp.data.length) :
    ∃ st, mod_load_head X song fp t = .ok st ∧ mod_head_spec X song fp.data t st := by
  obtain ⟨data, pos⟩ := fp
  simp only at h
  have r1 : slurp_read (slurp_rewind ⟨data, pos⟩) 20 = (data.take 20, 20, ⟨data, 20⟩) := by
    rw [slurp_read_ok _ _ (by simp [slurp_rewind]; omega)]; simp [slurp_rewind]
  obtain ⟨st1, e1, f1, s1, t1, o1, p1, ps1, z1, c1, n1, k1, w1, m1, hm1, i1⟩ :=
    mod_load_sample_headers_ok X t.nsamples 1
      { song := { song with title := buf_write song.title 0 (data.take 20 ++ [0]) },
        fp := ⟨data, 20⟩, nchan := t.nchan, nsamples := t.nsamples,
        startrekker := t.startrekker, test_wow := t.test_wow, is_mk := t.is_mk,
        maybe_st3 := t.maybe_st3, maybe_ft2 := t.maybe_ft2,
        his_masters_noise := t.his_masters_noise, tid := t.tid,
        samplesize := 0, nord := 0, restart := 0, npat := 0 } (by simp only; omega)
  simp only at f1 s1 t1 o1 p1 ps1 z1 c1 n1 k1 w1 m1 hm1 i1
  obtain ⟨st2, e2, f2, no2, re2, s2, t2, p2, ps2, z2, n2, w2, m2, hm2, i2, _, _, k2, c2, np2, o2⟩ :=
    mod_load_orders_ok st1 (by rw [f1]; simp only; omega)
  rw [f1] at f2 no2 re2 k2 c2 np2 o2
  simp only at f2 no2 re2 k2 c2 np2 o2
  rw [o1, k1] at k2 c2
  rw [o1] at np2 o2
  rw [c1] at c2
  have hhead : mod_load_head X song ⟨data, pos⟩ t =
      .ok (mod_test_wow { st2 with tid := mod_refine_tid st2 }) := by
    unfold mod_load_head
    simp only [r1, e1, e2]
  refine ⟨_, hhead, ?_⟩
  have hw : (mod_test_wow { st2 with tid := mod_refine_tid st2 }).song = st2.song := by
    unfold mod_test_wow; simp only; split_ifs <;> rfl
  have hwn : (mod_test_wow { st2 with tid := mod_refine_tid st2 }).npat = st2.npat := by
    unfold mod_test_wow; simp only; split_ifs <;> rfl
  have hwz : (mod_test_wow { st2 with tid := mod_refine_tid st2 }).samplesize
      = st2.samplesize := by
    unfold mod_test_wow; simp only; split_ifs <;> rfl
  have hws : (mod_test_wow { st2 with tid := mod_refine_tid st2 }).startrekker
      = st2.startrekker := by
    unfold mod_test_wow; simp only; split_ifs <;> rfl
  have hwo : (mod_test_wow { st2 with tid := mod_refine_tid st2 }).nord = st2.nord := by
    unfold mod_test_wow; simp only; split_ifs <;> rfl
  have e20 : 20 + 30 * t.nsamples + 2 = 20 + 30 * t.nsamples + 2 := rfl
  constructor
  · unfold mod_test_wow; simp only; split_ifs <;> simp [slurp_seek_end, f2]
  · unfold mod_test_wow; simp only [w2, w1]
    by_cases hwow : t.test_wow = true
    · rw [if_pos hwow, if_pos hwow]; split_ifs <;> simp [slurp_seek_end, f2]
    · rw [if_neg hwow, if_neg hwow]; simp only [f2]; omega
  · unfold mod_test_wow; simp only; split_ifs <;> simp [n2, n1]
  · unfold mod_test_wow; simp only; split_ifs <;> simp [m2, m1]
  · rw [hw, t2, t1]
  · intro m; rw [hw, s2, s1 m]
  · rw [hw, p2, p1]
  · rw [hw, ps2, ps1]
  · rw [hwz, z2, z1]; simp
  · rw [hwo, no2]
  · unfold mod_test_wow; simp only; split_ifs <;> simp [re2]
  · rw [hws, k2]
  · rw [hwn, hws, np2]
  · intro i; rw [hw, hwo, hws, o2 i]
  · rw [hwn, hwz]
    unfold mod_test_wow
    simp only [w2, w1]
    by_cases hwow : t.test_wow = true
    · rw [if_pos hwow]
      simp only [slurp_seek_end, slurp_tell, f2]
      by_cases hl : data.length = 2048 * st2.npat + st2.samplesize + 3132
      · rw [if_pos hl, if_pos ⟨hwow, hl⟩]
      · rw [if_neg hl, if_neg (fun hc => hl hc.2)]
        exact c2
    · rw [if_neg hwow, if_neg (fun hc => hwow hc.1)]
      exact c2

theorem mod_load_head_core_short (X : externals) (st0 : mod_load_t) (n : Nat)
    (h0 : st0.fp.pos ≤ st0.fp.data.length)
    (h : ¬ st0.fp.pos + 30 * n + 130 ≤ st0.fp.data.length) :
    (match mod_load_sample_headers X n 1 st0 with
      | .error e => .error e
      | .ok st =>
        match mod_load_orders st with
        | .error e => .error e
        | .ok st => Except.ok (mod_test_wow { st with tid := mod_refine_tid st }))
      = (Except.error load_error.LOAD_UNSUPPORTED : Except load_error mod_load_t) := by
  by_cases hh : st0.fp.pos + 30 * n ≤ st0.fp.data.length
  · obtain ⟨st1, e1, f1, _⟩ := mod_load_sample_headers_ok X n 1 st0 hh
    rw [e1]
    simp only
    rw [mod_load_orders_short st1]
    rw [f1]
    simp only
    omega
  · rw [mod_load_sample_headers_short X n 1 st0 h0 hh]

theorem mod_load_head_short (X : externals) (song : song_t) (fp : slurp_t) (t : mod_tag_t)
    (h : ¬ 150 + 30 * t.nsamples ≤ fp.data.length) :
    mod_load_head X song fp t = .error .LOAD_UNSUPPORTED := by
  obtain ⟨data, pos⟩ := fp
  simp only at h
  have hp : (slurp_read (slurp_rewind ⟨data, pos⟩) 20).2.2.pos = min 20 data.length := by
    simp [slurp_read_pos, slurp_rewind]
  have hd : (slurp_read (slurp_rewind ⟨data, pos⟩) 20).2.2.data = data := by
    simp [slurp_read_data, slurp_rewind]
  unfold mod_load_head
  simp only
  apply mod_load_head_core_short
  · simp only [hp, hd]; omega
  · simp only [hp, hd]; omega

/-! ## The decoder: the tag check -/

theorem ite_eq_cases {α : Type} {c : Prop} [Decidable c] {r1 r2 v : α}
    (h : (if c then r1 else r2) = v) : (c ∧ r1 = v) ∨ (¬ c ∧ r2 = v) := by
  by_cases hc : c
  · rw [if_pos hc] at h; exact Or.inl ⟨hc, h⟩
  · rw [if_neg hc] at h; exact Or.inr ⟨hc, h⟩

theorem mod_check_tag_nchan_pos (tag : List Byte) (force : Bool) (t : mod_tag_t)
    (h : mod_check_tag tag force = some t) : 1 ≤ t.nchan := by
  unfold mod_check_tag at h
  simp only [] at h
  rcases ite_eq_cases h with ⟨_, h⟩ | ⟨_, h⟩
  · cases h; simp
  rcases ite_eq_cases h with ⟨_, h⟩ | ⟨_, h⟩
  · cases h; simp
  rcases ite_eq_cases h with ⟨_, h⟩ | ⟨_, h⟩
  · cases h; simp
  rcases ite_eq_cases h with ⟨c, h⟩ | ⟨_, h⟩
  · cases h; simp only; omega
  rcases ite_eq_cases h with ⟨_, h⟩ | ⟨_, h⟩
  · cases h; simp
  rcases ite_eq_cases h with ⟨_, h⟩ | ⟨_, h⟩
  · cases h; simp
  rcases ite_eq_cases h with ⟨c, h⟩ | ⟨_, h⟩
  · rcases ite_eq_cases h with ⟨_, h⟩ | ⟨_, h⟩
    · cases h; simp only; omega
    · cases h; simp only; omega
  rcases ite_eq_cases h with ⟨c, h⟩ | ⟨_, h⟩
  · rcases ite_eq_cases h with ⟨_, h⟩ | ⟨_, h⟩
    · cases h; simp only; omega
    · cases h; simp only; omega
  rcases ite_eq_cases h with ⟨c, h⟩ | ⟨_, h⟩
  · cases h; simp only; omega
  rcases ite_eq_cases h with ⟨c, h⟩ | ⟨_, h⟩
  · cases h; simp
  · cases h

theorem mod_check_tag_over_max (a b c d : Byte) (force : Bool) :
    (∀ t, mod_check_tag [a, b, c, d] force = some t →
      (t.nchan > MAX_CHANNELS ↔ tag_channels_over_max [a, b, c, d])) ∧
    (mod_check_tag [a, b, c, d] force = none → ¬ tag_channels_over_max [a, b, c, d]) := by
  have key : ∀ r, mod_check_tag [a, b, c, d] force = r →
      (∀ t, r = some t → (t.nchan > MAX_CHANNELS ↔ tag_channels_over_max [a, b, c, d])) ∧
      (r = none → ¬ tag_channels_over_max [a, b, c, d]) := by
    intro r h
    unfold mod_check_tag at h
    simp only [List.getD_cons_zero, List.getD_cons_succ] at h
    unfold tag_channels_over_max MAX_CHANNELS
    simp only [List.getD_cons_zero, List.getD_cons_succ]
    rcases ite_eq_cases h with ⟨hc, h⟩ | ⟨_, h⟩
    · subst h
      simp [memeq, cstr, Fin.ext_iff, Fin.ofNat] at hc
      refine ⟨fun t ht => ?_, fun hn => by cases hn⟩
      cases ht; simp only; omega
    rcases ite_eq_cases h with ⟨hc, h⟩ | ⟨_, h⟩
    · subst h
      simp [memeq, cstr, Fin.ext_iff, Fin.ofNat] at hc
      refine ⟨fun t ht => ?_, fun hn => by cases hn⟩
      cases ht; simp only; omega
    rcases ite_eq_cases h with ⟨hc, h⟩ | ⟨_, h⟩
    · subst h
      simp [memeq, cstr, Fin.ext_iff, Fin.ofNat] at hc
      refine ⟨fun t ht => ?_, fun hn => by cases hn⟩
      cases ht; simp only; omega
    rcases ite_eq_cases h with ⟨hc, h⟩ | ⟨_, h⟩
    · subst h
      simp [memeq, cstr, Fin.ext_iff, Fin.ofNat] at hc
      refine ⟨fun t ht => ?_, fun hn => by cases hn⟩
      cases ht; simp only; omega
    rcases ite_eq_cases h with ⟨hc, h⟩ | ⟨_, h⟩
    · subst h
      simp [memeq, cstr, Fin.ext_iff, Fin.ofNat] at hc
      refine ⟨fun t ht => ?_, fun hn => by cases hn⟩
      cases ht; simp only; omega
    rcases ite_eq_cases h with ⟨hc, h⟩ | ⟨_, h⟩
    · subst h
      simp [memeq, cstr, Fin.ext_iff, Fin.ofNat] at hc
      refine ⟨fun t ht => ?_, fun hn => by cases hn⟩
      cases ht; simp only; omega
    rcases ite_eq_cases h with ⟨hc, h⟩ | ⟨_, h⟩
    · simp [memeq, cstr, Fin.ext_iff, Fin.ofNat] at hc
      rcases ite_eq_cases h with ⟨_, h⟩ | ⟨_, h⟩
      · subst h
        refine ⟨fun t ht => ?_, fun hn => by cases hn⟩
        cases ht; simp only; omega
      · subst h
        refine ⟨fun t ht => ?_, fun hn => by cases hn⟩
        cases ht; simp only; omega
    rcases ite_eq_cases h with ⟨hc, h⟩ | ⟨hnn, h⟩
    · simp [memeq, cstr, Fin.ext_iff, Fin.ofNat] at hc
      rcases ite_eq_cases h with ⟨_, h⟩ | ⟨_, h⟩
      · subst h
        refine ⟨fun t ht => ?_, fun hn => by cases hn⟩
        cases ht; simp only; omega
      · subst h
        refine ⟨fun t ht => ?_, fun hn => by cases hn⟩
        cases ht; simp only; omega
    rcases ite_eq_cases h with ⟨hc, h⟩ | ⟨_, h⟩
    · subst h
      simp [memeq, cstr, Fin.ext_iff, Fin.ofNat] at hc
      refine ⟨fun t ht => ?_, fun hn => by cases hn⟩
      cases ht; simp only; omega
    rcases ite_eq_cases h with ⟨hc, h⟩ | ⟨_, h⟩
    · subst h
      refine ⟨fun t ht => ?_, fun hn => by cases hn⟩
      cases ht; simp only; omega
    · subst h
      constructor
      · intro t ht; cases ht
      · intro _; omega
  exact ⟨fun t ht => (key _ ht).1 t rfl, fun hn => (key _ hn).2 rfl⟩

theorem memeq_full (tag l : List Byte) (n : Nat) (h : memeq tag l n = true)
    (h1 : tag.length ≤ n) (h2 : l.length ≤ n) : tag = l := by
  unfold memeq at h
  rw [List.take_of_length_le h1, List.take_of_length_le h2] at h
  simpa using h

theorem memeq_take (tag l : List Byte) (n : Nat) (h : memeq tag l n = true)
    (h2 : l.length ≤ n) : tag.take n = l := by
  unfold memeq at h
  rw [List.take_of_length_le h2] at h
  simpa using h

theorem fixed_tags_length : ∀ l ∈ fixed_tags, l.length ≤ 4 := by decide

theorem mod_check_tag_unrecognised (a b c d : Byte) (force : Bool)
    (hnot : ¬ tag_recognised [a, b, c, d]) :
    mod_check_tag [a, b, c, d] force = if force = true then some legacy_tag else none := by
  have hfix : ∀ l : List Byte, l ∈ fixed_tags → memeq [a, b, c, d] l 4 = true → False := by
    intro l hl hm
    have hl4 : l.length ≤ 4 := fixed_tags_length l hl
    exact hnot (Or.inl (by rw [memeq_full _ _ 4 hm (by simp) hl4]; exact hl))
  have key : ∀ r, mod_check_tag [a, b, c, d] force = r →
      r = if force = true then some legacy_tag else none := by
    intro r h
    unfold mod_check_tag at h
    simp only [List.getD_cons_zero, List.getD_cons_succ] at h
    rcases ite_eq_cases h with ⟨hc, h⟩ | ⟨_, h⟩
    · exact (hfix _ (by decide) hc).elim
    rcases ite_eq_cases h with ⟨hc, h⟩ | ⟨_, h⟩
    · exact (hfix _ (by decide) hc).elim
    rcases ite_eq_cases h with ⟨hc, h⟩ | ⟨_, h⟩
    · rcases hc with hc | hc | hc <;> exact (hfix _ (by decide) hc).elim
    rcases ite_eq_cases h with ⟨hc, h⟩ | ⟨_, h⟩
    · exfalso
      apply hnot
      left
      simp [memeq, cstr, Fin.ext_iff, Fin.ofNat] at hc
      rcases hc with ⟨⟨h1, h2, h3⟩ | ⟨h1, h2, h3⟩, h4 | h4⟩
      · have e : [a, b, c, d] = cstr "FLT4" := by
          simp [cstr, Fin.ext_iff, Fin.ofNat]; omega
        rw [e]; decide
      · have e : [a, b, c, d] = cstr "FLT8" := by
          simp [cstr, Fin.ext_iff, Fin.ofNat]; omega
        rw [e]; decide
      · have e : [a, b, c, d] = cstr "EXO4" := by
          simp [cstr, Fin.ext_iff, Fin.ofNat]; omega
        rw [e]; decide
      · have e : [a, b, c, d] = cstr "EXO8" := by
          simp [cstr, Fin.ext_iff, Fin.ofNat]; omega
        rw [e]; decide
    rcases ite_eq_cases h with ⟨hc, h⟩ | ⟨_, h⟩
    · rcases hc with hc | hc <;> exact (hfix _ (by decide) hc).elim
    rcases ite_eq_cases h with ⟨hc, h⟩ | ⟨_, h⟩
    · rcases hc with hc | hc <;> exact (hfix _ (by decide) hc).elim
    rcases ite_eq_cases h with ⟨hc, h⟩ | ⟨_, h⟩
    · exfalso
      apply hnot
      right; left
      refine ⟨by simp only [is_digit_1_9, List.getD_cons_zero]; omega, ?_⟩
      exact memeq_full _ _ 3 hc.2.2 (by simp) (by decide)
    rcases ite_eq_cases h with ⟨hc, h⟩ | ⟨_, h⟩
    · exfalso
      apply hnot
      right; right; left
      simp only [is_digit_1_9, is_digit_0_9, List.getD_cons_zero, List.getD_cons_succ,
        cstr, String.toList, List.map, List.drop, List.cons.injEq, and_true, Fin.ext_iff,
        Fin.ofNat, Char.reduceToNat, Nat.reduceMod, Nat.reduceAdd]
      omega
    rcases ite_eq_cases h with ⟨hc, h⟩ | ⟨_, h⟩
    · exfalso
      apply hnot
      right; right; right
      refine ⟨memeq_take _ _ 3 hc.1 (by decide), ?_⟩
      simp only [is_digit_1_9, List.getD_cons_zero, List.getD_cons_succ]
      omega
    exact h.symm
  exact key _ rfl

/-! ## The decoder: patterns and the data part -/

theorem mod_load_cells_ok (X : externals) : ∀ (k : Nat) (fp : slurp_t) (pat : List song_note_t)
    (idx : Nat), fp.pos + 4 * k ≤ fp.data.length →
    ∃ pat', mod_load_cells X k fp pat idx = some (⟨fp.data, fp.pos + 4 * k⟩, pat', idx + k) ∧
      pat'.length = pat.length ∧
      ∀ j, pat'[j]? =
        if idx ≤ j ∧ j < idx + k ∧ j < pat.length then
          some (cell_at X fp.data (fp.pos + 4 * (j - idx)))
        else pat[j]? := by
  intro k
  induction k with
  | zero =>
    intro fp pat idx _
    refine ⟨pat, by simp [mod_load_cells], rfl, fun j => ?_⟩
    rw [if_neg (by omega)]
  | succ k ih =>
    intro fp pat idx h
    obtain ⟨data, pos⟩ := fp
    simp only at h
    have r : slurp_read ⟨data, pos⟩ 4 = ((data.drop pos).take 4, 4, ⟨data, pos + 4⟩) :=
      slurp_read_ok ⟨data, pos⟩ 4 (by simp; omega)
    obtain ⟨pat', e, hl, hj⟩ := ih ⟨data, pos + 4⟩
      (pat.set idx (X.csf_import_mod_effect (mod_import_note X ((data.drop pos).take 4))))
      (idx + 1) (by simp only; omega)
    refine ⟨pat', ?_, ?_, ?_⟩
    · unfold mod_load_cells
      simp only [r, ne_eq, not_true_eq_false, if_false, e]
      simp only [Option.some.injEq, Prod.mk.injEq, slurp_t.mk.injEq, true_and, and_true]
      omega
    · rw [hl, List.length_set]
    · intro j
      rw [hj j, List.length_set, List.getElem?_set]
      simp only
      by_cases hji : idx = j
      · subst hji
        rw [if_neg (by omega)]
        by_cases hlt : idx < pat.length
        · rw [if_pos rfl, if_pos hlt, if_pos ⟨le_refl _, by omega, hlt⟩]
          simp [cell_at]
        · rw [if_pos rfl, if_neg hlt, if_neg (by omega)]
          rw [List.getElem?_eq_none (by omega)]
      · rw [if_neg hji]
        by_cases hc : idx + 1 ≤ j ∧ j < idx + 1 + k ∧ j < pat.length
        · rw [if_pos hc, if_pos ⟨by omega, by omega, hc.2.2⟩]
          have : pos + 4 + 4 * (j - (idx + 1)) = pos + 4 * (j - idx) := by omega
          rw [this]
        · rw [if_neg hc, if_neg (by omega)]

theorem mod_load_cells_short (X : externals) : ∀ (k : Nat) (fp : slurp_t)
    (pat : List song_note_t) (idx : Nat), ¬ fp.pos + 4 * k ≤ fp.data.length →
    fp.pos ≤ fp.data.length → mod_load_cells X k fp pat idx = none := by
  intro k
  induction k with
  | zero => intro fp pat idx h h0; omega
  | succ k ih =>
    intro fp pat idx h h0
    unfold mod_load_cells
    simp only
    by_cases hr : (slurp_read fp 4).2.1 ≠ 4
    · rw [if_pos hr]
    · rw [if_neg hr]
      apply ih
      · simp only [slurp_read_pos, slurp_read_data]
        simp only [slurp_read_count, ne_eq, not_not] at hr
        omega
      · simp only [slurp_read_pos, slurp_read_data]
        omega


theorem mod_load_rows_ok (X : externals) (width skip : Nat) (hw : width + skip = 64) :
    ∀ (k : Nat) (fp : slurp_t) (pat : List song_note_t) (idx : Nat),
    fp.pos + 4 * (width * k) ≤ fp.data.length →
    ∃ pat', mod_load_rows X width skip k fp pat idx
        = some (⟨fp.data, fp.pos + 4 * (width * k)⟩, pat') ∧
      pat'.length = pat.length ∧
      ∀ j, pat'[j]? =
        if idx ≤ j ∧ (j - idx) / 64 < k ∧ (j - idx) % 64 < width ∧ j < pat.length then
          some (cell_at X fp.data (fp.pos + 4 * (width * ((j - idx) / 64) + (j - idx) % 64)))
        else pat[j]? := by
  intro k
  induction k with
  | zero =>
    intro fp pat idx _
    refine ⟨pat, by simp [mod_load_rows], rfl, fun j => ?_⟩
    rw [if_neg (by omega)]
  | succ k ih =>
    intro fp pat idx h
    obtain ⟨data, pos⟩ := fp
    simp only at h
    have hm : width * (k + 1) = width * k + width := Nat.mul_succ width k
    obtain ⟨pat1, e1, l1, j1⟩ := mod_load_cells_ok X width ⟨data, pos⟩ pat idx
      (by simp only; omega)
    obtain ⟨pat2, e2, l2, j2⟩ := ih ⟨data, pos + 4 * width⟩ pat1 (idx + width + skip)
      (by simp only; omega)
    simp only at e1 j1 e2 j2
    refine ⟨pat2, ?_, by rw [l2, l1], ?_⟩
    · unfold mod_load_rows
      simp only [e1, e2]
      simp only [Option.some.injEq, Prod.mk.injEq, slurp_t.mk.injEq, true_and, and_true]
      omega
    · intro j
      rw [j2 j, j1 j, l1]
      by_cases hc : idx + width + skip ≤ j ∧ (j - (idx + width + skip)) / 64 < k ∧
          (j - (idx + width + skip)) % 64 < width ∧ j < pat.length
      · have hq : (j - idx) / 64 = (j - (idx + width + skip)) / 64 + 1 := by omega
        have hr : (j - idx) % 64 = (j - (idx + width + skip)) % 64 := by omega
        rw [if_pos hc, if_pos ⟨by omega, by omega, by omega, hc.2.2.2⟩]
        rw [hq, hr, Nat.mul_succ]
        have e4 : ∀ Q R : Nat, pos + 4 * width + 4 * (Q + R) = pos + 4 * (Q + width + R) := by
          intro Q R; omega
        rw [e4]
      · rw [if_neg hc]
        by_cases hd : idx ≤ j ∧ j < idx + width ∧ j < pat.length
        · have hq : (j - idx) / 64 = 0 := by omega
          have hr : (j - idx) % 64 = j - idx := by omega
          rw [if_pos hd, if_pos ⟨hd.1, by omega, by omega, hd.2.2⟩, hq, hr]
          simp
        · rw [if_neg hd, if_neg]
          rintro ⟨a1, a2, a3, a4⟩
          by_cases hlt : j < idx + 64
          · apply hd
            refine ⟨a1, ?_, a4⟩
            omega
          · apply hc
            refine ⟨by omega, by omega, by omega, a4⟩

theorem mod_load_rows_short (X : externals) (width skip : Nat) :
    ∀ (k : Nat) (fp : slurp_t) (pat : List song_note_t) (idx : Nat),
    ¬ fp.pos + 4 * (width * k) ≤ fp.data.length → fp.pos ≤ fp.data.length →
    mod_load_rows X width skip k fp pat idx = none := by
  intro k
  induction k with
  | zero => intro fp pat idx h h0; simp at h; omega
  | succ k ih =>
    intro fp pat idx h h0
    have hm : width * (k + 1) = width * k + width := Nat.mul_succ width k
    unfold mod_load_rows
    by_cases hh : fp.pos + 4 * width ≤ fp.data.length
    · obtain ⟨pat1, e1, _, _⟩ := mod_load_cells_ok X width fp pat idx hh
      rw [e1]
      simp only
      apply ih
      · simp only; omega
      · simp only; omega
    · rw [mod_load_cells_short X width fp pat idx hh h0]


theorem csf_allocate_pattern_getElem (j : Nat) :
    (csf_allocate_pattern 64)[j]? = if j < 4096 then some blank_note else none := by
  unfold csf_allocate_pattern MAX_CHANNELS
  rw [List.getElem?_replicate]

theorem mod_load_pattern_ok (X : externals) (startrekker : Bool) (nchan : Nat) (fp : slurp_t)
    (hn : nchan ≤ 64) (h : fp.pos + pattern_bytes startrekker nchan ≤ fp.data.length) :
    ∃ pat, mod_load_pattern X startrekker nchan fp
        = some (⟨fp.data, fp.pos + pattern_bytes startrekker nchan⟩, pat) ∧
      pat.length = 4096 ∧
      ∀ j, j < 4096 → pat[j]? =
        some (pattern_cell X fp.data startrekker nchan fp.pos (j / 64) (j % 64)) := by
  obtain ⟨data, pos⟩ := fp
  simp only at h
  have hlen : (csf_allocate_pattern 64).length = 4096 := by
    simp only [csf_allocate_pattern, MAX_CHANNELS, List.length_replicate]
  have hget := csf_allocate_pattern_getElem
  unfold mod_load_pattern
  generalize csf_allocate_pattern 64 = P0 at hlen hget
  cases startrekker with
  | true =>
    simp only [pattern_bytes, if_true] at h
    obtain ⟨pat1, e1, l1, j1⟩ := mod_load_rows_ok X 4 60 (by omega) 64 ⟨data, pos⟩
      P0 0 (by simp only; omega)
    obtain ⟨pat2, e2, l2, j2⟩ := mod_load_rows_ok X 4 60 (by omega) 64
      ⟨data, pos + 4 * (4 * 64)⟩ pat1 4 (by simp only; omega)
    simp only at e1 j1 e2 j2
    refine ⟨pat2, ?_, by rw [l2, l1, hlen], ?_⟩
    · simp only [if_true, e1, e2, pattern_bytes]
    · intro j hj
      rw [j2 j, j1 j, l1, hlen, hget, if_pos hj]
      unfold pattern_cell
      simp only [if_true]
      by_cases h4 : j % 64 < 4
      · rw [if_neg (by omega), if_pos ⟨by omega, by omega, by omega, hj⟩, if_pos h4]
        congr 2
        omega
      · by_cases h8 : j % 64 < 8
        · rw [if_pos ⟨by omega, by omega, by omega, hj⟩, if_neg h4, if_pos h8]
          congr 2
          omega
        · rw [if_neg (by omega), if_neg (by omega), if_neg h4, if_neg h8]
  | false =>
    simp only [pattern_bytes] at h
    obtain ⟨pat1, e1, l1, j1⟩ := mod_load_rows_ok X nchan (64 - nchan) (by omega) 64 ⟨data, pos⟩
      P0 0 (by simp only; exact h)
    simp only at e1 j1
    refine ⟨pat1, ?_, by rw [l1, hlen], ?_⟩
    · simp only [e1, pattern_bytes, Bool.false_eq_true, if_false]
    · intro j hj
      rw [j1 j, hlen, hget, if_pos hj]
      unfold pattern_cell
      simp only [Bool.false_eq_true, if_false, Nat.sub_zero]
      by_cases hc : j % 64 < nchan
      · rw [if_pos ⟨by omega, by omega, hc, hj⟩, if_pos hc]
      · rw [if_neg (by omega), if_neg hc]

theorem mod_load_pattern_short (X : externals) (startrekker : Bool) (nchan : Nat) (fp : slurp_t)
    (h : ¬ fp.pos + pattern_bytes startrekker nchan ≤ fp.data.length)
    (h0 : fp.pos ≤ fp.data.length) :
    mod_load_pattern X startrekker nchan fp = none := by
  cases startrekker with
  | true =>
    simp only [pattern_bytes, if_true] at h
    unfold mod_load_pattern
    simp only [if_true]
    by_cases hh : fp.pos + 4 * (4 * 64) ≤ fp.data.length
    · obtain ⟨pat1, e1, _, _⟩ := mod_load_rows_ok X 4 60 (by omega) 64 fp
        (csf_allocate_pattern 64) 0 hh
      rw [e1]
      simp only
      apply mod_load_rows_short
      · simp only; omega
      · simp only; omega
    · rw [mod_load_rows_short X 4 60 64 fp _ 0 hh h0]
  | false =>
    simp only [pattern_bytes] at h
    unfold mod_load_pattern
    simp only [Bool.false_eq_true, if_false]
    exact mod_load_rows_short X nchan (64 - nchan) 64 fp _ 0 h h0


theorem mod_load_patterns_ok (X : externals) (startrekker : Bool) (nchan : Nat)
    (hn : nchan ≤ 64) : ∀ (k pat0 : Nat) (song : song_t) (fp : slurp_t),
    fp.pos + k * pattern_bytes startrekker nchan ≤ fp.data.length →
    ∃ song', mod_load_patterns X startrekker nchan k pat0 song fp
        = .ok (song', ⟨fp.data, fp.pos + k * pattern_bytes startrekker nchan⟩) ∧
      song'.title = song.title ∧ song'.samples = song.samples ∧
      song'.orderlist = song.orderlist ∧ song'.channels = song.channels ∧
      song'.flags = song.flags ∧ song'.pan_separation = song.pan_separation ∧
      song'.tracker_id = song.tracker_id ∧
      (∀ p, ¬ (pat0 ≤ p ∧ p < pat0 + k) →
        song'.patterns p = song.patterns p ∧ song'.pattern_size p = song.pattern_size p) ∧
      (∀ p, pat0 ≤ p → p < pat0 + k → song'.pattern_size p = 64 ∧
        ∃ pt, song'.patterns p = some pt ∧ pt.length = 4096 ∧
          ∀ j, j < 4096 → pt[j]? = some (pattern_cell X fp.data startrekker nchan
            (fp.pos + (p - pat0) * pattern_bytes startrekker nchan) (j / 64) (j % 64))) := by
  intro k
  induction k with
  | zero =>
    intro pat0 song fp _
    refine ⟨song, by simp [mod_load_patterns], rfl, rfl, rfl, rfl, rfl, rfl, rfl,
      fun p _ => ⟨rfl, rfl⟩, fun p h1 h2 => by omega⟩
  | succ k ih =>
    intro pat0 song fp h
    have hm : (k + 1) * pattern_bytes startrekker nchan
        = k * pattern_bytes startrekker nchan + pattern_bytes startrekker nchan :=
      Nat.succ_mul k _
    obtain ⟨pt, e1, l1, j1⟩ := mod_load_pattern_ok X startrekker nchan fp hn (by omega)
    obtain ⟨song', e2, a1, a2, a3, a4, a5, a6, a7, hout, hin⟩ := ih (pat0 + 1)
      { song with patterns := Function.update song.patterns pat0 (some pt),
                  pattern_size := Function.update song.pattern_size pat0 64,
                  pattern_alloc_size := Function.update song.pattern_alloc_size pat0 64 }
      ⟨fp.data, fp.pos + pattern_bytes startrekker nchan⟩ (by simp only; omega)
    simp only at e2 a1 a2 a3 a4 a5 a6 a7 hout hin
    refine ⟨song', ?_, a1, a2, a3, a4, a5, a6, a7, ?_, ?_⟩
    · unfold mod_load_patterns
      simp only [e1, e2]
      simp only [Except.ok.injEq, Prod.mk.injEq, slurp_t.mk.injEq, true_and]
      omega
    · intro p hp
      have hne : p ≠ pat0 := by omega
      obtain ⟨b1, b2⟩ := hout p (by omega)
      rw [b1, b2, Function.update_noteq hne, Function.update_noteq hne]
      exact ⟨rfl, rfl⟩
    · intro p hp1 hp2
      by_cases hp : p = pat0
      · subst hp
        obtain ⟨b1, b2⟩ := hout p (by omega)
        rw [b1, b2, Function.update_same, Function.update_same]
        refine ⟨rfl, pt, rfl, l1, fun j hj => ?_⟩
        rw [j1 j hj]
        simp
      · obtain ⟨b1, pt', b2, b3, b4⟩ := hin p (by omega) (by omega)
        refine ⟨b1, pt', b2, b3, fun j hj => ?_⟩
        rw [b4 j hj]
        have hs : (p - pat0) * pattern_bytes startrekker nchan
            = (p - (pat0 + 1)) * pattern_bytes startrekker nchan
              + pattern_bytes startrekker nchan := by
          have : p - pat0 = (p - (pat0 + 1)) + 1 := by omega
          rw [this, Nat.succ_mul]
        rw [hs]
        congr 2
        omega

theorem mod_load_patterns_short (X : externals) (startrekker : Bool) (nchan : Nat)
    (hn : nchan ≤ 64) : ∀ (k pat0 : Nat) (song : song_t) (fp : slurp_t),
    ¬ fp.pos + k * pattern_bytes startrekker nchan ≤ fp.data.length →
    fp.pos ≤ fp.data.length →
    mod_load_patterns X startrekker nchan k pat0 song fp = .error .LOAD_UNSUPPORTED := by
  intro k
  induction k with
  | zero => intro pat0 song fp h h0; simp at h; omega
  | succ k ih =>
    intro pat0 song fp h h0
    have hm : (k + 1) * pattern_bytes startrekker nchan
        = k * pattern_bytes startrekker nchan + pattern_bytes startrekker nchan :=
      Nat.succ_mul k _
    unfold mod_load_patterns
    by_cases hh : fp.pos + pattern_bytes startrekker nchan ≤ fp.data.length
    · obtain ⟨pt, e1, _, _⟩ := mod_load_pattern_ok X startrekker nchan fp hn hh
      rw [e1]
      simp only
      apply ih
      · simp only; omega
      · simp only; omega
    · rw [mod_load_pattern_short X startrekker nchan fp hh h0]


theorem mod_load_patterns_error (X : externals) (startrekker : Bool) (nchan : Nat) :
    ∀ (k pat0 : Nat) (song : song_t) (fp : slurp_t) (e : load_error),
    mod_load_patterns X startrekker nchan k pat0 song fp = .error e →
    e = .LOAD_UNSUPPORTED := by
  intro k
  induction k with
  | zero => intro pat0 song fp e h; simp [mod_load_patterns] at h
  | succ k ih =>
    intro pat0 song fp e h
    unfold mod_load_patterns at h
    split at h
    · cases h; rfl
    · exact ih _ _ _ _ h

theorem mod_load_sample_data_song (X : externals) (lflags : Nat) :
    ∀ (k n : Nat) (song : song_t) (fp : slurp_t),
    (mod_load_sample_data X lflags k n song fp).1.title = song.title ∧
    (mod_load_sample_data X lflags k n song fp).1.orderlist = song.orderlist ∧
    (mod_load_sample_data X lflags k n song fp).1.patterns = song.patterns ∧
    (mod_load_sample_data X lflags k n song fp).1.pattern_size = song.pattern_size := by
  intro k
  induction k with
  | zero => intro n song fp; simp [mod_load_sample_data]
  | succ k ih =>
    intro n song fp
    unfold mod_load_sample_data
    split
    · exact ih _ _ _
    · simp only
      split
      · exact ih _ _ _
      · exact ih _ _ _

theorem mod_sniff_footer_fst (st : mod_load_t) :
    (mod_sniff_footer st).1 = st.tid ∨ (mod_sniff_footer st).1 = "%d Channel TakeTracker" ∨
    (mod_sniff_footer st).1 = "%d Channel Tetramed" := by
  unfold mod_sniff_footer
  simp only
  split
  · right; left; rfl
  · split
    · right; right; rfl
    · left; rfl

theorem mod_load_tail_error (X : externals) (lflags : Nat) (st : mod_load_t) (e : load_error)
    (h : mod_load_tail X lflags st = .error e) : e = .LOAD_UNSUPPORTED := by
  unfold mod_load_tail at h
  simp only at h
  split at h
  · cases h
    rename_i e' he
    exact mod_load_patterns_error X _ _ _ _ _ _ _ he
  · cases h

theorem mod_load_tail_locals (X : externals) (lflags : Nat) (st st' : mod_load_t)
    (h : mod_load_tail X lflags st = .ok st') :
    st'.nchan = st.nchan ∧ st'.nsamples = st.nsamples ∧ st'.npat = st.npat ∧
    st'.startrekker = st.startrekker ∧ st'.restart = st.restart ∧ st'.nord = st.nord ∧
    st'.samplesize = st.samplesize ∧
    st'.song.tracker_id = format_tid st'.tid st'.nchan ∧
    st'.song.flags = (SONG_ITOLDEFFECTS ||| SONG_COMPATGXX) ∧
    st'.song.pan_separation = 64 ∧
    (∀ n, n < st'.nchan → (st'.song.channels n).panning = PROTRACKER_PANNING n) ∧
    (∀ n, st'.nchan ≤ n → n < MAX_CHANNELS → (st'.song.channels n).flags = CHN_MUTE) := by
  unfold mod_load_tail at h
  simp only at h
  split at h
  · cases h
  · cases h
    refine ⟨rfl, rfl, rfl, rfl, rfl, rfl, rfl, rfl, rfl, rfl, ?_, ?_⟩
    · intro n hn
      simp only [mod_finish] at hn ⊢
      rw [if_pos hn]
    · intro n hn1 hn2
      simp only [mod_finish] at hn1 ⊢
      rw [if_neg (by omega), if_pos hn2]

/-! ## The decoder: the whole run -/

theorem mod_load_tail_ok (X : externals) (lflags : Nat) (st : mod_load_t)
    (hn : st.nchan ≤ 64)
    (hroom : mod_pattern_start st.nsamples
      + (st.npat + 1) * pattern_bytes st.startrekker st.nchan ≤ st.fp.data.length) :
    ∃ st', mod_load_tail X lflags st = .ok st' := by
  have hs : slurp_seek_set st.fp (mod_pattern_start st.nsamples)
      = ⟨st.fp.data, mod_pattern_start st.nsamples⟩ :=
    slurp_seek_set_ok _ _ (by omega)
  obtain ⟨song', e, _⟩ := mod_load_patterns_ok X st.startrekker st.nchan hn (st.npat + 1) 0
    st.song ⟨st.fp.data, mod_pattern_start st.nsamples⟩ (by simp only; omega)
  unfold mod_load_tail
  simp only [hs, e]
  exact ⟨_, rfl⟩

theorem tag_read (data : List Byte) (h : 1084 ≤ data.length) :
    slurp_read (slurp_seek_set (slurp_open data) 1080) 4
      = ((data.drop 1080).take 4, 4, ⟨data, 1084⟩) := by
  rw [slurp_seek_set_ok _ _ (by simp [slurp_open]; omega)]
  rw [slurp_read_ok _ _ (by simp [slurp_open]; omega)]
  simp [slurp_open]

theorem tag_four (data : List Byte) (h : 1084 ≤ data.length) :
    ∃ a b c d, (data.drop 1080).take 4 = [a, b, c, d] := by
  have hl : ((data.drop 1080).take 4).length = 4 := by
    simp [List.length_take, List.length_drop]; omega
  generalize (data.drop 1080).take 4 = l at hl
  match l, hl with
  | [a, b, c, d], _ => exact ⟨a, b, c, d, rfl⟩

theorem fmt_mod_load_song_run_eq (X : externals) (song : song_t) (data : List Byte)
    (lflags : Nat) (force : Bool) (h : 1084 ≤ data.length) :
    fmt_mod_load_song_run X song (slurp_open data) lflags force =
      match mod_check_tag ((data.drop 1080).take 4) force with
      | none => .error .LOAD_UNSUPPORTED
      | some t =>
        if t.nchan > MAX_CHANNELS then .error .LOAD_FORMAT_ERROR
        else
          match mod_load_head X song ⟨data, 1084⟩ t with
          | .error e => .error e
          | .ok st => mod_load_tail X lflags st := by
  unfold fmt_mod_load_song_run
  simp only [tag_read data h]

theorem mod_load_head_error (X : externals) (song : song_t) (fp : slurp_t) (t : mod_tag_t)
    (e : load_error) (h : mod_load_head X song fp t = .error e) : e = .LOAD_UNSUPPORTED := by
  by_cases hr : 150 + 30 * t.nsamples ≤ fp.data.length
  · obtain ⟨st, hs, _⟩ := mod_load_head_ok X song fp t hr
    rw [hs] at h; cases h
  · rw [mod_load_head_short X song fp t hr] at h; cases h; rfl

theorem mod_load_head_nchan (X : externals) (song : song_t) (fp : slurp_t) (t : mod_tag_t)
    (st : mod_load_t) (h : mod_load_head X song fp t = .ok st) :
    st.nchan = 8 ∨ st.nchan = 4 ∨ st.nchan = t.nchan := by
  by_cases hr : 150 + 30 * t.nsamples ≤ fp.data.length
  · obtain ⟨st', hs, hsp⟩ := mod_load_head_ok X song fp t hr
    rw [hs] at h; cases h
    rw [hsp.nchan]
    split
    · left; rfl
    · split
      · right; left; rfl
      · right; right; rfl
  · rw [mod_load_head_short X song fp t hr] at h; cases h

theorem run_error_cases (X : externals) (song : song_t) (fp : slurp_t) (lflags : Nat)
    (force : Bool) (e : load_error)
    (h : fmt_mod_load_song_run X song fp lflags force = .error e) :
    e = .LOAD_UNSUPPORTED ∨
    (e = .LOAD_FORMAT_ERROR ∧ ∃ t,
      mod_check_tag (slurp_read (slurp_seek_set fp 1080) 4).1 force = some t ∧
      t.nchan > MAX_CHANNELS) := by
  unfold fmt_mod_load_song_run at h
  simp only at h
  split at h
  · cases h; left; rfl
  · rename_i t ht
    split at h
    · cases h; right; exact ⟨rfl, t, ht, by assumption⟩
    · split at h
      · cases h
        rename_i e' he
        left; exact mod_load_head_error X _ _ _ _ he
      · left; exact mod_load_tail_error X _ _ _ h

theorem run_ok_cases (X : externals) (song : song_t) (fp : slurp_t) (lflags : Nat)
    (force : Bool) (st : mod_load_t)
    (h : fmt_mod_load_song_run X song fp lflags force = .ok st) :
    ∃ t st0, mod_check_tag (slurp_read (slurp_seek_set fp 1080) 4).1 force = some t ∧
      t.nchan ≤ MAX_CHANNELS ∧
      mod_load_head X song (slurp_read (slurp_seek_set fp 1080) 4).2.2 t = .ok st0 ∧
      mod_load_tail X lflags st0 = .ok st := by
  unfold fmt_mod_load_song_run at h
  simp only at h
  split at h
  · cases h
  · rename_i t ht
    split at h
    · cases h
    · split at h
      · cases h
      · rename_i st0 h0
        exact ⟨t, st0, ht, by omega, h0, h⟩


theorem fmt_mod_load_song_eq (X : externals) (song : song_t) (fp : slurp_t) (lflags : Nat)
    (force : Bool) (e : load_error) :
    fmt_mod_load_song X song fp lflags force = .error e ↔
      fmt_mod_load_song_run X song fp lflags force = .error e := by
  unfold fmt_mod_load_song
  split
  · rename_i e' he
    rw [he]
    constructor
    · intro h; cases h; rfl
    · intro h; cases h; rfl
  · rename_i st hs
    rw [hs]
    constructor
    · intro h; cases h
    · intro h; cases h

theorem run_format_error_iff (X : externals) (song : song_t) (data : List Byte)
    (lflags : Nat) (force : Bool) (h : 1084 ≤ data.length) :
    fmt_mod_load_song_run X song (slurp_open data) lflags force = .error .LOAD_FORMAT_ERROR ↔
      tag_channels_over_max ((data.drop 1080).take 4) := by
  obtain ⟨a, b, c, d, htag⟩ := tag_four data h
  have hspec := mod_check_tag_over_max a b c d force
  rw [fmt_mod_load_song_run_eq X song data lflags force h, htag]
  cases hc : mod_check_tag [a, b, c, d] force with
  | none =>
    simp only
    constructor
    · intro h'; cases h'
    · intro h'; exact ((hspec.2 hc) h').elim
  | some t =>
    simp only
    have ht := hspec.1 t hc
    by_cases hn : t.nchan > MAX_CHANNELS
    · rw [if_pos hn]
      exact ⟨fun _ => ht.1 hn, fun _ => rfl⟩
    · rw [if_neg hn]
      constructor
      · intro h'
        exfalso
        split at h'
        · rename_i e he
          cases h'
          have := mod_load_head_error X _ _ _ _ he
          cases this
        · have := mod_load_tail_error X _ _ _ h'
          cases this
      · intro h'; exact (hn (ht.2 h')).elim

theorem load_state_or_eq (d : mod_load_t) (r : Except load_error mod_load_t)
    (h : ∃ st, r = .ok st) : r = .ok (load_state_or d r) := by
  obtain ⟨st, rfl⟩ := h
  rfl

theorem run_ok_of_room (X : externals) (song : song_t) (data : List Byte) (lflags : Nat)
    (force : Bool) (t : mod_tag_t) (hlen : 1084 ≤ data.length)
    (ht : mod_check_tag ((data.drop 1080).take 4) force = some t) (hn : t.nchan ≤ 64)
    (hns : t.nsamples ≤ 31)
    (hroom : ∀ st0, mod_head_spec X song data t st0 →
      mod_pattern_start st0.nsamples
        + (st0.npat + 1) * pattern_bytes st0.startrekker st0.nchan ≤ data.length) :
    ∃ st, fmt_mod_load_song_run X song (slurp_open data) lflags force = .ok st := by
  obtain ⟨st0, h0, hsp⟩ := mod_load_head_ok X song ⟨data, 1084⟩ t (by simp only; omega)
  have hn0 : st0.nchan ≤ 64 := by
    rcases mod_load_head_nchan X song _ t st0 h0 with h | h | h <;> omega
  obtain ⟨st, hst⟩ := mod_load_tail_ok X lflags st0 hn0 (by rw [hsp.fp_data]; exact hroom st0 hsp)
  refine ⟨st, ?_⟩
  rw [fmt_mod_load_song_run_eq X song data lflags force hlen, ht]
  simp only
  rw [if_neg (by unfold MAX_CHANNELS; omega), h0]
  exact hst

theorem mod_scan_orders_zero (ol : Nat → Nat) (k : Nat) (h : ∀ i, i < k → ol i = 0) :
    (mod_scan_orders k 0 ol 0).2 = 0 := by
  rcases (mod_scan_orders_snd k 0 ol 0).2.2 with h0 | ⟨i, _, hi, _, he⟩
  · exact h0
  · rw [← he, h i (by omega)]

theorem mod_check_tag_nsamples (tag : List Byte) (force : Bool) (t : mod_tag_t)
    (h : mod_check_tag tag force = some t) : t.nsamples = 31 ∨ t.nsamples = 15 := by
  unfold mod_check_tag at h
  simp only [] at h
  rcases ite_eq_cases h with ⟨_, h⟩ | ⟨_, h⟩
  · cases h; left; rfl
  rcases ite_eq_cases h with ⟨_, h⟩ | ⟨_, h⟩
  · cases h; left; rfl
  rcases ite_eq_cases h with ⟨_, h⟩ | ⟨_, h⟩
  · cases h; left; rfl
  rcases ite_eq_cases h with ⟨_, h⟩ | ⟨_, h⟩
  · cases h; left; rfl
  rcases ite_eq_cases h with ⟨_, h⟩ | ⟨_, h⟩
  · cases h; left; rfl
  rcases ite_eq_cases h with ⟨_, h⟩ | ⟨_, h⟩
  · cases h; left; rfl
  rcases ite_eq_cases h with ⟨_, h⟩ | ⟨_, h⟩
  · rcases ite_eq_cases h with ⟨_, h⟩ | ⟨_, h⟩
    · cases h; left; rfl
    · cases h; left; rfl
  rcases ite_eq_cases h with ⟨_, h⟩ | ⟨_, h⟩
  · rcases ite_eq_cases h with ⟨_, h⟩ | ⟨_, h⟩
    · cases h; left; rfl
    · cases h; left; rfl
  rcases ite_eq_cases h with ⟨_, h⟩ | ⟨_, h⟩
  · cases h; left; rfl
  rcases ite_eq_cases h with ⟨_, h⟩ | ⟨_, h⟩
  · cases h; right; rfl
  · cases h

theorem mod_load_patterns_keeps (X : externals) (startrekker : Bool) (nchan : Nat) :
    ∀ (k pat0 : Nat) (song song' : song_t) (fp fp' : slurp_t),
    mod_load_patterns X startrekker nchan k pat0 song fp = .ok (song', fp') →
    song'.samples = song.samples ∧ song'.title = song.title ∧
    song'.orderlist = song.orderlist := by
  intro k
  induction k with
  | zero =>
    intro pat0 song song' fp fp' h
    simp only [mod_load_patterns, Except.ok.injEq, Prod.mk.injEq] at h
    rw [← h.1]
    exact ⟨rfl, rfl, rfl⟩
  | succ k ih =>
    intro pat0 song song' fp fp' h
    unfold mod_load_patterns at h
    split at h
    · cases h
    · obtain ⟨a, b, c⟩ := ih _ _ _ _ _ h
      exact ⟨a, b, c⟩

theorem mod_load_sample_data_nosamples (X : externals) (lflags : Nat)
    (hl : lflags &&& LOAD_NOSAMPLES ≠ 0) : ∀ (k n : Nat) (song : song_t) (fp : slurp_t),
    (mod_load_sample_data X lflags k n song fp).1 = song := by
  intro k
  induction k with
  | zero => intro n song fp; simp [mod_load_sample_data]
  | succ k ih =>
    intro n song fp
    unfold mod_load_sample_data
    split
    · exact ih _ _ _
    · simp only [if_pos hl]
      exact ih _ _ _

theorem mod_load_tail_samples (X : externals) (lflags : Nat) (st st' : mod_load_t)
    (h : mod_load_tail X lflags st = .ok st')
    (hl : lflags &&& LOAD_NOSAMPLES ≠ 0) (hr : ¬ st.restart < st.npat) :
    st'.song.samples = st.song.samples := by
  unfold mod_load_tail at h
  simp only at h
  split at h
  · cases h
  · rename_i song1 fp1 hp
    cases h
    obtain ⟨k1, _, _⟩ := mod_load_patterns_keeps X _ _ _ _ _ _ _ _ hp
    simp only [mod_finish, if_neg hr, mod_load_sample_data_nosamples X lflags hl]
    exact k1

theorem run_head_spec (X : externals) (song : song_t) (data : List Byte) (lflags : Nat)
    (force : Bool) (st : mod_load_t) (hlen : 1084 ≤ data.length)
    (h : fmt_mod_load_song_run X song (slurp_open data) lflags force = .ok st) :
    ∃ t st0, mod_check_tag ((data.drop 1080).take 4) force = some t ∧ t.nchan ≤ 64 ∧
      mod_load_head X song ⟨data, 1084⟩ t = .ok st0 ∧
      mod_head_spec X song data t st0 ∧ mod_load_tail X lflags st0 = .ok st := by
  obtain ⟨t, st0, ht, hn, h0, h1⟩ := run_ok_cases X song _ lflags force st h
  rw [tag_read data hlen] at ht h0
  simp only at ht h0
  by_cases hr : 150 + 30 * t.nsamples ≤ data.length
  · obtain ⟨st0', hs, hsp⟩ := mod_load_head_ok X song ⟨data, 1084⟩ t (by simp only; exact hr)
    rw [hs] at h0; cases h0
    exact ⟨t, st0, ht, hn, hs, hsp, h1⟩
  · rw [mod_load_head_short X song _ t (by simp only; exact hr)] at h0
    cases h0

theorem loop_flag_set (f : Nat) : (f ||| CHN_LOOP) &&& CHN_LOOP ≠ 0 := by
  intro h
  have : ((f ||| CHN_LOOP) &&& CHN_LOOP).testBit 1 = true := by
    have h2 : Nat.testBit 2 1 = true := by decide
    rw [Nat.testBit_and, Nat.testBit_or]
    simp [CHN_LOOP, h2]
  rw [h] at this
  simp at this

/-! ## Example streams: a tagged module -/

theorem tagged_example_length (hdr : List Byte) (tag : String) (n : Nat)
    (hh : hdr.length ≤ 1080) :
    (tagged_example hdr tag n).length = 1080 + (cstr tag).length + n := by
  simp only [tagged_example, List.length_append, List.length_replicate]
  omega

theorem tagged_example_tag (hdr : List Byte) (tag : String) (n : Nat) (hh : hdr.length ≤ 1080)
    (h : (cstr tag).length = 4) :
    ((tagged_example hdr tag n).drop 1080).take 4 = cstr tag := by
  unfold tagged_example
  rw [List.append_assoc, List.drop_left' (by
    simp only [List.length_append, List.length_replicate]; omega), List.take_left' h]

theorem tagged_example_getD (hdr : List Byte) (tag : String) (n i : Nat)
    (h1 : hdr.length ≤ i) (h2 : i < 1080) :
    (tagged_example hdr tag n).getD i 0 = 0 := by
  unfold tagged_example
  rw [List.append_assoc, List.append_assoc, List.getD_eq_getElem?_getD,
    List.getElem?_append_right h1,
    List.getElem?_append_left (by rw [List.length_replicate]; omega),
    List.getElem?_replicate, if_pos (by omega)]
  rfl

theorem example_mk_orders (hdr : List Byte) (hh : hdr.length ≤ 950) : ∀ i, i < 128 →
    raw_orders (tagged_example hdr "M.K." 1024) 952 empty_song.orderlist i = 0 := by
  intro i hi
  unfold raw_orders
  rw [if_pos hi, tagged_example_getD _ _ _ _ (by omega) (by omega)]
  rfl

theorem example_mk_tag (hdr : List Byte) (hh : hdr.length ≤ 950) :
    mod_check_tag (((tagged_example hdr "M.K." 1024).drop 1080).take 4) false =
      some { nchan := 4, test_wow := true, is_mk := true, maybe_ft2 := true,
             tid := "Amiga-NewTracker" } := by
  rw [tagged_example_tag _ _ _ (by omega) (by decide)]; decide

theorem example_mk_head (X : externals) (hdr : List Byte) (hh : hdr.length ≤ 950)
    (st0 : mod_load_t)
    (hsp : mod_head_spec X empty_song (tagged_example hdr "M.K." 1024)
      { nchan := 4, test_wow := true, is_mk := true, maybe_ft2 := true,
        tid := "Amiga-NewTracker" } st0) :
    st0.startrekker = false ∧ st0.npat = 0 ∧ st0.nchan = 4 ∧ st0.nsamples = 31 ∧
    st0.restart = 0 := by
  have hlen : (tagged_example hdr "M.K." 1024).length = 2108 := by
    rw [tagged_example_length _ _ _ (by omega)]; decide
  have hst : st0.startrekker = false := by rw [hsp.startrekker]; rfl
  have hnp : st0.npat = 0 := by
    rw [hsp.npat, hst]
    exact mod_scan_orders_zero _ 128 (example_mk_orders hdr hh)
  have hnc : st0.nchan = 4 := by
    rw [hsp.nchan, hnp, hlen]
    simp
  have hre : st0.restart = 0 := by
    have h951 := tagged_example_getD hdr "M.K." 1024 951 (by omega) (by omega)
    rw [hsp.restart]
    show ((tagged_example hdr "M.K." 1024).getD 951 0).val = 0
    rw [h951]
    rfl
  exact ⟨hst, hnp, hnc, hsp.nsamples, hre⟩

theorem example_mk_run_ok (hdr : List Byte) (hh : hdr.length ≤ 950) (lflags : Nat) :
    fmt_mod_load_song_run example_externals empty_song
        (slurp_open (tagged_example hdr "M.K." 1024)) lflags false =
      .ok (load_state_or blank_load_state (fmt_mod_load_song_run example_externals empty_song
        (slurp_open (tagged_example hdr "M.K." 1024)) lflags false)) := by
  apply load_state_or_eq
  have hlen : (tagged_example hdr "M.K." 1024).length = 2108 := by
    rw [tagged_example_length _ _ _ (by omega)]; decide
  apply run_ok_of_room example_externals empty_song (tagged_example hdr "M.K." 1024) lflags
    false _ (by omega) (example_mk_tag hdr hh) (by decide) (by decide)
  intro st0 hsp
  obtain ⟨hst, hnp, hnc, hns, _⟩ := example_mk_head example_externals hdr hh st0 hsp
  rw [hns, hnp, hst, hnc, hlen]
  decide

theorem example_state_ok (hdr : List Byte) (hh : hdr.length ≤ 950) (lflags : Nat) :
    fmt_mod_load_song_run example_externals empty_song
        (slurp_open (tagged_example hdr "M.K." 1024)) lflags false =
      .ok (example_state hdr lflags) :=
  example_mk_run_ok hdr hh lflags

theorem example_state_sample (hdr : List Byte) (hh : hdr.length ≤ 950) (m : Nat)
    (h1 : 1 ≤ m) (h2 : m ≤ 31) :
    (example_state hdr 1).song.samples m =
      hdr_sample example_externals false blank_sample
        (((tagged_example hdr "M.K." 1024).drop (20 + 30 * (m - 1))).take 30) := by
  have hlen : (tagged_example hdr "M.K." 1024).length = 2108 := by
    rw [tagged_example_length _ _ _ (by omega)]; decide
  obtain ⟨t, st0, ht, _, _, hsp, h1'⟩ := run_head_spec example_externals empty_song _ 1 false _
    (by omega) (example_state_ok hdr hh 1)
  rw [example_mk_tag hdr hh] at ht
  cases ht
  obtain ⟨_, hnp, _, _, hre⟩ := example_mk_head example_externals hdr hh st0 hsp
  rw [mod_load_tail_samples example_externals 1 st0 _ h1' (by decide) (by omega),
    hsp.samples m, if_pos ⟨h1, by simp only; omega⟩]
  rfl

/-! ## The detector: tag match -/

set_option maxRecDepth 100000 in
theorem valid_tags_find : ∀ e ∈ valid_tags,
    valid_tags.find? (fun e' => memeq (cstr e.1) (cstr e'.1) 4) = some e := by
  decide

theorem take_drop_take (l : List Byte) (a n : Nat) :
    ((l.drop a).take n).take n = (l.drop a).take n := by
  simp [List.take_take]

/-- The tag-match path of the detector on a stream of at least 1085 bytes whose tag is the
magic of the table entry `e`. -/
theorem read_info_tag_match (data : List Byte) (h : 1085 ≤ data.length)
    (e : String × String) (he : e ∈ valid_tags) (htag : (data.drop 1080).take 4 = cstr e.1) :
    fmt_mod_read_info (slurp_open data) =
      some { description := e.2, title := data.take 20, type := TYPE_MODULE_MOD } := by
  have h1 : ¬ (slurp_length (slurp_open data) < 1085) := by
    simp [slurp_length, slurp_open]; omega
  have hr1 : slurp_read (slurp_open data) 20 = (data.take 20, 20, ⟨data, 20⟩) := by
    rw [slurp_read_ok _ _ (by simp [slurp_open]; omega)]; simp [slurp_open]
  have hs : slurp_seek_set ⟨data, 20⟩ 1080 = ⟨data, 1080⟩ := by
    rw [slurp_seek_set_ok _ _ (by simp; omega)]
  have hr2 : slurp_read ⟨data, 1080⟩ 4 = (cstr e.1, 4, ⟨data, 1084⟩) := by
    rw [slurp_read_ok _ _ (by simp; omega)]; simp [htag]
  unfold fmt_mod_read_info
  rw [if_neg h1]
  simp only [hr1, hs, hr2, valid_tags_find e he, strn_dup, List.take_take]
  simp

/-! ## The detector: the legacy heuristic -/

theorem nat_or_eq_zero_iff (a b : Nat) : a ||| b = 0 ↔ a = 0 ∧ b = 0 := by
  constructor
  · intro h
    have key : ∀ i, (a ||| b).testBit i = false := by intro i; rw [h]; simp
    constructor
    · apply Nat.eq_of_testBit_eq; intro i
      have := key i; rw [Nat.testBit_or] at this; simp at this ⊢; exact this.1
    · apply Nat.eq_of_testBit_eq; intro i
      have := key i; rw [Nat.testBit_or] at this; simp at this ⊢; exact this.2
  · rintro ⟨rfl, rfl⟩; simp

theorem nat_or_lt_256 (a b : Nat) (ha : a < 256) (hb : b < 256) : a ||| b < 256 :=
  Nat.or_lt_two_pow (n := 8) ha hb

theorem st_title_check_spec (data : List Byte) : ∀ (k pos errors : Nat),
    pos + k ≤ data.length → errors ≤ 5 →
    st_title_check k ⟨data, pos⟩ errors =
      if errors + ((data.drop pos).take k).countP is_control ≤ 5 then some ⟨data, pos + k⟩
      else none := by
  intro k
  induction k with
  | zero => intro pos errors _ he; simp [st_title_check, he]
  | succ k ih =>
    intro pos errors hp he
    have hlt : pos < data.length := by omega
    have hg := slurp_getc_ok ⟨data, pos⟩ hlt
    simp only at hg
    have hd : (data.drop pos).take (k + 1) =
        data.getD pos 0 :: (data.drop (pos + 1)).take k := by
      rw [List.drop_eq_getElem_cons hlt, List.take_succ_cons]
      simp [List.getElem?_eq_getElem hlt]
    unfold st_title_check
    simp only [hg, hd, List.countP_cons]
    generalize data.getD pos 0 = b
    have e1 : pos + 1 + k = pos + (k + 1) := by omega
    by_cases hc : is_control b = true
    · have hc' : (0 : Int) < ((b.val : Nat) : Int) ∧ ((b.val : Nat) : Int) < 32 := by
        unfold is_control at hc
        rw [decide_eq_true_eq] at hc
        omega
      rw [if_pos hc']
      simp only [hc, if_true]
      by_cases h5 : errors + 1 > 5
      · rw [if_pos h5, if_neg (by omega)]
      · rw [if_neg h5, ih (pos + 1) (errors + 1) (by omega) (by omega)]
        have e2 : ∀ c, errors + 1 + c = errors + (c + 1) := by intro c; omega
        simp only [e1, e2]
    · have hc' : ¬ ((0 : Int) < ((b.val : Nat) : Int) ∧ ((b.val : Nat) : Int) < 32) := by
        unfold is_control at hc
        rw [decide_eq_true_eq] at hc
        omega
      rw [if_neg hc', ih (pos + 1) errors (by omega) he]
      simp only [hc, e1]
      simp

theorem st_sample_check_spec (data : List Byte) (hlen : 470 ≤ data.length) :
    ∀ (k i pos av al : Nat), i + k ≤ 15 → av < 256 → al < 256 →
    ((∀ j, i ≤ j → j < i + k → st_slot_ok data j) →
      ∃ v l, st_sample_check k i ⟨data, pos⟩ av al = some (v, l) ∧
        (v = 0 ↔ av = 0 ∧ ∀ j, i ≤ j → j < i + k → st_volume data j = 0) ∧
        (l = 0 ↔ al = 0 ∧ ∀ j, i ≤ j → j < i + k → st_length_word data j = 0)) ∧
    ((∃ j, i ≤ j ∧ j < i + k ∧ ¬ st_slot_ok data j) →
      st_sample_check k i ⟨data, pos⟩ av al = none) := by
  intro k
  induction k with
  | zero =>
    intro i pos av al _ _ _
    constructor
    · intro _
      refine ⟨av, al, by simp [st_sample_check], ?_, ?_⟩
      · constructor
        · intro h; exact ⟨h, fun j h1 h2 => by omega⟩
        · intro h; exact h.1
      · constructor
        · intro h; exact ⟨h, fun j h1 h2 => by omega⟩
        · intro h; exact h.1
    · rintro ⟨j, h1, h2, _⟩; omega
  | succ k ih =>
    intro i pos av al hik hav hal
    have hs : slurp_seek_set ⟨data, pos⟩ (20 + i * 30 + 22) = ⟨data, 20 + i * 30 + 22⟩ := by
      rw [slurp_seek_set_ok _ _ (by simp; omega)]
    have g1 := slurp_getc_ok ⟨data, 20 + i * 30 + 22⟩ (by simp; omega)
    have g2 := slurp_getc_ok ⟨data, 20 + i * 30 + 22 + 1⟩ (by simp; omega)
    have g3 := slurp_getc_ok ⟨data, 20 + i * 30 + 22 + 1 + 1⟩ (by simp; omega)
    have g4 := slurp_getc_ok ⟨data, 20 + i * 30 + 22 + 1 + 1 + 1⟩ (by simp; omega)
    simp only at g1 g2 g3 g4
    have eh : st_header_byte data i 22 = (data.getD (20 + i * 30 + 22) 0).val := by
      unfold st_header_byte; congr 2; omega
    have el : st_header_byte data i 23 = (data.getD (20 + i * 30 + 22 + 1) 0).val := by
      unfold st_header_byte; congr 2; omega
    have ef : st_finetune data i = (data.getD (20 + i * 30 + 22 + 1 + 1) 0).val := by
      unfold st_finetune st_header_byte; congr 2; omega
    have ev : st_volume data i = (data.getD (20 + i * 30 + 22 + 1 + 1 + 1) 0).val := by
      unfold st_volume st_header_byte; congr 2; omega
    have ew : st_length_word data i = (data.getD (20 + i * 30 + 22) 0).val * 256
        + (data.getD (20 + i * 30 + 22 + 1) 0).val := by
      unfold st_length_word; rw [eh, el]
    have hu : st_sample_check (k + 1) i ⟨data, pos⟩ av al =
        if ((data.getD (20 + i * 30 + 22 + 1 + 1) 0).val : Int) ≠ 0 then none
        else if ((data.getD (20 + i * 30 + 22 + 1 + 1 + 1) 0).val : Int) > 64 then none
        else if ((data.getD (20 + i * 30 + 22) 0).val : Int) * 0x100
            + ((data.getD (20 + i * 30 + 22 + 1) 0).val : Int) > 32768 then none
        else st_sample_check k (i + 1) ⟨data, 20 + i * 30 + 22 + 1 + 1 + 1 + 1⟩
          ((av ||| (((data.getD (20 + i * 30 + 22 + 1 + 1 + 1) 0).val : Int) % 256).toNat) % 256)
          ((al ||| ((((data.getD (20 + i * 30 + 22) 0).val : Int) % 256).toNat
            ||| (((data.getD (20 + i * 30 + 22 + 1) 0).val : Int) % 256).toNat)) % 256) := by
      conv => lhs; unfold st_sample_check
      simp only [hs, g1, g2, g3, g4]
    rw [hu]
    generalize data.getD (20 + i * 30 + 22) 0 = bh at *
    generalize data.getD (20 + i * 30 + 22 + 1) 0 = bl at *
    generalize data.getD (20 + i * 30 + 22 + 1 + 1) 0 = bf at *
    generalize data.getD (20 + i * 30 + 22 + 1 + 1 + 1) 0 = bv at *
    have tv : (((bv.val : Nat) : Int) % 256).toNat = bv.val := by omega
    have th : (((bh.val : Nat) : Int) % 256).toNat = bh.val := by omega
    have tl : (((bl.val : Nat) : Int) % 256).toNat = bl.val := by omega
    rw [tv, th, tl]
    have hvl : av ||| bv.val < 256 := nat_or_lt_256 _ _ hav bv.isLt
    have hll : al ||| (bh.val ||| bl.val) < 256 :=
      nat_or_lt_256 _ _ hal (nat_or_lt_256 _ _ bh.isLt bl.isLt)
    rw [Nat.mod_eq_of_lt hvl, Nat.mod_eq_of_lt hll]
    have ih' := ih (i + 1) (20 + i * 30 + 22 + 1 + 1 + 1 + 1) (av ||| bv.val)
      (al ||| (bh.val ||| bl.val)) (by omega) hvl hll
    constructor
    · intro hall
      have hi := hall i (by omega) (by omega)
      unfold st_slot_ok at hi
      rw [ef, ev, ew] at hi
      rw [if_neg (by omega), if_neg (by omega), if_neg (by omega)]
      obtain ⟨v, l, hr, hv, hl⟩ := ih'.1 (fun j h1 h2 => hall j (by omega) (by omega))
      refine ⟨v, l, hr, ?_, ?_⟩
      · rw [hv, nat_or_eq_zero_iff]
        constructor
        · rintro ⟨⟨h1, h2⟩, h3⟩
          refine ⟨h1, fun j hj1 hj2 => ?_⟩
          by_cases hji : j = i
          · subst hji; rw [ev]; exact h2
          · exact h3 j (by omega) (by omega)
        · rintro ⟨h1, h3⟩
          refine ⟨⟨h1, ?_⟩, fun j hj1 hj2 => h3 j (by omega) (by omega)⟩
          rw [← ev]; exact h3 i (by omega) (by omega)
      · rw [hl, nat_or_eq_zero_iff, nat_or_eq_zero_iff]
        constructor
        · rintro ⟨⟨h1, h2, h2'⟩, h3⟩
          refine ⟨h1, fun j hj1 hj2 => ?_⟩
          by_cases hji : j = i
          · subst hji; rw [ew, h2, h2']
          · exact h3 j (by omega) (by omega)
        · rintro ⟨h1, h3⟩
          have := h3 i (by omega) (by omega)
          rw [ew] at this
          refine ⟨⟨h1, by omega, by omega⟩, fun j hj1 hj2 => h3 j (by omega) (by omega)⟩
    · rintro ⟨j, hj1, hj2, hbad⟩
      by_cases hf : ((bf.val : Nat) : Int) ≠ 0
      · rw [if_pos hf]
      · rw [if_neg hf]
        by_cases hv : ((bv.val : Nat) : Int) > 64
        · rw [if_pos hv]
        · rw [if_neg hv]
          by_cases hw : ((bh.val : Nat) : Int) * 0x100 + ((bl.val : Nat) : Int) > 32768
          · rw [if_pos hw]
          · rw [if_neg hw]
            apply ih'.2
            refine ⟨j, ?_, by omega, hbad⟩
            by_contra hc
            have hji : j = i := by omega
            subst hji
            apply hbad
            unfold st_slot_ok
            rw [ef, ev, ew]
            omega

set_option maxRecDepth 100000 in
theorem valid_tags_length : ∀ e ∈ valid_tags, (cstr e.1).length = 4 := by
  decide

theorem valid_tags_find_none (tag : List Byte) (ht : tag.length = 4)
    (hno : ∀ e ∈ valid_tags, tag ≠ cstr e.1) :
    valid_tags.find? (fun e => memeq tag (cstr e.1) 4) = none := by
  rw [List.find?_eq_none]
  intro e he hm
  apply hno e he
  have h4 := valid_tags_length e he
  unfold memeq at hm
  rw [List.take_of_length_le (by omega), List.take_of_length_le (by omega)] at hm
  simpa using hm

/-- The legacy path of the detector on a stream of at least 1085 bytes whose tag matches no
table entry: acceptance is exactly the conjunction of the acceptance conditions. -/
theorem read_info_legacy (data : List Byte) (h : 1085 ≤ data.length)
    (hno : ∀ e ∈ valid_tags, (data.drop 1080).take 4 ≠ cstr e.1) :
    fmt_mod_read_info (slurp_open data) =
      if soundtracker_accepts data then
        some { description := "SoundTracker", title := data.take 20, type := TYPE_MODULE_MOD }
      else none := by
  have h1 : ¬ (slurp_length (slurp_open data) < 1085) := by
    simp [slurp_length, slurp_open]; omega
  have hr1 : slurp_read (slurp_open data) 20 = (data.take 20, 20, ⟨data, 20⟩) := by
    rw [slurp_read_ok _ _ (by simp [slurp_open]; omega)]; simp [slurp_open]
  have hs : slurp_seek_set ⟨data, 20⟩ 1080 = ⟨data, 1080⟩ := by
    rw [slurp_seek_set_ok _ _ (by simp; omega)]
  have hr2 : slurp_read ⟨data, 1080⟩ 4 = ((data.drop 1080).take 4, 4, ⟨data, 1084⟩) := by
    rw [slurp_read_ok _ _ (by simp; omega)]
  have hf := valid_tags_find_none ((data.drop 1080).take 4)
    (by simp [List.length_take, List.length_drop]; omega) hno
  have ht := st_title_check_spec data 20 0 0 (by omega) (by omega)
  have hsm := st_sample_check_spec data (by omega) 15 0 20 0 0 (by omega) (by omega) (by omega)
  unfold fmt_mod_read_info
  rw [if_neg h1]
  simp only [hr1, hs, hr2, hf, strn_dup, List.take_take, slurp_rewind, ht]
  simp only [List.drop_zero, Nat.zero_add, ne_eq, not_true_eq_false, if_false, Nat.min_self]
  by_cases hc : (data.take 20).countP is_control ≤ 5
  · rw [if_pos hc]
    simp only
    by_cases hall : ∀ j, 0 ≤ j → j < 0 + 15 → st_slot_ok data j
    · obtain ⟨v, l, hr, hv, hl⟩ := hsm.1 hall
      rw [hr]
      simp only
      by_cases hp : soundtracker_accepts data
      · obtain ⟨_, _, ⟨iv, hiv, hvn⟩, ⟨il, hil, hln⟩⟩ := hp
        have hv0 : v ≠ 0 := fun h0 => hvn ((hv.1 h0).2 iv (by omega) (by omega))
        have hl0 : l ≠ 0 := fun h0 => hln ((hl.1 h0).2 il (by omega) (by omega))
        rw [if_neg (by simp [hv0, hl0]), if_pos ⟨hc, fun i hi => hall i (by omega) (by omega),
          ⟨iv, hiv, hvn⟩, ⟨il, hil, hln⟩⟩]
      · rw [if_neg hp, if_pos]
        by_contra hcon
        push_neg at hcon
        apply hp
        refine ⟨hc, fun i hi => hall i (by omega) (by omega), ?_, ?_⟩
        · by_contra hne
          push_neg at hne
          exact hcon.2 (hv.2 ⟨rfl, fun j _ hj => hne j (by omega)⟩)
        · by_contra hne
          push_neg at hne
          exact hcon.1 (hl.2 ⟨rfl, fun j _ hj => hne j (by omega)⟩)
    · have hex : ∃ j, 0 ≤ j ∧ j < 0 + 15 ∧ ¬ st_slot_ok data j := by
        push_neg at hall
        obtain ⟨j, h1, h2, h3⟩ := hall
        exact ⟨j, h1, h2, h3⟩
      rw [hsm.2 hex]
      simp only
      rw [if_neg]
      rintro ⟨_, hok, _⟩
      exact hall (fun j _ hj => hok j (by omega))
  · rw [if_neg hc]
    simp only
    rw [if_neg]
    rintro ⟨hc', _⟩
    exact hc hc'

/-! ## The claims on the detector -/

/-- C2: on a stream of at least 1085 bytes whose tag matches no table entry, the detector
accepts (returns 1 with the description "SoundTracker") if and only if the title has at most
5 control bytes, each of the 15 sample headers has finetune 0, volume at most 64 and length
field at most 32768, some volume byte is nonzero and some length field is nonzero; when any
of the conditions fails it returns 0. -/
theorem fmt_mod_read_info_legacy_iff (data : List Byte) (hlen : 1085 ≤ data.length)
    (hno : ∀ e ∈ valid_tags, (data.drop 1080).take 4 ≠ cstr e.1) :
    (fmt_mod_read_info (slurp_open data) =
        some { description := "SoundTracker", title := data.take 20, type := TYPE_MODULE_MOD }
      ↔ soundtracker_accepts data) ∧
    (fmt_mod_read_info (slurp_open data) = none ↔ ¬ soundtracker_accepts data) := by
  rw [read_info_legacy data hlen hno]
  by_cases hp : soundtracker_accepts data
  · simp [hp]
  · simp [hp]

set_option maxRecDepth 100000 in
theorem fmt_mod_read_info_legacy_iff_witness :
    1085 ≤ (st_example 0 1).length ∧
    (∀ e ∈ valid_tags, ((st_example 0 1).drop 1080).take 4 ≠ cstr e.1) ∧
    ((fmt_mod_read_info (slurp_open (st_example 0 1)) =
        some { description := "SoundTracker", title := (st_example 0 1).take 20,
               type := TYPE_MODULE_MOD }
      ↔ soundtracker_accepts (st_example 0 1)) ∧
    (fmt_mod_read_info (slurp_open (st_example 0 1)) = none
      ↔ ¬ soundtracker_accepts (st_example 0 1))) :=
  ⟨by decide, by decide, fmt_mod_read_info_legacy_iff (st_example 0 1) (by decide) (by decide)⟩

/-- C3: a stream shorter than 1085 bytes is not recognised: the detector returns 0 at its
first test, whatever the contents. -/
theorem fmt_mod_read_info_short (fp : slurp_t) (h : slurp_length fp < 1085) :
    fmt_mod_read_info fp = none := by
  unfold fmt_mod_read_info
  rw [if_pos h]

theorem fmt_mod_read_info_short_witness :
    slurp_length (slurp_open (cstr "M.K.")) < 1085 ∧
    fmt_mod_read_info (slurp_open (cstr "M.K.")) = none :=
  ⟨by decide, fmt_mod_read_info_short (slurp_open (cstr "M.K.")) (by decide)⟩

/-- C4: on a stream of at least 1085 bytes whose bytes 1080..1083 are the magic of a table
entry, the detector returns 1 with the description of that entry and the first 20 bytes as
title; any other stream of at least 1085 bytes with the same bytes 0..19 and 1080..1083 gives
the same result. -/
theorem fmt_mod_read_info_tag (data : List Byte) (hlen : 1085 ≤ data.length)
    (e : String × String) (he : e ∈ valid_tags) (htag : (data.drop 1080).take 4 = cstr e.1) :
    fmt_mod_read_info (slurp_open data) =
      some { description := e.2, title := data.take 20, type := TYPE_MODULE_MOD } ∧
    ∀ data' : List Byte, 1085 ≤ data'.length → data'.take 20 = data.take 20 →
      (data'.drop 1080).take 4 = (data.drop 1080).take 4 →
      fmt_mod_read_info (slurp_open data') = fmt_mod_read_info (slurp_open data) := by
  refine ⟨read_info_tag_match data hlen e he htag, ?_⟩
  intro data' hlen' ht hg
  rw [read_info_tag_match data hlen e he htag,
    read_info_tag_match data' hlen' e he (hg.trans htag), ht]

set_option maxRecDepth 100000 in
theorem fmt_mod_read_info_tag_witness :
    1085 ≤ (tagged_example [] "6CHN" 1).length ∧ ("6CHN", "6 Channel MOD") ∈ valid_tags ∧
    ((tagged_example [] "6CHN" 1).drop 1080).take 4 = cstr "6CHN" ∧
    (fmt_mod_read_info (slurp_open (tagged_example [] "6CHN" 1)) =
      some { description := "6 Channel MOD", title := (tagged_example [] "6CHN" 1).take 20,
             type := TYPE_MODULE_MOD } ∧
    ∀ data' : List Byte, 1085 ≤ data'.length →
      data'.take 20 = (tagged_example [] "6CHN" 1).take 20 →
      (data'.drop 1080).take 4 = ((tagged_example [] "6CHN" 1).drop 1080).take 4 →
      fmt_mod_read_info (slurp_open data') =
        fmt_mod_read_info (slurp_open (tagged_example [] "6CHN" 1))) :=
  ⟨by decide, by decide, by decide,
    fmt_mod_read_info_tag (tagged_example [] "6CHN" 1) (by decide) ("6CHN", "6 Channel MOD")
      (by decide) (by decide)⟩

set_option maxRecDepth 100000 in
/-- C5, counterexample: an untagged stream whose first sample header has length word 20000,
that is 40000 frames, more than 32768 frames, is accepted by the legacy heuristic. -/
theorem read_info_length_frames_counterexample :
    1085 ≤ (st_example 0x4E 0x20).length ∧
    (∀ e ∈ valid_tags, ((st_example 0x4E 0x20).drop 1080).take 4 ≠ cstr e.1) ∧
    2 * st_length_word (st_example 0x4E 0x20) 0 = 40000 ∧
    fmt_mod_read_info (slurp_open (st_example 0x4E 0x20)) =
      some { description := "SoundTracker", title := List.replicate 20 0,
             type := TYPE_MODULE_MOD } := by
  refine ⟨by decide, by decide, by decide, ?_⟩
  rw [read_info_legacy _ (by decide) (by decide), if_pos (by decide)]
  simp [st_example]

/-- C5, amended: in the legacy untagged detection path, any of the 15 sample headers whose
big-endian length word exceeds 32768 (that is, more than 65536 frames) causes the whole file
to be rejected. -/
theorem read_info_length_word_rejected (data : List Byte) (hlen : 1085 ≤ data.length)
    (hno : ∀ e ∈ valid_tags, (data.drop 1080).take 4 ≠ cstr e.1)
    (i : Nat) (hi : i < 15) (hw : st_length_word data i > 32768) :
    fmt_mod_read_info (slurp_open data) = none := by
  rw [read_info_legacy data hlen hno, if_neg]
  rintro ⟨_, hok, _⟩
  have := (hok i hi).2.2
  omega

set_option maxRecDepth 100000 in
theorem read_info_length_word_rejected_witness :
    1085 ≤ (st_example 0x80 0x01).length ∧
    (∀ e ∈ valid_tags, ((st_example 0x80 0x01).drop 1080).take 4 ≠ cstr e.1) ∧
    0 < 15 ∧ st_length_word (st_example 0x80 0x01) 0 > 32768 ∧
    fmt_mod_read_info (slurp_open (st_example 0x80 0x01)) = none :=
  ⟨by decide, by decide, by decide, by decide,
    read_info_length_word_rejected (st_example 0x80 0x01) (by decide) (by decide) 0
      (by decide) (by decide)⟩

/-! ## The claims on the decoder -/

/-- C6: a stream whose tag at offset 1080 is in none of the recognised families is refused
with `LOAD_UNSUPPORTED` by `fmt_mod31_load_song`; with `force` set, the tag check yields
4 channels and 15 samples, the header part then reads exactly 15 sample headers (it ends at
offset 600, slots 16 and up are not touched) and the pattern data is read from offset 600;
a successful forced run ends with 4 channels and 15 samples. -/
theorem fmt_mod_load_song_untagged (X : externals) (song : song_t) (data : List Byte)
    (lflags : Nat) (hlen : 1084 ≤ data.length)
    (hnot : ¬ tag_recognised ((data.drop 1080).take 4)) :
    fmt_mod31_load_song X song (slurp_open data) lflags = .error .LOAD_UNSUPPORTED ∧
    mod_check_tag ((data.drop 1080).take 4) true = some legacy_tag ∧
    (∃ st0, mod_load_head X song ⟨data, 1084⟩ legacy_tag = .ok st0 ∧
      fmt_mod_load_song_run X song (slurp_open data) lflags true = mod_load_tail X lflags st0 ∧
      st0.nchan = 4 ∧ st0.nsamples = 15 ∧ st0.startrekker = false ∧ st0.fp = ⟨data, 600⟩ ∧
      slurp_seek_set st0.fp (mod_pattern_start st0.nsamples) = ⟨data, 600⟩ ∧
      (∀ m, 1 ≤ m → m ≤ 15 → st0.song.samples m =
        hdr_sample X false (song.samples m) ((data.drop (20 + 30 * (m - 1))).take 30)) ∧
      (∀ m, 16 ≤ m → st0.song.samples m = song.samples m)) ∧
    (∀ st, fmt_mod_load_song_run X song (slurp_open data) lflags true = .ok st →
      st.nchan = 4 ∧ st.nsamples = 15) := by
  obtain ⟨a, b, c, d, htag⟩ := tag_four data hlen
  rw [htag] at hnot ⊢
  have hf := mod_check_tag_unrecognised a b c d false hnot
  have ht := mod_check_tag_unrecognised a b c d true hnot
  simp only [Bool.false_eq_true, if_false] at hf
  simp only [if_true] at ht
  obtain ⟨st0, h0, hsp⟩ := mod_load_head_ok X song ⟨data, 1084⟩ legacy_tag
    (by simp only [legacy_tag]; omega)
  simp only at hsp
  have hrun : fmt_mod_load_song_run X song (slurp_open data) lflags true
      = mod_load_tail X lflags st0 := by
    rw [fmt_mod_load_song_run_eq X song data lflags true hlen, htag, ht]
    simp only
    rw [if_neg (by simp [legacy_tag, MAX_CHANNELS]), h0]
  have hfp : st0.fp = ⟨data, 600⟩ := by
    have h1 := hsp.fp_data
    have h2 := hsp.fp_pos
    simp only [legacy_tag, Bool.false_eq_true, if_false] at h2
    cases hst : st0.fp with
    | mk d p => rw [hst] at h1 h2; simp only at h1 h2; rw [h1, h2]
  have hns : st0.nsamples = 15 := hsp.nsamples
  have hst : st0.startrekker = false := by
    rw [hsp.startrekker]; simp [legacy_tag]
  have hnc : st0.nchan = 4 := by
    rw [hsp.nchan]; simp [legacy_tag]
  refine ⟨?_, ht, ⟨st0, h0, hrun, hnc, hns, hst, hfp, ?_, ?_, ?_⟩, ?_⟩
  · unfold fmt_mod31_load_song
    rw [fmt_mod_load_song_eq, fmt_mod_load_song_run_eq X song data lflags false hlen, htag, hf]
  · rw [hfp, hns]
    exact slurp_seek_set_ok _ _ (by simp [mod_pattern_start]; omega)
  · intro m h1 h2
    rw [hsp.samples m, if_pos (by simp only [legacy_tag]; omega)]
    rfl
  · intro m h1
    rw [hsp.samples m, if_neg (by simp only [legacy_tag]; omega)]
  · intro st hs
    rw [hrun] at hs
    obtain ⟨l1, l2, _⟩ := mod_load_tail_locals X lflags st0 st hs
    rw [l1, l2]
    exact ⟨hnc, hns⟩


set_option maxRecDepth 100000 in
theorem fmt_mod_load_song_untagged_witness :
    1084 ≤ (tagged_example [] "ABCD" 1).length ∧
    ¬ tag_recognised (((tagged_example [] "ABCD" 1).drop 1080).take 4) ∧
    fmt_mod31_load_song example_externals empty_song (slurp_open (tagged_example [] "ABCD" 1)) 0
      = .error .LOAD_UNSUPPORTED ∧
    mod_check_tag (((tagged_example [] "ABCD" 1).drop 1080).take 4) true = some legacy_tag :=
  ⟨by decide, by decide,
    (fmt_mod_load_song_untagged example_externals empty_song (tagged_example [] "ABCD" 1) 0
      (by decide) (by decide)).1,
    (fmt_mod_load_song_untagged example_externals empty_song (tagged_example [] "ABCD" 1) 0
      (by decide) (by decide)).2.1⟩

/-- C7, amended: on a stream of at least 1084 bytes, `fmt_mod_load_song` returns
`LOAD_FORMAT_ERROR` if and only if the tag at offset 1080 is `ddCH` or `ddCN` with `dd` in
65..99 (a channel count above `MAX_CHANNELS`); so the result is the same for every
collaborator, song, load flag and value of `force`, and for every other stream of at least
1084 bytes with the same 4 tag bytes, and such a tag is never reported as
`LOAD_UNSUPPORTED`. -/
theorem fmt_mod_load_song_format_error_iff (X : externals) (song : song_t) (data : List Byte)
    (lflags : Nat) (force : Bool) (hlen : 1084 ≤ data.length) :
    (fmt_mod_load_song X song (slurp_open data) lflags force = .error .LOAD_FORMAT_ERROR ↔
      tag_channels_over_max ((data.drop 1080).take 4)) ∧
    (tag_channels_over_max ((data.drop 1080).take 4) →
      fmt_mod_load_song X song (slurp_open data) lflags force ≠ .error .LOAD_UNSUPPORTED) ∧
    (∀ (X' : externals) (song' : song_t) (data' : List Byte) (lflags' : Nat) (force' : Bool),
      1084 ≤ data'.length → (data'.drop 1080).take 4 = (data.drop 1080).take 4 →
      (fmt_mod_load_song X' song' (slurp_open data') lflags' force' = .error .LOAD_FORMAT_ERROR
        ↔ fmt_mod_load_song X song (slurp_open data) lflags force
          = .error .LOAD_FORMAT_ERROR)) := by
  have key : ∀ (X : externals) (song : song_t) (data : List Byte) (lflags : Nat) (force : Bool),
      1084 ≤ data.length →
      (fmt_mod_load_song X song (slurp_open data) lflags force = .error .LOAD_FORMAT_ERROR ↔
        tag_channels_over_max ((data.drop 1080).take 4)) := by
    intro X song data lflags force hlen
    rw [fmt_mod_load_song_eq]
    exact run_format_error_iff X song data lflags force hlen
  refine ⟨key X song data lflags force hlen, ?_, ?_⟩
  · intro h hu
    rw [(key X song data lflags force hlen).2 h] at hu
    cases hu
  · intro X' song' data' lflags' force' hlen' htag
    rw [key X' song' data' lflags' force' hlen', key X song data lflags force hlen, htag]

set_option maxRecDepth 100000 in
theorem fmt_mod_load_song_format_error_iff_witness :
    1084 ≤ (tagged_example [] "90CH" 1).length ∧
    tag_channels_over_max (((tagged_example [] "90CH" 1).drop 1080).take 4) ∧
    fmt_mod_load_song example_externals empty_song (slurp_open (tagged_example [] "90CH" 1)) 0 true
      = .error .LOAD_FORMAT_ERROR :=
  ⟨by decide, by decide,
    (fmt_mod_load_song_format_error_iff example_externals empty_song (tagged_example [] "90CH" 1)
      0 true (by decide)).1.2 (by decide)⟩

/-- C8: whenever `fmt_mod_load_song` returns success, the final channel count (after the tag
check, the Startrekker downgrade and the WOW test) is in 1..`MAX_CHANNELS`; it is the count
formatted into the tracker id, the channels below it get their panning and the channels from
it up to `MAX_CHANNELS` are muted. -/
theorem fmt_mod_load_song_nchan_range (X : externals) (song : song_t) (fp : slurp_t)
    (lflags : Nat) (force : Bool) (st : mod_load_t)
    (h : fmt_mod_load_song_run X song fp lflags force = .ok st) :
    1 ≤ st.nchan ∧ st.nchan ≤ MAX_CHANNELS ∧
    fmt_mod_load_song X song fp lflags force = .ok st.song ∧
    st.song.tracker_id = format_tid st.tid st.nchan ∧
    (∀ n, n < st.nchan → (st.song.channels n).panning = PROTRACKER_PANNING n) ∧
    (∀ n, st.nchan ≤ n → n < MAX_CHANNELS → (st.song.channels n).flags = CHN_MUTE) := by
  obtain ⟨t, st0, ht, hn, h0, h1⟩ := run_ok_cases X song fp lflags force st h
  have hpos := mod_check_tag_nchan_pos _ force t ht
  obtain ⟨l1, _, _, _, _, _, _, l8, _, _, l11, l12⟩ := mod_load_tail_locals X lflags st0 st h1
  have hsong : fmt_mod_load_song X song fp lflags force = .ok st.song := by
    unfold fmt_mod_load_song; rw [h]
  unfold MAX_CHANNELS at hn ⊢
  rcases mod_load_head_nchan X song _ t st0 h0 with h8 | h4 | ht'
  · exact ⟨by omega, by omega, hsong, l8, l11, l12⟩
  · exact ⟨by omega, by omega, hsong, l8, l11, l12⟩
  · exact ⟨by omega, by omega, hsong, l8, l11, l12⟩


theorem fmt_mod_load_song_nchan_range_witness :
    fmt_mod_load_song_run example_externals empty_song
        (slurp_open (tagged_example [] "M.K." 1024)) 0 false =
      .ok (load_state_or blank_load_state (fmt_mod_load_song_run example_externals empty_song
        (slurp_open (tagged_example [] "M.K." 1024)) 0 false)) ∧
    1 ≤ (load_state_or blank_load_state (fmt_mod_load_song_run example_externals empty_song
        (slurp_open (tagged_example [] "M.K." 1024)) 0 false)).nchan ∧
    (load_state_or blank_load_state (fmt_mod_load_song_run example_externals empty_song
        (slurp_open (tagged_example [] "M.K." 1024)) 0 false)).nchan ≤ MAX_CHANNELS :=
  ⟨example_mk_run_ok [] (by decide) 0,
    (fmt_mod_load_song_nchan_range example_externals empty_song
      (slurp_open (tagged_example [] "M.K." 1024)) 0 false _
      (example_mk_run_ok [] (by decide) 0)).1,
    (fmt_mod_load_song_nchan_range example_externals empty_song
      (slurp_open (tagged_example [] "M.K." 1024)) 0 false _
      (example_mk_run_ok [] (by decide) 0)).2.1⟩

/-- C9: in every successful run of `fmt_mod_load_song`, each sample header decoded by the
header part (slots `1..nsamples`, 31 or 15 of them, the header of slot `m` at offset
`20 + 30 * (m - 1)`) gives a length of twice the big-endian length word (even, at most
131070), a stored volume of 4 times the minimum of the volume byte and 64 (a multiple of 4,
at most 256), a global volume of 64 and a loop start of twice the big-endian loop-start
word; a metadata-only load without restart marker returns these entries unchanged. -/
theorem fmt_mod_load_song_sample_header (X : externals) (song : song_t) (data : List Byte)
    (pos lflags : Nat) (force : Bool) (st : mod_load_t)
    (h : fmt_mod_load_song_run X song ⟨data, pos⟩ lflags force = .ok st) :
    ∃ t st0, mod_load_head X song (slurp_read (slurp_seek_set ⟨data, pos⟩ 1080) 4).2.2 t
        = .ok st0 ∧
      mod_load_tail X lflags st0 = .ok st ∧
      (st.nsamples = 31 ∨ st.nsamples = 15) ∧
      (∀ m, 1 ≤ m → m ≤ st.nsamples →
        (st0.song.samples m).length = 2 * st_length_word data (m - 1) ∧
        (st0.song.samples m).length % 2 = 0 ∧
        (st0.song.samples m).length ≤ 131070 ∧
        (st0.song.samples m).volume = 4 * min (st_volume data (m - 1)) 64 ∧
        (st0.song.samples m).volume % 4 = 0 ∧
        (st0.song.samples m).volume ≤ 256 ∧
        (st0.song.samples m).global_volume = 64 ∧
        (st0.song.samples m).loop_start
          = 2 * (st_header_byte data (m - 1) 26 * 256 + st_header_byte data (m - 1) 27)) ∧
      (lflags &&& LOAD_NOSAMPLES ≠ 0 → ¬ st.restart < st.npat →
        st.song.samples = st0.song.samples) := by
  obtain ⟨t, st0, ht, hn, h0, h1⟩ := run_ok_cases X song ⟨data, pos⟩ lflags force st h
  obtain ⟨l1, l2, l3, l4, l5, _⟩ := mod_load_tail_locals X lflags st0 st h1
  have hd : (slurp_read (slurp_seek_set ⟨data, pos⟩ 1080) 4).2.2.data = data := by
    rw [slurp_read_data]; unfold slurp_seek_set; split <;> rfl
  by_cases hr : 150 + 30 * t.nsamples ≤ data.length
  · obtain ⟨st0', hs, hsp⟩ := mod_load_head_ok X song _ t (by rw [hd]; exact hr)
    rw [hs] at h0; cases h0
    rw [hd] at hsp
    refine ⟨t, st0, hs, h1, ?_, ?_, ?_⟩
    · rw [l2, hsp.nsamples]
      exact mod_check_tag_nsamples _ force t ht
    · intro m hm1 hm2
      rw [l2, hsp.nsamples] at hm2
      rw [hsp.samples m, if_pos ⟨hm1, by omega⟩]
      have hlen30 : 20 + 30 * (m - 1) + 30 ≤ data.length := by omega
      unfold hdr_sample st_length_word st_volume st_header_byte
      have e23 : 20 + 30 * (m - 1) + 22 + 1 = 20 + 30 * (m - 1) + 23 := by omega
      have e27 : 20 + 30 * (m - 1) + 26 + 1 = 20 + 30 * (m - 1) + 27 := by omega
      simp only [be16_drop_take data (20 + 30 * (m - 1)) 30 22 (by omega),
        be16_drop_take data (20 + 30 * (m - 1)) 30 26 (by omega),
        getD_take_drop data (20 + 30 * (m - 1)) 30 25 (by omega), e23, e27]
      refine ⟨by omega, by omega, by omega, by omega, by omega, by omega, ?_, by omega⟩
      trivial
    · intro hl hrs
      rw [l3, l5] at hrs
      exact mod_load_tail_samples X lflags st0 st h1 hl hrs
  · rw [mod_load_head_short X song _ t (by rw [hd]; exact hr)] at h0
    cases h0

/-- C10, counterexample: a sample header whose raw loop-length word is exactly 2 (not greater
than 2) is decoded with the loop flag set. -/
theorem loop_flag_word_two_counterexample :
    fmt_mod_load_song_run example_externals empty_song
        (slurp_open (tagged_example (loop_header 0 0 2) "M.K." 1024)) 1 false =
      .ok (example_state (loop_header 0 0 2) 1) ∧
    st_loop_length_word (tagged_example (loop_header 0 0 2) "M.K." 1024) 0 = 2 ∧
    ((example_state (loop_header 0 0 2) 1).song.samples 1).flags &&& CHN_LOOP ≠ 0 := by
  refine ⟨example_state_ok _ (by decide) 1, by decide, ?_⟩
  rw [example_state_sample _ (by decide) 1 (by decide) (by decide)]
  decide


theorem fmt_mod_load_song_sample_header_witness :
    fmt_mod_load_song_run example_externals empty_song
        ⟨tagged_example (loop_header 3 0 2) "M.K." 1024, 0⟩ 1 false =
      .ok (example_state (loop_header 3 0 2) 1) ∧
    ((example_state (loop_header 3 0 2) 1).nsamples = 31 ∨
      (example_state (loop_header 3 0 2) 1).nsamples = 15) :=
  ⟨example_state_ok _ (by decide) 1,
    (fmt_mod_load_song_sample_header example_externals empty_song _ 0 1 false _
      (example_state_ok _ (by decide) 1)).elim fun _ h => h.elim fun _ h => h.2.2.1⟩

/-! ## The run of the decoder, taken apart -/

theorem mod_save_tag_four (maxpat : Nat) :
    mod_save_tag 4 maxpat = cstr "M.K." ∨ mod_save_tag 4 maxpat = cstr "M!K!" := by
  unfold mod_save_tag
  by_cases h : maxpat < 64
  · left; rw [if_pos rfl, if_pos h]
  · right; rw [if_pos rfl, if_neg h]

/-- C20: for every channel count `n` in 1..`MAX_CHANNELS` (and whatever the highest pattern number), the tag that `fmt_mod_save_song` writes for `nchn = n` is accepted by the tag check of `fmt_mod_load_song` without `force`, and resolves to exactly `n` channels. -/
theorem mod_save_tag_resolves (n maxpat : Nat) (h1 : 1 ≤ n) (h2 : n ≤ MAX_CHANNELS) :
    ∃ t, mod_check_tag (mod_save_tag n maxpat) false = some t ∧ t.nchan = n := by
  unfold MAX_CHANNELS at h2
  by_cases h4 : n = 4
  · subst h4
    rcases mod_save_tag_four maxpat with e | e <;> rw [e] <;> exact ⟨_, rfl, rfl⟩
  · have e : mod_save_tag n maxpat =
        if n ≥ 10 then [Fin.ofNat (n / 10 + 48), Fin.ofNat (n % 10 + 48), 67, 78]
        else [Fin.ofNat (n + 48), 67, 72, 78] := by
      unfold mod_save_tag
      rw [if_neg h4]
    rw [e]
    interval_cases n <;> first | exact (h4 rfl).elim | exact ⟨_, rfl, rfl⟩

theorem mod_save_tag_resolves_witness :
    ∃ t, mod_check_tag (mod_save_tag 12 0) false = some t ∧ t.nchan = 12 :=
  mod_save_tag_resolves 12 0 (by decide) (by decide)

/-- C11, the code at the failing input: a sample header with the loop-length word `0x8000` (32768) is decoded with `loop_end = loop_start + 0` (both 0): twice the word, 65536, is truncated by the 16-bit variable `tmp`, where the claim has `loop_start + 65536`. -/
theorem loop_length_word_truncated :
    fmt_mod_load_song_run example_externals empty_song
        (slurp_open (tagged_example (loop_header 0 128 0) "M.K." 1024)) 1 false =
      .ok (example_state (loop_header 0 128 0) 1) ∧
    st_loop_length_word (tagged_example (loop_header 0 128 0) "M.K." 1024) 0 = 32768 ∧
    ((example_state (loop_header 0 128 0) 1).song.samples 1).loop_start = 0 ∧
    ((example_state (loop_header 0 128 0) 1).song.samples 1).loop_end = 0 := by
  refine ⟨example_state_ok _ (by decide) 1, by decide, ?_, ?_⟩
  · rw [example_state_sample _ (by decide) 1 (by decide) (by decide)]
    decide
  · rw [example_state_sample _ (by decide) 1 (by decide) (by decide)]
    decide

theorem fixed_tags_last : ∀ l ∈ fixed_tags, l.getD 3 0 ≠ 0 := by decide

theorem tag_not_recognised_zero (a b c : Byte) : ¬ tag_recognised [a, b, c, 0] := by
  intro h
  unfold tag_recognised at h
  rcases h with h | h | h | h
  · exact fixed_tags_last _ h rfl
  · have e : (0 : Byte) = (cstr "CHN").getD 2 0 := congrArg (fun l => l.getD 2 0) h.2
    revert e; decide
  · rcases h.2.2 with h | h
    · have e : (0 : Byte) = (cstr "CH").getD 1 0 := congrArg (fun l => l.getD 1 0) h
      revert e; decide
    · have e : (0 : Byte) = (cstr "CN").getD 1 0 := congrArg (fun l => l.getD 1 0) h
      revert e; decide
  · have e : is_digit_1_9 (0 : Byte) := h.2
    revert e; decide

theorem mod_check_tag_short (a b c : Byte) (force : Bool) (t : mod_tag_t)
    (h : mod_check_tag [a, b, c, 0] force = some t) : t.nsamples = 15 := by
  rw [mod_check_tag_unrecognised a b c 0 force (tag_not_recognised_zero a b c)] at h
  split at h
  · cases h; rfl
  · cases h

theorem mod_check_tag_startrekker (tag : List Byte) (force : Bool) (t : mod_tag_t)
    (h : mod_check_tag tag force = some t) :
    (t.startrekker = true → t.nchan = 8 ∧ t.test_wow = false) ∧
    (t.test_wow = true → t.nchan = 4 ∧ t.startrekker = false ∧ t.nsamples = 31 ∧
      t.his_masters_noise = false) ∧
    (t.test_wow = true ↔ memeq tag (cstr "M.K.") 4 = true) := by
  unfold mod_check_tag at h
  simp only [] at h
  rcases ite_eq_cases h with ⟨hc, h⟩ | ⟨hm, h⟩
  · cases h; simp [hc]
  rcases ite_eq_cases h with ⟨_, h⟩ | ⟨_, h⟩
  · cases h; simp [hm]
  rcases ite_eq_cases h with ⟨_, h⟩ | ⟨_, h⟩
  · cases h; simp [hm]
  rcases ite_eq_cases h with ⟨c, h⟩ | ⟨_, h⟩
  · cases h; simp [hm]
  rcases ite_eq_cases h with ⟨_, h⟩ | ⟨_, h⟩
  · cases h; simp [hm]
  rcases ite_eq_cases h with ⟨_, h⟩ | ⟨_, h⟩
  · cases h; simp [hm]
  rcases ite_eq_cases h with ⟨c, h⟩ | ⟨_, h⟩
  · rcases ite_eq_cases h with ⟨_, h⟩ | ⟨_, h⟩
    · cases h; simp [hm]
    · cases h; simp [hm]
  rcases ite_eq_cases h with ⟨c, h⟩ | ⟨_, h⟩
  · rcases ite_eq_cases h with ⟨_, h⟩ | ⟨_, h⟩
    · cases h; simp [hm]
    · cases h; simp [hm]
  rcases ite_eq_cases h with ⟨c, h⟩ | ⟨_, h⟩
  · cases h; simp [hm]
  rcases ite_eq_cases h with ⟨c, h⟩ | ⟨_, h⟩
  · cases h; simp [hm]
  · cases h

theorem pad_short (l : List Byte) (h : l.length ≤ 3) :
    ∃ a b c, l ++ List.replicate (4 - l.length) 0 = [a, b, c, 0] := by
  match l, h with
  | [], _ => exact ⟨0, 0, 0, rfl⟩
  | [a], _ => exact ⟨a, 0, 0, rfl⟩
  | [a, b], _ => exact ⟨a, b, 0, rfl⟩
  | [a, b, c], _ => exact ⟨a, b, c, rfl⟩
  | _ :: _ :: _ :: _ :: _, h => simp at h

theorem tag_read_short (data : List Byte) (pos : Nat) (h : data.length < 1084)
    (h0 : 1080 ≤ data.length) :
    ∃ a b c, (slurp_read (slurp_seek_set ⟨data, pos⟩ 1080) 4).1 = [a, b, c, 0] := by
  rw [slurp_seek_set_ok _ _ h0]
  unfold slurp_read slurp_peek
  simp only []
  apply pad_short
  rw [List.length_take, List.length_drop]
  omega

theorem tag_read_data (data : List Byte) (pos : Nat) :
    (slurp_read (slurp_seek_set ⟨data, pos⟩ 1080) 4).2.2.data = data := by
  rw [slurp_read_data]; unfold slurp_seek_set; split <;> rfl

/-- A successful header part of a run leaves room for the seek to the pattern data. -/
theorem head_ok_start (X : externals) (song : song_t) (data : List Byte) (pos : Nat)
    (force : Bool) (t : mod_tag_t) (st0 : mod_load_t)
    (ht : mod_check_tag (slurp_read (slurp_seek_set ⟨data, pos⟩ 1080) 4).1 force = some t)
    (h0 : mod_load_head X song (slurp_read (slurp_seek_set ⟨data, pos⟩ 1080) 4).2.2 t = .ok st0) :
    mod_head_spec X song data t st0 ∧ mod_pattern_start t.nsamples ≤ data.length := by
  have hd := tag_read_data data pos
  by_cases hr : 150 + 30 * t.nsamples ≤ data.length
  · obtain ⟨st0', hs, hsp⟩ := mod_load_head_ok X song _ t (by rw [hd]; exact hr)
    rw [hs] at h0; cases h0
    rw [hd] at hsp
    refine ⟨hsp, ?_⟩
    unfold mod_pattern_start
    rcases mod_check_tag_nsamples _ force t ht with e | e
    · rw [e] at hr ⊢
      rw [if_neg (by decide)]
      by_contra hlt
      obtain ⟨a, b, c, e4⟩ := tag_read_short data pos (by omega) (by omega)
      rw [e4] at ht
      have := mod_check_tag_short a b c force t ht
      omega
    · rw [e] at hr ⊢
      rw [if_pos rfl]; omega
  · rw [mod_load_head_short X song _ t (by rw [hd]; exact hr)] at h0
    cases h0

theorem mod_load_tail_split (X : externals) (lflags : Nat) (st st' : mod_load_t)
    (h : mod_load_tail X lflags st = .ok st') (hn : st.nchan ≤ 64)
    (hstart : mod_pattern_start st.nsamples ≤ st.fp.data.length) :
    mod_pattern_start st.nsamples + (st.npat + 1) * pattern_bytes st.startrekker st.nchan
      ≤ st.fp.data.length ∧
    ∃ sg fp1,
      sg.title = st.song.title ∧ sg.samples = st.song.samples ∧
      sg.orderlist = st.song.orderlist ∧
      (∀ p, st.npat < p →
        sg.patterns p = st.song.patterns p ∧ sg.pattern_size p = st.song.pattern_size p) ∧
      (∀ p, p ≤ st.npat → sg.pattern_size p = 64 ∧
        ∃ pt, sg.patterns p = some pt ∧ pt.length = 4096 ∧
          ∀ j, j < 4096 → pt[j]? = some (pattern_cell X st.fp.data st.startrekker st.nchan
            (mod_pattern_start st.nsamples + p * pattern_bytes st.startrekker st.nchan)
            (j / 64) (j % 64))) ∧
      st'.song.title = (mod_apply_restart X st sg).title ∧
      st'.song.orderlist = (mod_apply_restart X st sg).orderlist ∧
      st'.song.patterns = (mod_apply_restart X st sg).patterns ∧
      st'.song.pattern_size = (mod_apply_restart X st sg).pattern_size ∧
      st'.song.samples =
        (mod_load_sample_data X lflags st.nsamples 1 (mod_apply_restart X st sg) fp1).1.samples
      := by
  have hseek : slurp_seek_set st.fp (mod_pattern_start st.nsamples)
      = ⟨st.fp.data, mod_pattern_start st.nsamples⟩ := slurp_seek_set_ok _ _ hstart
  unfold mod_load_tail at h
  simp only [hseek] at h
  by_cases hroom : mod_pattern_start st.nsamples
      + (st.npat + 1) * pattern_bytes st.startrekker st.nchan ≤ st.fp.data.length
  · obtain ⟨song', e, k1, k2, k3, _, _, _, _, k8, k9⟩ := mod_load_patterns_ok X st.startrekker
      st.nchan hn (st.npat + 1) 0 st.song ⟨st.fp.data, mod_pattern_start st.nsamples⟩
      (by simp only; exact hroom)
    rw [e] at h
    simp only at h
    cases h
    refine ⟨hroom, song', _, k1, k2, k3, ?_, ?_, ?_, ?_, ?_, ?_, rfl⟩
    · intro p hp
      exact k8 p (by omega)
    · intro p hp
      obtain ⟨q1, pt, q2, q3, q4⟩ := k9 p (Nat.zero_le _) (by omega)
      refine ⟨q1, pt, q2, q3, ?_⟩
      intro j hj
      rw [q4 j hj]
      simp only [Nat.sub_zero]
    · simp only [mod_finish]
      rw [(mod_load_sample_data_song X lflags _ _ _ _).1]
      rfl
    · simp only [mod_finish]
      rw [(mod_load_sample_data_song X lflags _ _ _ _).2.1]
      rfl
    · simp only [mod_finish]
      rw [(mod_load_sample_data_song X lflags _ _ _ _).2.2.1]
      rfl
    · simp only [mod_finish]
      rw [(mod_load_sample_data_song X lflags _ _ _ _).2.2.2]
      rfl
  · rw [mod_load_patterns_short X st.startrekker st.nchan hn (st.npat + 1) 0 st.song
      ⟨st.fp.data, mod_pattern_start st.nsamples⟩ (by simp only; exact hroom)
      (by simp only; exact hstart)] at h
    cases h

theorem mod_apply_restart_congr (X : externals) (st st' : mod_load_t) (sg : song_t)
    (h1 : st'.restart = st.restart) (h2 : st'.npat = st.npat) :
    mod_apply_restart X st' sg = mod_apply_restart X st sg := by
  unfold mod_apply_restart
  rw [h1, h2]

/-- A successful run, taken apart: the tag locals, the state after the header part with its
description, the song after the pattern loop, and what the final song has of it. -/
theorem run_ok_split (X : externals) (song : song_t) (data : List Byte) (pos lflags : Nat)
    (force : Bool) (st : mod_load_t)
    (h : fmt_mod_load_song_run X song ⟨data, pos⟩ lflags force = .ok st) :
    ∃ t st0 sg fp1,
      mod_check_tag (slurp_read (slurp_seek_set ⟨data, pos⟩ 1080) 4).1 force = some t ∧
      t.nchan ≤ 64 ∧
      mod_load_head X song (slurp_read (slurp_seek_set ⟨data, pos⟩ 1080) 4).2.2 t = .ok st0 ∧
      mod_head_spec X song data t st0 ∧
      mod_load_tail X lflags st0 = .ok st ∧
      (st.nchan = st0.nchan ∧ st.nsamples = st0.nsamples ∧ st.npat = st0.npat ∧
        st.startrekker = st0.startrekker ∧ st.restart = st0.restart ∧ st.nord = st0.nord ∧
        st.samplesize = st0.samplesize) ∧
      st.nchan ≤ 64 ∧
      mod_pattern_start st.nsamples + (st.npat + 1) * pattern_bytes st.startrekker st.nchan
        ≤ data.length ∧
      sg.title = st0.song.title ∧ sg.samples = st0.song.samples ∧
      sg.orderlist = st0.song.orderlist ∧
      (∀ p, st.npat < p →
        sg.patterns p = song.patterns p ∧ sg.pattern_size p = song.pattern_size p) ∧
      (∀ p, p ≤ st.npat → sg.pattern_size p = 64 ∧
        ∃ pt, sg.patterns p = some pt ∧ pt.length = 4096 ∧
          ∀ j, j < 4096 → pt[j]? = some (pattern_cell X data st.startrekker st.nchan
            (mod_pattern_start st.nsamples + p * pattern_bytes st.startrekker st.nchan)
            (j / 64) (j % 64))) ∧
      st.song.title = (mod_apply_restart X st sg).title ∧
      st.song.orderlist = (mod_apply_restart X st sg).orderlist ∧
      st.song.patterns = (mod_apply_restart X st sg).patterns ∧
      st.song.pattern_size = (mod_apply_restart X st sg).pattern_size ∧
      st.song.samples =
        (mod_load_sample_data X lflags st.nsamples 1 (mod_apply_restart X st sg) fp1).1.samples
      := by
  obtain ⟨t, st0, ht, hn, h0, h1⟩ := run_ok_cases X song ⟨data, pos⟩ lflags force st h
  obtain ⟨hsp, hstart⟩ := head_ok_start X song data pos force t st0 ht h0
  obtain ⟨l1, l2, l3, l4, l5, l6, l7, _⟩ := mod_load_tail_locals X lflags st0 st h1
  have hn0 : st0.nchan ≤ 64 := by
    unfold MAX_CHANNELS at hn
    rcases mod_load_head_nchan X song _ t st0 h0 with e | e | e <;> omega
  have hd : st0.fp.data = data := hsp.fp_data
  obtain ⟨hroom, sg, fp1, k1, k2, k3, k4, k5, k6, k7, k8, k9, k10⟩ :=
    mod_load_tail_split X lflags st0 st h1 hn0 (by rw [hd, hsp.nsamples]; exact hstart)
  have hr := mod_apply_restart_congr X st0 st sg l5 l3
  rw [hd] at hroom k5
  refine ⟨t, st0, sg, fp1, ht, hn, h0, hsp, h1, ⟨l1, l2, l3, l4, l5, l6, l7⟩, by omega,
    ?_, k1, k2, k3, ?_, ?_, ?_, ?_, ?_, ?_, ?_⟩
  · rw [l1, l2, l3, l4]; exact hroom
  · intro p hp
    rw [l3] at hp
    rw [(k4 p hp).1, (k4 p hp).2, hsp.patterns, hsp.pattern_size]
    exact ⟨rfl, rfl⟩
  · intro p hp
    rw [l3] at hp
    rw [l1, l2, l4]
    exact k5 p hp
  · rw [hr]; exact k6
  · rw [hr]; exact k7
  · rw [hr]; exact k8
  · rw [hr]; exact k9
  · rw [hr, l2]; exact k10

theorem halve_raw_orders (data : List Byte) (ns : Nat) (s : Bool) (old : Nat → Nat) (i : Nat)
    (hi : i < 128) :
    halve_orders s (raw_orders data (20 + 30 * ns + 2) old) i = order_value data ns s i := by
  unfold halve_orders raw_orders order_value order_byte
  cases s
  · simp only [Bool.false_eq_true, if_false, if_pos hi]
  · simp only [if_true, if_pos hi, Nat.shiftRight_one]

theorem orderlist_has_odd_iff (ol : Nat → Nat) (k : Nat) :
    orderlist_has_odd ol k = true ↔ ∃ i, i < k ∧ ol i % 2 = 1 := by
  unfold orderlist_has_odd
  simp only [List.any_eq_true, List.mem_range, Nat.and_one_is_mod, ne_eq, decide_eq_true_eq]
  constructor
  · rintro ⟨i, hi, h⟩; exact ⟨i, hi, by omega⟩
  · rintro ⟨i, hi, h⟩; exact ⟨i, hi, by omega⟩

theorem raw_orders_odd_iff (data : List Byte) (ns : Nat) (old : Nat → Nat) :
    orderlist_has_odd (raw_orders data (20 + 30 * ns + 2) old) 128 = true ↔
      ∃ i, i < 128 ∧ order_byte data ns i % 2 = 1 := by
  rw [orderlist_has_odd_iff]
  constructor
  · rintro ⟨i, hi, h⟩
    refine ⟨i, hi, ?_⟩
    unfold raw_orders at h; rw [if_pos hi] at h; exact h
  · rintro ⟨i, hi, h⟩
    refine ⟨i, hi, ?_⟩
    unfold raw_orders; rw [if_pos hi]; exact h

/-- The order list the header part leaves, slot by slot. -/
theorem head_orderlist (X : externals) (song : song_t) (data : List Byte) (t : mod_tag_t)
    (st0 : mod_load_t) (hsp : mod_head_spec X song data t st0) :
    (∀ i : Nat, st0.nord ≤ (i : Int) → i < MAX_ORDERS → st0.song.orderlist i = ORDER_LAST) ∧
    (∀ i : Nat, (i : Int) < st0.nord → i < 128 → st0.song.orderlist i =
      if order_value data st0.nsamples st0.startrekker i < MAX_PATTERNS
      then order_value data st0.nsamples st0.startrekker i else ORDER_SKIP) := by
  constructor
  · intro i h1 h2
    rw [hsp.orderlist i, if_pos ⟨h1, h2⟩]
  · intro i h1 h2
    rw [hsp.orderlist i, if_neg (by omega), mod_scan_orders_fst,
      halve_raw_orders data t.nsamples _ _ i h2, hsp.nsamples]
    by_cases hv : order_value data t.nsamples st0.startrekker i < MAX_PATTERNS
    · rw [if_pos hv, if_neg (by omega)]
    · rw [if_neg hv, if_pos ⟨by omega, by omega, by omega⟩]

/-- The highest pattern number `npat` that the header part finds. -/
theorem head_npat (X : externals) (song : song_t) (data : List Byte) (t : mod_tag_t)
    (st0 : mod_load_t) (hsp : mod_head_spec X song data t st0) :
    (∀ i, i < 128 → order_value data st0.nsamples st0.startrekker i < MAX_PATTERNS →
      order_value data st0.nsamples st0.startrekker i ≤ st0.npat) ∧
    (st0.npat = 0 ∨ ∃ i, i < 128 ∧
      order_value data st0.nsamples st0.startrekker i < MAX_PATTERNS ∧
      order_value data st0.nsamples st0.startrekker i = st0.npat) := by
  obtain ⟨_, s2, s3⟩ := mod_scan_orders_snd 128 0 (halve_orders st0.startrekker
    (raw_orders data (20 + 30 * t.nsamples + 2) song.orderlist)) 0
  rw [← hsp.npat] at s2 s3
  rw [hsp.nsamples]
  constructor
  · intro i hi hv
    have := s2 i (Nat.zero_le _) (by omega)
    rw [halve_raw_orders data t.nsamples _ _ i hi] at this
    exact this hv
  · rcases s3 with e | ⟨i, _, hi, hv, he⟩
    · left; exact e
    · right
      rw [halve_raw_orders data t.nsamples _ _ i (by omega)] at hv he
      exact ⟨i, by omega, hv, he⟩

/-- C12: after a successful decode with the declared order count `nord` (the byte after the sample headers), the order list that the decoder leaves to the restart step has the end-of-song marker in every slot at index `nord` or above (below `MAX_ORDERS`), and in every slot `i < min(nord, 128)` the order value of the file (the order byte, halved in a file kept as Startrekker) when that is below `MAX_PATTERNS`, the skip marker otherwise; the final order list is that of the restart step, and the same list when no restart marker is inserted. -/
theorem fmt_mod_load_song_order_list (X : externals) (song : song_t) (data : List Byte)
    (pos lflags : Nat) (force : Bool) (st : mod_load_t)
    (h : fmt_mod_load_song_run X song ⟨data, pos⟩ lflags force = .ok st) :
    ∃ sg, st.song.orderlist = (mod_apply_restart X st sg).orderlist ∧
      (¬ st.restart < st.npat → st.song.orderlist = sg.orderlist) ∧
      st.nord = ((data.getD (20 + 30 * st.nsamples) 0).val : Int) ∧
      (∀ i : Nat, st.nord ≤ (i : Int) → i < MAX_ORDERS → sg.orderlist i = ORDER_LAST) ∧
      (∀ i : Nat, (i : Int) < st.nord → i < 128 → sg.orderlist i =
        if order_value data st.nsamples st.startrekker i < MAX_PATTERNS
        then order_value data st.nsamples st.startrekker i else ORDER_SKIP) := by
  obtain ⟨t, st0, sg, fp1, _, _, _, hsp, _, ⟨l1, l2, l3, l4, l5, l6, l7⟩, _, _, k1, k2, k3, _, _,
    _, k7, _⟩ := run_ok_split X song data pos lflags force st h
  obtain ⟨o1, o2⟩ := head_orderlist X song data t st0 hsp
  refine ⟨sg, k7, ?_, ?_, ?_, ?_⟩
  · intro hr
    rw [k7]
    unfold mod_apply_restart
    rw [if_neg hr]
  · rw [l6, l2, hsp.nord, hsp.nsamples]
  · intro i h1 h2
    rw [k3]
    exact o1 i (by rw [← l6]; exact h1) h2
  · intro i h1 h2
    rw [k3, l2, l4]
    exact o2 i (by rw [← l6]; exact h1) h2

theorem pattern_cell_standard (X : externals) (data : List Byte) (nchan start p r c : Nat) :
    pattern_cell X data false nchan (start + p * pattern_bytes false nchan) r c =
      if c < nchan then
        X.csf_import_mod_effect (mod_import_note X
          ((data.drop (start + 4 * ((p * 64 + r) * nchan + c))).take 4))
      else blank_note := by
  unfold pattern_cell pattern_bytes cell_at
  simp only [Bool.false_eq_true, if_false]
  have e : start + p * (4 * (nchan * 64)) + 4 * (nchan * r + c)
      = start + 4 * ((p * 64 + r) * nchan + c) := by ring
  rw [e]

theorem pattern_cell_startrekker (X : externals) (data : List Byte) (nchan p r c : Nat) :
    pattern_cell X data true nchan (1084 + p * pattern_bytes true nchan) r c =
      if c < 8 then
        cell_at X data (1084 + 2048 * p + 1024 * (c / 4) + 16 * r + 4 * (c % 4))
      else blank_note := by
  unfold pattern_cell pattern_bytes
  simp only [if_true]
  by_cases h4 : c < 4
  · rw [if_pos h4, if_pos (by omega)]
    congr 1
    omega
  · rw [if_neg h4]
    by_cases h8 : c < 8
    · rw [if_pos h8, if_pos h8]
      congr 1
      omega
    · rw [if_neg h8, if_neg h8]

theorem head_startrekker_nchan (X : externals) (song : song_t) (data : List Byte)
    (force : Bool) (tag : List Byte) (t : mod_tag_t) (st0 : mod_load_t)
    (ht : mod_check_tag tag force = some t) (hsp : mod_head_spec X song data t st0)
    (hs : st0.startrekker = true) : st0.nchan = 8 ∧ st0.nsamples = 31 := by
  have e := hsp.startrekker
  rw [hs] at e
  have e' := e.symm
  rw [Bool.and_eq_true] at e'
  obtain ⟨e1, e2⟩ := e'
  obtain ⟨f1, _, _⟩ := mod_check_tag_startrekker tag force t ht
  obtain ⟨g1, g2⟩ := f1 e1
  have hodd : orderlist_has_odd
      (raw_orders data (20 + 30 * t.nsamples + 2) song.orderlist) 128 = false := by
    simpa using e2
  constructor
  · rw [hsp.nchan, g2, hodd, e1, g1]
    simp
  · rw [hsp.nsamples]
    rcases mod_check_tag_nsamples tag force t ht with e3 | e3
    · exact e3
    · exfalso
      unfold mod_check_tag at ht
      simp only [] at ht
      revert ht
      intro ht
      rcases ite_eq_cases ht with ⟨_, h⟩ | ⟨_, h⟩
      · cases h; cases e3
      rcases ite_eq_cases h with ⟨_, h⟩ | ⟨_, h⟩
      · cases h; cases e3
      rcases ite_eq_cases h with ⟨_, h⟩ | ⟨_, h⟩
      · cases h; cases e3
      rcases ite_eq_cases h with ⟨_, h⟩ | ⟨_, h⟩
      · cases h; cases e3
      rcases ite_eq_cases h with ⟨_, h⟩ | ⟨_, h⟩
      · cases h; cases e3
      rcases ite_eq_cases h with ⟨_, h⟩ | ⟨_, h⟩
      · cases h; cases e3
      rcases ite_eq_cases h with ⟨_, h⟩ | ⟨_, h⟩
      · rcases ite_eq_cases h with ⟨_, h⟩ | ⟨_, h⟩
        · cases h; cases e3
        · cases h; cases e3
      rcases ite_eq_cases h with ⟨_, h⟩ | ⟨_, h⟩
      · rcases ite_eq_cases h with ⟨_, h⟩ | ⟨_, h⟩
        · cases h; cases e3
        · cases h; cases e3
      rcases ite_eq_cases h with ⟨_, h⟩ | ⟨_, h⟩
      · cases h; cases e3
      rcases ite_eq_cases h with ⟨_, h⟩ | ⟨_, h⟩
      · cases h; cases e1
      · cases h

/-- C15, amended: in the standard layout a successful decode makes exactly the patterns 0..`npat` of 64 rows each, where `npat` is the largest value below `MAX_PATTERNS` among all 128 order bytes (0 when there is none); the cell at pattern `p`, row `r`, channel `c < nchan` is `csf_import_mod_effect` applied to `mod_import_note` of the 4 bytes at the file offset `start + 4 * ((p * 64 + r) * nchan + c)`, with `start` 600 in the 15-sample layout and 1084 otherwise, and the cells of the channels from `nchan` on are left at their default; other patterns are as they were. -/
theorem fmt_mod_load_song_patterns_standard (X : externals) (song : song_t) (data : List Byte)
    (pos lflags : Nat) (force : Bool) (st : mod_load_t)
    (h : fmt_mod_load_song_run X song ⟨data, pos⟩ lflags force = .ok st)
    (hs : st.startrekker = false) :
    ∃ sg, st.song.patterns = (mod_apply_restart X st sg).patterns ∧
      st.song.pattern_size = (mod_apply_restart X st sg).pattern_size ∧
      (¬ st.restart < st.npat →
        st.song.patterns = sg.patterns ∧ st.song.pattern_size = sg.pattern_size) ∧
      (∀ i, i < 128 → order_byte data st.nsamples i < MAX_PATTERNS →
        order_byte data st.nsamples i ≤ st.npat) ∧
      (st.npat = 0 ∨ ∃ i, i < 128 ∧ order_byte data st.nsamples i < MAX_PATTERNS ∧
        order_byte data st.nsamples i = st.npat) ∧
      (∀ p, st.npat < p →
        sg.patterns p = song.patterns p ∧ sg.pattern_size p = song.pattern_size p) ∧
      ∀ p, p ≤ st.npat → sg.pattern_size p = 64 ∧
        ∃ pt, sg.patterns p = some pt ∧ pt.length = 64 * MAX_CHANNELS ∧
          ∀ r c, r < 64 → c < MAX_CHANNELS → pt[MAX_CHANNELS * r + c]? = some
            (if c < st.nchan then
              X.csf_import_mod_effect (mod_import_note X ((data.drop
                (mod_pattern_start st.nsamples + 4 * ((p * 64 + r) * st.nchan + c))).take 4))
            else blank_note) := by
  obtain ⟨t, st0, sg, fp1, _, _, _, hsp, _, ⟨l1, l2, l3, l4, l5, l6, l7⟩, _, _, k1, k2, k3, k4, k5,
    _, _, k8, k9, _⟩ := run_ok_split X song data pos lflags force st h
  obtain ⟨n1, n2⟩ := head_npat X song data t st0 hsp
  rw [← l2, ← l3, ← l4, hs] at n1 n2
  unfold order_value at n1 n2
  simp only [Bool.false_eq_true, if_false] at n1 n2
  refine ⟨sg, k8, k9, ?_, n1, n2, k4, ?_⟩
  · intro hr
    rw [k8, k9]
    unfold mod_apply_restart
    rw [if_neg hr]
    exact ⟨rfl, rfl⟩
  · intro p hp
    obtain ⟨q1, pt, q2, q3, q4⟩ := k5 p hp
    refine ⟨q1, pt, q2, by rw [q3]; rfl, ?_⟩
    intro r c hr hc
    unfold MAX_CHANNELS at hc ⊢
    rw [q4 (64 * r + c) (by omega), hs, pattern_cell_standard]
    have e1 : (64 * r + c) / 64 = r := by omega
    have e2 : (64 * r + c) % 64 = c := by omega
    rw [e1, e2]

/-- C16: in the Startrekker layout (8 channels), for every pattern `p` up to `npat`, row `r` in 0..63 and channel `c` in 0..7 the decoded cell comes from the 4 bytes at file offset `1084 + 2048 * p + 1024 * (c / 4) + 16 * r + 4 * (c % 4)`, and the cells of channels 8..63 are left at their default. -/
theorem fmt_mod_load_song_patterns_startrekker (X : externals) (song : song_t)
    (data : List Byte) (pos lflags : Nat) (force : Bool) (st : mod_load_t)
    (h : fmt_mod_load_song_run X song ⟨data, pos⟩ lflags force = .ok st)
    (hs : st.startrekker = true) :
    st.nchan = 8 ∧
    ∃ sg, st.song.patterns = (mod_apply_restart X st sg).patterns ∧
      (¬ st.restart < st.npat → st.song.patterns = sg.patterns) ∧
      ∀ p, p ≤ st.npat → sg.pattern_size p = 64 ∧
        ∃ pt, sg.patterns p = some pt ∧ pt.length = 64 * MAX_CHANNELS ∧
          ∀ r c, r < 64 → c < MAX_CHANNELS → pt[MAX_CHANNELS * r + c]? = some
            (if c < 8 then
              X.csf_import_mod_effect (mod_import_note X ((data.drop
                (1084 + 2048 * p + 1024 * (c / 4) + 16 * r + 4 * (c % 4))).take 4))
            else blank_note) := by
  obtain ⟨t, st0, sg, fp1, ht, _, _, hsp, _, ⟨l1, l2, l3, l4, l5, l6, l7⟩, _, _, k1, k2, k3, k4,
    k5, _, _, k8, k9, _⟩ := run_ok_split X song data pos lflags force st h
  obtain ⟨c1, c2⟩ := head_startrekker_nchan X song data force _ t st0 ht hsp (by rw [← l4]; exact hs)
  rw [← l1] at c1
  rw [← l2] at c2
  refine ⟨c1, sg, k8, ?_, ?_⟩
  · intro hr
    rw [k8]
    unfold mod_apply_restart
    rw [if_neg hr]
  · intro p hp
    obtain ⟨q1, pt, q2, q3, q4⟩ := k5 p hp
    refine ⟨q1, pt, q2, by rw [q3]; rfl, ?_⟩
    intro r c hr hc
    unfold MAX_CHANNELS at hc ⊢
    rw [q4 (64 * r + c) (by omega), hs, c2]
    have e1 : (64 * r + c) / 64 = r := by omega
    have e2 : (64 * r + c) % 64 = c := by omega
    rw [e1, e2, show mod_pattern_start 31 = 1084 from rfl, pattern_cell_startrekker]
    rfl

theorem run_of_head (X : externals) (song : song_t) (fp : slurp_t) (lflags : Nat)
    (force : Bool) (t : mod_tag_t) (st0 : mod_load_t)
    (ht : mod_check_tag (slurp_read (slurp_seek_set fp 1080) 4).1 force = some t)
    (hn : t.nchan ≤ MAX_CHANNELS)
    (h0 : mod_load_head X song (slurp_read (slurp_seek_set fp 1080) 4).2.2 t = .ok st0) :
    fmt_mod_load_song_run X song fp lflags force = mod_load_tail X lflags st0 := by
  unfold fmt_mod_load_song_run
  simp only [ht, if_neg (Nat.not_lt.mpr hn), h0]

theorem pattern_bytes_eq (s : Bool) (nchan : Nat) (h : s = true → nchan = 8) :
    pattern_bytes s nchan = 64 * nchan * 4 := by
  unfold pattern_bytes
  cases s
  · simp only [Bool.false_eq_true, if_false]; omega
  · simp only [if_true]; rw [h rfl]

/-- C17: when the tag and the header have been read (the header part ends in the state `st0`), `fmt_mod_load_song` returns `LOAD_UNSUPPORTED` if the stream is shorter than `start + (npat + 1) * 64 * nchan * 4` bytes, with the final channel count `nchan`, and it succeeds otherwise: success means that every pattern cell was read in full. -/
theorem fmt_mod_load_song_truncated (X : externals) (song : song_t) (data : List Byte)
    (pos lflags : Nat) (force : Bool) (t : mod_tag_t) (st0 : mod_load_t)
    (ht : mod_check_tag (slurp_read (slurp_seek_set ⟨data, pos⟩ 1080) 4).1 force = some t)
    (hn : t.nchan ≤ MAX_CHANNELS)
    (h0 : mod_load_head X song (slurp_read (slurp_seek_set ⟨data, pos⟩ 1080) 4).2.2 t
      = .ok st0) :
    (data.length < mod_pattern_start st0.nsamples + (st0.npat + 1) * (64 * st0.nchan * 4) →
      fmt_mod_load_song X song ⟨data, pos⟩ lflags force = .error .LOAD_UNSUPPORTED) ∧
    (mod_pattern_start st0.nsamples + (st0.npat + 1) * (64 * st0.nchan * 4) ≤ data.length →
      ∃ s, fmt_mod_load_song X song ⟨data, pos⟩ lflags force = .ok s) := by
  obtain ⟨hsp, hstart⟩ := head_ok_start X song data pos force t st0 ht h0
  have hrun := run_of_head X song ⟨data, pos⟩ lflags force t st0 ht hn h0
  have hn0 : st0.nchan ≤ 64 := by
    unfold MAX_CHANNELS at hn
    rcases mod_load_head_nchan X song _ t st0 h0 with e | e | e <;> omega
  have hpb : pattern_bytes st0.startrekker st0.nchan = 64 * st0.nchan * 4 :=
    pattern_bytes_eq _ _ (fun hs => (head_startrekker_nchan X song data force _ t st0 ht hsp hs).1)
  have hd : st0.fp.data = data := hsp.fp_data
  constructor
  · intro hshort
    rw [fmt_mod_load_song_eq, hrun]
    have hseek : slurp_seek_set st0.fp (mod_pattern_start st0.nsamples)
        = ⟨st0.fp.data, mod_pattern_start st0.nsamples⟩ :=
      slurp_seek_set_ok _ _ (by rw [hd, hsp.nsamples]; exact hstart)
    unfold mod_load_tail
    simp only [hseek]
    rw [mod_load_patterns_short X st0.startrekker st0.nchan hn0 (st0.npat + 1) 0 st0.song
      ⟨st0.fp.data, mod_pattern_start st0.nsamples⟩
      (by simp only [hpb, hd]; omega) (by simp only [hd, hsp.nsamples]; exact hstart)]
  · intro hroom
    obtain ⟨st, hst⟩ := mod_load_tail_ok X lflags st0 hn0 (by rw [hpb, hd]; exact hroom)
    refine ⟨st.song, ?_⟩
    unfold fmt_mod_load_song
    rw [hrun, hst]

theorem mod_check_tag_flt8 (force : Bool) :
    mod_check_tag (cstr "FLT8") force =
      some { nchan := 8, startrekker := true, tid := "%d Channel Startrekker" } := rfl

theorem hdr_length_sum_samples (data : List Byte) (song : song_t) :
    ∀ k n, 1 ≤ n →
    (∀ m, n ≤ m → m < n + k → (song.samples m).length =
      be16 (((data.drop (20 + 30 * (m - 1))).take 30).drop 22) * 2) →
    hdr_length_sum data k (20 + 30 * (n - 1)) = sample_length_sum song k n := by
  intro k
  induction k with
  | zero => intro n _ _; rfl
  | succ k ih =>
    intro n hn hm
    simp only [hdr_length_sum, sample_length_sum]
    have e : 20 + 30 * (n - 1) + 30 = 20 + 30 * (n + 1 - 1) := by omega
    rw [e, ih (n + 1) (by omega) (fun m h1 h2 => hm m (by omega) (by omega)),
      hm n (Nat.le_refl _) (by omega)]

theorem head_samplesize (X : externals) (song : song_t) (data : List Byte) (t : mod_tag_t)
    (st0 : mod_load_t) (hsp : mod_head_spec X song data t st0) :
    st0.samplesize = sample_length_sum st0.song st0.nsamples 1 := by
  rw [hsp.samplesize, hsp.nsamples]
  have := hdr_length_sum_samples data st0.song t.nsamples 1 (Nat.le_refl _) (by
    intro m h1 h2
    rw [hsp.samples m, if_pos ⟨h1, h2⟩]
    rfl)
  exact this

/-- C14, amended: the decoder makes the WOW test for the tag `M.K.` only, and for that tag it goes on with 8 channels if and only if the length of the stream is exactly `2048 * npat + samplesize + 3132`, where `npat` is the highest pattern number among the 128 order bytes and `samplesize` the sum of the decoded sample lengths (with 4 channels otherwise, so also for a length that is off by one); for every other tag the channel count does not depend on the length. -/
theorem fmt_mod_load_song_wow (X : externals) (song : song_t) (data : List Byte)
    (pos lflags : Nat) (force : Bool) (st : mod_load_t)
    (h : fmt_mod_load_song_run X song ⟨data, pos⟩ lflags force = .ok st) :
    ∃ t st0, mod_check_tag (slurp_read (slurp_seek_set ⟨data, pos⟩ 1080) 4).1 force = some t ∧
      mod_load_head X song (slurp_read (slurp_seek_set ⟨data, pos⟩ 1080) 4).2.2 t = .ok st0 ∧
      mod_load_tail X lflags st0 = .ok st ∧
      (t.test_wow = true ↔
        memeq (slurp_read (slurp_seek_set ⟨data, pos⟩ 1080) 4).1 (cstr "M.K.") 4 = true) ∧
      (t.test_wow = true →
        (st.nchan = 8 ↔ data.length = 2048 * st.npat + st.samplesize + 3132) ∧
        (st.nchan ≠ 8 → st.nchan = 4)) ∧
      (t.test_wow = false →
        ((t.startrekker = true ∧ ∃ i, i < 128 ∧ order_byte data st.nsamples i % 2 = 1) →
          st.nchan = 4) ∧
        (¬ (t.startrekker = true ∧ ∃ i, i < 128 ∧ order_byte data st.nsamples i % 2 = 1) →
          st.nchan = t.nchan)) ∧
      st.samplesize = sample_length_sum st0.song st.nsamples 1 ∧
      (∀ i, i < 128 → order_value data st.nsamples st.startrekker i < MAX_PATTERNS →
        order_value data st.nsamples st.startrekker i ≤ st.npat) ∧
      (st.npat = 0 ∨ ∃ i, i < 128 ∧
        order_value data st.nsamples st.startrekker i < MAX_PATTERNS ∧
        order_value data st.nsamples st.startrekker i = st.npat) := by
  obtain ⟨t, st0, sg, fp1, ht, _, h0, hsp, h1, ⟨l1, l2, l3, l4, l5, l6, l7⟩, _⟩ :=
    run_ok_split X song data pos lflags force st h
  obtain ⟨f1, f2, f3⟩ := mod_check_tag_startrekker _ force t ht
  obtain ⟨n1, n2⟩ := head_npat X song data t st0 hsp
  have hodd := raw_orders_odd_iff data t.nsamples song.orderlist
  refine ⟨t, st0, ht, h0, h1, f3, ?_, ?_, ?_, ?_, ?_⟩
  · intro hw
    obtain ⟨g1, g2, _⟩ := f2 hw
    have hn := hsp.nchan
    rw [hw, g2, g1, ← l1, ← l3, ← l7] at hn
    simp only [true_and, Bool.true_and, Bool.false_and, Bool.false_eq_true, if_false] at hn
    constructor
    · constructor
      · intro h8
        by_contra hne
        rw [if_neg hne] at hn
        omega
      · intro he
        rw [hn, if_pos he]
    · intro h8
      by_cases he : data.length = 2048 * st.npat + st.samplesize + 3132
      · rw [if_pos he] at hn; exact (h8 hn).elim
      · rw [if_neg he] at hn; exact hn
  · intro hw
    have hn := hsp.nchan
    rw [hw, ← l1] at hn
    simp only [Bool.false_eq_true, false_and, if_false] at hn
    rw [l2, hsp.nsamples]
    constructor
    · rintro ⟨hs, hex⟩
      rw [hn, hs, hodd.mpr hex]
      rfl
    · intro hnot
      rw [hn, if_neg]
      intro hb
      rw [Bool.and_eq_true] at hb
      exact hnot ⟨hb.1, hodd.mp hb.2⟩
  · rw [l7, l2]
    exact head_samplesize X song data t st0 hsp
  · rw [l2, l3, l4]; exact n1
  · rw [l2, l3, l4]; exact n2

/-- C18, amended: in a successful decode the restart marker is inserted (`csf_insert_restart_pos` is called with the restart byte) exactly when the restart byte is below the highest pattern number `npat` of the order bytes, not when it equals `npat`: the final song then has the title, order list, patterns and samples of the song with the marker, and else those of the song as the pattern loop left it. -/
theorem fmt_mod_load_song_restart (X : externals) (song : song_t) (data : List Byte)
    (pos lflags : Nat) (force : Bool) (st : mod_load_t)
    (h : fmt_mod_load_song_run X song ⟨data, pos⟩ lflags force = .ok st) :
    st.restart = (data.getD (20 + 30 * st.nsamples + 1) 0).val ∧
    (∀ i, i < 128 → order_value data st.nsamples st.startrekker i < MAX_PATTERNS →
      order_value data st.nsamples st.startrekker i ≤ st.npat) ∧
    (st.npat = 0 ∨ ∃ i, i < 128 ∧
      order_value data st.nsamples st.startrekker i < MAX_PATTERNS ∧
      order_value data st.nsamples st.startrekker i = st.npat) ∧
    ∃ sg fp1,
      (∀ i : Nat, st.nord ≤ (i : Int) → i < MAX_ORDERS → sg.orderlist i = ORDER_LAST) ∧
      (st.restart < st.npat →
        st.song.title = (X.csf_insert_restart_pos sg st.restart).title ∧
        st.song.orderlist = (X.csf_insert_restart_pos sg st.restart).orderlist ∧
        st.song.patterns = (X.csf_insert_restart_pos sg st.restart).patterns ∧
        st.song.pattern_size = (X.csf_insert_restart_pos sg st.restart).pattern_size ∧
        st.song.samples = (mod_load_sample_data X lflags st.nsamples 1
          (X.csf_insert_restart_pos sg st.restart) fp1).1.samples) ∧
      (¬ st.restart < st.npat →
        st.song.title = sg.title ∧ st.song.orderlist = sg.orderlist ∧
        st.song.patterns = sg.patterns ∧ st.song.pattern_size = sg.pattern_size ∧
        st.song.samples = (mod_load_sample_data X lflags st.nsamples 1 sg fp1).1.samples) := by
  obtain ⟨t, st0, sg, fp1, _, _, _, hsp, _, ⟨l1, l2, l3, l4, l5, l6, l7⟩, _, _, k1, k2, k3, k4,
    k5, k6, k7, k8, k9, k10⟩ := run_ok_split X song data pos lflags force st h
  obtain ⟨n1, n2⟩ := head_npat X song data t st0 hsp
  obtain ⟨o1, _⟩ := head_orderlist X song data t st0 hsp
  refine ⟨by rw [l5, l2, hsp.restart, hsp.nsamples], by rw [l2, l3, l4]; exact n1,
    by rw [l2, l3, l4]; exact n2, sg, fp1, ?_, ?_, ?_⟩
  · intro i h1 h2
    rw [k3]
    exact o1 i (by rw [← l6]; exact h1) h2
  · intro hr
    have e : mod_apply_restart X st sg = X.csf_insert_restart_pos sg st.restart := by
      unfold mod_apply_restart; rw [if_pos hr]
    rw [e] at k6 k7 k8 k9 k10
    exact ⟨k6, k7, k8, k9, k10⟩
  · intro hr
    have e : mod_apply_restart X st sg = sg := by
      unfold mod_apply_restart; rw [if_neg hr]
    rw [e] at k6 k7 k8 k9 k10
    exact ⟨k6, k7, k8, k9, k10⟩

theorem module_example_length (hdr : List Byte) (tag : String) (body : List Byte)
    (hh : hdr.length ≤ 1080) (h4 : (cstr tag).length = 4) :
    (module_example hdr tag body).length = 1084 + body.length := by
  unfold module_example
  rw [List.length_append, tagged_example_length _ _ _ hh, h4]

theorem module_example_tag (hdr : List Byte) (tag : String) (body : List Byte)
    (hh : hdr.length ≤ 1080) (h4 : (cstr tag).length = 4) :
    ((module_example hdr tag body).drop 1080).take 4 = cstr tag := by
  unfold module_example
  have hl := tagged_example_length hdr tag 0 hh
  rw [List.drop_append_of_le_length (by omega), List.take_append_of_le_length (by
    rw [List.length_drop]; omega)]
  exact tagged_example_tag hdr tag 0 hh h4

theorem module_example_getD_zero (hdr : List Byte) (tag : String) (body : List Byte) (i : Nat)
    (h1 : hdr.length ≤ i) (h2 : i < 1080) :
    (module_example hdr tag body).getD i 0 = 0 := by
  unfold module_example
  have hl : i < (tagged_example hdr tag 0).length := by
    unfold tagged_example
    simp only [List.length_append, List.length_replicate]
    omega
  rw [List.getD_eq_getElem?_getD, List.getElem?_append_left hl, ← List.getD_eq_getElem?_getD]
  exact tagged_example_getD hdr tag 0 i h1 h2

theorem module_example_body (hdr : List Byte) (tag : String) (body : List Byte) (off n : Nat)
    (hh : hdr.length ≤ 1080) (h4 : (cstr tag).length = 4) :
    ((module_example hdr tag body).drop (1084 + off)).take n = (body.drop off).take n := by
  unfold module_example
  have hl : (tagged_example hdr tag 0).length = 1084 := by
    rw [tagged_example_length hdr tag 0 hh, h4]
  rw [← hl, ← List.drop_drop, List.drop_left]

theorem tagged_example_eq (hdr : List Byte) (tag : String) (n : Nat) :
    tagged_example hdr tag n = module_example hdr tag (List.replicate n 0) := by
  unfold module_example tagged_example
  simp only [List.replicate_zero, List.append_nil]

/-- The header part on a stream whose order count, restart byte and order bytes (offsets 950
to 1079) are all zero. -/
theorem head_of_zero_orders (X : externals) (song : song_t) (data : List Byte) (t : mod_tag_t)
    (st0 : mod_load_t) (hsp : mod_head_spec X song data t st0) (hns : t.nsamples = 31)
    (hz : ∀ i, 950 ≤ i → i < 1080 → data.getD i 0 = 0) :
    st0.npat = 0 ∧ st0.restart = 0 ∧ st0.nord = 0 ∧ st0.nsamples = 31 ∧
    st0.startrekker = t.startrekker ∧
    st0.nchan = if t.test_wow = true ∧ data.length = st0.samplesize + 3132 then 8
      else t.nchan := by
  have hob : ∀ i, i < 128 → order_byte data 31 i = 0 := by
    intro i hi
    unfold order_byte
    rw [hz _ (by omega) (by omega)]
    rfl
  have hodd : orderlist_has_odd (raw_orders data (20 + 30 * t.nsamples + 2) song.orderlist) 128
      = false := by
    rcases Bool.eq_false_or_eq_true (orderlist_has_odd (raw_orders data
      (20 + 30 * t.nsamples + 2) song.orderlist) 128) with e | e
    · obtain ⟨i, hi, h1⟩ := (raw_orders_odd_iff data t.nsamples song.orderlist).mp e
      rw [hns, hob i hi] at h1
      omega
    · exact e
  have hst : st0.startrekker = t.startrekker := by
    rw [hsp.startrekker, hodd]; simp
  have hnp : st0.npat = 0 := by
    rw [hsp.npat]
    apply mod_scan_orders_zero
    intro i hi
    rw [halve_raw_orders data t.nsamples _ _ i hi, hns]
    unfold order_value
    rw [hob i hi]
    split <;> rfl
  refine ⟨hnp, ?_, ?_, by rw [hsp.nsamples, hns], hst, ?_⟩
  · rw [hsp.restart, hns, hz _ (by omega) (by omega)]; rfl
  · rw [hsp.nord, hns, hz _ (by omega) (by omega)]; rfl
  · rw [hsp.nchan, hnp, hodd]
    simp

theorem hdr_length_sum_zero (data : List Byte) :
    ∀ k pos, pos + 30 * k ≤ 1080 → (∀ i, pos ≤ i → i < 1080 → data.getD i 0 = 0) →
    hdr_length_sum data k pos = 0 := by
  intro k
  induction k with
  | zero => intro pos _ _; rfl
  | succ k ih =>
    intro pos hp hz
    simp only [hdr_length_sum]
    rw [ih (pos + 30) (by omega) (fun i h1 h2 => hz i (by omega) h2),
      be16_drop_take data pos 30 22 (by omega), hz _ (by omega) (by omega),
      hz _ (by omega) (by omega)]
    rfl

theorem decoded_ok (X : externals) (data : List Byte) (lflags : Nat)
    (h : ∃ st, fmt_mod_load_song_run X empty_song (slurp_open data) lflags false = .ok st) :
    fmt_mod_load_song_run X empty_song (slurp_open data) lflags false
      = .ok (decoded X data lflags) :=
  load_state_or_eq _ _ h

/-- A stream of zeros around a 31-sample tag is decoded, when there is room for the first
pattern. -/
theorem zero_example_ok (X : externals) (tag : String) (body : List Byte) (lflags : Nat)
    (t : mod_tag_t) (h4 : (cstr tag).length = 4)
    (ht : mod_check_tag (cstr tag) false = some t) (hn : t.nchan ≤ 64) (hns : t.nsamples = 31)
    (hroom : 1084 + pattern_bytes t.startrekker
      (if t.test_wow = true ∧ 1084 + body.length = 3132 then 8 else t.nchan)
      ≤ 1084 + body.length) :
    fmt_mod_load_song_run X empty_song (slurp_open (module_example [] tag body)) lflags false
      = .ok (decoded X (module_example [] tag body) lflags) := by
  apply decoded_ok
  have hlen := module_example_length [] tag body (Nat.zero_le _) h4
  apply run_ok_of_room X empty_song _ lflags false t (by omega)
    (by rw [module_example_tag _ _ _ (Nat.zero_le _) h4]; exact ht) hn (by omega)
  intro st0 hsp
  have hz : ∀ i, 0 ≤ i → i < 1080 → (module_example [] tag body).getD i 0 = 0 :=
    fun i _ h2 => module_example_getD_zero [] tag body i (Nat.zero_le _) h2
  obtain ⟨e1, _, _, e4, e5, e6⟩ := head_of_zero_orders X empty_song _ t st0 hsp hns
    (fun i _ h2 => hz i (Nat.zero_le _) h2)
  have es : st0.samplesize = 0 := by
    rw [hsp.samplesize, hns]
    exact hdr_length_sum_zero _ 31 20 (by omega) (fun i _ h2 => hz i (Nat.zero_le _) h2)
  rw [es, hlen] at e6
  rw [e1, e4, e5, e6, hlen]
  simp only [Nat.zero_add, Nat.one_mul]
  exact hroom

theorem mod_check_tag_mk (force : Bool) :
    mod_check_tag (cstr "M.K.") force =
      some { nchan := 4, test_wow := true, is_mk := true, maybe_ft2 := true,
             tid := "Amiga-NewTracker" } := by
  rfl

/-- The locals at the end of the run on a stream of zeros around a 31-sample tag. -/
theorem zero_example_state (X : externals) (tag : String) (body : List Byte) (lflags : Nat)
    (t : mod_tag_t) (h4 : (cstr tag).length = 4)
    (ht : mod_check_tag (cstr tag) false = some t) (hns : t.nsamples = 31)
    (hok : fmt_mod_load_song_run X empty_song (slurp_open (module_example [] tag body)) lflags
      false = .ok (decoded X (module_example [] tag body) lflags)) :
    (decoded X (module_example [] tag body) lflags).npat = 0 ∧
    (decoded X (module_example [] tag body) lflags).restart = 0 ∧
    (decoded X (module_example [] tag body) lflags).nord = 0 ∧
    (decoded X (module_example [] tag body) lflags).nsamples = 31 ∧
    (decoded X (module_example [] tag body) lflags).startrekker = t.startrekker ∧
    (decoded X (module_example [] tag body) lflags).samplesize = 0 ∧
    (decoded X (module_example [] tag body) lflags).nchan =
      if t.test_wow = true ∧ 1084 + body.length = 3132 then 8 else t.nchan := by
  have hlen := module_example_length [] tag body (Nat.zero_le _) h4
  obtain ⟨t', st0, sg, fp1, ht', _, _, hsp, _, ⟨l1, l2, l3, l4, l5, l6, l7⟩, _⟩ :=
    run_ok_split X empty_song _ 0 lflags false _ hok
  have htr := tag_read (module_example [] tag body) (by omega)
  unfold slurp_open at htr
  rw [htr] at ht'
  simp only at ht'
  rw [module_example_tag _ _ _ (Nat.zero_le _) h4, ht] at ht'
  cases ht'
  have hz : ∀ i, i < 1080 → (module_example [] tag body).getD i 0 = 0 :=
    fun i h2 => module_example_getD_zero [] tag body i (Nat.zero_le _) h2
  obtain ⟨e1, e2, e3, e4, e5, e6⟩ := head_of_zero_orders X empty_song _ t st0 hsp hns
    (fun i _ h2 => hz i h2)
  have es : st0.samplesize = 0 := by
    rw [hsp.samplesize, hns]
    exact hdr_length_sum_zero _ 31 20 (by omega) (fun i _ h2 => hz i h2)
  rw [es, hlen] at e6
  rw [l1, l2, l3, l4, l5, l6, l7]
  refine ⟨e1, e2, e3, e4, e5, es, ?_⟩
  rw [e6]

theorem zero_mk_ok (X : externals) (n lflags : Nat) (h1 : 1024 ≤ n) (h2 : n ≠ 2048) :
    fmt_mod_load_song_run X empty_song (slurp_open (zero_example "M.K." n)) lflags false
      = .ok (decoded X (zero_example "M.K." n) lflags) := by
  apply zero_example_ok X "M.K." _ lflags _ (by decide) (mod_check_tag_mk false) (by decide) rfl
  simp only [List.length_replicate]
  rw [if_neg (by omega)]
  show 1084 + 1024 ≤ 1084 + n
  omega

theorem zero_mk_state (X : externals) (n lflags : Nat) (h1 : 1024 ≤ n) (h2 : n ≠ 2048) :
    (decoded X (zero_example "M.K." n) lflags).npat = 0 ∧
    (decoded X (zero_example "M.K." n) lflags).restart = 0 ∧
    (decoded X (zero_example "M.K." n) lflags).nord = 0 ∧
    (decoded X (zero_example "M.K." n) lflags).nsamples = 31 ∧
    (decoded X (zero_example "M.K." n) lflags).startrekker = false ∧
    (decoded X (zero_example "M.K." n) lflags).samplesize = 0 ∧
    (decoded X (zero_example "M.K." n) lflags).nchan = 4 := by
  obtain ⟨e1, e2, e3, e4, e5, e6, e7⟩ := zero_example_state X "M.K." (List.replicate n 0) lflags
    _ (by decide) (mod_check_tag_mk false) rfl (zero_mk_ok X n lflags h1 h2)
  refine ⟨e1, e2, e3, e4, e5, e6, ?_⟩
  unfold zero_example
  rw [e7, List.length_replicate, if_neg (by omega)]

theorem zero_example_length (tag : String) (n : Nat) (h4 : (cstr tag).length = 4) :
    (zero_example tag n).length = 1084 + n := by
  unfold zero_example
  rw [module_example_length _ _ _ (Nat.zero_le _) h4, List.length_replicate]

theorem zero_wow_ok (X : externals) (lflags : Nat) :
    fmt_mod_load_song_run X empty_song (slurp_open (zero_example "M.K." 2048)) lflags false
      = .ok (decoded X (zero_example "M.K." 2048) lflags) := by
  apply zero_example_ok X "M.K." _ lflags _ (by decide) (mod_check_tag_mk false) (by decide) rfl
  simp only [List.length_replicate]
  decide

theorem zero_flt8_ok (X : externals) (lflags : Nat) :
    fmt_mod_load_song_run X empty_song (slurp_open (zero_example "FLT8" 2048)) lflags false
      = .ok (decoded X (zero_example "FLT8" 2048) lflags) := by
  apply zero_example_ok X "FLT8" _ lflags _ (by decide) (mod_check_tag_flt8 false) (by decide)
    rfl
  simp only [List.length_replicate]
  decide

/-- C14, counterexample: an `M.K.` stream of 5180 zero bytes around the tag has the length `2048 * (npat + 1) + samplesize + 3132` of the claim (`npat = 0`, `samplesize = 0`), and is decoded with 4 channels. -/
theorem wow_length_counterexample :
    fmt_mod_load_song_run example_externals empty_song
        (slurp_open (zero_example "M.K." 4096)) 1 false =
      .ok (decoded example_externals (zero_example "M.K." 4096) 1) ∧
    (zero_example "M.K." 4096).length =
      2048 * ((decoded example_externals (zero_example "M.K." 4096) 1).npat + 1)
        + (decoded example_externals (zero_example "M.K." 4096) 1).samplesize + 3132 ∧
    (decoded example_externals (zero_example "M.K." 4096) 1).nchan = 4 := by
  obtain ⟨e1, _, _, _, _, e6, e7⟩ := zero_mk_state example_externals 4096 1 (by decide)
    (by decide)
  refine ⟨zero_mk_ok example_externals 4096 1 (by decide) (by decide), ?_, e7⟩
  rw [e1, e6, zero_example_length _ _ (by decide)]

/-- C19, counterexample: two `M.K.` streams without sample data that are the same in their first 3132 bytes, the second with one more byte at the end, are decoded with 8 channels (the WOW size is met) and with 4 channels. -/
theorem trailing_bytes_counterexample :
    fmt_mod_load_song_run example_externals empty_song
        (slurp_open (zero_example "M.K." 2048)) 1 false =
      .ok (decoded example_externals (zero_example "M.K." 2048) 1) ∧
    fmt_mod_load_song_run example_externals empty_song
        (slurp_open (zero_example "M.K." 2049)) 1 false =
      .ok (decoded example_externals (zero_example "M.K." 2049) 1) ∧
    zero_example "M.K." 2049 = zero_example "M.K." 2048 ++ [0] ∧
    (zero_example "M.K." 2048).length = 3132 ∧
    (decoded example_externals (zero_example "M.K." 2048) 1).nchan = 8 ∧
    (decoded example_externals (zero_example "M.K." 2049) 1).nchan = 4 := by
  obtain ⟨_, _, _, _, _, _, e7⟩ := zero_mk_state example_externals 2049 1 (by decide)
    (by decide)
  obtain ⟨_, _, _, _, _, _, f7⟩ := zero_example_state example_externals "M.K."
    (List.replicate 2048 0) 1 _ (by decide) (mod_check_tag_mk false) rfl
    (zero_wow_ok example_externals 1)
  refine ⟨zero_wow_ok example_externals 1,
    zero_mk_ok example_externals 2049 1 (by decide) (by decide), ?_,
    zero_example_length _ _ (by decide), ?_, e7⟩
  · unfold zero_example module_example
    rw [List.replicate_succ', List.append_assoc]
  · unfold zero_example
    rw [f7, List.length_replicate]
    rfl

theorem no_restart_orderlist (X : externals) (data : List Byte) (lflags : Nat)
    (st : mod_load_t)
    (hok : fmt_mod_load_song_run X empty_song (slurp_open data) lflags false = .ok st)
    (e1 : st.npat = 0) (e2 : st.restart = 0) (e3 : st.nord = 0) :
    st.song.orderlist 255 = ORDER_LAST := by
  obtain ⟨t, st0, sg, fp1, _, _, _, hsp, _, ⟨l1, l2, l3, l4, l5, l6, l7⟩, _, _, k1, k2, k3, _,
    _, _, k7, _⟩ := run_ok_split X empty_song _ 0 lflags false _ hok
  obtain ⟨o1, _⟩ := head_orderlist X empty_song _ t st0 hsp
  rw [k7]
  unfold mod_apply_restart
  rw [if_neg (by rw [e1, e2]; decide), k3]
  apply o1 255
  · rw [← l6, e3]; decide
  · decide

/-- C18, counterexample: for a stream with the restart byte 0 and the highest pattern number 0 (so one pattern, and a restart byte below the pattern count) no restart marker is recorded: with a marker that would show in slot 255 of the order list, that slot still has the end-of-song marker. -/
theorem restart_equal_counterexample :
    fmt_mod_load_song_run marking_externals empty_song
        (slurp_open (zero_example "M.K." 1024)) 1 false =
      .ok (decoded marking_externals (zero_example "M.K." 1024) 1) ∧
    (decoded marking_externals (zero_example "M.K." 1024) 1).restart = 0 ∧
    (decoded marking_externals (zero_example "M.K." 1024) 1).npat = 0 ∧
    (decoded marking_externals (zero_example "M.K." 1024) 1).song.orderlist 255 = ORDER_LAST ∧
    (marking_externals.csf_insert_restart_pos
      (decoded marking_externals (zero_example "M.K." 1024) 1).song 0).orderlist 255 = 0 :=
  ⟨zero_mk_ok marking_externals 1024 1 (by decide) (by decide),
    (zero_mk_state marking_externals 1024 1 (by decide) (by decide)).2.1,
    (zero_mk_state marking_externals 1024 1 (by decide) (by decide)).1,
    no_restart_orderlist marking_externals _ 1 _
      (zero_mk_ok marking_externals 1024 1 (by decide) (by decide))
      (zero_mk_state marking_externals 1024 1 (by decide) (by decide)).1
      (zero_mk_state marking_externals 1024 1 (by decide) (by decide)).2.1
      (zero_mk_state marking_externals 1024 1 (by decide) (by decide)).2.2.1,
    rfl⟩

theorem effect_example_ok (X : externals) (lflags : Nat) :
    fmt_mod_load_song_run X empty_song (slurp_open effect_example) lflags false =
      .ok (decoded X effect_example lflags) := by
  apply zero_example_ok X "M.K." _ lflags _ (by decide) (mod_check_tag_mk false)
    (by decide) rfl
  simp only [List.length_append, List.length_replicate, List.length_cons, List.length_nil]
  decide

theorem effect_example_bytes : (effect_example.drop (1084 + 0)).take 4 = [0, 0, 12, 32] := by
  unfold effect_example
  rw [module_example_body _ _ _ 0 4 (Nat.zero_le _) (by decide)]
  rfl

theorem effect_example_state (X : externals) (lflags : Nat) :
    (decoded X effect_example lflags).npat = 0 ∧
    (decoded X effect_example lflags).restart = 0 ∧
    (decoded X effect_example lflags).nsamples = 31 ∧
    (decoded X effect_example lflags).startrekker = false ∧
    (decoded X effect_example lflags).nchan = 4 := by
  obtain ⟨e1, e2, e3, e4, e5, e6, e7⟩ := zero_example_state X "M.K."
    ([0, 0, 12, 32] ++ List.replicate 1020 0) lflags _ (by decide) (mod_check_tag_mk false) rfl
    (effect_example_ok X lflags)
  refine ⟨e1, e2, e4, e5, ?_⟩
  unfold effect_example
  rw [e7]
  simp only [List.length_append, List.length_replicate, List.length_cons, List.length_nil]
  decide

theorem first_cell (X : externals) (data : List Byte) (lflags : Nat) (st : mod_load_t)
    (hok : fmt_mod_load_song_run X empty_song (slurp_open data) lflags false = .ok st)
    (e1 : st.npat = 0) (e2 : st.restart = 0) (e4 : st.nsamples = 31)
    (e5 : st.startrekker = false) (e7 : st.nchan = 4) :
    ((st.song.patterns 0).getD []).getD 0 blank_note =
      X.csf_import_mod_effect (mod_import_note X ((data.drop (1084 + 0)).take 4)) := by
  obtain ⟨t, st0, sg, fp1, _, _, _, hsp, _, _, _, _, _, _, _, _, k5, _, _, k8, _⟩ :=
    run_ok_split X empty_song _ 0 lflags false _ hok
  obtain ⟨_, pt, q2, _, q4⟩ := k5 0 (Nat.zero_le _)
  have hpat : st.song.patterns 0 = some pt := by
    rw [k8]
    unfold mod_apply_restart
    rw [if_neg (by rw [e1, e2]; decide)]
    exact q2
  have hcell := q4 0 (by decide)
  have h00 : (0 : Nat) / 64 = 0 := rfl
  have h01 : (0 : Nat) % 64 = 0 := rfl
  have eo : mod_pattern_start 31 + 4 * ((0 * 64 + 0) * 4 + 0) = 1084 + 0 := rfl
  rw [e5, e7, e4, h00, h01, pattern_cell_standard, if_pos (by decide), eo] at hcell
  rw [hpat, Option.getD_some, List.getD_eq_getElem?_getD, hcell, Option.getD_some]

theorem remap_volume :
    (remap_externals.csf_import_mod_effect
      (mod_import_note remap_externals [0, 0, 12, 32])).effect = FX_VOLUME := rfl

/-- C15, counterexample: with an effect remap that turns the effect nibble `C` into the volume effect of the engine, the first cell of the first pattern of a 4-channel stream, made of the bytes `00 00 0C 20` at offset 1084, has the effect `FX_VOLUME`, while `mod_import_note` of these bytes has the effect 12. -/
theorem effect_remap_counterexample :
    fmt_mod_load_song_run remap_externals empty_song (slurp_open effect_example) 1 false =
      .ok (decoded remap_externals effect_example 1) ∧
    (decoded remap_externals effect_example 1).startrekker = false ∧
    (decoded remap_externals effect_example 1).nchan = 4 ∧
    (effect_example.drop (1084 + 4 * ((0 * 64 + 0) * 4 + 0))).take 4 = [0, 0, 12, 32] ∧
    ((((decoded remap_externals effect_example 1).song.patterns 0).getD []).getD 0
      blank_note).effect = FX_VOLUME ∧
    (mod_import_note remap_externals [0, 0, 12, 32]).effect = 12 :=
  ⟨effect_example_ok remap_externals 1,
    (effect_example_state remap_externals 1).2.2.2.1,
    (effect_example_state remap_externals 1).2.2.2.2,
    effect_example_bytes,
    ((congrArg song_note_t.effect (first_cell remap_externals effect_example 1 _
      (effect_example_ok remap_externals 1)
      (effect_example_state remap_externals 1).1
      (effect_example_state remap_externals 1).2.1
      (effect_example_state remap_externals 1).2.2.1
      (effect_example_state remap_externals 1).2.2.2.1
      (effect_example_state remap_externals 1).2.2.2.2)).trans
      ((congrArg (fun b => (remap_externals.csf_import_mod_effect
        (mod_import_note remap_externals b)).effect) effect_example_bytes).trans remap_volume)),
    rfl⟩

theorem truncated_room (X : externals) (data : List Byte) (lflags : Nat) (st0 st : mod_load_t)
    (h1 : mod_load_tail X lflags st0 = .ok st) (e1 : st.nsamples = 31) (e2 : st.npat = 0)
    (e3 : st.nchan = 4) (hl : 2108 ≤ data.length) :
    mod_pattern_start st0.nsamples + (st0.npat + 1) * (64 * st0.nchan * 4) ≤ data.length := by
  obtain ⟨l1, l2, l3, _⟩ := mod_load_tail_locals X lflags st0 st h1
  rw [← l1, ← l2, ← l3, e1, e2, e3]
  show 1084 + 1024 ≤ data.length
  omega

theorem fmt_mod_load_song_order_list_witness :
    fmt_mod_load_song_run example_externals empty_song
        (slurp_open (zero_example "M.K." 1024)) 1 false =
      .ok (decoded example_externals (zero_example "M.K." 1024) 1) ∧
    ∃ sg, (decoded example_externals (zero_example "M.K." 1024) 1).song.orderlist =
      (mod_apply_restart example_externals
        (decoded example_externals (zero_example "M.K." 1024) 1) sg).orderlist :=
  ⟨zero_mk_ok example_externals 1024 1 (by decide) (by decide),
    (fmt_mod_load_song_order_list example_externals empty_song _ 0 1 false _
      (zero_mk_ok example_externals 1024 1 (by decide) (by decide))).elim
      fun sg h => ⟨sg, h.1⟩⟩

theorem fmt_mod_load_song_patterns_standard_witness :
    (decoded example_externals (zero_example "M.K." 1024) 1).startrekker = false ∧
    ∃ sg, (decoded example_externals (zero_example "M.K." 1024) 1).song.patterns =
      (mod_apply_restart example_externals
        (decoded example_externals (zero_example "M.K." 1024) 1) sg).patterns :=
  ⟨(zero_mk_state example_externals 1024 1 (by decide) (by decide)).2.2.2.2.1,
    (fmt_mod_load_song_patterns_standard example_externals empty_song _ 0 1 false _
      (zero_mk_ok example_externals 1024 1 (by decide) (by decide))
      (zero_mk_state example_externals 1024 1 (by decide) (by decide)).2.2.2.2.1).elim
      fun sg h => ⟨sg, h.1⟩⟩

theorem zero_flt8_startrekker (X : externals) (lflags : Nat) :
    (decoded X (zero_example "FLT8" 2048) lflags).startrekker = true :=
  (zero_example_state X "FLT8" (List.replicate 2048 0) lflags _ (by decide)
    (mod_check_tag_flt8 false) rfl (zero_flt8_ok X lflags)).2.2.2.2.1

theorem fmt_mod_load_song_patterns_startrekker_witness :
    (decoded example_externals (zero_example "FLT8" 2048) 1).startrekker = true ∧
    (decoded example_externals (zero_example "FLT8" 2048) 1).nchan = 8 :=
  ⟨zero_flt8_startrekker example_externals 1,
    (fmt_mod_load_song_patterns_startrekker example_externals empty_song _ 0 1 false _
      (zero_flt8_ok example_externals 1) (zero_flt8_startrekker example_externals 1)).1⟩

theorem fmt_mod_load_song_truncated_witness :
    ∃ s, fmt_mod_load_song example_externals empty_song ⟨zero_example "M.K." 1024, 0⟩ 1 false
      = .ok s := by
  obtain ⟨t, st0, ht, hn, h0, h1⟩ := run_ok_cases example_externals empty_song
    ⟨zero_example "M.K." 1024, 0⟩ 1 false _
    (zero_mk_ok example_externals 1024 1 (by decide) (by decide))
  exact (fmt_mod_load_song_truncated example_externals empty_song (zero_example "M.K." 1024)
    0 1 false t st0 ht hn h0).2 (truncated_room example_externals _ 1 st0 _ h1
      (zero_mk_state example_externals 1024 1 (by decide) (by decide)).2.2.2.1
      (zero_mk_state example_externals 1024 1 (by decide) (by decide)).1
      (zero_mk_state example_externals 1024 1 (by decide) (by decide)).2.2.2.2.2.2
      (by rw [zero_example_length _ _ (by decide)]))

theorem fmt_mod_load_song_wow_witness :
    ∃ t st0,
      mod_check_tag (slurp_read (slurp_seek_set ⟨zero_example "M.K." 1024, 0⟩ 1080) 4).1 false
        = some t ∧
      mod_load_head example_externals empty_song
        (slurp_read (slurp_seek_set ⟨zero_example "M.K." 1024, 0⟩ 1080) 4).2.2 t = .ok st0 :=
  (fmt_mod_load_song_wow example_externals empty_song _ 0 1 false _
    (zero_mk_ok example_externals 1024 1 (by decide) (by decide))).elim
    fun t h => h.elim fun st0 h => ⟨t, st0, h.1, h.2.1⟩

theorem fmt_mod_load_song_restart_witness :
    fmt_mod_load_song_run example_externals empty_song
        (slurp_open (zero_example "M.K." 1024)) 1 false =
      .ok (decoded example_externals (zero_example "M.K." 1024) 1) ∧
    (decoded example_externals (zero_example "M.K." 1024) 1).restart =
      ((zero_example "M.K." 1024).getD
        (20 + 30 * (decoded example_externals (zero_example "M.K." 1024) 1).nsamples + 1)
        0).val :=
  ⟨zero_mk_ok example_externals 1024 1 (by decide) (by decide),
    (fmt_mod_load_song_restart example_externals empty_song _ 0 1 false _
      (zero_mk_ok example_externals 1024 1 (by decide) (by decide))).1⟩

/-! ## Two runs on streams that agree up to the end of the data -/

theorem agree_slice (d1 d2 : List Byte) (e p n : Nat) (hpre : d1.take e = d2.take e)
    (h : p + n ≤ e) : (d1.drop p).take n = (d2.drop p).take n := by
  have key : ∀ d : List Byte, (d.drop p).take n = ((d.take e).drop p).take n := by
    intro d
    rw [List.drop_take, List.take_take, Nat.min_eq_left (by omega)]
  rw [key d1, key d2, hpre]

theorem agree_getD (d1 d2 : List Byte) (e i : Nat) (hpre : d1.take e = d2.take e)
    (h : i < e) : d1.getD i 0 = d2.getD i 0 := by
  have key : ∀ d : List Byte, d.getD i 0 = (d.take e).getD i 0 := by
    intro d
    rw [List.getD_eq_getElem?_getD, List.getD_eq_getElem?_getD, List.getElem?_take_of_lt h]
  rw [key d1, key d2, hpre]

theorem song_ext (a b : song_t) (h1 : a.title = b.title) (h2 : a.samples = b.samples)
    (h3 : a.orderlist = b.orderlist) (h4 : a.patterns = b.patterns)
    (h5 : a.pattern_size = b.pattern_size) (h6 : a.pattern_alloc_size = b.pattern_alloc_size)
    (h7 : a.channels = b.channels) (h8 : a.flags = b.flags)
    (h9 : a.pan_separation = b.pan_separation) (h10 : a.tracker_id = b.tracker_id) : a = b := by
  cases a; cases b
  simp only at h1 h2 h3 h4 h5 h6 h7 h8 h9 h10
  subst h1 h2 h3 h4 h5 h6 h7 h8 h9 h10
  rfl

theorem mod_load_sample_header_keeps (X : externals) (st st' : mod_load_t) (n : Nat)
    (h : mod_load_sample_header X st n = .ok st') :
    st'.song.pattern_alloc_size = st.song.pattern_alloc_size ∧
    st'.song.channels = st.song.channels ∧ st'.song.flags = st.song.flags ∧
    st'.song.pan_separation = st.song.pan_separation ∧
    st'.song.tracker_id = st.song.tracker_id := by
  unfold mod_load_sample_header at h
  simp only [] at h
  rcases ite_eq_cases h with ⟨_, h⟩ | ⟨_, h⟩
  · cases h
  rcases ite_eq_cases h with ⟨_, h⟩ | ⟨_, h⟩
  · cases h
  rcases ite_eq_cases h with ⟨_, h⟩ | ⟨_, h⟩
  · cases h
  rcases ite_eq_cases h with ⟨_, h⟩ | ⟨_, h⟩
  · cases h
  cases h
  exact ⟨rfl, rfl, rfl, rfl, rfl⟩

theorem mod_load_sample_headers_keeps (X : externals) :
    ∀ (k n : Nat) (st st' : mod_load_t), mod_load_sample_headers X k n st = .ok st' →
    st'.song.pattern_alloc_size = st.song.pattern_alloc_size ∧
    st'.song.channels = st.song.channels ∧ st'.song.flags = st.song.flags ∧
    st'.song.pan_separation = st.song.pan_separation ∧
    st'.song.tracker_id = st.song.tracker_id := by
  intro k
  induction k with
  | zero =>
    intro n st st' h
    simp only [mod_load_sample_headers] at h
    cases h
    exact ⟨rfl, rfl, rfl, rfl, rfl⟩
  | succ k ih =>
    intro n st st' h
    simp only [mod_load_sample_headers] at h
    split at h
    · cases h
    · rename_i st1 h1
      obtain ⟨a1, a2, a3, a4, a5⟩ := mod_load_sample_header_keeps X st st1 n h1
      obtain ⟨b1, b2, b3, b4, b5⟩ := ih (n + 1) st1 st' h
      exact ⟨b1.trans a1, b2.trans a2, b3.trans a3, b4.trans a4, b5.trans a5⟩

theorem mod_load_orders_keeps (st st' : mod_load_t) (h : mod_load_orders st = .ok st') :
    st'.song.pattern_alloc_size = st.song.pattern_alloc_size ∧
    st'.song.channels = st.song.channels ∧ st'.song.flags = st.song.flags ∧
    st'.song.pan_separation = st.song.pan_separation ∧
    st'.song.tracker_id = st.song.tracker_id := by
  unfold mod_load_orders at h
  simp only [] at h
  split at h
  · cases h
  cases h
  exact ⟨rfl, rfl, rfl, rfl, rfl⟩

theorem mod_test_wow_song (st : mod_load_t) : (mod_test_wow st).song = st.song := by
  unfold mod_test_wow
  split
  · simp only []
    split <;> rfl
  · rfl

theorem mod_load_head_keeps (X : externals) (song : song_t) (fp : slurp_t) (t : mod_tag_t)
    (st0 : mod_load_t) (h : mod_load_head X song fp t = .ok st0) :
    st0.song.pattern_alloc_size = song.pattern_alloc_size ∧
    st0.song.channels = song.channels ∧ st0.song.flags = song.flags ∧
    st0.song.pan_separation = song.pan_separation ∧
    st0.song.tracker_id = song.tracker_id := by
  unfold mod_load_head at h
  simp only [] at h
  split at h
  · cases h
  · rename_i st1 h1
    split at h
    · cases h
    · rename_i st2 h2
      cases h
      obtain ⟨a1, a2, a3, a4, a5⟩ := mod_load_sample_headers_keeps X _ _ _ st1 h1
      obtain ⟨b1, b2, b3, b4, b5⟩ := mod_load_orders_keeps st1 st2 h2
      rw [mod_test_wow_song]
      exact ⟨b1.trans a1, b2.trans a2, b3.trans a3, b4.trans a4, b5.trans a5⟩

theorem mod_load_patterns_alloc (X : externals) (startrekker : Bool) (nchan : Nat) :
    ∀ (k pat0 : Nat) (song song' : song_t) (fp fp' : slurp_t),
    mod_load_patterns X startrekker nchan k pat0 song fp = .ok (song', fp') →
    ∀ p, song'.pattern_alloc_size p =
      if pat0 ≤ p ∧ p < pat0 + k then 64 else song.pattern_alloc_size p := by
  intro k
  induction k with
  | zero =>
    intro pat0 song song' fp fp' h p
    simp only [mod_load_patterns] at h
    cases h
    rw [if_neg (by omega)]
  | succ k ih =>
    intro pat0 song song' fp fp' h p
    simp only [mod_load_patterns] at h
    split at h
    · cases h
    · rw [ih _ _ _ _ _ h p]
      simp only [Function.update_apply]
      by_cases h1 : pat0 + 1 ≤ p ∧ p < pat0 + 1 + k
      · rw [if_pos h1, if_pos (by omega)]
      · rw [if_neg h1]
        by_cases h2 : p = pat0
        · rw [if_pos h2, if_pos (by omega)]
        · rw [if_neg h2, if_neg (by omega)]

theorem raw_orders_agree (d1 d2 : List Byte) (e P : Nat) (old : Nat → Nat)
    (hpre : d1.take e = d2.take e) (h : P + 128 ≤ e) :
    raw_orders d1 P old = raw_orders d2 P old := by
  funext i
  unfold raw_orders
  by_cases hi : i < 128
  · rw [if_pos hi, if_pos hi, agree_getD d1 d2 e (P + i) hpre (by omega)]
  · rw [if_neg hi, if_neg hi]

/-- The header part on two streams that agree on the header bytes, for a tag without the WOW
test: the same song and the same locals. -/
theorem head_agree (X : externals) (song : song_t) (d1 d2 : List Byte) (e p1 p2 : Nat)
    (t : mod_tag_t) (st0 : mod_load_t) (hpre : d1.take e = d2.take e) (he2 : e ≤ d2.length)
    (hcov : 150 + 30 * t.nsamples ≤ e) (hw : t.test_wow = false)
    (h0 : mod_load_head X song ⟨d1, p1⟩ t = .ok st0) :
    ∃ st0', mod_load_head X song ⟨d2, p2⟩ t = .ok st0' ∧ st0'.song = st0.song ∧
      st0.fp = ⟨d1, 150 + 30 * t.nsamples⟩ ∧ st0'.fp = ⟨d2, 150 + 30 * t.nsamples⟩ ∧
      st0'.nchan = st0.nchan ∧ st0'.nsamples = st0.nsamples ∧
      st0'.startrekker = st0.startrekker ∧ st0'.npat = st0.npat ∧
      st0'.restart = st0.restart ∧ st0'.is_mk = st0.is_mk := by
  have hl1 : 150 + 30 * t.nsamples ≤ d1.length := by
    by_contra hc
    rw [mod_load_head_short X song ⟨d1, p1⟩ t hc] at h0
    cases h0
  obtain ⟨sa, ha, spa⟩ := mod_load_head_ok X song ⟨d1, p1⟩ t hl1
  rw [ha] at h0; cases h0
  obtain ⟨sb, hb, spb⟩ := mod_load_head_ok X song ⟨d2, p2⟩ t (by simp only; omega)
  simp only at spa spb
  obtain ⟨a1, a2, a3, a4, a5⟩ := mod_load_head_keeps X song _ t st0 ha
  obtain ⟨b1, b2, b3, b4, b5⟩ := mod_load_head_keeps X song _ t sb hb
  have hraw := raw_orders_agree d1 d2 e (20 + 30 * t.nsamples + 2) song.orderlist hpre (by omega)
  have hst : sb.startrekker = st0.startrekker := by
    rw [spa.startrekker, spb.startrekker, hraw]
  have hnp : sb.npat = st0.npat := by
    rw [spa.npat, spb.npat, hraw, hst]
  have hno : sb.nord = st0.nord := by
    rw [spa.nord, spb.nord, agree_getD d1 d2 e _ hpre (by omega)]
  refine ⟨sb, hb, ?_, ?_, ?_, ?_, ?_, hst, hnp, ?_, ?_⟩
  · apply song_ext
    · rw [spa.title, spb.title]
      have := agree_slice d1 d2 e 0 20 hpre (by omega)
      simp only [List.drop_zero] at this
      rw [this]
    · funext m
      rw [spa.samples m, spb.samples m]
      by_cases hm : 1 ≤ m ∧ m < 1 + t.nsamples
      · rw [if_pos hm, if_pos hm, agree_slice d1 d2 e _ 30 hpre (by omega)]
      · rw [if_neg hm, if_neg hm]
    · funext i
      rw [spa.orderlist i, spb.orderlist i, hraw, hst, hno]
    · rw [spa.patterns, spb.patterns]
    · rw [spa.pattern_size, spb.pattern_size]
    · rw [a1, b1]
    · rw [a2, b2]
    · rw [a3, b3]
    · rw [a4, b4]
    · rw [a5, b5]
  · have h1 := spa.fp_data
    have h2 := spa.fp_pos
    rw [hw] at h2
    simp only [Bool.false_eq_true, if_false] at h2
    cases hfp : st0.fp
    rw [hfp] at h1 h2
    simp only at h1 h2
    rw [h1, h2]
  · have h1 := spb.fp_data
    have h2 := spb.fp_pos
    rw [hw] at h2
    simp only [Bool.false_eq_true, if_false] at h2
    cases hfp : sb.fp
    rw [hfp] at h1 h2
    simp only at h1 h2
    rw [h1, h2]
  · rw [spa.nchan, spb.nchan, hraw, hw]
    simp only [Bool.false_eq_true, false_and, if_false]
  · rw [spa.nsamples, spb.nsamples]
  · rw [spa.restart, spb.restart, agree_getD d1 d2 e _ hpre (by omega)]
  · rw [spa.is_mk, spb.is_mk]

theorem cell_at_agree (X : externals) (d1 d2 : List Byte) (e off : Nat)
    (hpre : d1.take e = d2.take e) (h : off + 4 ≤ e) : cell_at X d1 off = cell_at X d2 off := by
  unfold cell_at
  rw [agree_slice d1 d2 e off 4 hpre h]

theorem pattern_cell_agree (X : externals) (d1 d2 : List Byte) (e : Nat) (s : Bool)
    (nchan pos r c : Nat) (hpre : d1.take e = d2.take e) (hr : r < 64)
    (h : pos + pattern_bytes s nchan ≤ e) :
    pattern_cell X d1 s nchan pos r c = pattern_cell X d2 s nchan pos r c := by
  unfold pattern_cell
  unfold pattern_bytes at h
  cases s
  · simp only [Bool.false_eq_true, if_false] at h ⊢
    by_cases hc : c < nchan
    · rw [if_pos hc, if_pos hc]
      have hm : nchan * r ≤ nchan * 63 := Nat.mul_le_mul_left _ (by omega)
      exact cell_at_agree X d1 d2 e _ hpre (by omega)
    · rw [if_neg hc, if_neg hc]
  · simp only [if_true] at h ⊢
    by_cases h4 : c < 4
    · rw [if_pos h4, if_pos h4]
      exact cell_at_agree X d1 d2 e _ hpre (by omega)
    · rw [if_neg h4, if_neg h4]
      by_cases h8 : c < 8
      · rw [if_pos h8, if_pos h8]
        exact cell_at_agree X d1 d2 e _ hpre (by omega)
      · rw [if_neg h8, if_neg h8]

/-- The pattern loop on two streams that agree on the pattern data: the same song. -/
theorem patterns_agree (X : externals) (s : Bool) (nchan : Nat) (hn : nchan ≤ 64) (k : Nat)
    (song : song_t) (d1 d2 : List Byte) (e p : Nat) (hpre : d1.take e = d2.take e)
    (he1 : e ≤ d1.length) (he2 : e ≤ d2.length) (hcov : p + k * pattern_bytes s nchan ≤ e) :
    ∃ sg, mod_load_patterns X s nchan k 0 song ⟨d1, p⟩
        = .ok (sg, ⟨d1, p + k * pattern_bytes s nchan⟩) ∧
      mod_load_patterns X s nchan k 0 song ⟨d2, p⟩
        = .ok (sg, ⟨d2, p + k * pattern_bytes s nchan⟩) := by
  obtain ⟨sa, ea, a1, a2, a3, a4, a5, a6, a7, a8, a9⟩ := mod_load_patterns_ok X s nchan hn k 0
    song ⟨d1, p⟩ (by simp only; omega)
  obtain ⟨sb, eb, b1, b2, b3, b4, b5, b6, b7, b8, b9⟩ := mod_load_patterns_ok X s nchan hn k 0
    song ⟨d2, p⟩ (by simp only; omega)
  have hal := mod_load_patterns_alloc X s nchan k 0 song sa _ _ ea
  have hbl := mod_load_patterns_alloc X s nchan k 0 song sb _ _ eb
  have hsame : sb = sa := by
    apply song_ext
    · rw [a1, b1]
    · rw [a2, b2]
    · rw [a3, b3]
    · funext q
      by_cases hq : 0 ≤ q ∧ q < 0 + k
      · obtain ⟨_, pa, qa, la, ca⟩ := a9 q hq.1 hq.2
        obtain ⟨_, pb, qb, lb, cb⟩ := b9 q hq.1 hq.2
        rw [qa, qb]
        congr 1
        apply List.ext_getElem?
        intro j
        by_cases hj : j < 4096
        · rw [ca j hj, cb j hj]
          simp only at *
          have hm : (q + 1) * pattern_bytes s nchan ≤ k * pattern_bytes s nchan :=
            Nat.mul_le_mul_right _ (by omega)
          rw [Nat.add_mul, Nat.one_mul] at hm
          rw [pattern_cell_agree X d1 d2 e s nchan _ (j / 64) (j % 64) hpre (by omega)
            (by simp only [Nat.sub_zero]; omega)]
        · rw [List.getElem?_eq_none (by omega), List.getElem?_eq_none (by omega)]
      · rw [(a8 q hq).1, (b8 q hq).1]
    · funext q
      by_cases hq : 0 ≤ q ∧ q < 0 + k
      · rw [(a9 q hq.1 hq.2).1, (b9 q hq.1 hq.2).1]
      · rw [(a8 q hq).2, (b8 q hq).2]
    · funext q
      rw [hal q, hbl q]
    · rw [a4, b4]
    · rw [a5, b5]
    · rw [a6, b6]
    · rw [a7, b7]
  rw [hsame] at eb
  exact ⟨sa, ea, eb⟩

theorem mod_sample_reach_ge (X : externals) (lflags : Nat) :
    ∀ (k n : Nat) (song : song_t) (fp : slurp_t),
    fp.pos ≤ mod_sample_reach X lflags k n song fp := by
  intro k
  induction k with
  | zero => intro n song fp; exact Nat.le_refl _
  | succ k ih =>
    intro n song fp
    simp only [mod_sample_reach]
    split
    · exact ih _ _ _
    · omega

theorem take_agree_le (d1 d2 : List Byte) (e m : Nat) (hpre : d1.take e = d2.take e)
    (h : m ≤ e) : d1.take m = d2.take m := by
  have key : ∀ d : List Byte, d.take m = (d.take e).take m := by
    intro d
    rw [List.take_take, Nat.min_eq_left h]
  rw [key d1, key d2, hpre]

/-- The sample-data loop on two streams that agree up to the highest offset it looks at: the
same song. -/
theorem sample_data_agree (X : externals) (lflags : Nat) (hloc : sample_reader_local X)
    (d1 d2 : List Byte) (e : Nat) (hpre : d1.take e = d2.take e) (he1 : e ≤ d1.length)
    (he2 : e ≤ d2.length) :
    ∀ (k n : Nat) (song : song_t) (p : Nat),
    mod_sample_reach X lflags k n song ⟨d1, p⟩ ≤ e →
    (mod_load_sample_data X lflags k n song ⟨d2, p⟩).1
      = (mod_load_sample_data X lflags k n song ⟨d1, p⟩).1 := by
  intro k
  induction k with
  | zero => intro n song p _; rfl
  | succ k ih =>
    intro n song p hr
    simp only [mod_sample_reach] at hr
    simp only [mod_load_sample_data]
    by_cases hl : (song.samples n).length = 0
    · rw [if_pos hl] at hr
      rw [if_pos hl, if_pos hl]
      exact ih _ _ _ hr
    · rw [if_neg hl] at hr
      rw [if_neg hl, if_neg hl]
      have hp5 : p + 5 ≤ e := by omega
      have k1 : slurp_peek ⟨d1, p⟩ 5 = ((d1.drop p).take 5, 5) :=
        slurp_peek_ok ⟨d1, p⟩ 5 (by simp only; omega)
      have k2 : slurp_peek ⟨d2, p⟩ 5 = ((d2.drop p).take 5, 5) :=
        slurp_peek_ok ⟨d2, p⟩ 5 (by simp only; omega)
      have ks : (d1.drop p).take 5 = (d2.drop p).take 5 := agree_slice d1 d2 e p 5 hpre hp5
      have s1 : slurp_seek_cur ⟨d1, p⟩ 5 = ⟨d1, p + 5⟩ := by
        unfold slurp_seek_cur
        exact slurp_seek_set_ok _ _ (by simp only; omega)
      have s2 : slurp_seek_cur ⟨d2, p⟩ 5 = ⟨d2, p + 5⟩ := by
        unfold slurp_seek_cur
        exact slurp_seek_set_ok _ _ (by simp only; omega)
      rw [k1, s1] at hr
      rw [k1, k2, s1, s2]
      simp only [] at hr ⊢
      rw [← ks]
      generalize memeq ((d1.drop p).take 5) (cstr "ADPCM") 5 = adpcm at hr ⊢
      have hfp : ∀ d : List Byte, (if adpcm = true then (⟨d, p + 5⟩ : slurp_t) else ⟨d, p⟩)
          = ⟨d, if adpcm = true then p + 5 else p⟩ := by
        intro d; split <;> rfl
      rw [hfp d1] at hr
      rw [hfp d1, hfp d2]
      generalize (if adpcm = true then p + 5 else p) = q at hr ⊢
      simp only [] at hr
      have hq : q + (song.samples n).length ≤ e := by omega
      by_cases hns : lflags &&& LOAD_NOSAMPLES ≠ 0
      · rw [if_pos hns] at hr
        rw [if_pos hns, if_pos hns]
        have t1 : slurp_seek_cur ⟨d1, q⟩ (song.samples n).length
            = ⟨d1, q + (song.samples n).length⟩ := by
          unfold slurp_seek_cur
          exact slurp_seek_set_ok _ _ (by simp only; omega)
        have t2 : slurp_seek_cur ⟨d2, q⟩ (song.samples n).length
            = ⟨d2, q + (song.samples n).length⟩ := by
          unfold slurp_seek_cur
          exact slurp_seek_set_ok _ _ (by simp only; omega)
        rw [t1] at hr
        rw [t1, t2]
        exact ih _ _ _ (by omega)
      · rw [if_neg hns] at hr
        rw [if_neg hns, if_neg hns]
        obtain ⟨c1, c2, c3, c4⟩ := hloc (song.samples n) adpcm d1 d2 q
          (take_agree_le d1 d2 e _ hpre hq)
        have u1 : (X.csf_read_sample (song.samples n) adpcm ⟨d1, q⟩).2
            = ⟨d1, (X.csf_read_sample (song.samples n) adpcm ⟨d1, q⟩).2.pos⟩ := by
          cases hx : (X.csf_read_sample (song.samples n) adpcm ⟨d1, q⟩).2
          rw [hx] at c3
          simp only at c3
          rw [c3]
        have u2 : (X.csf_read_sample (song.samples n) adpcm ⟨d2, q⟩).2
            = ⟨d2, (X.csf_read_sample (song.samples n) adpcm ⟨d1, q⟩).2.pos⟩ := by
          cases hx : (X.csf_read_sample (song.samples n) adpcm ⟨d2, q⟩).2
          rw [hx] at c4 c2
          simp only at c4 c2
          rw [c4, c2]
        rw [u1] at hr
        rw [u1, u2, ← c1]
        exact ih _ _ _ (by omega)

theorem mod_load_tail_form (X : externals) (lflags : Nat) (st : mod_load_t) (sg : song_t)
    (fp1 : slurp_t)
    (hp : mod_load_patterns X st.startrekker st.nchan (st.npat + 1) 0 st.song
      (slurp_seek_set st.fp (mod_pattern_start st.nsamples)) = .ok (sg, fp1)) :
    ∃ st', mod_load_tail X lflags st = .ok st' ∧ st'.nchan = st.nchan ∧
      st'.song.title = (mod_load_sample_data X lflags st.nsamples 1
        (mod_apply_restart X st sg) fp1).1.title ∧
      st'.song.samples = (mod_load_sample_data X lflags st.nsamples 1
        (mod_apply_restart X st sg) fp1).1.samples ∧
      st'.song.orderlist = (mod_load_sample_data X lflags st.nsamples 1
        (mod_apply_restart X st sg) fp1).1.orderlist ∧
      st'.song.patterns = (mod_load_sample_data X lflags st.nsamples 1
        (mod_apply_restart X st sg) fp1).1.patterns ∧
      st'.song.pattern_size = (mod_load_sample_data X lflags st.nsamples 1
        (mod_apply_restart X st sg) fp1).1.pattern_size ∧
      st'.song.pattern_alloc_size = (mod_load_sample_data X lflags st.nsamples 1
        (mod_apply_restart X st sg) fp1).1.pattern_alloc_size ∧
      st'.song.channels = (fun n =>
        if n < st.nchan then
          { (mod_load_sample_data X lflags st.nsamples 1
              (mod_apply_restart X st sg) fp1).1.channels n with
            panning := PROTRACKER_PANNING n }
        else if n < MAX_CHANNELS then
          { (mod_load_sample_data X lflags st.nsamples 1
              (mod_apply_restart X st sg) fp1).1.channels n with flags := CHN_MUTE }
        else (mod_load_sample_data X lflags st.nsamples 1
          (mod_apply_restart X st sg) fp1).1.channels n) ∧
      st'.song.flags = (SONG_ITOLDEFFECTS ||| SONG_COMPATGXX) ∧
      st'.song.pan_separation = 64 := by
  unfold mod_load_tail mod_apply_restart
  simp only [hp]
  exact ⟨_, rfl, rfl, rfl, rfl, rfl, rfl, rfl, rfl, rfl, rfl, rfl⟩

theorem mod_check_tag_mk2 (force : Bool) :
    mod_check_tag (cstr "M!K!") force = some { nchan := 4, tid := "Amiga-ProTracker" } := by
  rfl

theorem example_reader_local : sample_reader_local example_externals := by
  intro smp a d1 d2 p h
  have hl : (p + smp.length ≤ d1.length ↔ p + smp.length ≤ d2.length) := by
    have h' := congrArg List.length h
    simp only [List.length_take] at h'
    omega
  refine ⟨?_, ?_, ?_, ?_⟩
  · show ({ smp with data := some ((d1.drop p).take smp.length) } : song_sample_t)
      = { smp with data := some ((d2.drop p).take smp.length) }
    rw [agree_slice d1 d2 (p + smp.length) p smp.length h (Nat.le_refl _)]
  · show (slurp_seek_cur ⟨d1, p⟩ smp.length).pos = (slurp_seek_cur ⟨d2, p⟩ smp.length).pos
    unfold slurp_seek_cur slurp_seek_set
    simp only
    by_cases h1 : p + smp.length ≤ d1.length
    · rw [if_pos h1, if_pos (hl.mp h1)]
    · rw [if_neg h1, if_neg (fun h2 => h1 (hl.mpr h2))]
  · show (slurp_seek_cur ⟨d1, p⟩ smp.length).data = d1
    unfold slurp_seek_cur slurp_seek_set
    split <;> rfl
  · show (slurp_seek_cur ⟨d2, p⟩ smp.length).data = d2
    unfold slurp_seek_cur slurp_seek_set
    split <;> rfl

theorem mod_sample_reach_zero (X : externals) (lflags : Nat) :
    ∀ (k n : Nat) (song : song_t) (fp : slurp_t), (∀ m, (song.samples m).length = 0) →
    mod_sample_reach X lflags k n song fp = fp.pos := by
  intro k
  induction k with
  | zero => intro n song fp _; rfl
  | succ k ih =>
    intro n song fp h
    simp only [mod_sample_reach]
    rw [if_pos (h n)]
    exact ih _ _ _ h

/-- The end of the data of the run on a stream of zeros around a 31-sample tag: the end of
the first pattern. -/
theorem zero_example_data_end (X : externals) (tag : String) (body : List Byte) (lflags : Nat)
    (t : mod_tag_t) (h4 : (cstr tag).length = 4)
    (ht : mod_check_tag (cstr tag) false = some t) (hn : t.nchan ≤ 64) (hns : t.nsamples = 31)
    (hw : t.test_wow = false)
    (hroom : 1084 + pattern_bytes t.startrekker t.nchan ≤ 1084 + body.length) :
    fmt_mod_data_end X empty_song (slurp_open (module_example [] tag body)) lflags false
      = 1084 + pattern_bytes t.startrekker t.nchan := by
  have hlen := module_example_length [] tag body (Nat.zero_le _) h4
  have hz : ∀ i, i < 1080 → (module_example [] tag body).getD i 0 = 0 :=
    fun i h2 => module_example_getD_zero [] tag body i (Nat.zero_le _) h2
  obtain ⟨st0, h0, hsp⟩ := mod_load_head_ok X empty_song ⟨module_example [] tag body, 1084⟩ t
    (by simp only; omega)
  simp only at hsp
  obtain ⟨e1, e2, _, e4, e5, e6⟩ := head_of_zero_orders X empty_song _ t st0 hsp hns
    (fun i _ h2 => hz i h2)
  rw [hw] at e6
  simp only [Bool.false_eq_true, false_and, if_false] at e6
  have hfp : st0.fp = ⟨module_example [] tag body, 1080⟩ := by
    have h1 := hsp.fp_data
    have h2 := hsp.fp_pos
    rw [hw, hns] at h2
    simp only [Bool.false_eq_true, if_false] at h2
    cases hx : st0.fp
    rw [hx] at h1 h2
    simp only at h1 h2
    rw [h1, h2]
  have hsm : ∀ m, (st0.song.samples m).length = 0 := by
    intro m
    rw [hsp.samples m]
    split
    · rename_i hm
      rw [hns] at hm
      show be16 (((module_example [] tag body).drop (20 + 30 * (m - 1))).take 30 |>.drop 22) * 2
        = 0
      rw [be16_drop_take _ _ 30 22 (by omega), hz _ (by omega), hz _ (by omega)]
      rfl
    · rfl
  unfold fmt_mod_data_end
  rw [tag_read _ (by omega)]
  simp only
  rw [module_example_tag _ _ _ (Nat.zero_le _) h4, ht]
  simp only [h0]
  unfold mod_data_end
  rw [hfp, e4, e5, e6, e1, slurp_seek_set_ok _ _ (by simp only; rw [hlen]; show 1084 ≤ _; omega)]
  obtain ⟨sg, ea, _, k2, _⟩ := mod_load_patterns_ok X t.startrekker t.nchan hn (0 + 1) 0 st0.song
    ⟨module_example [] tag body, mod_pattern_start 31⟩ (by
      simp only [Nat.zero_add, Nat.one_mul, hlen]
      exact hroom)
  rw [ea]
  simp only
  rw [mod_sample_reach_zero]
  · simp only [Nat.zero_add, Nat.one_mul]
    rfl
  · intro m
    unfold mod_apply_restart
    rw [e1, e2, if_neg (by decide), k2]
    exact hsm m

theorem zero_example_take (tag : String) (n m : Nat) (h4 : (cstr tag).length = 4) :
    (zero_example tag n).take (1084 + n) = (zero_example tag (n + m)).take (1084 + n) := by
  have hl := zero_example_length tag n h4
  have e : zero_example tag (n + m) = zero_example tag n ++ List.replicate m 0 := by
    unfold zero_example module_example
    rw [List.replicate_add, List.append_assoc]
  rw [e, ← hl, List.take_left, List.take_length]

theorem zero_mk2_ok (X : externals) (n lflags : Nat) (h1 : 1024 ≤ n) :
    fmt_mod_load_song_run X empty_song (slurp_open (zero_example "M!K!" n)) lflags false
      = .ok (decoded X (zero_example "M!K!" n) lflags) := by
  apply zero_example_ok X "M!K!" _ lflags _ (by decide) (mod_check_tag_mk2 false) (by decide)
    rfl
  simp only [List.length_replicate]
  rw [if_neg (fun h => absurd h.1 (by decide))]
  show 1084 + 1024 ≤ 1084 + n
  omega

theorem zero_mk2_data_end (X : externals) (n lflags : Nat) (h1 : 1024 ≤ n) :
    fmt_mod_data_end X empty_song (slurp_open (zero_example "M!K!" n)) lflags false = 2108 := by
  unfold zero_example
  rw [zero_example_data_end X "M!K!" _ lflags _ (by decide) (mod_check_tag_mk2 false)
    (by decide) rfl rfl (by
      simp only [List.length_replicate]
      show 1084 + 1024 ≤ 1084 + n
      omega)]
  rfl

theorem zero_mk2_tag (n : Nat) :
    memeq (((zero_example "M!K!" n).drop 1080).take 4) (cstr "M.K.") 4 = false := by
  unfold zero_example
  rw [module_example_tag _ _ _ (Nat.zero_le _) (by decide)]
  decide

/-! ## The encoder's output, decoded again -/

theorem disko_view_length (fp : disko_t) (h : fp.data.length ≤ fp.pos) :
    (disko_view fp).length = fp.pos := by
  unfold disko_view
  simp only [List.length_append, List.length_replicate]
  omega

theorem disko_write_data (fp : disko_t) (src : List Byte) (h : fp.data.length ≤ fp.pos) :
    (disko_write fp src).data = disko_view fp ++ src := by
  unfold disko_write buf_write disko_view
  simp only [List.take_of_length_le h, List.drop_of_length_le (show fp.data.length ≤ fp.pos + src.length by omega), List.append_nil]

theorem disko_write_pos (fp : disko_t) (src : List Byte) :
    (disko_write fp src).pos = fp.pos + src.length := rfl

theorem disko_write_view (fp : disko_t) (src : List Byte) (h : fp.data.length ≤ fp.pos) :
    disko_view (disko_write fp src) = disko_view fp ++ src ∧
    (disko_write fp src).data.length = (disko_write fp src).pos := by
  have hd := disko_write_data fp src h
  have hl : (disko_write fp src).data.length = (disko_write fp src).pos := by
    rw [hd, disko_write_pos, List.length_append, disko_view_length fp h]
  refine ⟨?_, hl⟩
  unfold disko_view
  rw [hl, Nat.sub_self, List.replicate_zero, List.append_nil, hd]
  rfl

theorem disko_seek_cur_view (fp : disko_t) (n : Nat) (h : fp.data.length ≤ fp.pos) :
    disko_view (disko_seek_cur fp n) = disko_view fp ++ List.replicate n 0 ∧
    (disko_seek_cur fp n).data.length ≤ (disko_seek_cur fp n).pos := by
  unfold disko_view disko_seek_cur
  simp only [List.append_assoc, List.append_cancel_left_eq]
  refine ⟨?_, by omega⟩
  rw [← List.replicate_add]
  congr 1
  omega

theorem concat_blocks_length (f : Nat → List Byte) (w : Nat) (hf : ∀ n, (f n).length = w) :
    ∀ k n, (concat_blocks f k n).length = w * k := by
  intro k
  induction k with
  | zero => intro n; rfl
  | succ k ih =>
    intro n
    simp only [concat_blocks, List.length_append, hf, ih]
    rw [Nat.mul_succ]; omega

theorem concat_blocks_block (f : Nat → List Byte) (w : Nat) (hf : ∀ n, (f n).length = w) :
    ∀ k n i, i < k → ((concat_blocks f k n).drop (w * i)).take w = f (n + i) := by
  intro k
  induction k with
  | zero => intro n i hi; omega
  | succ k ih =>
    intro n i hi
    cases i with
    | zero =>
      simp only [concat_blocks, Nat.mul_zero, List.drop_zero, Nat.add_zero]
      rw [List.take_append_of_le_length (by rw [hf])]
      rw [List.take_of_length_le (by rw [hf])]
    | succ i =>
      simp only [concat_blocks]
      have e : w * (i + 1) = (f n).length + w * i := by rw [hf, Nat.mul_succ]; omega
      rw [e, List.drop_append]
      rw [ih (n + 1) i (by omega)]
      congr 1
      omega

theorem drop_take_mid (a b c : List Byte) (n k : Nat) (ha : a.length = n) (hb : b.length = k) :
    ((a ++ b ++ c).drop n).take k = b := by
  subst ha; subst hb
  rw [List.append_assoc, List.drop_left, List.take_left]

theorem disko_write_view_le (fp : disko_t) (src : List Byte) (h : fp.data.length ≤ fp.pos) :
    disko_view (disko_write fp src) = disko_view fp ++ src ∧
    (disko_write fp src).data.length ≤ (disko_write fp src).pos :=
  ⟨(disko_write_view fp src h).1, Nat.le_of_eq (disko_write_view fp src h).2⟩

theorem field_bytes_length (buf : List Byte) (n : Nat) : (field_bytes buf n).length = n := by
  unfold field_bytes
  simp only [List.length_take, List.length_append, List.length_replicate]
  omega

theorem be16_bytes_length (w : Nat) : (be16_bytes w).length = 2 := rfl

theorem mod_save_loop_bytes_length (smp : song_sample_t) :
    (mod_save_loop_bytes smp).length = 4 := by
  unfold mod_save_loop_bytes
  split <;> rfl

theorem mod_save_header_bytes_length (X : externals) (song : song_t) (nsmp n : Nat) :
    (mod_save_header_bytes X song nsmp n).length = 30 := by
  unfold mod_save_header_bytes
  split
  · simp only [List.length_replicate]
  · simp only [List.length_append, field_bytes_length, be16_bytes_length,
      mod_save_loop_bytes_length, List.length_cons, List.length_nil]

theorem mod_save_sample_header_view (X : externals) (song : song_t) (nsmp : Nat) (fp : disko_t)
    (warn n : Nat) (h : fp.data.length ≤ fp.pos) :
    disko_view (mod_save_sample_header X song nsmp fp warn n).1
      = disko_view fp ++ mod_save_header_bytes X song nsmp n ∧
    (mod_save_sample_header X song nsmp fp warn n).1.data.length
      ≤ (mod_save_sample_header X song nsmp fp warn n).1.pos := by
  unfold mod_save_sample_header mod_save_header_bytes
  by_cases hn : n > nsmp
  · rw [if_pos hn, if_pos hn]
    exact disko_seek_cur_view fp 30 h
  · rw [if_neg hn, if_neg hn]
    simp only []
    have w1 := disko_write_view_le fp (field_bytes (song.samples n).name 22) h
    have w2 := disko_write_view_le _ (be16_bytes (min ((song.samples n).length >>> 1) 0xFFFF)) w1.2
    have w3 := disko_write_view_le _
      [(Fin.ofNat ((mod_save_finetune X (song.samples n).c5speed 15 ^^^ 8) &&& 0x0f) : Byte)] w2.2
    have w4 := disko_write_view_le _ [(Fin.ofNat (((song.samples n).volume + 1) / 4) : Byte)] w3.2
    unfold mod_save_loop_bytes
    by_cases hf : (song.samples n).flags &&& CHN_LOOP ≠ 0
    · rw [if_pos hf, if_pos hf]
      have w5 := disko_write_view_le _
        (be16_bytes (min ((song.samples n).loop_start >>> 1) 0xFFFF)) w4.2
      have w6 := disko_write_view_le _ (be16_bytes
        (min ((((song.samples n).loop_end + 4294967296 - (song.samples n).loop_start)
          % 4294967296) >>> 1) 0xFFFF)) w5.2
      have e := w6.1
      rw [w5.1, w4.1, w3.1, w2.1, w1.1] at e
      refine ⟨e.trans ?_, w6.2⟩
      simp only [List.append_assoc, List.singleton_append, List.cons_append, List.nil_append]
    · rw [if_neg hf, if_neg hf]
      have w5 := disko_write_view_le _ ([0, 0, 0, 1] : List Byte) w4.2
      have e := w5.1
      rw [w4.1, w3.1, w2.1, w1.1] at e
      refine ⟨e.trans ?_, w5.2⟩
      simp only [List.append_assoc, List.singleton_append, List.cons_append, List.nil_append]

theorem mod_save_sample_headers_view (X : externals) (song : song_t) (nsmp : Nat) :
    ∀ (k n : Nat) (fp : disko_t) (warn : Nat), fp.data.length ≤ fp.pos →
    disko_view (mod_save_sample_headers X song nsmp k n fp warn).1
      = disko_view fp ++ concat_blocks (mod_save_header_bytes X song nsmp) k n ∧
    (mod_save_sample_headers X song nsmp k n fp warn).1.data.length
      ≤ (mod_save_sample_headers X song nsmp k n fp warn).1.pos := by
  intro k
  induction k with
  | zero =>
    intro n fp warn h
    simp only [mod_save_sample_headers, concat_blocks, List.append_nil]
    exact ⟨trivial, h⟩
  | succ k ih =>
    intro n fp warn h
    simp only [mod_save_sample_headers, concat_blocks]
    have w := mod_save_sample_header_view X song nsmp fp warn n h
    have w2 := ih (n + 1) _ (mod_save_sample_header X song nsmp fp warn n).2 w.2
    refine ⟨?_, w2.2⟩
    rw [w2.1, w.1, List.append_assoc]

theorem buf_write_length (buf src : List Byte) (off : Nat) (h : off + src.length ≤ buf.length) :
    (buf_write buf off src).length = buf.length := by
  unfold buf_write
  simp only [List.length_append, List.length_take, List.length_replicate, List.length_drop]
  omega

theorem buf_write_getD (buf src : List Byte) (off i : Nat) (h : off + src.length ≤ buf.length) :
    (buf_write buf off src).getD i 0 =
      if off ≤ i ∧ i < off + src.length then src.getD (i - off) 0 else buf.getD i 0 := by
  unfold buf_write
  have e0 : off - buf.length = 0 := by omega
  rw [e0, List.replicate_zero, List.append_nil]
  simp only [List.getD_eq_getElem?_getD]
  have hl : (buf.take off).length = off := by rw [List.length_take]; omega
  by_cases h1 : i < off
  · rw [if_neg (by omega), List.append_assoc, List.getElem?_append_left (by omega),
      List.getElem?_take_of_lt h1]
  · by_cases h2 : i < off + src.length
    · rw [if_pos ⟨by omega, h2⟩, List.append_assoc, List.getElem?_append_right (by omega), hl,
        List.getElem?_append_left (by omega)]
    · rw [if_neg (by omega), List.getElem?_append_right
        (by rw [List.length_append, hl]; omega), List.getElem?_drop, List.length_append, hl]
      congr 2
      omega

theorem mod_save_cell_warn (m : song_note_t) (w : Nat) :
    (mod_save_cell m w).1 = mod_save_cell_bytes m := rfl

theorem mod_save_cell_bytes_length (m : song_note_t) : (mod_save_cell_bytes m).length = 4 := rfl

theorem mod_save_cells_warn (nchn : Nat) (m : List song_note_t) :
    ∀ (k j : Nat) (buf : List Byte) (jo w : Nat),
    (mod_save_cells nchn m k j buf jo w).1 = (mod_save_cells nchn m k j buf jo 0).1 := by
  intro k
  induction k with
  | zero => intro j buf jo w; rfl
  | succ k ih =>
    intro j buf jo w
    simp only [mod_save_cells]
    by_cases hc : j % MAX_CHANNELS < nchn
    · rw [if_pos hc, if_pos hc, ih, mod_save_cell_warn, mod_save_cell_warn _ 0, ← ih]
    · rw [if_neg hc, if_neg hc, ih]

theorem mod_save_pattern_eq (song : song_t) (nchn : Nat) (fp : disko_t) (warn n : Nat) :
    (mod_save_pattern song nchn fp warn n).1 = disko_write fp (mod_save_pattern_bytes song nchn n) := by
  unfold mod_save_pattern_bytes mod_save_pattern
  simp only []
  rw [mod_save_cells_warn, disko_write_data _ _ (by exact Nat.le_refl 0)]
  generalize (if song.pattern_size n ≠ 64 then warn_set 0 WARN_PATTERNLEN else 0) = w0
  rw [mod_save_cells_warn _ _ _ _ _ _ w0]
  rfl

theorem mod_save_patterns_view (song : song_t) (nchn : Nat) :
    ∀ (k n : Nat) (fp : disko_t) (warn : Nat), fp.data.length ≤ fp.pos →
    disko_view (mod_save_patterns song nchn k n fp warn).1
      = disko_view fp ++ concat_blocks (mod_save_pattern_bytes song nchn) k n ∧
    (mod_save_patterns song nchn k n fp warn).1.data.length
      ≤ (mod_save_patterns song nchn k n fp warn).1.pos := by
  intro k
  induction k with
  | zero =>
    intro n fp warn h
    simp only [mod_save_patterns, concat_blocks, List.append_nil]
    exact ⟨trivial, h⟩
  | succ k ih =>
    intro n fp warn h
    simp only [mod_save_patterns, concat_blocks]
    have w := disko_write_view_le fp (mod_save_pattern_bytes song nchn n) h
    rw [← mod_save_pattern_eq song nchn fp warn n] at w
    have w2 := ih (n + 1) _ (mod_save_pattern song nchn fp warn n).2 w.2
    refine ⟨?_, w2.2⟩
    rw [w2.1, w.1, List.append_assoc]

theorem disko_write_end (fp : disko_t) (src : List Byte) (h : fp.pos = fp.data.length) :
    (disko_write fp src).data = fp.data ++ src ∧
    (disko_write fp src).pos = (disko_write fp src).data.length := by
  have hv : disko_view fp = fp.data := by
    unfold disko_view
    rw [h, Nat.sub_self, List.replicate_zero, List.append_nil]
  have hd := disko_write_data fp src (Nat.le_of_eq h.symm)
  rw [hv] at hd
  exact ⟨hd, ((disko_write_view fp src (Nat.le_of_eq h.symm)).2).symm⟩

theorem mod_save_patterns_data (song : song_t) (nchn : Nat) :
    ∀ (k n : Nat) (fp : disko_t) (warn : Nat), fp.pos = fp.data.length →
    (mod_save_patterns song nchn k n fp warn).1.data
      = fp.data ++ concat_blocks (mod_save_pattern_bytes song nchn) k n ∧
    (mod_save_patterns song nchn k n fp warn).1.pos
      = (mod_save_patterns song nchn k n fp warn).1.data.length := by
  intro k
  induction k with
  | zero =>
    intro n fp warn h
    simp only [mod_save_patterns, concat_blocks, List.append_nil]
    exact ⟨trivial, h⟩
  | succ k ih =>
    intro n fp warn h
    simp only [mod_save_patterns, concat_blocks]
    have w := disko_write_end fp (mod_save_pattern_bytes song nchn n) h
    rw [← mod_save_pattern_eq song nchn fp warn n] at w
    have w2 := ih (n + 1) _ (mod_save_pattern song nchn fp warn n).2 w.2
    refine ⟨?_, w2.2⟩
    rw [w2.1, w.1, List.append_assoc]

theorem fmt_mod_save_song_fst (X : externals) (fp : disko_t) (song : song_t) :
    ∃ w0 w1, (fmt_mod_save_song X fp song).1 =
      mod_save_sample_data X song (mod_save_nsmp X song) 31 0
        (mod_save_patterns song (X.csf_get_highest_used_channel song + 1)
          (mod_save_maxpat_of X song + 1) 0
          (disko_write (disko_write (disko_write
            (mod_save_sample_headers X song (mod_save_nsmp X song) 31 1
              (disko_write fp (field_bytes song.title 20)) w0).1
            [Fin.ofNat (X.csf_get_num_orders song), 0x7f])
            ((List.range 128).map (fun i =>
              (Fin.ofNat (mod_save_orders song (X.csf_get_num_orders song) i) : Byte))))
            (mod_save_tag (X.csf_get_highest_used_channel song + 1) (mod_save_maxpat_of X song)))
          w1).1 :=
  ⟨_, _, rfl⟩

theorem sample_header_eq_refl (a : song_sample_t) : sample_header_eq a a :=
  ⟨rfl, rfl, rfl, rfl, rfl, rfl, rfl, rfl⟩

theorem be16_drop (h : List Byte) (k : Nat) :
    be16 (h.drop k) = (h.getD k 0).val * 256 + (h.getD (k + 1) 0).val := by
  unfold be16
  simp only [List.getD_eq_getElem?_getD, List.getElem?_drop, Nat.add_zero]

theorem getD_after (n L : List Byte) (k i : Nat) (hn : n.length = k) :
    (n ++ L).getD (k + i) 0 = L.getD i 0 := by
  subst hn
  simp only [List.getD_eq_getElem?_getD]
  rw [List.getElem?_append_right (by omega)]
  congr 2
  omega

theorem finetune_index_lt (b : Nat) : ((b : Int) % 16).toNat ^^^ 8 < 16 := by
  have h1 : ((b : Int) % 16).toNat < 2 ^ 4 := by omega
  exact Nat.xor_lt_two_pow h1 (by decide)

set_option maxRecDepth 100000 in
theorem amigaperiod_table_all : amigaperiod_table.all (fun x => decide (x < 2048)) = true := by
  decide

theorem amigaperiod_table_mem (x : Nat) (h : x ∈ amigaperiod_table) : x < 2048 := by
  have e := List.all_eq_true.mp amigaperiod_table_all x h
  exact of_decide_eq_true e

theorem amigaperiod_table_lt (i : Nat) : amigaperiod_table.getD i 0 < 2048 := by
  rw [List.getD_eq_getElem?_getD]
  cases h : amigaperiod_table[i]? with
  | none => exact Nat.zero_lt_succ _
  | some x => exact amigaperiod_table_mem x (List.getElem?_mem h)

theorem and_16_mod (i : Nat) : i &&& 16 = (i % 32) &&& 16 := by
  have e : i % 32 = i &&& 31 := (Nat.and_pow_two_sub_one_eq_mod i 5).symm
  rw [e, Nat.and_assoc]
  rfl

theorem and_15_mod (i : Nat) : i &&& 15 = (i % 32) &&& 15 := by
  have e : i % 32 = i &&& 31 := (Nat.and_pow_two_sub_one_eq_mod i 5).symm
  rw [e, Nat.and_assoc]
  rfl

theorem and_15_eq_mod (i : Nat) : i &&& 15 = i % 16 := Nat.and_pow_two_sub_one_eq_mod i 4

theorem and_255_eq_mod (i : Nat) : i &&& 255 = i % 256 := Nat.and_pow_two_sub_one_eq_mod i 8

theorem cell_byte0_bits : ∀ j, j < 32 → ∀ q, q < 8 →
    (((j &&& 16) ||| q) % 256) &&& 15 = q ∧ (((j &&& 16) ||| q) % 256) &&& 240 = j &&& 16 := by
  decide

theorem cell_byte2_bits : ∀ j, j < 32 → ∀ f, f < 16 →
    (((((j &&& 15) <<< 4) % 256) ||| f) % 256) >>> 4 = j &&& 15 := by
  decide

theorem instrument_bits : ∀ j, j < 32 → (j &&& 16) + (j &&& 15) = j := by
  decide

/-- The note and the instrument that the legacy import makes of the 4 bytes the encoder
writes for a cell. -/
theorem mod_import_save_cell (X : externals) (m : song_note_t) :
    (mod_import_note X (mod_save_cell_bytes m)).note
      = _mod_period_to_note X (amigaperiod_table.getD (m.note &&& 0xff) 0) ∧
    (mod_import_note X (mod_save_cell_bytes m)).instrument = m.instrument % 32 := by
  have hP := amigaperiod_table_lt (m.note &&& 0xff)
  have hj : m.instrument % 32 < 32 := Nat.mod_lt _ (by decide)
  have hq : amigaperiod_table.getD (m.note &&& 0xff) 0 >>> 8 < 8 := by
    rw [Nat.shiftRight_eq_div_pow]
    omega
  have hf : (mod_save_effect m).1 &&& 0x0f < 16 := by
    rw [and_15_eq_mod]
    omega
  obtain ⟨c1, c2⟩ := cell_byte0_bits _ hj _ hq
  have c3 := cell_byte2_bits _ hj _ hf
  have c4 := instrument_bits _ hj
  rw [← and_16_mod] at c1 c2 c4
  rw [← and_15_mod] at c3 c4
  constructor
  · show _mod_period_to_note X
      ((((((m.instrument &&& 0x10) ||| (amigaperiod_table.getD (m.note &&& 0xff) 0 >>> 8))
        % 256) &&& 0xf) <<< 8) + (amigaperiod_table.getD (m.note &&& 0xff) 0 &&& 0xff) % 256)
      = _
    rw [c1, and_255_eq_mod (amigaperiod_table.getD (m.note &&& 0xff) 0),
      Nat.shiftRight_eq_div_pow, Nat.shiftLeft_eq]
    congr 1
    omega
  · show ((((m.instrument &&& 0x10) ||| (amigaperiod_table.getD (m.note &&& 0xff) 0 >>> 8))
        % 256) &&& 0xf0) + ((((((m.instrument &&& 0xf) <<< 4) % 256)
          ||| ((mod_save_effect m).1 &&& 0x0f)) % 256) >>> 4) = _
    rw [c2, c3, c4]

theorem slice_append_left (A R : List Byte) (k n : Nat) (h : k + n ≤ A.length) :
    ((A ++ R).drop k).take n = (A.drop k).take n := by
  rw [List.drop_append_of_le_length (by omega),
    List.take_append_of_le_length (by rw [List.length_drop]; omega)]

theorem getD_drop_add (l : List Byte) (k i : Nat) :
    (l.drop k).getD i 0 = l.getD (k + i) 0 := by
  simp only [List.getD_eq_getElem?_getD, List.getElem?_drop]

theorem getD_append_left_lt (A R : List Byte) (i : Nat) (h : i < A.length) :
    (A ++ R).getD i 0 = A.getD i 0 := by
  simp only [List.getD_eq_getElem?_getD]
  rw [List.getElem?_append_left h]

theorem concat_blocks_length_of (f : Nat → List Byte) (w : Nat) :
    ∀ k n, (∀ m, n ≤ m → m < n + k → (f m).length = w) →
    (concat_blocks f k n).length = w * k := by
  intro k
  induction k with
  | zero => intro n _; rfl
  | succ k ih =>
    intro n hf
    simp only [concat_blocks, List.length_append]
    rw [hf n (Nat.le_refl _) (by omega), ih (n + 1) (fun m h1 h2 => hf m (by omega) (by omega)),
      Nat.mul_succ]
    omega

theorem concat_blocks_block_of (f : Nat → List Byte) (w : Nat) :
    ∀ k n, (∀ m, n ≤ m → m < n + k → (f m).length = w) →
    ∀ i, i < k → ((concat_blocks f k n).drop (w * i)).take w = f (n + i) := by
  intro k
  induction k with
  | zero => intro n _ i hi; omega
  | succ k ih =>
    intro n hf i hi
    have h0 := hf n (Nat.le_refl _) (by omega)
    cases i with
    | zero =>
      simp only [concat_blocks, Nat.mul_zero, List.drop_zero, Nat.add_zero]
      rw [List.take_left' h0]
    | succ i =>
      simp only [concat_blocks]
      have e : w * (i + 1) = w + w * i := by rw [Nat.mul_succ]; omega
      rw [e, ← List.drop_drop, List.drop_left' h0,
        ih (n + 1) (fun m h1 h2 => hf m (by omega) (by omega)) i (by omega)]
      congr 1
      omega

/-- The parts of a stream that is made of a 20-byte title, 930 bytes of sample headers, 2
bytes, 128 order bytes, a 4-byte tag and a rest. -/
theorem layout_parts (T B N O G R : List Byte) (hT : T.length = 20) (hB : B.length = 930)
    (hN : N.length = 2) (hO : O.length = 128) (hG : G.length = 4) :
    (T ++ B ++ N ++ O ++ G ++ R).take 20 = T ∧
    (∀ k n, k + n ≤ 930 →
      ((T ++ B ++ N ++ O ++ G ++ R).drop (20 + k)).take n = (B.drop k).take n) ∧
    (∀ i, i < 2 → (T ++ B ++ N ++ O ++ G ++ R).getD (950 + i) 0 = N.getD i 0) ∧
    (∀ i, i < 128 → (T ++ B ++ N ++ O ++ G ++ R).getD (952 + i) 0 = O.getD i 0) ∧
    ((T ++ B ++ N ++ O ++ G ++ R).drop 1080).take 4 = G ∧
    (T ++ B ++ N ++ O ++ G ++ R).drop 1084 = R ∧
    (T ++ B ++ N ++ O ++ G ++ R).length = 1084 + R.length := by
  simp only [List.append_assoc]
  have e20 : (T ++ (B ++ (N ++ (O ++ (G ++ R))))).drop 20 = B ++ (N ++ (O ++ (G ++ R))) :=
    List.drop_left' hT
  have e950 : (T ++ (B ++ (N ++ (O ++ (G ++ R))))).drop 950 = N ++ (O ++ (G ++ R)) := by
    rw [show 950 = 20 + 930 from rfl, ← List.drop_drop, e20, List.drop_left' hB]
  have e952 : (T ++ (B ++ (N ++ (O ++ (G ++ R))))).drop 952 = O ++ (G ++ R) := by
    rw [show 952 = 950 + 2 from rfl, ← List.drop_drop, e950, List.drop_left' hN]
  have e1080 : (T ++ (B ++ (N ++ (O ++ (G ++ R))))).drop 1080 = G ++ R := by
    rw [show 1080 = 952 + 128 from rfl, ← List.drop_drop, e952, List.drop_left' hO]
  refine ⟨List.take_left' hT, ?_, ?_, ?_, ?_, ?_, ?_⟩
  · intro k n h
    rw [← List.drop_drop, e20, slice_append_left _ _ _ _ (by omega)]
  · intro i hi
    rw [← getD_drop_add, e950, getD_append_left_lt _ _ _ (by omega)]
  · intro i hi
    rw [← getD_drop_add, e952, getD_append_left_lt _ _ _ (by omega)]
  · rw [e1080, List.take_left' hG]
  · rw [show 1084 = 1080 + 4 from rfl, ← List.drop_drop, e1080, List.drop_left' hG]
  · simp only [List.length_append]
    omega

theorem slice_of_slice (l : List Byte) (a n b k : Nat) (h : b + k ≤ n) :
    (((l.drop a).take n).drop b).take k = (l.drop (a + b)).take k := by
  rw [List.drop_take, List.take_take, List.drop_drop, Nat.min_eq_left (by omega)]

theorem slice_eq_of_getD (l b : List Byte) (z n : Nat) (hb : b.length = n)
    (hl : z + n ≤ l.length) (hg : ∀ i, i < n → l.getD (z + i) 0 = b.getD i 0) :
    (l.drop z).take n = b := by
  apply List.ext_getElem?
  intro i
  by_cases hi : i < n
  · have h1 := hg i hi
    simp only [List.getD_eq_getElem?_getD] at h1
    rw [List.getElem?_take_of_lt hi, List.getElem?_drop]
    rw [List.getElem?_eq_getElem (show z + i < l.length by omega)] at h1 ⊢
    rw [List.getElem?_eq_getElem (show i < b.length by omega)] at h1 ⊢
    exact congrArg some h1
  · rw [List.getElem?_eq_none (by rw [List.length_take, List.length_drop]; omega),
      List.getElem?_eq_none (by omega)]

theorem getD_map_range (f : Nat → Byte) (n i : Nat) (h : i < n) :
    ((List.range n).map f).getD i 0 = f i := by
  simp only [List.getD_eq_getElem?_getD, List.getElem?_map, List.getElem?_range h,
    Option.map_some', Option.getD_some]

theorem mod_save_nsmp_le (X : externals) (song : song_t) : mod_save_nsmp X song ≤ 31 := by
  unfold mod_save_nsmp
  split <;> omega

theorem last_index_le (p : Nat → Bool) : ∀ n, last_index p n ≤ n := by
  intro n
  induction n with
  | zero => exact Nat.le_refl _
  | succ n ih =>
    simp only [last_index]
    split <;> omega

theorem last_index_eq (p : Nat → Bool) (k : Nat) (hp : k = 0 ∨ p k = true) :
    ∀ n, k ≤ n → (∀ j, k < j → j ≤ n → p j = false) → last_index p n = k := by
  intro n
  induction n with
  | zero => intro h _; simp only [last_index]; omega
  | succ n ih =>
    intro h hj
    simp only [last_index]
    by_cases e : k = n + 1
    · rcases hp with hp | hp
      · omega
      · rw [← e, if_pos hp]
    · rw [if_neg (by rw [hj (n + 1) (by omega) (Nat.le_refl _)]; decide)]
      exact ih (by omega) (fun j h1 h2 => hj j h1 (by omega))

theorem mod_save_sample_data_append (X : externals) (song : song_t) (nsmp : Nat)
    (hwr : sample_writer_writes X) :
    ∀ (k n : Nat) (fp : disko_t), fp.pos = fp.data.length →
    ∃ S : List Byte, (mod_save_sample_data X song nsmp k n fp).data = fp.data ++ S := by
  intro k
  induction k with
  | zero =>
    intro n fp h
    exact ⟨[], by simp only [mod_save_sample_data, List.append_nil]⟩
  | succ k ih =>
    intro n fp h
    simp only [mod_save_sample_data]
    by_cases hn : n < nsmp ∧ n < 31
    · rw [if_pos hn]
      have key : ∃ fp1 : disko_t, ∃ B : List Byte,
          (if (song.samples (n + 1)).data.isSome = true then
            if (song.samples (n + 1)).flags &&& CHN_LOOP ≠ 0 ∧
                (song.samples (n + 1)).loop_start < (song.samples (n + 1)).loop_end ∧
                (song.samples (n + 1)).loop_end ≤ min (song.samples (n + 1)).length 0x1FFFE
            then X.csf_write_sample fp (song.samples (n + 1)) 0x1FFFE
            else if (song.samples (n + 1)).length ≥ 1 then
              disko_seek_end (disko_write (disko_seek_set
                (X.csf_write_sample fp (song.samples (n + 1)) 0x1FFFE) (disko_tell fp)) [0, 0])
            else fp
          else fp) = fp1 ∧ fp1.data = fp.data ++ B ∧ fp1.pos = fp1.data.length := by
        obtain ⟨bytes, hw⟩ := hwr fp (song.samples (n + 1)) 0x1FFFE
        have we := disko_write_end fp bytes h
        split
        · split
          · exact ⟨_, bytes, rfl, by rw [hw]; exact we.1, by rw [hw]; exact we.2⟩
          · split
            · refine ⟨_, [0, 0] ++ bytes.drop 2, rfl, ?_, rfl⟩
              rw [hw]
              unfold disko_seek_end disko_write disko_seek_set disko_tell
              simp only []
              have e : buf_write fp.data fp.pos bytes = fp.data ++ bytes := we.1
              rw [e]
              unfold buf_write
              rw [h, List.take_left, List.length_append]
              have e0 : fp.data.length - (fp.data.length + bytes.length) = 0 := by omega
              rw [e0, List.replicate_zero, List.append_nil, List.drop_append]
              simp only [List.length_cons, List.length_nil, List.append_assoc]
            · exact ⟨fp, [], rfl, by rw [List.append_nil], h⟩
        · exact ⟨fp, [], rfl, by rw [List.append_nil], h⟩
      obtain ⟨fp1, B, e1, e2, e3⟩ := key
      simp only [disko_tell] at e1 ⊢
      rw [e1]
      obtain ⟨S, hS⟩ := ih (n + 1) fp1 e3
      refine ⟨B ++ S, ?_⟩
      rw [hS, e2, List.append_assoc]
    · rw [if_neg hn]
      exact ⟨[], by rw [List.append_nil]⟩

/-- The file that the encoder writes: the 1084 bytes of the head, the patterns 0..`maxpat`
one after the other, and what the sample writer writes. -/
theorem mod_save_output_parts (X : externals) (song : song_t) (hwr : sample_writer_writes X) :
    ∃ S : List Byte, mod_save_output X song =
      mod_save_head_bytes X song ++
      concat_blocks (mod_save_pattern_bytes song (mod_save_nchn X song))
        (mod_save_maxpat_of X song + 1) 0 ++ S := by
  unfold mod_save_output mod_save_nchn
  obtain ⟨w0, w1, e⟩ := fmt_mod_save_song_fst X disko_open song
  rw [e]
  have t1 := disko_write_view_le disko_open (field_bytes song.title 20) (Nat.le_refl 0)
  have t2 := mod_save_sample_headers_view X song (mod_save_nsmp X song) 31 1 _ w0 t1.2
  have t3 := disko_write_data _ [(Fin.ofNat (X.csf_get_num_orders song) : Byte), 0x7f] t2.2
  have t3e := (disko_write_view _ [(Fin.ofNat (X.csf_get_num_orders song) : Byte), 0x7f] t2.2).2
  have t4 := disko_write_end _ ((List.range 128).map (fun i =>
              (Fin.ofNat (mod_save_orders song (X.csf_get_num_orders song) i) : Byte))) t3e.symm
  have t5 := disko_write_end _
    (mod_save_tag (X.csf_get_highest_used_channel song + 1) (mod_save_maxpat_of X song)) t4.2
  have t6 := mod_save_patterns_data song (X.csf_get_highest_used_channel song + 1)
    (mod_save_maxpat_of X song + 1) 0 _ w1 t5.2
  obtain ⟨S, hS⟩ := mod_save_sample_data_append X song (mod_save_nsmp X song) hwr 31 0 _ t6.2
  refine ⟨S, ?_⟩
  rw [hS, t6.1, t5.1, t4.1, t3, t2.1, t1.1]
  unfold mod_save_head_bytes
  rfl

theorem mod_save_tag_length (nchn maxpat : Nat) : (mod_save_tag nchn maxpat).length = 4 := by
  unfold mod_save_tag
  split
  · split <;> rfl
  · split <;> rfl

/-- The head of the file that the encoder writes: the title, the 31 sample headers, the
order count, the byte `0x7f`, the 128 order bytes and the tag at offset 1080; the patterns
follow from offset 1084. -/
theorem mod_save_output_head (X : externals) (song : song_t) (hwr : sample_writer_writes X) :
    (mod_save_output X song).take 20 = field_bytes song.title 20 ∧
    (∀ m, 1 ≤ m → m < 32 → ((mod_save_output X song).drop (20 + 30 * (m - 1))).take 30
      = mod_save_header_bytes X song (mod_save_nsmp X song) m) ∧
    (mod_save_output X song).getD 950 0 = Fin.ofNat (X.csf_get_num_orders song) ∧
    (mod_save_output X song).getD 951 0 = 0x7f ∧
    (∀ i, i < 128 → (mod_save_output X song).getD (952 + i) 0
      = Fin.ofNat (mod_save_orders song (X.csf_get_num_orders song) i)) ∧
    ((mod_save_output X song).drop 1080).take 4
      = mod_save_tag (mod_save_nchn X song) (mod_save_maxpat_of X song) ∧
    ∃ S : List Byte, (mod_save_output X song).drop 1084 =
      concat_blocks (mod_save_pattern_bytes song (mod_save_nchn X song))
        (mod_save_maxpat_of X song + 1) 0 ++ S := by
  obtain ⟨S, hS⟩ := mod_save_output_parts X song hwr
  rw [hS]
  unfold mod_save_head_bytes
  have hT := field_bytes_length song.title 20
  have hB := concat_blocks_length (mod_save_header_bytes X song (mod_save_nsmp X song)) 30
    (mod_save_header_bytes_length X song (mod_save_nsmp X song)) 31 1
  have hO : ((List.range 128).map (fun i =>
      (Fin.ofNat (mod_save_orders song (X.csf_get_num_orders song) i) : Byte))).length = 128 := by
    rw [List.length_map, List.length_range]
  rw [List.append_assoc _ _ S]
  obtain ⟨p1, p2, p3, p4, p5, p6, _⟩ := layout_parts (field_bytes song.title 20)
    (concat_blocks (mod_save_header_bytes X song (mod_save_nsmp X song)) 31 1)
    [(Fin.ofNat (X.csf_get_num_orders song) : Byte), 0x7f]
    ((List.range 128).map (fun i =>
      (Fin.ofNat (mod_save_orders song (X.csf_get_num_orders song) i) : Byte)))
    (mod_save_tag (X.csf_get_highest_used_channel song + 1) (mod_save_maxpat_of X song))
    (concat_blocks (mod_save_pattern_bytes song (mod_save_nchn X song))
      (mod_save_maxpat_of X song + 1) 0 ++ S)
    hT hB rfl hO (mod_save_tag_length _ _)
  refine ⟨p1, ?_, p3 0 (by decide), p3 1 (by decide), ?_, p5, S, p6⟩
  · intro m hm1 hm2
    rw [p2 (30 * (m - 1)) 30 (by omega),
      concat_blocks_block _ 30 (mod_save_header_bytes_length X song (mod_save_nsmp X song)) 31 1
        (m - 1) (by omega)]
    congr 1
    omega
  · intro i hi
    rw [p4 i hi, getD_map_range _ _ _ hi]

theorem cell_pos_step (nchn j : Nat) (hn : nchn ≤ 64) :
    4 * (nchn * ((j + 1) / 64) + min ((j + 1) % 64) nchn)
      = 4 * (nchn * (j / 64) + min (j % 64) nchn) + (if j % 64 < nchn then 4 else 0) := by
  by_cases h63 : j % 64 = 63
  · have e1 : (j + 1) / 64 = j / 64 + 1 := by omega
    have e2 : (j + 1) % 64 = 0 := by omega
    have e3 : nchn * (j / 64 + 1) = nchn * (j / 64) + nchn := by rw [Nat.mul_add, Nat.mul_one]
    rw [e1, e2, h63, e3]
    split <;> omega
  · have e1 : (j + 1) / 64 = j / 64 := by omega
    have e2 : (j + 1) % 64 = j % 64 + 1 := by omega
    rw [e1, e2]
    split <;> omega

theorem mul_add_inj (n r c q t : Nat) (hc : c < n) (ht : t < n)
    (h : n * r + c = n * q + t) : r = q ∧ c = t := by
  have hn : 0 < n := by omega
  have e1 : (n * r + c) / n = r := by
    rw [Nat.mul_add_div hn, Nat.div_eq_of_lt hc, Nat.add_zero]
  have e2 : (n * q + t) / n = q := by
    rw [Nat.mul_add_div hn, Nat.div_eq_of_lt ht, Nat.add_zero]
  have e3 : r = q := by rw [← e1, ← e2, h]
  subst e3
  exact ⟨rfl, by omega⟩

theorem getD_replicate_zero (n i : Nat) : (List.replicate n (0 : Byte)).getD i 0 = 0 := by
  rw [List.getD_eq_getElem?_getD, List.getElem?_replicate]
  split <;> rfl

/-- The scratch buffer after the cell loop of the encoder for `nchn` channels: the cell of row
`r` and channel `c` is at offset `4 * (nchn * r + c)`. -/
theorem mod_save_cells_layout (nchn : Nat) (hn : nchn ≤ 64) (m : List song_note_t) :
    ∀ (k j : Nat) (buf : List Byte) (jo w : Nat),
    jo = 4 * (nchn * (j / 64) + min (j % 64) nchn) → buf.length = nchn * 256 → j + k ≤ 4096 →
    (mod_save_cells nchn m k j buf jo w).1.length = nchn * 256 ∧
    ∀ r c i, r < 64 → c < nchn → i < 4 →
      (mod_save_cells nchn m k j buf jo w).1.getD (4 * (nchn * r + c) + i) 0 =
        if j ≤ 64 * r + c ∧ 64 * r + c < j + k then
          (mod_save_cell_bytes (m.getD (64 * r + c) blank_note)).getD i 0
        else buf.getD (4 * (nchn * r + c) + i) 0 := by
  intro k
  induction k with
  | zero =>
    intro j buf jo w _ hb _
    refine ⟨hb, ?_⟩
    intro r c i _ _ _
    rw [if_neg (by omega)]
    rfl
  | succ k ih =>
    intro j buf jo w hjo hb hjk
    have hstep := cell_pos_step nchn j hn
    simp only [mod_save_cells, MAX_CHANNELS]
    by_cases hc : j % 64 < nchn
    · rw [if_pos hc]
      rw [if_pos hc] at hstep
      have hq : nchn * (j / 64) ≤ nchn * 63 := Nat.mul_le_mul_left _ (by omega)
      have hmin : min (j % 64) nchn = j % 64 := Nat.min_eq_left (Nat.le_of_lt hc)
      have hfit : jo + 4 ≤ buf.length := by rw [hjo, hb, hmin]; omega
      have hl := buf_write_length buf (mod_save_cell (m.getD j blank_note) w).1 jo
        (by rw [mod_save_cell_warn, mod_save_cell_bytes_length]; exact hfit)
      obtain ⟨h1, h2⟩ := ih (j + 1) (buf_write buf jo (mod_save_cell (m.getD j blank_note) w).1)
        (jo + 4) (mod_save_cell (m.getD j blank_note) w).2 (by rw [hstep, hjo])
        (by rw [hl]; exact hb) (by omega)
      refine ⟨h1, ?_⟩
      intro r c i hr hcc hi
      rw [h2 r c i hr hcc hi]
      by_cases hin : j + 1 ≤ 64 * r + c ∧ 64 * r + c < j + 1 + k
      · rw [if_pos hin, if_pos (by omega)]
      · rw [if_neg hin, buf_write_getD _ _ _ _
          (by rw [mod_save_cell_warn, mod_save_cell_bytes_length]; exact hfit)]
        rw [mod_save_cell_warn, mod_save_cell_bytes_length]
        by_cases hj : 64 * r + c = j
        · have er : j / 64 = r := by omega
          have ec : j % 64 = c := by omega
          rw [hjo, hmin, er, ec]
          rw [if_pos (by omega), if_pos (by omega), hj]
          congr 1
          omega
        · have hne : nchn * r + c ≠ nchn * (j / 64) + j % 64 := by
            intro he
            obtain ⟨e1, e2⟩ := mul_add_inj nchn r c (j / 64) (j % 64) hcc hc he
            omega
          rw [hjo, hmin, if_neg (by omega), if_neg (by omega)]
    · rw [if_neg hc]
      rw [if_neg hc] at hstep
      obtain ⟨h1, h2⟩ := ih (j + 1) buf jo w (by rw [hstep, hjo]; rfl) hb (by omega)
      refine ⟨h1, ?_⟩
      intro r c i hr hcc hi
      rw [h2 r c i hr hcc hi]
      by_cases hin : j + 1 ≤ 64 * r + c ∧ 64 * r + c < j + 1 + k
      · rw [if_pos hin, if_pos (by omega)]
      · rw [if_neg hin, if_neg (by omega)]

/-- The bytes that the encoder writes for a pattern, for `nchn` channels: `nchn * 256` of
them, the cell of row `r` and channel `c` at offset `4 * (nchn * r + c)`, and zeros in the
rows from the row count of the pattern on. -/
theorem mod_save_pattern_bytes_layout (song : song_t) (nchn n : Nat) (hn : nchn ≤ 64) :
    (mod_save_pattern_bytes song nchn n).length = nchn * 256 ∧
    ∀ r c i, r < 64 → c < nchn → i < 4 →
      (mod_save_pattern_bytes song nchn n).getD (4 * (nchn * r + c) + i) 0 =
        if r < song.pattern_size n then (mod_save_cell_bytes (song_cell song n r c)).getD i 0
        else 0 := by
  unfold mod_save_pattern_bytes mod_save_pattern
  simp only [MAX_CHANNELS]
  rw [(disko_write_end disko_open _ rfl).1, show disko_open.data = [] from rfl,
    List.nil_append]
  have hj : (if song.pattern_size n ≠ 64 then min (song.pattern_size n) 64
      else song.pattern_size n) = min (song.pattern_size n) 64 := by
    split <;> omega
  rw [hj]
  obtain ⟨h1, h2⟩ := mod_save_cells_layout nchn hn ((song.patterns n).getD [])
    (min (song.pattern_size n) 64 * 64) 0 (List.replicate (nchn * 4 * 64) 0) 0
    (if song.pattern_size n ≠ 64 then warn_set 0 WARN_PATTERNLEN else 0)
    (by simp only [Nat.zero_div, Nat.zero_mod, Nat.zero_min, Nat.mul_zero, Nat.add_zero])
    (by rw [List.length_replicate]; omega) (by omega)
  rw [List.take_of_length_le (by rw [h1]; omega)]
  refine ⟨h1, ?_⟩
  intro r c i hr hc hi
  rw [h2 r c i hr hc hi, getD_replicate_zero]
  by_cases hrp : r < song.pattern_size n
  · rw [if_pos hrp, if_pos ⟨Nat.zero_le _, by omega⟩]
    rfl
  · rw [if_neg hrp, if_neg (by omega)]

theorem mod_save_output_stream (X : externals) (song : song_t) :
    ∃ pre : List Byte,
      pre = mod_save_head_bytes X song ++
        concat_blocks (mod_save_pattern_bytes song (mod_save_nchn X song))
          (mod_save_maxpat_of X song + 1) 0 ∧
      (fmt_mod_save_song X disko_open song).1 =
        mod_save_sample_data X song (mod_save_nsmp X song) 31 0 ⟨pre, pre.length⟩ := by
  unfold mod_save_nchn
  obtain ⟨w0, w1, e⟩ := fmt_mod_save_song_fst X disko_open song
  have t1 := disko_write_view_le disko_open (field_bytes song.title 20) (Nat.le_refl 0)
  have t2 := mod_save_sample_headers_view X song (mod_save_nsmp X song) 31 1 _ w0 t1.2
  have t3 := disko_write_data _ [(Fin.ofNat (X.csf_get_num_orders song) : Byte), 0x7f] t2.2
  have t3e := (disko_write_view _ [(Fin.ofNat (X.csf_get_num_orders song) : Byte), 0x7f] t2.2).2
  have t4 := disko_write_end _ ((List.range 128).map (fun i =>
              (Fin.ofNat (mod_save_orders song (X.csf_get_num_orders song) i) : Byte))) t3e.symm
  have t5 := disko_write_end _
    (mod_save_tag (X.csf_get_highest_used_channel song + 1) (mod_save_maxpat_of X song)) t4.2
  have t6 := mod_save_patterns_data song (X.csf_get_highest_used_channel song + 1)
    (mod_save_maxpat_of X song + 1) 0 _ w1 t5.2
  refine ⟨_, rfl, ?_⟩
  rw [e]
  congr 1
  have hd := t6.1
  rw [t5.1, t4.1, t3, t2.1, t1.1] at hd
  have hd2 : (mod_save_patterns song (X.csf_get_highest_used_channel song + 1)
      (mod_save_maxpat_of X song + 1) 0
      (disko_write (disko_write (disko_write
        (mod_save_sample_headers X song (mod_save_nsmp X song) 31 1
          (disko_write disko_open (field_bytes song.title 20)) w0).1
        [Fin.ofNat (X.csf_get_num_orders song), 0x7f])
        ((List.range 128).map (fun i =>
          (Fin.ofNat (mod_save_orders song (X.csf_get_num_orders song) i) : Byte))))
        (mod_save_tag (X.csf_get_highest_used_channel song + 1) (mod_save_maxpat_of X song)))
      w1).1.data = mod_save_head_bytes X song ++
        concat_blocks (mod_save_pattern_bytes song (X.csf_get_highest_used_channel song + 1))
          (mod_save_maxpat_of X song + 1) 0 := by
    rw [hd]
    unfold mod_save_head_bytes
    rfl
  have hp := t6.2
  rw [hd2] at hp
  cases hx : (mod_save_patterns song (X.csf_get_highest_used_channel song + 1)
      (mod_save_maxpat_of X song + 1) 0
      (disko_write (disko_write (disko_write
        (mod_save_sample_headers X song (mod_save_nsmp X song) 31 1
          (disko_write disko_open (field_bytes song.title 20)) w0).1
        [Fin.ofNat (X.csf_get_num_orders song), 0x7f])
        ((List.range 128).map (fun i =>
          (Fin.ofNat (mod_save_orders song (X.csf_get_num_orders song) i) : Byte))))
        (mod_save_tag (X.csf_get_highest_used_channel song + 1) (mod_save_maxpat_of X song)))
      w1).1 with
  | mk dd pp =>
    rw [hx] at hd2 hp
    simp only at hd2 hp
    rw [hp, hd2]

theorem mod_save_head_bytes_length (X : externals) (song : song_t) :
    (mod_save_head_bytes X song).length = 1084 := by
  unfold mod_save_head_bytes
  simp only [List.length_append, field_bytes_length, List.length_map, List.length_range,
    mod_save_tag_length, List.length_cons, List.length_nil,
    concat_blocks_length (mod_save_header_bytes X song (mod_save_nsmp X song)) 30
      (mod_save_header_bytes_length X song (mod_save_nsmp X song)) 31 1]

/-- The patterns in the file that the encoder writes: pattern `p` is the block of
`nchn * 256` bytes at offset `1084 + p * (nchn * 256)`, and the cell of its row `r` and
channel `c` is at offset `4 * (nchn * r + c)` of the block. -/
theorem mod_save_output_cell (X : externals) (song : song_t) (hwr : sample_writer_writes X)
    (hn : mod_save_nchn X song ≤ 64) (p r c : Nat) (hp : p ≤ mod_save_maxpat_of X song)
    (hr : r < 64) (hc : c < mod_save_nchn X song) :
    ((mod_save_output X song).drop
        (1084 + p * (mod_save_nchn X song * 256) + 4 * (mod_save_nchn X song * r + c))).take 4
      = if r < song.pattern_size p then mod_save_cell_bytes (song_cell song p r c)
        else [0, 0, 0, 0] := by
  obtain ⟨_, _, _, _, _, _, S, hS⟩ := mod_save_output_head X song hwr
  have hPl : ∀ m, 0 ≤ m → m < 0 + (mod_save_maxpat_of X song + 1) →
      (mod_save_pattern_bytes song (mod_save_nchn X song) m).length = mod_save_nchn X song * 256 :=
    fun m _ _ => (mod_save_pattern_bytes_layout song _ m hn).1
  have hP := concat_blocks_length_of (mod_save_pattern_bytes song (mod_save_nchn X song))
    (mod_save_nchn X song * 256) (mod_save_maxpat_of X song + 1) 0 hPl
  have hb := concat_blocks_block_of (mod_save_pattern_bytes song (mod_save_nchn X song))
    (mod_save_nchn X song * 256) (mod_save_maxpat_of X song + 1) 0 hPl p (by omega)
  obtain ⟨q1, q2⟩ := mod_save_pattern_bytes_layout song (mod_save_nchn X song) p hn
  have hrc : mod_save_nchn X song * r + c + 1 ≤ mod_save_nchn X song * 64 := by
    have h1 : mod_save_nchn X song * r ≤ mod_save_nchn X song * 63 :=
      Nat.mul_le_mul_left _ (by omega)
    omega
  have hpm : mod_save_nchn X song * 256 * p + mod_save_nchn X song * 256
      ≤ mod_save_nchn X song * 256 * (mod_save_maxpat_of X song + 1) := by
    have h1 : mod_save_nchn X song * 256 * (p + 1)
        ≤ mod_save_nchn X song * 256 * (mod_save_maxpat_of X song + 1) :=
      Nat.mul_le_mul_left _ (by omega)
    rw [Nat.mul_add, Nat.mul_one] at h1
    exact h1
  have e0 : 1084 + p * (mod_save_nchn X song * 256) + 4 * (mod_save_nchn X song * r + c)
      = 1084 + (mod_save_nchn X song * 256 * p + 4 * (mod_save_nchn X song * r + c)) := by
    rw [Nat.mul_comm p]
    omega
  rw [e0, ← List.drop_drop, hS, slice_append_left _ _ _ _ (by rw [hP]; omega),
    ← slice_of_slice _ (mod_save_nchn X song * 256 * p) (mod_save_nchn X song * 256)
      (4 * (mod_save_nchn X song * r + c)) 4 (by omega), hb, Nat.zero_add]
  by_cases hrp : r < song.pattern_size p
  · rw [if_pos hrp]
    apply slice_eq_of_getD _ _ _ 4 (mod_save_cell_bytes_length _) (by rw [q1]; omega)
    intro i hi
    rw [q2 r c i hr hc hi, if_pos hrp]
  · rw [if_neg hrp]
    apply slice_eq_of_getD _ [0, 0, 0, 0] _ 4 rfl (by rw [q1]; omega)
    intro i hi
    rw [q2 r c i hr hc hi, if_neg hrp]
    interval_cases i <;> rfl

theorem warn_has_iff (warn n : Nat) : warn_has warn n ↔ warn.testBit n = true := by
  unfold warn_has
  rw [Nat.one_shiftLeft, Nat.and_two_pow]
  cases warn.testBit n <;> simp

theorem warn_has_zero (n : Nat) : ¬ warn_has 0 n := by
  rw [warn_has_iff, Nat.zero_testBit]
  decide

theorem warn_has_set (warn k n : Nat) :
    warn_has (warn_set warn k) n ↔ warn_has warn n ∨ k = n := by
  unfold warn_set
  rw [warn_has_iff, warn_has_iff, Nat.testBit_or, Nat.one_shiftLeft, Nat.testBit_two_pow,
    Bool.or_eq_true, decide_eq_true_eq]

theorem warn_has_ite (c : Prop) [Decidable c] (warn k n : Nat) :
    warn_has (if c then warn_set warn k else warn) n ↔ warn_has warn n ∨ (c ∧ k = n) := by
  by_cases h : c
  · rw [if_pos h, warn_has_set]
    exact ⟨fun h1 => h1.elim Or.inl (fun h2 => Or.inr ⟨h, h2⟩),
      fun h1 => h1.elim Or.inl (fun h2 => Or.inr h2.2)⟩
  · rw [if_neg h]
    exact ⟨Or.inl, fun h1 => h1.elim id (fun h2 => absurd h2.1 h)⟩

theorem mod_save_cell_warns (m : song_note_t) (warn b : Nat) :
    warn_has (mod_save_cell m warn).2 b ↔ warn_has warn b ∨ cell_warns m b := by
  unfold mod_save_cell cell_warns
  simp only []
  rw [warn_has_ite, warn_has_ite]
  constructor
  · rintro ((h | ⟨h1, h2⟩) | ⟨h1, h2⟩)
    · exact Or.inl h
    · exact Or.inr (Or.inl ⟨h2.symm, h1⟩)
    · exact Or.inr (Or.inr ⟨h2.symm, h1⟩)
  · rintro (h | ⟨h1, h2⟩ | ⟨h1, h2⟩)
    · exact Or.inl (Or.inl h)
    · exact Or.inl (Or.inr ⟨h2, h1.symm⟩)
    · exact Or.inr ⟨h2, h1.symm⟩

theorem mod_save_cells_warns (nchn : Nat) (m : List song_note_t) (b : Nat) :
    ∀ (k j : Nat) (buf : List Byte) (jo w : Nat),
    warn_has (mod_save_cells nchn m k j buf jo w).2.2 b ↔
      warn_has w b ∨ ∃ i, j ≤ i ∧ i < j + k ∧ i % 64 < nchn ∧
        cell_warns (m.getD i blank_note) b := by
  intro k
  induction k with
  | zero =>
    intro j buf jo w
    simp only [mod_save_cells]
    exact ⟨Or.inl, fun h => h.elim id (fun ⟨i, h1, h2, _⟩ => by omega)⟩
  | succ k ih =>
    intro j buf jo w
    simp only [mod_save_cells, MAX_CHANNELS]
    by_cases hc : j % 64 < nchn
    · rw [if_pos hc, ih, mod_save_cell_warns]
      constructor
      · rintro ((h | h) | ⟨i, h1, h2, h3, h4⟩)
        · exact Or.inl h
        · exact Or.inr ⟨j, Nat.le_refl _, by omega, hc, h⟩
        · exact Or.inr ⟨i, by omega, by omega, h3, h4⟩
      · rintro (h | ⟨i, h1, h2, h3, h4⟩)
        · exact Or.inl (Or.inl h)
        · by_cases hij : i = j
          · subst hij
            exact Or.inl (Or.inr h4)
          · exact Or.inr ⟨i, by omega, by omega, h3, h4⟩
    · rw [if_neg hc, ih]
      constructor
      · rintro (h | ⟨i, h1, h2, h3, h4⟩)
        · exact Or.inl h
        · exact Or.inr ⟨i, by omega, by omega, h3, h4⟩
      · rintro (h | ⟨i, h1, h2, h3, h4⟩)
        · exact Or.inl h
        · by_cases hij : i = j
          · subst hij
            exact absurd h3 hc
          · exact Or.inr ⟨i, by omega, by omega, h3, h4⟩

theorem mod_save_pattern_warns (song : song_t) (nchn : Nat) (fp : disko_t) (warn n b : Nat) :
    warn_has (mod_save_pattern song nchn fp warn n).2 b ↔
      warn_has warn b ∨ pattern_warns song nchn n b := by
  unfold mod_save_pattern pattern_warns
  simp only [MAX_CHANNELS]
  rw [mod_save_cells_warns, warn_has_ite]
  have hj : (if song.pattern_size n ≠ 64 then min (song.pattern_size n) 64
      else song.pattern_size n) = min (song.pattern_size n) 64 := by
    split <;> omega
  rw [hj]
  constructor
  · rintro ((h | ⟨h1, h2⟩) | ⟨i, _, h2, h3, h4⟩)
    · exact Or.inl h
    · exact Or.inr (Or.inl ⟨h2.symm, h1⟩)
    · refine Or.inr (Or.inr ⟨i / 64, i % 64, by omega, by omega, h3, by omega, ?_⟩)
      unfold song_cell
      rw [show 64 * (i / 64) + i % 64 = i by omega]
      exact h4
  · rintro (h | ⟨h1, h2⟩ | ⟨r, c, h1, h2, h3, h4, h5⟩)
    · exact Or.inl (Or.inl h)
    · exact Or.inl (Or.inr ⟨h2, h1.symm⟩)
    · refine Or.inr ⟨64 * r + c, Nat.zero_le _, by omega, by omega, h5⟩

theorem mod_save_patterns_warns (song : song_t) (nchn b : Nat) :
    ∀ (k n : Nat) (fp : disko_t) (warn : Nat),
    warn_has (mod_save_patterns song nchn k n fp warn).2 b ↔
      warn_has warn b ∨ ∃ p, n ≤ p ∧ p < n + k ∧ pattern_warns song nchn p b := by
  intro k
  induction k with
  | zero =>
    intro n fp warn
    simp only [mod_save_patterns]
    exact ⟨Or.inl, fun h => h.elim id (fun ⟨p, h1, h2, _⟩ => by omega)⟩
  | succ k ih =>
    intro n fp warn
    simp only [mod_save_patterns]
    rw [ih, mod_save_pattern_warns]
    constructor
    · rintro ((h | h) | ⟨p, h1, h2, h3⟩)
      · exact Or.inl h
      · exact Or.inr ⟨n, Nat.le_refl _, by omega, h⟩
      · exact Or.inr ⟨p, by omega, by omega, h3⟩
    · rintro (h | ⟨p, h1, h2, h3⟩)
      · exact Or.inl (Or.inl h)
      · by_cases hpn : p = n
        · subst hpn
          exact Or.inl (Or.inr h3)
        · exact Or.inr ⟨p, by omega, by omega, h3⟩

theorem mod_save_sample_header_warns (X : externals) (song : song_t) (nsmp : Nat)
    (fp : disko_t) (warn n b : Nat) :
    warn_has (mod_save_sample_header X song nsmp fp warn n).2 b ↔
      warn_has warn b ∨ (n ≤ nsmp ∧ sample_warns (song.samples n) b) := by
  unfold mod_save_sample_header sample_warns
  by_cases hn : n > nsmp
  · rw [if_pos hn]
    exact ⟨Or.inl, fun h => h.elim id (fun h2 => by omega)⟩
  · rw [if_neg hn]
    simp only []
    have e : ∀ (a b : disko_t) (w : Nat) (c : Prop) [Decidable c],
        (if c then (a, w) else (b, w)).2 = w := by
      intro a b w c _
      split <;> rfl
    rw [e, warn_has_ite, warn_has_ite, warn_has_ite, warn_has_ite]
    constructor
    · rintro ((((h | ⟨h1, h2⟩) | ⟨h1, h2⟩) | ⟨h1, h2⟩) | ⟨h1, h2⟩)
      · exact Or.inl h
      · exact Or.inr ⟨by omega, Or.inl ⟨h2.symm, h1⟩⟩
      · exact Or.inr ⟨by omega, Or.inr (Or.inl ⟨h2.symm, h1⟩)⟩
      · exact Or.inr ⟨by omega, Or.inr (Or.inr (Or.inl ⟨h2.symm, h1⟩))⟩
      · exact Or.inr ⟨by omega, Or.inr (Or.inr (Or.inr ⟨h2.symm, h1⟩))⟩
    · rintro (h | ⟨_, ⟨h1, h2⟩ | ⟨h1, h2⟩ | ⟨h1, h2⟩ | ⟨h1, h2⟩⟩)
      · exact Or.inl (Or.inl (Or.inl (Or.inl h)))
      · exact Or.inl (Or.inl (Or.inl (Or.inr ⟨h2, h1.symm⟩)))
      · exact Or.inl (Or.inl (Or.inr ⟨h2, h1.symm⟩))
      · exact Or.inl (Or.inr ⟨h2, h1.symm⟩)
      · exact Or.inr ⟨h2, h1.symm⟩

theorem mod_save_sample_headers_warns (X : externals) (song : song_t) (nsmp b : Nat) :
    ∀ (k n : Nat) (fp : disko_t) (warn : Nat),
    warn_has (mod_save_sample_headers X song nsmp k n fp warn).2 b ↔
      warn_has warn b ∨ ∃ m, n ≤ m ∧ m < n + k ∧ m ≤ nsmp ∧ sample_warns (song.samples m) b := by
  intro k
  induction k with
  | zero =>
    intro n fp warn
    simp only [mod_save_sample_headers]
    exact ⟨Or.inl, fun h => h.elim id (fun ⟨m, h1, h2, _⟩ => by omega)⟩
  | succ k ih =>
    intro n fp warn
    simp only [mod_save_sample_headers]
    rw [ih, mod_save_sample_header_warns]
    constructor
    · rintro ((h | ⟨h1, h2⟩) | ⟨m, h1, h2, h3, h4⟩)
      · exact Or.inl h
      · exact Or.inr ⟨n, Nat.le_refl _, by omega, h1, h2⟩
      · exact Or.inr ⟨m, by omega, by omega, h3, h4⟩
    · rintro (h | ⟨m, h1, h2, h3, h4⟩)
      · exact Or.inl (Or.inl h)
      · by_cases hmn : m = n
        · subst hmn
          exact Or.inl (Or.inr ⟨h3, h4⟩)
        · exact Or.inr ⟨m, by omega, by omega, h3, h4⟩

theorem fmt_mod_save_song_snd (X : externals) (fp : disko_t) (song : song_t) :
    ∃ fpa fpb, (fmt_mod_save_song X fp song).2 =
      (mod_save_patterns song (mod_save_nchn X song) (mod_save_maxpat_of X song + 1) 0 fpb
        (if mod_save_maxpat_of X song + 1 < X.csf_get_num_patterns song then
          warn_set (mod_save_sample_headers X song (mod_save_nsmp X song) 31 1 fpa
            (if X.csf_get_num_samples song > 31 then
              warn_set (if song.flags &&& SONG_LINEARSLIDES ≠ 0 then
                warn_set (if song.flags &&& SONG_INSTRUMENTMODE ≠ 0 then
                  warn_set 0 WARN_INSTRUMENTS else 0) WARN_LINEARSLIDES
                else (if song.flags &&& SONG_INSTRUMENTMODE ≠ 0 then
                  warn_set 0 WARN_INSTRUMENTS else 0)) WARN_MAXSAMPLES
            else (if song.flags &&& SONG_LINEARSLIDES ≠ 0 then
                warn_set (if song.flags &&& SONG_INSTRUMENTMODE ≠ 0 then
                  warn_set 0 WARN_INSTRUMENTS else 0) WARN_LINEARSLIDES
                else (if song.flags &&& SONG_INSTRUMENTMODE ≠ 0 then
                  warn_set 0 WARN_INSTRUMENTS else 0)))).2 WARN_UNUSEDPATS
        else (mod_save_sample_headers X song (mod_save_nsmp X song) 31 1 fpa
            (if X.csf_get_num_samples song > 31 then
              warn_set (if song.flags &&& SONG_LINEARSLIDES ≠ 0 then
                warn_set (if song.flags &&& SONG_INSTRUMENTMODE ≠ 0 then
                  warn_set 0 WARN_INSTRUMENTS else 0) WARN_LINEARSLIDES
                else (if song.flags &&& SONG_INSTRUMENTMODE ≠ 0 then
                  warn_set 0 WARN_INSTRUMENTS else 0)) WARN_MAXSAMPLES
            else (if song.flags &&& SONG_LINEARSLIDES ≠ 0 then
                warn_set (if song.flags &&& SONG_INSTRUMENTMODE ≠ 0 then
                  warn_set 0 WARN_INSTRUMENTS else 0) WARN_LINEARSLIDES
                else (if song.flags &&& SONG_INSTRUMENTMODE ≠ 0 then
                  warn_set 0 WARN_INSTRUMENTS else 0)))).2)).2 :=
  ⟨_, _, rfl⟩

/-- The warnings that `fmt_mod_save_song` returns: each of them is recorded exactly when its
condition is met by the song, by a sample that gets a header, or by a pattern that is
written. -/
theorem fmt_mod_save_song_warns (X : externals) (fp : disko_t) (song : song_t) (b : Nat) :
    warn_has (fmt_mod_save_song X fp song).2 b ↔
      (b = WARN_INSTRUMENTS ∧ song.flags &&& SONG_INSTRUMENTMODE ≠ 0) ∨
      (b = WARN_LINEARSLIDES ∧ song.flags &&& SONG_LINEARSLIDES ≠ 0) ∨
      (b = WARN_MAXSAMPLES ∧ X.csf_get_num_samples song > 31) ∨
      (∃ n, 1 ≤ n ∧ n ≤ 31 ∧ n ≤ mod_save_nsmp X song ∧ sample_warns (song.samples n) b) ∨
      (b = WARN_UNUSEDPATS ∧ mod_save_maxpat_of X song + 1 < X.csf_get_num_patterns song) ∨
      (∃ p, p ≤ mod_save_maxpat_of X song ∧ pattern_warns song (mod_save_nchn X song) p b) := by
  obtain ⟨fpa, fpb, e⟩ := fmt_mod_save_song_snd X fp song
  rw [e, mod_save_patterns_warns, warn_has_ite, mod_save_sample_headers_warns, warn_has_ite,
    warn_has_ite, warn_has_ite]
  have h0 := warn_has_zero b
  constructor
  · rintro ((((((h | ⟨h1, h2⟩) | ⟨h1, h2⟩) | ⟨h1, h2⟩) | ⟨m, h1, h2, h3, h4⟩) | ⟨h1, h2⟩)
      | ⟨p, _, h2, h3⟩)
    · exact absurd h h0
    · exact Or.inl ⟨h2.symm, h1⟩
    · exact Or.inr (Or.inl ⟨h2.symm, h1⟩)
    · exact Or.inr (Or.inr (Or.inl ⟨h2.symm, h1⟩))
    · exact Or.inr (Or.inr (Or.inr (Or.inl ⟨m, h1, by omega, h3, h4⟩)))
    · exact Or.inr (Or.inr (Or.inr (Or.inr (Or.inl ⟨h2.symm, h1⟩))))
    · exact Or.inr (Or.inr (Or.inr (Or.inr (Or.inr ⟨p, by omega, h3⟩))))
  · rintro (⟨h1, h2⟩ | ⟨h1, h2⟩ | ⟨h1, h2⟩ | ⟨m, h1, h2, h3, h4⟩ | ⟨h1, h2⟩ | ⟨p, h1, h2⟩)
    · exact Or.inl (Or.inl (Or.inl (Or.inl (Or.inl (Or.inr ⟨h2, h1.symm⟩)))))
    · exact Or.inl (Or.inl (Or.inl (Or.inl (Or.inr ⟨h2, h1.symm⟩))))
    · exact Or.inl (Or.inl (Or.inl (Or.inr ⟨h2, h1.symm⟩)))
    · exact Or.inl (Or.inl (Or.inr ⟨m, h1, by omega, h3, h4⟩))
    · exact Or.inl (Or.inr ⟨h2, h1.symm⟩)
    · exact Or.inr ⟨p, Nat.zero_le _, by omega, h2⟩

theorem example_writer_writes : sample_writer_writes example_externals :=
  fun _ _ _ => ⟨_, rfl⟩

theorem example_highest_channel_eq (song : song_t) :
    example_externals.csf_get_highest_used_channel song =
      last_index (fun c => (List.range 64).any fun p => (List.range 64).any fun r =>
        decide ((song_cell song p r c).note ≠ 0)) 63 := rfl

theorem example_num_orders_eq (song : song_t) :
    example_externals.csf_get_num_orders song =
      last_index (fun n => decide (song.orderlist (n - 1) ≠ ORDER_LAST)) 256 := rfl

theorem example_num_patterns_eq (song : song_t) :
    example_externals.csf_get_num_patterns song =
      last_index (fun n => (song.patterns (n - 1)).isSome) 240 := rfl

theorem example_num_samples_eq (song : song_t) :
    example_externals.csf_get_num_samples song =
      last_index (fun n => decide ((song.samples n).length ≠ 0)) 31 := rfl

theorem cell_song_orderlist (c : Nat) (m : song_note_t) (i : Nat) :
    (cell_song c m).orderlist i = if i = 0 then 0 else ORDER_LAST := rfl

theorem cell_song_pattern (c : Nat) (m : song_note_t) (p : Nat) :
    (cell_song c m).patterns p =
      if p = 0 then some ((List.range 4096).map fun j => if j = c then m else blank_note)
      else none := rfl

theorem cell_song_pattern_size (c : Nat) (m : song_note_t) (p : Nat) :
    (cell_song c m).pattern_size p = if p = 0 then 64 else 0 := rfl

theorem cell_song_sample (c : Nat) (m : song_note_t) (n : Nat) :
    (cell_song c m).samples n = blank_sample := rfl

theorem sample_song_sample (smp : song_sample_t) (n : Nat) :
    (sample_song smp).samples n = if n = 1 then smp else blank_sample := rfl

theorem example_nchn_le (song : song_t) : mod_save_nchn example_externals song ≤ MAX_CHANNELS := by
  unfold mod_save_nchn MAX_CHANNELS
  rw [example_highest_channel_eq]
  have := last_index_le (fun c => (List.range 64).any fun p => (List.range 64).any fun r =>
    decide ((song_cell song p r c).note ≠ 0)) 63
  omega

theorem note_getD_map_range (f : Nat → song_note_t) (n i : Nat) (h : i < n) :
    ((List.range n).map f).getD i blank_note = f i := by
  simp only [List.getD_eq_getElem?_getD, List.getElem?_map, List.getElem?_range h,
    Option.map_some', Option.getD_some]

theorem cell_song_cell (c : Nat) (m : song_note_t) (p r c1 : Nat) (hr : r < 64)
    (hc1 : c1 < 64) (hc : c < 64) :
    song_cell (cell_song c m) p r c1 = if p = 0 ∧ r = 0 ∧ c1 = c then m else blank_note := by
  unfold song_cell
  rw [cell_song_pattern]
  by_cases hp : p = 0
  · rw [if_pos hp, Option.getD_some, note_getD_map_range _ _ _ (by omega)]
    by_cases h : 64 * r + c1 = c
    · rw [if_pos h, if_pos ⟨hp, by omega, by omega⟩]
    · rw [if_neg h, if_neg (by omega)]
  · rw [if_neg hp, if_neg (fun h => hp h.1)]
    rfl

/-- The highest used channel of `cell_song c m`, as `example_externals` counts it. -/
theorem cell_song_channel (c : Nat) (m : song_note_t) (hc : c < 64) :
    example_externals.csf_get_highest_used_channel (cell_song c m)
      = if m.note ≠ 0 then c else 0 := by
  rw [example_highest_channel_eq]
  have hfalse : ∀ j, j ≤ 63 → (j ≠ c ∨ m.note = 0) →
      ((List.range 64).any fun p => (List.range 64).any fun r =>
        decide ((song_cell (cell_song c m) p r j).note ≠ 0)) = false := by
    intro j hj hjc
    rw [List.any_eq_false]
    intro p _
    rw [Bool.not_eq_true, List.any_eq_false]
    intro r hr
    rw [cell_song_cell c m p r j (List.mem_range.mp hr) (by omega) hc]
    split
    · rename_i h
      rcases hjc with h1 | h1
      · exact absurd h.2.2 h1
      · rw [h1]
        decide
    · decide
  by_cases hm : m.note ≠ 0
  · rw [if_pos hm]
    apply last_index_eq _ c (Or.inr ?_) 63 (by omega)
    · intro j hj1 hj2
      exact hfalse j hj2 (Or.inl (by omega))
    · rw [List.any_eq_true]
      refine ⟨0, List.mem_range.mpr (by decide), ?_⟩
      rw [List.any_eq_true]
      refine ⟨0, List.mem_range.mpr (by decide), ?_⟩
      rw [cell_song_cell c m 0 0 c (by decide) hc hc, if_pos ⟨rfl, rfl, rfl⟩]
      exact decide_eq_true hm
  · rw [if_neg hm]
    apply last_index_eq _ 0 (Or.inl rfl) 63 (by omega)
    intro j _ hj2
    exact hfalse j hj2 (Or.inr (by omega))

theorem cell_song_orders (c : Nat) (m : song_note_t) :
    example_externals.csf_get_num_orders (cell_song c m) = 1 := by
  rw [example_num_orders_eq]
  apply last_index_eq _ 1 (Or.inr ?_) 256 (by decide)
  · intro j hj1 _
    rw [cell_song_orderlist, if_neg (by omega)]
    decide
  · rw [cell_song_orderlist, if_pos (by decide)]
    decide

theorem cell_song_maxpat (c : Nat) (m : song_note_t) :
    mod_save_maxpat_of example_externals (cell_song c m) = 0 := by
  unfold mod_save_maxpat_of
  rw [cell_song_orders]
  show mod_save_maxpat (cell_song c m) 1 0 0 = 0
  simp only [mod_save_maxpat]
  rw [cell_song_orderlist, if_pos rfl]
  rfl

theorem cell_song_patterns (c : Nat) (m : song_note_t) :
    example_externals.csf_get_num_patterns (cell_song c m) = 1 := by
  rw [example_num_patterns_eq]
  apply last_index_eq _ 1 (Or.inr ?_) 240 (by decide)
  · intro j hj1 _
    rw [cell_song_pattern, if_neg (by omega)]
    rfl
  · rw [cell_song_pattern, if_pos (by decide)]
    rfl

theorem blank_num_samples (song : song_t) (h : ∀ n, (song.samples n).length = 0) :
    example_externals.csf_get_num_samples song = 0 := by
  rw [example_num_samples_eq]
  apply last_index_eq _ 0 (Or.inl rfl) 31 (by decide)
  intro j _ _
  rw [h j]
  decide

theorem cell_song_nsmp (c : Nat) (m : song_note_t) :
    mod_save_nsmp example_externals (cell_song c m) = 0 := by
  unfold mod_save_nsmp
  rw [blank_num_samples _ (fun _ => rfl)]
  rfl

theorem sample_song_nsmp (smp : song_sample_t) (h : smp.length ≠ 0) :
    example_externals.csf_get_num_samples (sample_song smp) = 1 ∧
    mod_save_nsmp example_externals (sample_song smp) = 1 := by
  have e : example_externals.csf_get_num_samples (sample_song smp) = 1 := by
    rw [example_num_samples_eq]
    apply last_index_eq _ 1 (Or.inr ?_) 31 (by decide)
    · intro j hj1 _
      rw [sample_song_sample, if_neg (by omega)]
      rfl
    · rw [sample_song_sample, if_pos rfl]
      exact decide_eq_true h
  refine ⟨e, ?_⟩
  unfold mod_save_nsmp
  rw [e]
  rfl

theorem cell_song_nchn_one (m : song_note_t) (hm : m.note = 0) :
    mod_save_nchn example_externals (cell_song 0 m) = 1 := by
  unfold mod_save_nchn
  rw [cell_song_channel 0 m (by decide), if_neg (by rw [hm]; decide)]

/-- The index that the finetune loop of the encoder ends with, from index `n` downwards. -/
theorem mod_save_finetune_spec (X : externals) (c : Nat) : ∀ n,
    mod_save_finetune X c n ≤ n ∧
    (∀ k, mod_save_finetune X c n < k → k ≤ n → X.finetune_table k > c) ∧
    (mod_save_finetune X c n = 0 ∨ X.finetune_table (mod_save_finetune X c n) ≤ c ∨
      (c > 10000 ∧ mod_save_finetune X c n = 8)) ∧
    (c > 10000 → 8 ≤ n → 8 ≤ mod_save_finetune X c n) := by
  intro n
  induction n with
  | zero =>
    have e : mod_save_finetune X c 0 = 0 := rfl
    rw [e]
    exact ⟨Nat.le_refl _, fun k h1 h2 => by omega, Or.inl rfl, fun _ h => by omega⟩
  | succ n ih =>
    obtain ⟨i1, i2, i3, i4⟩ := ih
    simp only [mod_save_finetune]
    by_cases ht : X.finetune_table (n + 1) > c
    · rw [if_pos ht]
      by_cases hb : c > 10000 ∧ n + 1 = 8
      · rw [if_pos hb]
        exact ⟨Nat.le_refl _, fun k h1 h2 => by omega, Or.inr (Or.inr ⟨hb.1, hb.2⟩),
          fun _ _ => by omega⟩
      · rw [if_neg hb]
        refine ⟨by omega, ?_, i3, ?_⟩
        · intro k h1 h2
          by_cases hk : k = n + 1
          · rw [hk]
            exact ht
          · exact i2 k h1 (by omega)
        · intro h1 h2
          exact i4 h1 (by omega)
    · rw [if_neg ht]
      exact ⟨Nat.le_refl _, fun k h1 h2 => by omega, Or.inr (Or.inl (by omega)),
        fun _ h => h⟩

theorem mod_save_header_bytes_fields (X : externals) (song : song_t) (nsmp n : Nat)
    (h : n ≤ nsmp) :
    (mod_save_header_bytes X song nsmp n).getD 24 0
      = Fin.ofNat ((mod_save_finetune X (song.samples n).c5speed 15 ^^^ 8) &&& 0x0f) ∧
    (mod_save_header_bytes X song nsmp n).getD 25 0
      = Fin.ofNat (((song.samples n).volume + 1) / 4) := by
  unfold mod_save_header_bytes
  rw [if_neg (by omega)]
  simp only [List.append_assoc, be16_bytes, List.cons_append, List.nil_append]
  exact ⟨getD_after _ _ 22 2 (field_bytes_length _ 22),
    getD_after _ _ 22 3 (field_bytes_length _ 22)⟩

/-- The finetune byte and the volume byte of the header of a sample that the encoder fills
in, in the file. -/
theorem mod_save_output_fields (X : externals) (song : song_t) (hwr : sample_writer_writes X)
    (n : Nat) (h1 : 1 ≤ n) (h2 : n ≤ mod_save_nsmp X song) :
    (mod_save_output X song).getD (20 + 30 * (n - 1) + 24) 0
      = Fin.ofNat ((mod_save_finetune X (song.samples n).c5speed 15 ^^^ 8) &&& 0x0f) ∧
    (mod_save_output X song).getD (20 + 30 * (n - 1) + 25) 0
      = Fin.ofNat (((song.samples n).volume + 1) / 4) := by
  obtain ⟨_, p2, _⟩ := mod_save_output_head X song hwr
  have hn := mod_save_nsmp_le X song
  obtain ⟨f1, f2⟩ := mod_save_header_bytes_fields X song (mod_save_nsmp X song) n h2
  rw [← p2 n h1 (by omega)] at f1 f2
  rw [getD_take_drop _ _ _ _ (by decide)] at f1 f2
  exact ⟨f1, f2⟩

theorem rated_sample_fields (c v : Nat) :
    (mod_save_output example_externals (sample_song (rated_sample c v))).getD 44 0
      = Fin.ofNat ((mod_save_finetune example_externals c 15 ^^^ 8) &&& 0x0f) ∧
    (mod_save_output example_externals (sample_song (rated_sample c v))).getD 45 0
      = Fin.ofNat ((v + 1) / 4) := by
  have hs := sample_song_nsmp (rated_sample c v) (Nat.succ_ne_zero 1)
  obtain ⟨f1, f2⟩ := mod_save_output_fields example_externals (sample_song (rated_sample c v))
    example_writer_writes 1 (Nat.le_refl _) (Nat.le_of_eq hs.2.symm)
  exact ⟨f1, f2⟩

/-- C23, counterexample: for the rate 8756 and the finetune table of the player the encoder selects index 14 (entry 8723), which is not the nearest entry, while index 15 (entry 8757) is; the finetune byte of the file, at offset 44, is 6. -/
theorem finetune_nearest_counterexample :
    mod_save_finetune example_externals 8756 15 = 14 ∧
    ¬ finetune_nearest example_externals 8756 14 ∧
    finetune_nearest example_externals 8756 15 ∧
    (mod_save_output example_externals (sample_song (rated_sample 8756 256))).getD 44 0 = 6 :=
  ⟨by decide, by decide, by decide, (rated_sample_fields 8756 256).1.trans (by decide)⟩

/-- C24, counterexample: for the rate 10001 and the finetune table of the player, whose entries are all below 10001, the encoder selects index 15, and the finetune byte of the file, at offset 44, is 7. -/
theorem finetune_above_10000_counterexample :
    mod_save_finetune example_externals 10001 15 = 15 ∧
    (mod_save_output example_externals (sample_song (rated_sample 10001 256))).getD 44 0 = 7 :=
  ⟨by decide, (rated_sample_fields 10001 256).1.trans (by decide)⟩

/-- C24, amended: for every used sample `n` whose rate `c5speed` is above 10000 the index `j` that the encoder selects is in 8..15; it is 8 if and only if every table entry of the indices 9..15 is above the rate; and when it is above 8 its entry is not above the rate while every entry of a higher index is. The finetune byte is `(j XOR 8) AND 0x0F`. -/
theorem fmt_mod_save_song_finetune_above (X : externals) (song : song_t)
    (hwr : sample_writer_writes X) (n : Nat) (h1 : 1 ≤ n) (h2 : n ≤ mod_save_nsmp X song)
    (hc : (song.samples n).c5speed > 10000) :
    (mod_save_output X song).getD (20 + 30 * (n - 1) + 24) 0
      = Fin.ofNat ((mod_save_finetune X (song.samples n).c5speed 15 ^^^ 8) &&& 0x0f) ∧
    8 ≤ mod_save_finetune X (song.samples n).c5speed 15 ∧
    mod_save_finetune X (song.samples n).c5speed 15 ≤ 15 ∧
    (mod_save_finetune X (song.samples n).c5speed 15 = 8 ↔
      ∀ k, 9 ≤ k → k ≤ 15 → X.finetune_table k > (song.samples n).c5speed) ∧
    (8 < mod_save_finetune X (song.samples n).c5speed 15 →
      X.finetune_table (mod_save_finetune X (song.samples n).c5speed 15)
        ≤ (song.samples n).c5speed ∧
      ∀ k, mod_save_finetune X (song.samples n).c5speed 15 < k → k ≤ 15 →
        X.finetune_table k > (song.samples n).c5speed) := by
  obtain ⟨s1, s2, s3, s4⟩ := mod_save_finetune_spec X (song.samples n).c5speed 15
  have h8 := s4 hc (by decide)
  refine ⟨(mod_save_output_fields X song hwr n h1 h2).1, h8, s1, ?_, ?_⟩
  · constructor
    · intro e k hk1 hk2
      exact s2 k (by omega) hk2
    · intro hall
      by_contra hne
      rcases s3 with s3 | s3 | s3
      · omega
      · have := hall _ (by omega) s1
        omega
      · exact hne s3.2
  · intro hlt
    refine ⟨?_, s2⟩
    rcases s3 with s3 | s3 | s3
    · omega
    · exact s3
    · omega

/-- C24, witness: for a song whose sample 1 has the rate 10001 the index that the encoder selects is at least 8. -/
theorem fmt_mod_save_song_finetune_above_witness :
    8 ≤ mod_save_finetune example_externals
      ((sample_song (rated_sample 10001 256)).samples 1).c5speed 15 :=
  (fmt_mod_save_song_finetune_above example_externals (sample_song (rated_sample 10001 256))
    example_writer_writes 1 (Nat.le_refl _)
    (Nat.le_of_eq (sample_song_nsmp (rated_sample 10001 256) (Nat.succ_ne_zero 1)).2.symm)
    (by decide)).2.1

/-- C25, counterexample: for a sample of volume 3 the volume byte of the file, at offset 45, is 1, while `3 / 4 = 0`. -/
theorem volume_byte_counterexample :
    (mod_save_output example_externals (sample_song (rated_sample 8363 3))).getD 45 0 = 1 ∧
    ((sample_song (rated_sample 8363 3)).samples 1).volume = 3 ∧ 3 / 4 = 0 :=
  ⟨(rated_sample_fields 8363 3).2.trans (by decide), rfl, by decide⟩

/-- C25, amended: for every used sample `n` with stored volume `v` in 0..256 the volume byte, at offset `20 + 30 * (n - 1) + 25`, is `(v + 1) / 4`, which equals `v / 4` if and only if `v mod 4` is not 3. -/
theorem fmt_mod_save_song_volume (X : externals) (song : song_t)
    (hwr : sample_writer_writes X) (n : Nat) (h1 : 1 ≤ n) (h2 : n ≤ mod_save_nsmp X song)
    (hv : (song.samples n).volume ≤ 256) :
    ((mod_save_output X song).getD (20 + 30 * (n - 1) + 25) 0).val
      = ((song.samples n).volume + 1) / 4 ∧
    (((song.samples n).volume + 1) / 4 = (song.samples n).volume / 4
      ↔ (song.samples n).volume % 4 ≠ 3) := by
  rw [(mod_save_output_fields X song hwr n h1 h2).2]
  constructor
  · show (((song.samples n).volume + 1) / 4) % 256 = _
    omega
  · omega

/-- C25, witness: the volume byte of sample 1 of a song whose sample 1 has the volume 256. -/
theorem fmt_mod_save_song_volume_witness :
    ((mod_save_output example_externals (sample_song (rated_sample 8363 256))).getD
        (20 + 30 * (1 - 1) + 25) 0).val
      = (((sample_song (rated_sample 8363 256)).samples 1).volume + 1) / 4 :=
  (fmt_mod_save_song_volume example_externals (sample_song (rated_sample 8363 256))
    example_writer_writes 1 (Nat.le_refl _)
    (Nat.le_of_eq (sample_song_nsmp (rated_sample 8363 256) (Nat.succ_ne_zero 1)).2.symm)
    (Nat.le_refl 256)).1

theorem mod_save_cell_bytes_eq (m : song_note_t) :
    mod_save_cell_bytes m =
      [Fin.ofNat ((m.instrument &&& 0x10) ||| (amigaperiod_table.getD (m.note &&& 0xff) 0 >>> 8)),
       Fin.ofNat (amigaperiod_table.getD (m.note &&& 0xff) 0 &&& 0xff),
       Fin.ofNat ((((m.instrument &&& 0xf) <<< 4) % 256) ||| ((mod_save_effect m).1 &&& 0x0f)),
       Fin.ofNat (mod_save_effect m).2.1] := rfl

theorem mod_save_effect_break (m : song_note_t) (h1 : m.voleffect = VOLFX_NONE)
    (h2 : m.effect = FX_PATTERNBREAK) :
    mod_save_effect m
      = (0x0d, (((m.param % 256 / 10) <<< 4) ||| (m.param % 256 % 10)) % 256, false) := by
  cases m
  simp only at h1 h2
  subst h1 h2
  rfl

theorem break_nibble : ∀ t, t < 16 → ((((t <<< 4) % 256) ||| (0x0d &&& 0x0f)) % 256) &&& 0x0f = 0x0d := by
  decide

theorem break_bcd : ∀ v, v < 100 →
    ((((v % 256 / 10) <<< 4) ||| (v % 256 % 10)) % 256) % 256 = ((v / 10) <<< 4) ||| (v % 10) ∧
    (((v / 10) <<< 4) ||| (v % 10)) >>> 4 = v / 10 ∧ v / 10 ≤ 9 ∧
    (((v / 10) <<< 4) ||| (v % 10)) &&& 0x0f = v % 10 ∧ v % 10 ≤ 9 ∧
    10 * ((((v / 10) <<< 4) ||| (v % 10)) >>> 4) + ((((v / 10) <<< 4) ||| (v % 10)) &&& 0x0f)
      = v := by
  decide

/-- The bytes of a cell in the file that the encoder writes, one by one. -/
theorem mod_save_output_cell_bytes (X : externals) (song : song_t)
    (hwr : sample_writer_writes X) (hn : mod_save_nchn X song ≤ MAX_CHANNELS) (p r c i : Nat)
    (hp : p ≤ mod_save_maxpat_of X song) (hr : r < 64) (hrs : r < song.pattern_size p)
    (hc : c < mod_save_nchn X song) (hi : i < 4) :
    (mod_save_output X song).getD
        (1084 + p * (mod_save_nchn X song * 64 * 4) + 4 * (r * mod_save_nchn X song + c) + i) 0
      = (mod_save_cell_bytes (song_cell song p r c)).getD i 0 := by
  have e := mod_save_output_cell X song hwr hn p r c hp hr hc
  rw [if_pos hrs] at e
  rw [show mod_save_nchn X song * 64 * 4 = mod_save_nchn X song * 256 by omega,
    Nat.mul_comm r, ← e, getD_take_drop _ _ _ _ hi]

/-- C26: for every cell that `fmt_mod_save_song` writes (pattern `p` up to the highest pattern of the order list, row `r` below 64 and below the row count, channel `c` below `nchn`) whose effect is `FX_PATTERNBREAK` with the parameter `v` in 0..99 and whose volume column is empty, the low nibble of byte 2 of the cell in the file is 0xD and byte 3 is `((v / 10) << 4) | (v mod 10)`; both nibbles of that byte are decimal digits, 10 times the high nibble plus the low nibble is `v`, and `v = 23` gives the byte 0x23. -/
theorem fmt_mod_save_song_pattern_break (X : externals) (song : song_t)
    (hwr : sample_writer_writes X) (hn : mod_save_nchn X song ≤ MAX_CHANNELS) (p r c v : Nat)
    (hp : p ≤ mod_save_maxpat_of X song) (hr : r < 64) (hrs : r < song.pattern_size p)
    (hc : c < mod_save_nchn X song)
    (he : (song_cell song p r c).effect = FX_PATTERNBREAK)
    (hve : (song_cell song p r c).voleffect = VOLFX_NONE)
    (hpv : (song_cell song p r c).param = v) (hv : v ≤ 99) :
    ((mod_save_output X song).getD
      (1084 + p * (mod_save_nchn X song * 64 * 4) + 4 * (r * mod_save_nchn X song + c) + 2)
      0).val &&& 0x0f = 0x0d ∧
    ((mod_save_output X song).getD
      (1084 + p * (mod_save_nchn X song * 64 * 4) + 4 * (r * mod_save_nchn X song + c) + 3)
      0).val = ((v / 10) <<< 4) ||| (v % 10) ∧
    (((v / 10) <<< 4) ||| (v % 10)) >>> 4 = v / 10 ∧ v / 10 ≤ 9 ∧
    (((v / 10) <<< 4) ||| (v % 10)) &&& 0x0f = v % 10 ∧ v % 10 ≤ 9 ∧
    10 * ((((v / 10) <<< 4) ||| (v % 10)) >>> 4) + ((((v / 10) <<< 4) ||| (v % 10)) &&& 0x0f)
      = v ∧
    (v = 23 → ((mod_save_output X song).getD
      (1084 + p * (mod_save_nchn X song * 64 * 4) + 4 * (r * mod_save_nchn X song + c) + 3)
      0).val = 0x23) := by
  have e2 := mod_save_output_cell_bytes X song hwr hn p r c 2 hp hr hrs hc (by decide)
  have e3 := mod_save_output_cell_bytes X song hwr hn p r c 3 hp hr hrs hc (by decide)
  rw [mod_save_cell_bytes_eq, mod_save_effect_break _ hve he] at e2 e3
  obtain ⟨b1, b2, b3, b4, b5, b6⟩ := break_bcd v (by omega)
  have hb3 : ((mod_save_output X song).getD
      (1084 + p * (mod_save_nchn X song * 64 * 4) + 4 * (r * mod_save_nchn X song + c) + 3)
      0).val = ((v / 10) <<< 4) ||| (v % 10) := by
    rw [e3, hpv]
    exact b1
  refine ⟨?_, hb3, b2, b3, b4, b5, b6, ?_⟩
  · rw [e2]
    show ((((((song_cell song p r c).instrument &&& 0xf) <<< 4) % 256) ||| (0x0d &&& 0x0f))
      % 256) &&& 0x0f = 0x0d
    rw [and_15_eq_mod ((song_cell song p r c).instrument)]
    exact break_nibble _ (Nat.mod_lt _ (by decide))
  · intro h23
    rw [hb3, h23]
    rfl

theorem cell_song_first (c : Nat) (m : song_note_t) (hc : c < 64) :
    song_cell (cell_song c m) 0 0 c = m := by
  rw [cell_song_cell c m 0 0 c (by decide) hc hc, if_pos ⟨rfl, rfl, rfl⟩]

theorem mod_save_nchn_pos (X : externals) (song : song_t) : 0 < mod_save_nchn X song :=
  Nat.succ_pos _

theorem cell_song_rows (c : Nat) (m : song_note_t) : 0 < (cell_song c m).pattern_size 0 := by
  rw [cell_song_pattern_size, if_pos rfl]
  decide

/-- C26, witness: the song whose first cell has a pattern break to row 23; byte 3 of the cell in the file is 0x23. -/
theorem fmt_mod_save_song_pattern_break_witness :
    (song_cell (cell_song 0 break_note) 0 0 0).effect = FX_PATTERNBREAK ∧
    (song_cell (cell_song 0 break_note) 0 0 0).param = 23 ∧
    ((mod_save_output example_externals (cell_song 0 break_note)).getD
      (1084 + 0 * (mod_save_nchn example_externals (cell_song 0 break_note) * 64 * 4)
        + 4 * (0 * mod_save_nchn example_externals (cell_song 0 break_note) + 0) + 3) 0).val
      = 0x23 :=
  ⟨congrArg song_note_t.effect (cell_song_first 0 break_note (by decide)),
    congrArg song_note_t.param (cell_song_first 0 break_note (by decide)),
    (fmt_mod_save_song_pattern_break example_externals (cell_song 0 break_note)
      example_writer_writes (example_nchn_le _) 0 0 0 23 (Nat.zero_le _) (by decide)
      (cell_song_rows 0 break_note) (mod_save_nchn_pos _ _)
      (congrArg song_note_t.effect (cell_song_first 0 break_note (by decide)))
      (congrArg song_note_t.voleffect (cell_song_first 0 break_note (by decide)))
      (congrArg song_note_t.param (cell_song_first 0 break_note (by decide)))
      (by decide)).2.2.2.2.2.2.2 rfl⟩

theorem blank_note_warns (b : Nat) : ¬ cell_warns blank_note b := by
  rintro (⟨_, h, _⟩ | ⟨_, h⟩)
  · exact h rfl
  · exact absurd h (by decide)

theorem cell_song_flags (c : Nat) (m : song_note_t) : (cell_song c m).flags = 0 := rfl

/-- The warnings of the encoder on the song of one cell are those of the cell. -/
theorem cell_song_zero_warns (m : song_note_t) (fp : disko_t) (b : Nat) :
    warn_has (fmt_mod_save_song example_externals fp (cell_song 0 m)).2 b ↔ cell_warns m b := by
  rw [fmt_mod_save_song_warns]
  constructor
  · rintro (⟨_, h⟩ | ⟨_, h⟩ | ⟨_, h⟩ | ⟨n, h1, _, h3, _⟩ | ⟨_, h⟩ | ⟨p, hp, h⟩)
    · rw [cell_song_flags] at h
      exact absurd (Nat.zero_and _) h
    · rw [cell_song_flags] at h
      exact absurd (Nat.zero_and _) h
    · rw [blank_num_samples _ (fun _ => rfl)] at h
      exact absurd h (by decide)
    · rw [cell_song_nsmp] at h3
      omega
    · rw [cell_song_maxpat, cell_song_patterns] at h
      exact absurd h (by decide)
    · rw [cell_song_maxpat] at hp
      have hp0 : p = 0 := by omega
      subst hp0
      rcases h with ⟨_, h⟩ | ⟨r, c, _, h2, _, h4, h5⟩
      · rw [cell_song_pattern_size, if_pos rfl] at h
        exact absurd rfl h
      · rw [cell_song_cell 0 m 0 r c h2 h4 (by decide)] at h5
        by_cases hrc : 0 = 0 ∧ r = 0 ∧ c = 0
        · rw [if_pos hrc] at h5
          exact h5
        · rw [if_neg hrc] at h5
          exact absurd h5 (blank_note_warns b)
  · intro h
    refine Or.inr (Or.inr (Or.inr (Or.inr (Or.inr ⟨0, Nat.zero_le _, Or.inr
      ⟨0, 0, cell_song_rows 0 m, by decide, mod_save_nchn_pos _ _, by decide, ?_⟩⟩))))
    rw [cell_song_first 0 m (by decide)]
    exact h

/-- The first cell of the pattern data that the encoder writes for the song of one cell. -/
theorem cell_song_zero_bytes (m : song_note_t) :
    ((mod_save_output example_externals (cell_song 0 m)).drop 1084).take 4
      = mod_save_cell_bytes m := by
  have e := mod_save_output_cell example_externals (cell_song 0 m) example_writer_writes
    (example_nchn_le _) 0 0 0 (Nat.zero_le _) (by decide) (mod_save_nchn_pos _ _)
  rw [if_pos (cell_song_rows 0 m), cell_song_first 0 m (by decide), Nat.zero_mul, Nat.mul_zero,
    Nat.add_zero] at e
  exact e

theorem warn_eq_zero (w : Nat) (h : ∀ b, ¬ warn_has w b) : w = 0 := by
  apply Nat.eq_of_testBit_eq
  intro i
  rw [Nat.zero_testBit]
  have := h i
  rw [warn_has_iff] at this
  exact Bool.eq_false_iff.mpr this

theorem unmapped_note_bytes : mod_save_cell_bytes unmapped_note = [0, 0, 0, 0x37] := by
  decide

theorem volume_note_bytes : mod_save_cell_bytes volume_note = [0, 0, 0x0c, 32] := by
  decide

/-- C28, the encoder at the failing input: for the song whose first cell has an empty volume column and the effect `FX_GLOBALVOLUME`, which the switch of the encoder has no case for, with the parameter 0x37, the encoder sets the warning `WARN_VOLEFFECTS` and writes the cell `00 00 00 37`: the effect nibble is 0 and the parameter byte is 0x37, not 0. -/
theorem mod_save_unmapped_effect_param :
    unmapped_note.voleffect = VOLFX_NONE ∧ unmapped_note.effect ∉ mod_save_switch_cases ∧
    warn_has (fmt_mod_save_song example_externals disko_open (cell_song 0 unmapped_note)).2
      WARN_VOLEFFECTS ∧
    ((mod_save_output example_externals (cell_song 0 unmapped_note)).drop 1084).take 4
      = [0, 0, 0, 0x37] :=
  ⟨rfl, by decide,
    (cell_song_zero_warns unmapped_note disko_open WARN_VOLEFFECTS).mpr (Or.inr ⟨rfl, rfl⟩),
    (cell_song_zero_bytes unmapped_note).trans unmapped_note_bytes⟩

/-- C29, the encoder at the failing input: for the song whose first cell has the volume 32 in the volume column and a vibrato 0x44 in the effect column the encoder writes the cell `00 00 0C 20`, without the vibrato, and the warning mask it returns is 0. -/
theorem mod_save_volume_set_silent :
    volume_note.effect = FX_VIBRATO ∧
    ((mod_save_output example_externals (cell_song 0 volume_note)).drop 1084).take 4
      = [0, 0, 0x0c, 32] ∧
    (fmt_mod_save_song example_externals disko_open (cell_song 0 volume_note)).2 = 0 := by
  refine ⟨rfl, (cell_song_zero_bytes volume_note).trans volume_note_bytes, warn_eq_zero _ ?_⟩
  intro b h
  rw [cell_song_zero_warns] at h
  rcases h with ⟨_, h, _⟩ | ⟨_, h⟩
  · exact h rfl
  · exact absurd h (by decide)

/-! ## The detector against the decoder, round trips of the encoder and the helpers of the import -/

theorem handle_stm_effects_break (m : song_note_t) (h : m.effect = FX_PATTERNBREAK) :
    handle_stm_effects m
      = { m with param := ((m.param &&& 0xf0) * 10 + (m.param &&& 0xf)) % 256 } := by
  cases m
  simp only at h
  subst h
  rfl

theorem stm_break_nibbles : ∀ h, h < 10 → ∀ l, l < 10 →
    (((h * 16 + l) &&& 0xf0) * 10 + ((h * 16 + l) &&& 0xf)) % 256 = (160 * h + l) % 256 ∧
    ((160 * h + l) % 256 = 10 * h + l ↔ h = 0) := by
  decide

/-- The parameter that `handle_stm_effects` leaves for a pattern break whose parameter has
the decimal digits `h` and `l` as its nibbles. -/
theorem handle_stm_effects_bcd (m : song_note_t) (hl l : Nat)
    (he : m.effect = FX_PATTERNBREAK) (h1 : hl < 10) (h2 : l < 10)
    (hp : m.param = hl * 16 + l) :
    (handle_stm_effects m).param = (160 * hl + l) % 256 ∧
    ((handle_stm_effects m).param = 10 * hl + l ↔ hl = 0) := by
  rw [handle_stm_effects_break m he]
  show ((m.param &&& 0xf0) * 10 + (m.param &&& 0xf)) % 256 = _ ∧
    (((m.param &&& 0xf0) * 10 + (m.param &&& 0xf)) % 256 = _ ↔ _)
  rw [hp, (stm_break_nibbles hl h1 l h2).1]
  exact ⟨rfl, (stm_break_nibbles hl h1 l h2).2⟩

/-- C40, the function at the failing input: for a pattern break with the BCD parameter 0x23 (row 23) `handle_stm_effects` leaves the parameter 67, which is `(0x23 AND 0xF0) * 10 + 3 = 323` truncated to 8 bits, not 23. -/
theorem handle_stm_effects_unshifted :
    stm_break_note.effect = FX_PATTERNBREAK ∧ stm_break_note.param = 0x23 ∧
    (handle_stm_effects stm_break_note).param = 67 ∧
    (0x23 >>> 4 = 2 ∧ 0x23 &&& 0xf = 3 ∧ 10 * 2 + 3 = 23 ∧ (0x23 &&& 0xf0) * 10 + 3 = 323 ∧
      323 % 256 = 67) := by
  decide

/-- C39, the function at the failing input: for the effect `FX_PANNINGSLIDE` with the parameter 0xA0 `convert_voleffect` returns 0 and leaves the effect `VOLFX_PANSLIDELEFT` and the parameter 0x0A; with the parameter 0x0A it returns 0 and leaves the effect `VOLFX_PANSLIDERIGHT`. -/
theorem convert_voleffect_panslide (vc_portamento_table : Nat → Nat)
    (SHORT_PANNING : Nat → Nat) (force : Bool) :
    convert_voleffect vc_portamento_table SHORT_PANNING FX_PANNINGSLIDE 0xA0 force
      = (0, VOLFX_PANSLIDELEFT, 0x0A) ∧
    convert_voleffect vc_portamento_table SHORT_PANNING FX_PANNINGSLIDE 0x0A force
      = (0, VOLFX_PANSLIDERIGHT, 0x0A) ∧
    VOLFX_PANSLIDELEFT ≠ FX_PANNINGSLIDE ∧ VOLFX_PANSLIDERIGHT ≠ FX_PANNINGSLIDE := by
  refine ⟨rfl, rfl, by decide, by decide⟩

/-- C37, the decoder at the failing input: the tag table describes the tag `CD61` as `6 Channel Falcon`, and the tag check of the decoder gives it 8 channels (and the name `8 Channel Falcon`); every other entry of the table whose description starts with a channel count gets that many channels. -/
theorem mod_check_tag_falcon :
    ("CD61", "6 Channel Falcon") ∈ valid_tags ∧
    description_channels "6 Channel Falcon" = some 6 ∧
    mod_check_tag (cstr "CD61") false = some { nchan := 8, tid := "8 Channel Falcon" } ∧
    ¬ tag_channels_agree ("CD61", "6 Channel Falcon") ∧
    ∀ e ∈ valid_tags, e.1 ≠ "CD61" → tag_channels_agree e := by
  decide

theorem valid_tags_resolve : ∀ e ∈ valid_tags,
    ((mod_check_tag (cstr e.1) false).any fun t => decide (t.nchan ≤ 64 ∧ t.nsamples = 31))
      = true := by
  decide

theorem read_info_some_length (data : List Byte) (f : dmoz_file_t)
    (h : fmt_mod_read_info (slurp_open data) = some f) : 1085 ≤ data.length := by
  by_contra hc
  have hlt : slurp_length (slurp_open data) < 1085 := by
    show data.length < 1085
    omega
  unfold fmt_mod_read_info at h
  rw [if_pos hlt] at h
  cases h

/-- C31: for every stream on which `fmt_mod_read_info` succeeds and whose tag matches an entry `e` of the tag table, the description is that of `e`, the tag check of `fmt_mod31_load_song` (no forced legacy load) recognises the tag and gives at most `MAX_CHANNELS` channels, the header part of the decoder succeeds, and the result of `fmt_mod31_load_song` is that of the data part: the tag resolution does not return `LOAD_UNSUPPORTED`. -/
theorem fmt_mod_read_info_tag_resolves (X : externals) (song : song_t) (data : List Byte)
    (lflags : Nat) (f : dmoz_file_t) (e : String × String)
    (hinfo : fmt_mod_read_info (slurp_open data) = some f)
    (hfind : valid_tags.find? (fun e' => memeq ((data.drop 1080).take 4) (cstr e'.1) 4)
      = some e) :
    f.description = e.2 ∧
    ∃ t, mod_check_tag ((data.drop 1080).take 4) false = some t ∧ t.nchan ≤ MAX_CHANNELS ∧
      ∃ st0, mod_load_head X song ⟨data, 1084⟩ t = .ok st0 ∧
        fmt_mod31_load_song X song (slurp_open data) lflags =
          match mod_load_tail X lflags st0 with
          | .error err => .error err
          | .ok st => .ok st.song := by
  have hlen := read_info_some_length data f hinfo
  have hmem : e ∈ valid_tags := List.mem_of_find?_eq_some hfind
  have hm := List.find?_some hfind
  have h4 := valid_tags_length e hmem
  have htag : (data.drop 1080).take 4 = cstr e.1 :=
    memeq_full _ _ 4 hm (List.length_take_le _ _) (by omega)
  have hinfo2 := read_info_tag_match data hlen e hmem htag
  rw [hinfo] at hinfo2
  have hres := valid_tags_resolve e hmem
  rw [← htag] at hres
  cases ht : mod_check_tag ((data.drop 1080).take 4) false with
  | none =>
    rw [ht] at hres
    cases hres
  | some t =>
    rw [ht] at hres
    have hres2 : t.nchan ≤ 64 ∧ t.nsamples = 31 := of_decide_eq_true hres
    obtain ⟨st0, hst0, _⟩ := mod_load_head_ok X song ⟨data, 1084⟩ t (by
      show 150 + 30 * t.nsamples ≤ data.length
      rw [hres2.2]
      omega)
    refine ⟨by rw [Option.some.inj hinfo2], t, rfl, hres2.1, st0, hst0, ?_⟩
    unfold fmt_mod31_load_song fmt_mod_load_song
    rw [fmt_mod_load_song_run_eq X song data lflags false (by omega), ht]
    simp only []
    rw [if_neg (by unfold MAX_CHANNELS; omega), hst0]

set_option maxRecDepth 100000 in
/-- C31, witness: a stream of 1085 bytes with the tag `6CHN`, which the detector accepts through the tag table and whose tag the decoder resolves. -/
theorem fmt_mod_read_info_tag_resolves_witness :
    fmt_mod_read_info (slurp_open (tagged_example [] "6CHN" 1))
      = some { description := "6 Channel MOD", title := (tagged_example [] "6CHN" 1).take 20,
               type := TYPE_MODULE_MOD } ∧
    ∃ t, mod_check_tag (((tagged_example [] "6CHN" 1).drop 1080).take 4) false = some t ∧
      t.nchan ≤ MAX_CHANNELS :=
  ⟨read_info_tag_match (tagged_example [] "6CHN" 1) (by decide) ("6CHN", "6 Channel MOD")
      (by decide) (by decide),
    (fmt_mod_read_info_tag_resolves example_externals empty_song (tagged_example [] "6CHN" 1) 0
      _ ("6CHN", "6 Channel MOD")
      (read_info_tag_match (tagged_example [] "6CHN" 1) (by decide) ("6CHN", "6 Channel MOD")
        (by decide) (by decide))
      (by decide)).2.elim fun t ht => ⟨t, ht.1, ht.2.1⟩⟩

/-- The finetune search of the encoder finds the entry `k` of a strictly increasing table at
its own index, when no entry below index 8 is above 10000. -/
theorem mod_save_finetune_entry (X : externals) (hinc : finetune_increasing X)
    (h8 : ∀ k, k < 8 → X.finetune_table k ≤ 10000) (k : Nat) :
    ∀ n, k ≤ n → n ≤ 15 → mod_save_finetune X (X.finetune_table k) n = k := by
  intro n
  induction n with
  | zero =>
    intro h _
    have e : k = 0 := by omega
    subst e
    rfl
  | succ n ih =>
    intro h1 h2
    simp only [mod_save_finetune]
    by_cases hk : k = n + 1
    · subst hk
      rw [if_neg (by omega)]
    · have hlt := hinc (n + 1) (by omega) k (by omega)
      rw [if_pos hlt, if_neg, ih (by omega) (by omega)]
      rintro ⟨h3, h4⟩
      have := h8 k (by omega)
      omega

theorem finetune_xor_back : ∀ t, t < 16 → (((t ^^^ 8) ^^^ 8) &&& 0x0f) = t := by
  decide

/-- C33, counterexample: the finetune table with entry `k` being `10001 + k` is strictly increasing; the finetune byte 8 decodes to its entry 0, the rate 10001, for which the table search of the encoder ends at index 8, so that the byte written is 0 and not 8. -/
theorem finetune_roundtrip_counterexample :
    finetune_increasing steep_externals ∧
    MOD_FINETUNE steep_externals 8 = 10001 ∧
    mod_save_finetune steep_externals (MOD_FINETUNE steep_externals 8) 15 = 8 ∧
    (mod_save_finetune steep_externals (MOD_FINETUNE steep_externals 8) 15 ^^^ 8) &&& 0x0f
      = 0 ∧
    (8 : Nat) &&& 0x0f = 8 := by
  refine ⟨?_, by decide, by decide, by decide, by decide⟩
  intro k _ j hj
  show 10001 + j < 10001 + k
  omega

/-- C33, amended: provided the 16-entry finetune table is strictly increasing and none of its entries at the indices 0..7 is above 10000, decoding a finetune byte `b` to a rate with `MOD_FINETUNE` and encoding that rate again with the table search of the encoder gives the byte `b AND 0x0F`. -/
theorem mod_save_finetune_roundtrip (X : externals) (hinc : finetune_increasing X)
    (h8 : ∀ k, k < 8 → X.finetune_table k ≤ 10000) (b : Nat) :
    (mod_save_finetune X (MOD_FINETUNE X (b : Int)) 15 ^^^ 8) &&& 0x0f = b &&& 0x0f := by
  unfold MOD_FINETUNE
  have hb : ((b : Int) % 16).toNat = b % 16 := by omega
  have hlt : (b % 16) ^^^ 8 < 16 := by
    have := finetune_index_lt b
    rw [hb] at this
    exact this
  rw [hb, mod_save_finetune_entry X hinc h8 _ 15 (by omega) (Nat.le_refl _),
    finetune_xor_back _ (Nat.mod_lt _ (by decide)), and_15_eq_mod]

/-- C33, witness: the finetune byte 3 with the finetune table of the player. -/
theorem mod_save_finetune_roundtrip_witness :
    (mod_save_finetune example_externals (MOD_FINETUNE example_externals ((3 : Nat) : Int)) 15
      ^^^ 8) &&& 0x0f = 3 &&& 0x0f :=
  mod_save_finetune_roundtrip example_externals (by decide) (by decide) 3

theorem mod_period_to_note_from_congr (X Y : externals)
    (h : ∀ n, n < 12 → X.period_table n = Y.period_table n) (period : Nat) :
    ∀ k n, mod_period_to_note_from X period k n = mod_period_to_note_from Y period k n := by
  intro k
  induction k with
  | zero => intro n; rfl
  | succ k ih =>
    intro n
    simp only [mod_period_to_note_from]
    rw [h _ (Nat.mod_lt _ (by decide)), ih]

theorem mod_period_to_note_congr (X Y : externals)
    (h : ∀ n, n < 12 → X.period_table n = Y.period_table n) (period : Nat) :
    _mod_period_to_note X period = _mod_period_to_note Y period := by
  unfold _mod_period_to_note
  rw [mod_period_to_note_from_congr X Y h]

theorem example_period_table (n : Nat) :
    example_externals.period_table n = player_period_table.getD n 0 := rfl

set_option maxRecDepth 1000000 in
theorem amigaperiod_import_all :
    ((List.range 256).all fun k =>
      decide (amigaperiod_table.getD k 0 ≠ 0 →
        37 ≤ k ∧ k ≤ 96 ∧
        _mod_period_to_note example_externals (amigaperiod_table.getD k 0)
          = if k = 48 then 49 else k)) = true := by
  decide

theorem amigaperiod_import (k : Nat) (hk : amigaperiod_table.getD k 0 ≠ 0) :
    37 ≤ k ∧ k ≤ 96 ∧
    _mod_period_to_note example_externals (amigaperiod_table.getD k 0)
      = if k = 48 then 49 else k := by
  by_cases h : k < 256
  · exact of_decide_eq_true (List.all_eq_true.mp amigaperiod_import_all k
      (List.mem_range.mpr h)) hk
  · exfalso
    apply hk
    rw [List.getD_eq_getElem?_getD, List.getElem?_eq_none (by
      have : amigaperiod_table.length = 256 := by
        simp only [amigaperiod_table, List.length_append, List.length_replicate,
          List.length_cons, List.length_nil]
      omega)]
    rfl

/-- What `_mod_period_to_note` makes of the non-zero entries of `amigaperiod_table`, with the
period table of the player: the index of the entry, apart from index 48. -/
theorem mod_period_to_note_amiga (X : externals)
    (hpt : ∀ n, n < 12 → X.period_table n = player_period_table.getD n 0) (k : Nat)
    (hk : amigaperiod_table.getD k 0 ≠ 0) :
    37 ≤ k ∧ k ≤ 96 ∧
    (k ≠ 48 → _mod_period_to_note X (amigaperiod_table.getD k 0) = k) ∧
    (k = 48 → _mod_period_to_note X (amigaperiod_table.getD k 0) = 49) := by
  obtain ⟨h1, h2, h3⟩ := amigaperiod_import k hk
  rw [← mod_period_to_note_congr X example_externals hpt] at h3
  refine ⟨h1, h2, fun h => ?_, fun h => ?_⟩
  · rw [h3, if_neg h]
  · rw [h3, if_pos h]

/-- The slice of the file that the encoder writes for the cell of pattern `p`, row `r` and
channel `c`, a row that the pattern has. -/
theorem mod_save_output_cell_slice (X : externals) (song : song_t)
    (hwr : sample_writer_writes X) (hn : mod_save_nchn X song ≤ MAX_CHANNELS) (p r c : Nat)
    (hp : p ≤ mod_save_maxpat_of X song) (hr : r < 64) (hrs : r < song.pattern_size p)
    (hc : c < mod_save_nchn X song) :
    ((mod_save_output X song).drop
        (1084 + p * (mod_save_nchn X song * 64 * 4) + 4 * (r * mod_save_nchn X song + c))).take 4
      = mod_save_cell_bytes (song_cell song p r c) := by
  have e := mod_save_output_cell X song hwr hn p r c hp hr hc
  rw [if_pos hrs] at e
  rw [show mod_save_nchn X song * 64 * 4 = mod_save_nchn X song * 256 by omega,
    Nat.mul_comm r, e]

theorem amigaperiod_in_range : ∀ k, k < 85 → 49 ≤ k → amigaperiod_table.getD k 0 ≠ 0 := by
  decide

theorem mod_import_save_note (X : externals)
    (hpt : ∀ n, n < 12 → X.period_table n = player_period_table.getD n 0) (m : song_note_t) :
    (49 ≤ m.note → m.note ≤ 84 → m.instrument ≤ 31 →
      (mod_import_note X (mod_save_cell_bytes m)).note = m.note ∧
      (mod_import_note X (mod_save_cell_bytes m)).instrument = m.instrument) ∧
    (m.note = 0 → (mod_import_note X (mod_save_cell_bytes m)).note = NOTE_NONE) := by
  obtain ⟨e1, e2⟩ := mod_import_save_cell X m
  constructor
  · intro h1 h2 h3
    have hm : m.note &&& 0xff = m.note := by
      rw [and_255_eq_mod]
      exact Nat.mod_eq_of_lt (by omega)
    rw [e1, e2, hm]
    have hk := amigaperiod_in_range m.note (by omega) h1
    exact ⟨(mod_period_to_note_amiga X hpt m.note hk).2.2.1 (by omega),
      Nat.mod_eq_of_lt (by omega)⟩
  · intro h0
    rw [e1, h0]
    rfl

/-- C34: with the period table of the player, for every cell that `fmt_mod_save_song` writes (pattern `p` up to the highest pattern of the order list, row `r` below 64 and below the row count, channel `c` below `nchn`), `mod_import_note` applied to the 4 bytes of the cell in the file returns the note and the instrument of the cell when the note is in 49..84 and the instrument in 0..31, and the note `NOTE_NONE` when the note is 0. -/
theorem fmt_mod_save_song_note_import (X : externals) (song : song_t)
    (hwr : sample_writer_writes X) (hn : mod_save_nchn X song ≤ MAX_CHANNELS)
    (hpt : ∀ n, n < 12 → X.period_table n = player_period_table.getD n 0) (p r c : Nat)
    (hp : p ≤ mod_save_maxpat_of X song) (hr : r < 64) (hrs : r < song.pattern_size p)
    (hc : c < mod_save_nchn X song) :
    (49 ≤ (song_cell song p r c).note → (song_cell song p r c).note ≤ 84 →
      (song_cell song p r c).instrument ≤ 31 →
      (mod_import_note X (((mod_save_output X song).drop
        (1084 + p * (mod_save_nchn X song * 64 * 4)
          + 4 * (r * mod_save_nchn X song + c))).take 4)).note
        = (song_cell song p r c).note ∧
      (mod_import_note X (((mod_save_output X song).drop
        (1084 + p * (mod_save_nchn X song * 64 * 4)
          + 4 * (r * mod_save_nchn X song + c))).take 4)).instrument
        = (song_cell song p r c).instrument) ∧
    ((song_cell song p r c).note = 0 →
      (mod_import_note X (((mod_save_output X song).drop
        (1084 + p * (mod_save_nchn X song * 64 * 4)
          + 4 * (r * mod_save_nchn X song + c))).take 4)).note = NOTE_NONE) := by
  rw [mod_save_output_cell_slice X song hwr hn p r c hp hr hrs hc]
  exact mod_import_save_note X hpt (song_cell song p r c)

/-- C34, witness: the song whose first cell has the note 61 and the instrument 1; the cell in the file imports as the note 61. -/
theorem fmt_mod_save_song_note_import_witness :
    (song_cell (cell_song 0 plain_note) 0 0 0).note = 61 ∧
    (mod_import_note example_externals (((mod_save_output example_externals
      (cell_song 0 plain_note)).drop
        (1084 + 0 * (mod_save_nchn example_externals (cell_song 0 plain_note) * 64 * 4)
          + 4 * (0 * mod_save_nchn example_externals (cell_song 0 plain_note) + 0))).take
      4)).note = (song_cell (cell_song 0 plain_note) 0 0 0).note :=
  ⟨congrArg song_note_t.note (cell_song_first 0 plain_note (by decide)),
    ((fmt_mod_save_song_note_import example_externals (cell_song 0 plain_note)
      example_writer_writes (example_nchn_le _) (fun _ _ => rfl) 0 0 0 (Nat.zero_le _)
      (by decide) (cell_song_rows 0 plain_note) (mod_save_nchn_pos _ _)).1
      (by rw [cell_song_first 0 plain_note (by decide)]; decide)
      (by rw [cell_song_first 0 plain_note (by decide)]; decide)
      (by rw [cell_song_first 0 plain_note (by decide)]; decide)).1⟩

theorem field_bytes_written (old n : List Byte) (hn : n.length = 22) :
    field_bytes (buf_write old 0 (n ++ [0])) 22 = n := by
  unfold field_bytes buf_write
  simp only [List.take_zero, Nat.zero_sub, List.replicate_zero, List.nil_append,
    List.append_assoc]
  rw [List.take_left' hn]

/-- The header that the encoder writes for a sample entry that agrees with the one the decoder
makes of the header `h`, whose volume byte is at most 64 and whose loop-length word is in
2..0x7FFF: name, length word, volume byte and loop words are those of `h`. -/
theorem mod_save_header_bytes_back (X : externals) (song : song_t) (nsmp n : Nat)
    (hn : n ≤ nsmp) (hmn : Bool) (old : song_sample_t) (h : List Byte) (hlen : h.length = 30)
    (he : sample_header_eq (song.samples n) (hdr_sample X hmn old h))
    (hv : (h.getD 25 0).val ≤ 64) (hw2 : 2 ≤ be16 (h.drop 28))
    (hw : be16 (h.drop 28) ≤ 0x7FFF) :
    (mod_save_header_bytes X song nsmp n).take 22 = h.take 22 ∧
    (mod_save_header_bytes X song nsmp n).getD 22 0 = h.getD 22 0 ∧
    (mod_save_header_bytes X song nsmp n).getD 23 0 = h.getD 23 0 ∧
    (mod_save_header_bytes X song nsmp n).getD 25 0 = h.getD 25 0 ∧
    (mod_save_header_bytes X song nsmp n).getD 26 0 = h.getD 26 0 ∧
    (mod_save_header_bytes X song nsmp n).getD 27 0 = h.getD 27 0 ∧
    (mod_save_header_bytes X song nsmp n).getD 28 0 = h.getD 28 0 ∧
    (mod_save_header_bytes X song nsmp n).getD 29 0 = h.getD 29 0 := by
  obtain ⟨a1, a2, a3, a4, _, a6, _, a8⟩ := he
  have hN : (h.take 22).length = 22 := by rw [List.length_take]; omega
  have b1 : (song.samples n).name = buf_write old.name 0 (h.take 22 ++ [0]) := a1
  have b2 : (song.samples n).length = be16 (h.drop 22) * 2 := a2
  have b3 : (song.samples n).loop_start = be16 (h.drop 26) * 2 := a3
  have b4 : (song.samples n).loop_end
      = be16 (h.drop 26) * 2 + (be16 (h.drop 28) * 2) % 65536 := a4
  have b6 : (song.samples n).volume = min (h.getD 25 0).val 64 * 4 := a6
  have b8 : (song.samples n).flags
      = if (be16 (h.drop 28) * 2) % 65536 > 2 then old.flags ||| CHN_LOOP else old.flags := a8
  rw [if_pos (by omega)] at b8
  have hf : (song.samples n).flags &&& CHN_LOOP ≠ 0 := by
    rw [b8]
    exact loop_flag_set _
  have e23 : h.getD (22 + 1) 0 = h.getD 23 0 := rfl
  have e27 : h.getD (26 + 1) 0 = h.getD 27 0 := rfl
  have e29 : h.getD (28 + 1) 0 = h.getD 29 0 := rfl
  rw [be16_drop, e23] at b2
  rw [be16_drop, e27] at b3
  rw [be16_drop, e27, be16_drop, e29] at b4
  rw [be16_drop, e29] at hw2 hw
  have i22 := (h.getD 22 0).isLt
  have i23 := (h.getD 23 0).isLt
  have i26 := (h.getD 26 0).isLt
  have i27 := (h.getD 27 0).isLt
  have i28 := (h.getD 28 0).isLt
  have i29 := (h.getD 29 0).isLt
  have hF := field_bytes_length (song.samples n).name 22
  unfold mod_save_header_bytes
  rw [if_neg (by omega)]
  unfold mod_save_loop_bytes
  rw [if_pos hf]
  simp only [be16_bytes, List.append_assoc, List.cons_append, List.nil_append]
  refine ⟨?_, ?_, ?_, ?_, ?_, ?_, ?_, ?_⟩
  · rw [List.take_left' hF, b1, field_bytes_written _ _ hN]
  · rw [getD_after _ _ 22 0 hF]
    apply Fin.ext
    show (min ((song.samples n).length >>> 1) 65535 / 256) % 256 = _
    rw [b2, Nat.shiftRight_eq_div_pow]
    omega
  · rw [getD_after _ _ 22 1 hF]
    apply Fin.ext
    show (min ((song.samples n).length >>> 1) 65535) % 256 = _
    rw [b2, Nat.shiftRight_eq_div_pow]
    omega
  · rw [getD_after _ _ 22 3 hF]
    apply Fin.ext
    show (((song.samples n).volume + 1) / 4) % 256 = _
    rw [b6]
    omega
  · rw [getD_after _ _ 22 4 hF]
    apply Fin.ext
    show (min ((song.samples n).loop_start >>> 1) 65535 / 256) % 256 = _
    rw [b3, Nat.shiftRight_eq_div_pow]
    omega
  · rw [getD_after _ _ 22 5 hF]
    apply Fin.ext
    show (min ((song.samples n).loop_start >>> 1) 65535) % 256 = _
    rw [b3, Nat.shiftRight_eq_div_pow]
    omega
  · rw [getD_after _ _ 22 6 hF]
    apply Fin.ext
    show (min ((((song.samples n).loop_end + 4294967296 - (song.samples n).loop_start)
      % 4294967296) >>> 1) 65535 / 256) % 256 = _
    rw [b3, b4, Nat.shiftRight_eq_div_pow]
    omega
  · rw [getD_after _ _ 22 7 hF]
    apply Fin.ext
    show (min ((((song.samples n).loop_end + 4294967296 - (song.samples n).loop_start)
      % 4294967296) >>> 1) 65535) % 256 = _
    rw [b3, b4, Nat.shiftRight_eq_div_pow]
    omega

/-- C32: let `h` be a 30-byte sample header with a volume byte of at most 64 and a loop-length word in 2..0x7FFF, and let sample `n` of the song, a slot that the encoder fills in, agree on the header fields with the entry that the decoder makes of `h` (either finetune encoding, any previous content of the slot). Then the header that `fmt_mod_save_song` writes for slot `n` has the same 22 name bytes, the same length word (bytes 22, 23), the same volume byte (byte 25), the same loop-start word (bytes 26, 27) and the same loop-length word (bytes 28, 29) as `h`. -/
theorem fmt_mod_save_song_header_roundtrip (X : externals) (song : song_t)
    (hwr : sample_writer_writes X) (n : Nat) (h1 : 1 ≤ n) (h2 : n ≤ mod_save_nsmp X song)
    (hmn : Bool) (old : song_sample_t) (h : List Byte) (hlen : h.length = 30)
    (he : sample_header_eq (song.samples n) (hdr_sample X hmn old h))
    (hv : (h.getD 25 0).val ≤ 64) (hw2 : 2 ≤ be16 (h.drop 28))
    (hw : be16 (h.drop 28) ≤ 0x7FFF) :
    (((mod_save_output X song).drop (20 + 30 * (n - 1))).take 30).take 22 = h.take 22 ∧
    (((mod_save_output X song).drop (20 + 30 * (n - 1))).take 30).getD 22 0 = h.getD 22 0 ∧
    (((mod_save_output X song).drop (20 + 30 * (n - 1))).take 30).getD 23 0 = h.getD 23 0 ∧
    (((mod_save_output X song).drop (20 + 30 * (n - 1))).take 30).getD 25 0 = h.getD 25 0 ∧
    (((mod_save_output X song).drop (20 + 30 * (n - 1))).take 30).getD 26 0 = h.getD 26 0 ∧
    (((mod_save_output X song).drop (20 + 30 * (n - 1))).take 30).getD 27 0 = h.getD 27 0 ∧
    (((mod_save_output X song).drop (20 + 30 * (n - 1))).take 30).getD 28 0 = h.getD 28 0 ∧
    (((mod_save_output X song).drop (20 + 30 * (n - 1))).take 30).getD 29 0 = h.getD 29 0 := by
  obtain ⟨_, p2, _⟩ := mod_save_output_head X song hwr
  have hle := mod_save_nsmp_le X song
  rw [p2 n h1 (by omega)]
  exact mod_save_header_bytes_back X song _ n h2 hmn old h hlen he hv hw2 hw

theorem looped_header_sample :
    (hdr_sample example_externals false blank_sample looped_header).length ≠ 0 ∧
    looped_header.length = 30 ∧ (looped_header.getD 25 0).val ≤ 64 ∧
    2 ≤ be16 (looped_header.drop 28) ∧ be16 (looped_header.drop 28) ≤ 0x7FFF := by
  decide

/-- C32, witness: the header `looped_header` (length word 4, volume 64, loop-start word 1, loop-length word 2), decoded into sample 1 and written again with the same name bytes. -/
theorem fmt_mod_save_song_header_roundtrip_witness :
    looped_header.length = 30 ∧ be16 (looped_header.drop 28) = 2 ∧
    (((mod_save_output example_externals (sample_song
      (hdr_sample example_externals false blank_sample looped_header))).drop
        (20 + 30 * (1 - 1))).take 30).take 22 = looped_header.take 22 :=
  ⟨by decide, by decide,
    (fmt_mod_save_song_header_roundtrip example_externals
      (sample_song (hdr_sample example_externals false blank_sample looped_header))
      example_writer_writes 1 (Nat.le_refl _)
      (Nat.le_of_eq (sample_song_nsmp _ looped_header_sample.1).2.symm)
      false blank_sample looped_header looped_header_sample.2.1
      (by rw [sample_song_sample, if_pos rfl]; exact sample_header_eq_refl _)
      looped_header_sample.2.2.1 looped_header_sample.2.2.2.1
      looped_header_sample.2.2.2.2).1⟩

/-- The stream at the start of the sample-data loop of the encoder holds the header and the
patterns, `1084 + (maxpat + 1) * nchn * 256` bytes, and the write position is at its end. -/
theorem mod_save_output_data_start (X : externals) (song : song_t)
    (hn : mod_save_nchn X song ≤ 64) :
    ∃ pre : List Byte,
      pre.length = 1084 + (mod_save_maxpat_of X song + 1) * mod_save_nchn X song * 256 ∧
      (fmt_mod_save_song X disko_open song).1 =
        mod_save_sample_data X song (mod_save_nsmp X song) 31 0 ⟨pre, pre.length⟩ := by
  obtain ⟨pre, e1, e2⟩ := mod_save_output_stream X song
  have hPl : ∀ m, 0 ≤ m → m < 0 + (mod_save_maxpat_of X song + 1) →
      (mod_save_pattern_bytes song (mod_save_nchn X song) m).length
        = mod_save_nchn X song * 256 :=
    fun m _ _ => (mod_save_pattern_bytes_layout song _ m hn).1
  have hP := concat_blocks_length_of (mod_save_pattern_bytes song (mod_save_nchn X song))
    (mod_save_nchn X song * 256) (mod_save_maxpat_of X song + 1) 0 hPl
  refine ⟨pre, ?_, e2⟩
  rw [e1, List.length_append, mod_save_head_bytes_length, hP]
  ring

theorem mod_save_sample_data_done (X : externals) (song : song_t) (nsmp k n : Nat)
    (fp : disko_t) (h : ¬ (n < nsmp ∧ n < 31)) :
    mod_save_sample_data X song nsmp k n fp = fp := by
  cases k with
  | zero => rfl
  | succ k =>
    simp only [mod_save_sample_data]
    rw [if_neg h]

/-- One round of the sample-data loop of the encoder on a sample with data that does not
take the loop branch and has a length of at least 1: the sample is written, then its first
two bytes are overwritten with zero bytes. -/
theorem mod_save_sample_data_zeroed (X : externals) (song : song_t) (nsmp k n : Nat)
    (fp : disko_t) (hn : n < nsmp ∧ n < 31) (hd : (song.samples (n + 1)).data.isSome = true)
    (hl : ¬ ((song.samples (n + 1)).flags &&& CHN_LOOP ≠ 0 ∧
      (song.samples (n + 1)).loop_start < (song.samples (n + 1)).loop_end ∧
      (song.samples (n + 1)).loop_end ≤ min (song.samples (n + 1)).length 0x1FFFE))
    (hlen : (song.samples (n + 1)).length ≥ 1) :
    mod_save_sample_data X song nsmp (k + 1) n fp =
      mod_save_sample_data X song nsmp k (n + 1)
        (disko_seek_end (disko_write (disko_seek_set
          (X.csf_write_sample fp (song.samples (n + 1)) 0x1FFFE) (disko_tell fp)) [0, 0])) := by
  simp only [mod_save_sample_data]
  rw [if_pos hn, if_pos hd, if_neg hl, if_pos hlen]

theorem write_then_zero (pre : List Byte) (x : Byte) :
    (disko_seek_end (disko_write (disko_seek_set (disko_write ⟨pre, pre.length⟩ [x])
      (disko_tell ⟨pre, pre.length⟩)) [0, 0])).data = pre ++ [0, 0] := by
  simp only [disko_seek_end, disko_write, disko_seek_set, disko_tell, buf_write,
    List.take_length, Nat.sub_self, List.replicate_zero, List.append_nil, List.length_cons,
    List.length_nil, List.length_append, List.take_left, List.drop_length, List.drop_append,
    List.append_assoc, Nat.add_sub_cancel_left]
  simp
  omega

theorem example_nchn_blank (song : song_t) (h : ∀ p, song.patterns p = none) :
    mod_save_nchn example_externals song = 1 := by
  unfold mod_save_nchn
  rw [example_highest_channel_eq,
    last_index_eq _ 0 (Or.inl rfl) 63 (Nat.zero_le _)]
  intro j _ _
  rw [List.any_eq_false]
  intro p _
  rw [Bool.not_eq_true, List.any_eq_false]
  intro r _
  have e : song_cell song p r j = blank_note := by
    unfold song_cell
    rw [h p]
    rfl
  rw [e]
  decide

theorem example_orders_none (song : song_t) (h : ∀ i, song.orderlist i = ORDER_LAST) :
    example_externals.csf_get_num_orders song = 0 ∧
    mod_save_maxpat_of example_externals song = 0 := by
  have e : example_externals.csf_get_num_orders song = 0 := by
    rw [example_num_orders_eq]
    apply last_index_eq _ 0 (Or.inl rfl) 256 (Nat.zero_le _)
    intro j _ _
    rw [h]
    decide
  refine ⟨e, ?_⟩
  unfold mod_save_maxpat_of
  rw [e]
  rfl

theorem mod_save_header_bytes_length_word (X : externals) (song : song_t) (nsmp n : Nat)
    (h : n ≤ nsmp) :
    (mod_save_header_bytes X song nsmp n).getD 22 0
      = Fin.ofNat (min ((song.samples n).length >>> 1) 0xFFFF / 256) ∧
    (mod_save_header_bytes X song nsmp n).getD 23 0
      = Fin.ofNat (min ((song.samples n).length >>> 1) 0xFFFF) := by
  unfold mod_save_header_bytes
  rw [if_neg (by omega)]
  simp only [List.append_assoc, be16_bytes, List.cons_append, List.nil_append]
  exact ⟨getD_after _ _ 22 0 (field_bytes_length _ 22),
    getD_after _ _ 22 1 (field_bytes_length _ 22)⟩

theorem odd_sample_song :
    mod_save_nsmp example_externals (sample_song odd_sample) = 1 ∧
    mod_save_nchn example_externals (sample_song odd_sample) = 1 ∧
    mod_save_maxpat_of example_externals (sample_song odd_sample) = 0 :=
  ⟨(sample_song_nsmp odd_sample (Nat.succ_ne_zero 0)).2,
    example_nchn_blank _ (fun _ => rfl), (example_orders_none _ (fun _ => rfl)).2⟩

/-- C35, the encoder at the failing input: for the song whose sample 1 has one byte of data and no loop the length word of the header (bytes 42, 43 of the file) is 0, half the length being 0, and yet the sample-data region of the file, which starts at offset 1340, holds the two zero bytes. -/
theorem mod_save_odd_sample_bytes :
    odd_sample.length = 1 ∧ odd_sample.length / 2 = 0 ∧
    (mod_save_output example_externals (sample_song odd_sample)).getD 42 0 = 0 ∧
    (mod_save_output example_externals (sample_song odd_sample)).getD 43 0 = 0 ∧
    (mod_save_output example_externals (sample_song odd_sample)).length = 1340 + 2 ∧
    (mod_save_output example_externals (sample_song odd_sample)).drop 1340 = [0, 0] := by
  obtain ⟨s1, s2, s3⟩ := odd_sample_song
  obtain ⟨_, p2, _⟩ := mod_save_output_head example_externals (sample_song odd_sample)
    example_writer_writes
  have hh := p2 1 (Nat.le_refl _) (by decide)
  obtain ⟨w1, w2⟩ := mod_save_header_bytes_length_word example_externals
    (sample_song odd_sample) (mod_save_nsmp example_externals (sample_song odd_sample)) 1
    (Nat.le_of_eq s1.symm)
  rw [← hh, getD_take_drop _ _ _ _ (by decide)] at w1 w2
  obtain ⟨pre, hpre, hrun⟩ := mod_save_output_data_start example_externals
    (sample_song odd_sample) (example_nchn_le _)
  rw [s2, s3] at hpre
  have hsmp : (sample_song odd_sample).samples (0 + 1) = odd_sample := by
    rw [sample_song_sample, if_pos rfl]
  have hout : mod_save_output example_externals (sample_song odd_sample) = pre ++ [0, 0] := by
    unfold mod_save_output
    rw [hrun, s1, mod_save_sample_data_zeroed example_externals (sample_song odd_sample) 1 30 0 _
      (by decide) (by rw [hsmp]; rfl) (by rw [hsmp]; decide) (by rw [hsmp]; decide),
      mod_save_sample_data_done _ _ _ _ _ _ (by decide), hsmp]
    exact write_then_zero pre 5
  refine ⟨rfl, rfl, ?_, ?_, ?_, ?_⟩
  · rw [w1, sample_song_sample, if_pos rfl]
    rfl
  · rw [w2, sample_song_sample, if_pos rfl]
    rfl
  · rw [hout, List.length_append, hpre]
    rfl
  · rw [hout, List.drop_left' hpre]

theorem skip_song_orderlist (i : Nat) :
    skip_song.orderlist i = if i = 0 then 0 else if i = 1 then ORDER_SKIP else ORDER_LAST :=
  rfl

theorem skip_song_orders : example_externals.csf_get_num_orders skip_song = 2 := by
  rw [example_num_orders_eq]
  apply last_index_eq _ 2 (Or.inr ?_) 256 (by decide)
  · intro j hj1 _
    rw [skip_song_orderlist, if_neg (by omega), if_neg (by omega)]
    decide
  · decide

theorem skip_song_maxpat : mod_save_maxpat_of example_externals skip_song = 254 := by
  unfold mod_save_maxpat_of
  rw [skip_song_orders]
  decide

/-- C38, the encoder at the failing input: for the song with the order list `0, ORDER_SKIP` the order count is 2, the order byte at offset 953 of the file is the marker 254, the maximum pattern index of the encoder is 254, which is not below `MAX_PATTERNS`, and the file has 255 patterns (1084 + 255 * 256 bytes). -/
theorem mod_save_skip_marker :
    example_externals.csf_get_num_orders skip_song = 2 ∧
    skip_song.orderlist 1 = ORDER_SKIP ∧
    (mod_save_output example_externals skip_song).getD (952 + 1) 0 = 254 ∧
    mod_save_maxpat_of example_externals skip_song = 254 ∧
    ¬ mod_save_maxpat_of example_externals skip_song < MAX_PATTERNS ∧
    (mod_save_output example_externals skip_song).length = 1084 + 255 * 256 := by
  obtain ⟨_, _, _, _, p5, _⟩ := mod_save_output_head example_externals skip_song
    example_writer_writes
  have hnchn : mod_save_nchn example_externals skip_song = 1 :=
    example_nchn_blank _ (fun _ => rfl)
  have hnsmp : mod_save_nsmp example_externals skip_song = 0 := by
    unfold mod_save_nsmp
    rw [blank_num_samples _ (fun _ => rfl)]
    rfl
  obtain ⟨pre, hpre, hrun⟩ := mod_save_output_data_start example_externals skip_song
    (example_nchn_le _)
  rw [hnchn, skip_song_maxpat] at hpre
  refine ⟨skip_song_orders, rfl, ?_, skip_song_maxpat, ?_, ?_⟩
  · rw [p5 1 (by decide), skip_song_orders]
    decide
  · rw [skip_song_maxpat]
    decide
  · unfold mod_save_output
    rw [hrun, hnsmp, mod_save_sample_data_done _ _ _ _ _ _ (by decide)]
    exact hpre

/-! ## Short streams, the loop flag, trailing bytes, the finetune index and the period table -/

set_option maxRecDepth 100000 in
theorem short_tag_example_read :
    short_tag_example.length = 1004 ∧
    slurp_read (slurp_seek_set (slurp_open short_tag_example) 1080) 4
      = (cstr "90CH", 4, ⟨short_tag_example, 4⟩) ∧
    slurp_read (slurp_seek_set (slurp_open (List.replicate 1004 0)) 1080) 4
      = ([0, 0, 0, 0], 4, ⟨List.replicate 1004 0, 4⟩) :=
  ⟨by decide, rfl, rfl⟩

theorem run_of_tag_read (X : externals) (song : song_t) (fp fp1 : slurp_t) (lflags : Nat)
    (force : Bool) (tag : List Byte) (n : Nat)
    (h : slurp_read (slurp_seek_set fp 1080) 4 = (tag, n, fp1)) :
    (∀ t, mod_check_tag tag force = some t → t.nchan > MAX_CHANNELS →
      fmt_mod_load_song X song fp lflags force = .error .LOAD_FORMAT_ERROR) ∧
    (mod_check_tag tag force = none →
      fmt_mod_load_song X song fp lflags force = .error .LOAD_UNSUPPORTED) := by
  unfold fmt_mod_load_song fmt_mod_load_song_run
  simp only [h]
  constructor
  · intro t ht hn
    rw [ht]
    simp only
    rw [if_pos hn]
  · intro ht
    rw [ht]

/-- C7, counterexample: a stream of 1004 bytes that starts with `90CH` has no byte at the offsets 1080..1083, so its tag does not resolve to a channel count above `MAX_CHANNELS`, and yet `fmt_mod_load_song` returns `LOAD_FORMAT_ERROR` on it for both values of `force`: the seek to offset 1080 is refused and the tag is read from offset 0. A stream of 1004 zero bytes, which has the same (no) bytes at 1080..1083, gives `LOAD_UNSUPPORTED`. -/
theorem short_stream_format_error_counterexample :
    short_tag_example.length = 1004 ∧
    (short_tag_example.drop 1080).take 4 = [] ∧
    ¬ tag_channels_over_max ((short_tag_example.drop 1080).take 4) ∧
    fmt_mod_load_song example_externals empty_song (slurp_open short_tag_example) 0 false
      = .error .LOAD_FORMAT_ERROR ∧
    fmt_mod_load_song example_externals empty_song (slurp_open short_tag_example) 0 true
      = .error .LOAD_FORMAT_ERROR ∧
    ((List.replicate 1004 0 : List Byte).drop 1080).take 4 = [] ∧
    fmt_mod_load_song example_externals empty_song (slurp_open (List.replicate 1004 0)) 0 false
      = .error .LOAD_UNSUPPORTED := by
  obtain ⟨h1, h2, h3⟩ := short_tag_example_read
  have hd : (short_tag_example.drop 1080).take 4 = [] := by
    rw [List.drop_of_length_le (by rw [h1]; decide)]
    rfl
  have hz : ((List.replicate 1004 0 : List Byte).drop 1080).take 4 = [] := by
    rw [List.drop_of_length_le (by rw [List.length_replicate]; decide)]
    rfl
  refine ⟨h1, hd, ?_, ?_, ?_, hz, ?_⟩
  · rw [hd]
    decide
  · exact (run_of_tag_read example_externals empty_song _ _ 0 false _ _ h2).1 _ rfl (by decide)
  · exact (run_of_tag_read example_externals empty_song _ _ 0 true _ _ h2).1 _ rfl (by decide)
  · exact (run_of_tag_read example_externals empty_song _ _ 0 false _ _ h3).2 rfl

/-- C10, amended: for every sample header decoded by `fmt_mod_load_song` into a slot whose loop flag was clear, the loop flag (`CHN_LOOP`) is set only if the raw big-endian loop-length word is greater than 1. -/
theorem fmt_mod_load_song_loop_flag (X : externals) (song : song_t) (data : List Byte)
    (pos lflags : Nat) (force : Bool) (st : mod_load_t)
    (h : fmt_mod_load_song_run X song ⟨data, pos⟩ lflags force = .ok st) :
    ∃ t st0, mod_load_head X song (slurp_read (slurp_seek_set ⟨data, pos⟩ 1080) 4).2.2 t
        = .ok st0 ∧
      mod_load_tail X lflags st0 = .ok st ∧
      ∀ m, 1 ≤ m → m ≤ st.nsamples → (song.samples m).flags &&& CHN_LOOP = 0 →
        (st0.song.samples m).flags &&& CHN_LOOP ≠ 0 →
        st_loop_length_word data (m - 1) > 1 := by
  obtain ⟨t, st0, ht, hn, h0, h1⟩ := run_ok_cases X song ⟨data, pos⟩ lflags force st h
  obtain ⟨l1, l2, _⟩ := mod_load_tail_locals X lflags st0 st h1
  have hd : (slurp_read (slurp_seek_set ⟨data, pos⟩ 1080) 4).2.2.data = data := by
    rw [slurp_read_data]; unfold slurp_seek_set; split <;> rfl
  by_cases hr : 150 + 30 * t.nsamples ≤ data.length
  · obtain ⟨st0', hs, hsp⟩ := mod_load_head_ok X song _ t (by rw [hd]; exact hr)
    rw [hs] at h0; cases h0
    rw [hd] at hsp
    refine ⟨t, st0, hs, h1, ?_⟩
    intro m hm1 hm2 hclear
    rw [l2, hsp.nsamples] at hm2
    rw [hsp.samples m, if_pos ⟨hm1, by omega⟩]
    have e29 : 20 + 30 * (m - 1) + 28 + 1 = 20 + 30 * (m - 1) + 29 := by omega
    have hw : be16 (((data.drop (20 + 30 * (m - 1))).take 30).drop 28)
        = st_loop_length_word data (m - 1) := by
      rw [be16_drop_take data (20 + 30 * (m - 1)) 30 28 (by omega), e29]
      rfl
    have hfl : (hdr_sample X t.his_masters_noise (song.samples m)
        ((data.drop (20 + 30 * (m - 1))).take 30)).flags =
        if (st_loop_length_word data (m - 1) * 2) % 65536 > 2
        then (song.samples m).flags ||| CHN_LOOP else (song.samples m).flags := by
      unfold hdr_sample
      simp only [hw]
    rw [hfl]
    by_cases hc : (st_loop_length_word data (m - 1) * 2) % 65536 > 2
    · rw [if_pos hc]
      intro _
      omega
    · rw [if_neg hc]
      intro hne
      exact (hne hclear).elim
  · rw [mod_load_head_short X song _ t (by rw [hd]; exact hr)] at h0
    cases h0

/-- C10, witness: the amended statement at the `M.K.` stream whose first sample header has the loop-length word 2. -/
theorem fmt_mod_load_song_loop_flag_witness :
    fmt_mod_load_song_run example_externals empty_song
        ⟨tagged_example (loop_header 0 0 2) "M.K." 1024, 0⟩ 1 false =
      .ok (example_state (loop_header 0 0 2) 1) ∧
    ∃ t st0, mod_load_head example_externals empty_song
        (slurp_read (slurp_seek_set ⟨tagged_example (loop_header 0 0 2) "M.K." 1024, 0⟩ 1080)
          4).2.2 t = .ok st0 ∧
      mod_load_tail example_externals 1 st0 = .ok (example_state (loop_header 0 0 2) 1) ∧
      ∀ m, 1 ≤ m → m ≤ (example_state (loop_header 0 0 2) 1).nsamples →
        (empty_song.samples m).flags &&& CHN_LOOP = 0 →
        (st0.song.samples m).flags &&& CHN_LOOP ≠ 0 →
        st_loop_length_word (tagged_example (loop_header 0 0 2) "M.K." 1024) (m - 1) > 1 :=
  ⟨example_state_ok _ (by decide) 1,
    fmt_mod_load_song_loop_flag example_externals empty_song _ 0 1 false _
      (example_state_ok _ (by decide) 1)⟩

/-- C23, amended: for every used sample `n` the finetune byte, at offset `20 + 30 * (n - 1) + 24`, is `(j XOR 8) AND 0x0F` where `j`, the index that the loop of the encoder ends with, is in 0..15 and is 8 when the rate `c5speed` is above 10000 and every table entry of the indices 9..15 is above the rate; otherwise `j` is the highest index in 1..15 whose entry is not above the rate (its own entry is not above the rate and every entry of a higher index is), and 0 exactly when every entry of the indices 1..15 is above the rate. -/
theorem fmt_mod_save_song_finetune (X : externals) (song : song_t)
    (hwr : sample_writer_writes X) (n : Nat) (h1 : 1 ≤ n) (h2 : n ≤ mod_save_nsmp X song) :
    (mod_save_output X song).getD (20 + 30 * (n - 1) + 24) 0
      = Fin.ofNat ((mod_save_finetune X (song.samples n).c5speed 15 ^^^ 8) &&& 0x0f) ∧
    mod_save_finetune X (song.samples n).c5speed 15 ≤ 15 ∧
    (((song.samples n).c5speed > 10000 ∧
        ∀ k, 9 ≤ k → k ≤ 15 → X.finetune_table k > (song.samples n).c5speed) →
      mod_save_finetune X (song.samples n).c5speed 15 = 8) ∧
    (¬ ((song.samples n).c5speed > 10000 ∧
        ∀ k, 9 ≤ k → k ≤ 15 → X.finetune_table k > (song.samples n).c5speed) →
      (mod_save_finetune X (song.samples n).c5speed 15 ≠ 0 →
        X.finetune_table (mod_save_finetune X (song.samples n).c5speed 15)
          ≤ (song.samples n).c5speed) ∧
      (∀ k, mod_save_finetune X (song.samples n).c5speed 15 < k → k ≤ 15 →
        X.finetune_table k > (song.samples n).c5speed) ∧
      (mod_save_finetune X (song.samples n).c5speed 15 = 0 ↔
        ∀ k, 1 ≤ k → k ≤ 15 → X.finetune_table k > (song.samples n).c5speed)) := by
  obtain ⟨s1, s2, s3, s4⟩ := mod_save_finetune_spec X (song.samples n).c5speed 15
  refine ⟨(mod_save_output_fields X song hwr n h1 h2).1, s1, ?_, ?_⟩
  · rintro ⟨hc, hall⟩
    have h8 := s4 hc (by decide)
    rcases s3 with s3 | s3 | s3
    · omega
    · by_contra hne
      have := hall _ (by omega) s1
      omega
    · exact s3.2
  · intro hnb
    have hle : mod_save_finetune X (song.samples n).c5speed 15 ≠ 0 →
        X.finetune_table (mod_save_finetune X (song.samples n).c5speed 15)
          ≤ (song.samples n).c5speed := by
      intro hne
      rcases s3 with s3 | s3 | s3
      · exact absurd s3 hne
      · exact s3
      · exfalso
        apply hnb
        refine ⟨s3.1, fun k hk1 hk2 => s2 k (by rw [s3.2]; omega) hk2⟩
    refine ⟨hle, s2, ?_⟩
    constructor
    · intro h0 k hk1 hk2
      exact s2 k (by rw [h0]; omega) hk2
    · intro hall
      by_contra hne
      have e1 := hle hne
      have e2 := hall _ (by omega) s1
      omega

/-- C23, witness: the finetune byte of sample 1 of a song whose sample 1 has the rate 8363. -/
theorem fmt_mod_save_song_finetune_witness :
    (mod_save_output example_externals (sample_song (rated_sample 8363 256))).getD
        (20 + 30 * (1 - 1) + 24) 0
      = Fin.ofNat ((mod_save_finetune example_externals
          ((sample_song (rated_sample 8363 256)).samples 1).c5speed 15 ^^^ 8) &&& 0x0f) :=
  (fmt_mod_save_song_finetune example_externals (sample_song (rated_sample 8363 256))
    example_writer_writes 1 (Nat.le_refl _)
    (Nat.le_of_eq (sample_song_nsmp (rated_sample 8363 256) (Nat.succ_ne_zero 1)).2.symm)).1

/-- C36, the import at the failing input: entry 48 of `amigaperiod_table` is 906 while entry 11 of the period table of the player is 907; `_mod_period_to_note` makes the note 49 of the period 906, and the note 48 of the period 907; every other non-zero entry of `amigaperiod_table` imports as its own index. -/
theorem mod_period_to_note_entry_48 :
    amigaperiod_table.getD 48 0 = 906 ∧ player_period_table.getD 11 0 = 907 ∧
    example_externals.period_table 11 = player_period_table.getD 11 0 ∧
    _mod_period_to_note example_externals (amigaperiod_table.getD 48 0) = 49 ∧
    _mod_period_to_note example_externals 907 = 48 ∧
    ∀ k, amigaperiod_table.getD k 0 ≠ 0 → k ≠ 48 →
      _mod_period_to_note example_externals (amigaperiod_table.getD k 0) = k := by
  refine ⟨by decide, by decide, rfl, by decide, by decide, ?_⟩
  intro k hk h48
  have h := (amigaperiod_import k hk).2.2
  rw [if_neg h48] at h
  exact h

theorem hdr_length_sum_agree (d1 d2 : List Byte) (e : Nat) (hpre : d1.take e = d2.take e) :
    ∀ k pos, pos + 30 * k ≤ e → hdr_length_sum d1 k pos = hdr_length_sum d2 k pos := by
  intro k
  induction k with
  | zero => intro pos _; rfl
  | succ k ih =>
    intro pos h
    simp only [hdr_length_sum]
    rw [agree_slice d1 d2 e pos 30 hpre (by omega), ih (pos + 30) (by omega)]

theorem seek_pattern_start (fp : slurp_t) (d : List Byte) (p : Nat) (hd : fp.data = d)
    (h : p ≤ d.length) : slurp_seek_set fp p = ⟨d, p⟩ := by
  rw [slurp_seek_set_ok fp p (by rw [hd]; exact h)]
  cases fp
  simp only at hd
  subst hd
  rfl

/-- The header part on two streams that agree on the header and for which the WOW test has
the same outcome: the same song and the same locals. -/
theorem head_agree_wow (X : externals) (song : song_t) (d1 d2 : List Byte) (e p1 p2 : Nat)
    (t : mod_tag_t) (st0 : mod_load_t) (hpre : d1.take e = d2.take e) (he2 : e ≤ d2.length)
    (hcov : 150 + 30 * t.nsamples ≤ e)
    (h0 : mod_load_head X song ⟨d1, p1⟩ t = .ok st0)
    (hwow : t.test_wow = true →
      (d1.length = 2048 * st0.npat + st0.samplesize + 3132 ↔
        d2.length = 2048 * st0.npat + st0.samplesize + 3132)) :
    ∃ st0', mod_load_head X song ⟨d2, p2⟩ t = .ok st0' ∧ st0'.song = st0.song ∧
      st0.fp.data = d1 ∧ st0'.fp.data = d2 ∧
      st0'.nchan = st0.nchan ∧ st0'.nsamples = st0.nsamples ∧
      st0'.startrekker = st0.startrekker ∧ st0'.npat = st0.npat ∧
      st0'.restart = st0.restart ∧ st0'.is_mk = st0.is_mk := by
  have hl1 : 150 + 30 * t.nsamples ≤ d1.length := by
    by_contra hc
    rw [mod_load_head_short X song ⟨d1, p1⟩ t hc] at h0
    cases h0
  obtain ⟨sa, ha, spa⟩ := mod_load_head_ok X song ⟨d1, p1⟩ t hl1
  rw [ha] at h0; cases h0
  obtain ⟨sb, hb, spb⟩ := mod_load_head_ok X song ⟨d2, p2⟩ t (by simp only; omega)
  simp only at spa spb
  obtain ⟨a1, a2, a3, a4, a5⟩ := mod_load_head_keeps X song _ t st0 ha
  obtain ⟨b1, b2, b3, b4, b5⟩ := mod_load_head_keeps X song _ t sb hb
  have hraw := raw_orders_agree d1 d2 e (20 + 30 * t.nsamples + 2) song.orderlist hpre (by omega)
  have hst : sb.startrekker = st0.startrekker := by
    rw [spa.startrekker, spb.startrekker, hraw]
  have hnp : sb.npat = st0.npat := by
    rw [spa.npat, spb.npat, hraw, hst]
  have hno : sb.nord = st0.nord := by
    rw [spa.nord, spb.nord, agree_getD d1 d2 e _ hpre (by omega)]
  have hss : sb.samplesize = st0.samplesize := by
    rw [spa.samplesize, spb.samplesize,
      hdr_length_sum_agree d1 d2 e hpre t.nsamples 20 (by omega)]
  refine ⟨sb, hb, ?_, spa.fp_data, spb.fp_data, ?_, ?_, hst, hnp, ?_, ?_⟩
  · apply song_ext
    · rw [spa.title, spb.title]
      have := agree_slice d1 d2 e 0 20 hpre (by omega)
      simp only [List.drop_zero] at this
      rw [this]
    · funext m
      rw [spa.samples m, spb.samples m]
      by_cases hm : 1 ≤ m ∧ m < 1 + t.nsamples
      · rw [if_pos hm, if_pos hm, agree_slice d1 d2 e _ 30 hpre (by omega)]
      · rw [if_neg hm, if_neg hm]
    · funext i
      rw [spa.orderlist i, spb.orderlist i, hraw, hst, hno]
    · rw [spa.patterns, spb.patterns]
    · rw [spa.pattern_size, spb.pattern_size]
    · rw [a1, b1]
    · rw [a2, b2]
    · rw [a3, b3]
    · rw [a4, b4]
    · rw [a5, b5]
  · have n1 := spa.nchan
    have n2 := spb.nchan
    rw [hnp, hss, ← hraw] at n2
    rw [n1, n2]
    by_cases hw : t.test_wow = true
    · by_cases hl : d1.length = 2048 * st0.npat + st0.samplesize + 3132
      · rw [if_pos (And.intro hw ((hwow hw).mp hl)), if_pos (And.intro hw hl)]
      · rw [if_neg (fun h : t.test_wow = true ∧
            d2.length = 2048 * st0.npat + st0.samplesize + 3132 => hl ((hwow hw).mpr h.2)),
          if_neg (fun h : t.test_wow = true ∧
            d1.length = 2048 * st0.npat + st0.samplesize + 3132 => hl h.2)]
    · rw [if_neg (fun h : t.test_wow = true ∧
          d2.length = 2048 * st0.npat + st0.samplesize + 3132 => hw h.1),
        if_neg (fun h : t.test_wow = true ∧
          d1.length = 2048 * st0.npat + st0.samplesize + 3132 => hw h.1)]
  · rw [spa.nsamples, spb.nsamples]
  · rw [spa.restart, spb.restart, agree_getD d1 d2 e _ hpre (by omega)]
  · rw [spa.is_mk, spb.is_mk]

/-- C19, amended: let two streams agree up to an offset `e` of at least 1084 that lies within both and at or after the end of the data that the decoder reads from the first (the end of the patterns and of every stored sample's bytes, the 5 bytes of each ADPCM sniff included), and let the sample reader read a sample from its own bytes only. Then a run of `fmt_mod_load_song` that fails on the first stream fails with the same code on the second; and when the run on the first stream succeeds and, for the tag `M.K.`, either both streams or neither have the WOW length `2048 * npat + samplesize + 3132`, the run on the second stream succeeds as well, and the two songs agree on the channel count, the title, the samples, the order list, the patterns and their sizes, the channels, the flags and the panning separation. -/
theorem fmt_mod_load_song_trailing (X : externals) (song : song_t) (d1 d2 : List Byte)
    (lflags : Nat) (force : Bool) (e : Nat)
    (hloc : sample_reader_local X)
    (hend : fmt_mod_data_end X song (slurp_open d1) lflags force ≤ e)
    (h1084 : 1084 ≤ e) (he1 : e ≤ d1.length) (he2 : e ≤ d2.length)
    (hpre : d1.take e = d2.take e) :
    (∀ err, fmt_mod_load_song_run X song (slurp_open d1) lflags force = .error err →
      fmt_mod_load_song_run X song (slurp_open d2) lflags force = .error err) ∧
    (∀ st1, fmt_mod_load_song_run X song (slurp_open d1) lflags force = .ok st1 →
      (memeq ((d1.drop 1080).take 4) (cstr "M.K.") 4 = true →
        (d1.length = 2048 * st1.npat + st1.samplesize + 3132 ↔
          d2.length = 2048 * st1.npat + st1.samplesize + 3132)) →
      ∃ st2, fmt_mod_load_song_run X song (slurp_open d2) lflags force = .ok st2 ∧
        st2.nchan = st1.nchan ∧ st2.song.title = st1.song.title ∧
        st2.song.samples = st1.song.samples ∧ st2.song.orderlist = st1.song.orderlist ∧
        st2.song.patterns = st1.song.patterns ∧
        st2.song.pattern_size = st1.song.pattern_size ∧
        st2.song.pattern_alloc_size = st1.song.pattern_alloc_size ∧
        st2.song.channels = st1.song.channels ∧ st2.song.flags = st1.song.flags ∧
        st2.song.pan_separation = st1.song.pan_separation) := by
  have htag : (d2.drop 1080).take 4 = (d1.drop 1080).take 4 :=
    (agree_slice d1 d2 e 1080 4 hpre (by omega)).symm
  constructor
  · intro err h1
    rw [fmt_mod_load_song_run_eq X song d1 lflags force (by omega)] at h1
    rw [fmt_mod_load_song_run_eq X song d2 lflags force (by omega), htag]
    cases ht : mod_check_tag ((d1.drop 1080).take 4) force with
    | none =>
      rw [ht] at h1
      exact h1
    | some t =>
      rw [ht] at h1
      simp only at h1 ⊢
      by_cases hn : t.nchan > MAX_CHANNELS
      · rw [if_pos hn] at h1 ⊢
        exact h1
      · rw [if_neg hn] at h1
        exfalso
        unfold MAX_CHANNELS at hn
        have hns : t.nsamples ≤ 31 := by
          rcases mod_check_tag_nsamples _ force t ht with e1 | e1 <;> omega
        obtain ⟨st0, h0, hsp⟩ := mod_load_head_ok X song ⟨d1, 1084⟩ t (by simp only; omega)
        simp only at hsp
        rw [h0] at h1
        simp only at h1
        have hend0 : mod_data_end X lflags st0 ≤ e := by
          unfold fmt_mod_data_end at hend
          rw [tag_read d1 (by omega)] at hend
          simp only [ht, h0] at hend
          exact hend
        have hps : mod_pattern_start st0.nsamples ≤ 1084 := by
          unfold mod_pattern_start; split <;> omega
        have hn0 : st0.nchan ≤ 64 := by
          rcases mod_load_head_nchan X song _ t st0 h0 with e1 | e1 | e1 <;> omega
        have hseek1 := seek_pattern_start st0.fp d1 (mod_pattern_start st0.nsamples)
          hsp.fp_data (by omega)
        by_cases hroom : mod_pattern_start st0.nsamples
            + (st0.npat + 1) * pattern_bytes st0.startrekker st0.nchan ≤ d1.length
        · obtain ⟨sg, ea, _⟩ := mod_load_patterns_ok X st0.startrekker st0.nchan hn0
            (st0.npat + 1) 0 st0.song ⟨d1, mod_pattern_start st0.nsamples⟩
            (by simp only; exact hroom)
          obtain ⟨sa, ta, _⟩ := mod_load_tail_form X lflags st0 sg _
            (by rw [hseek1]; exact ea)
          rw [ta] at h1
          cases h1
        · have hde : mod_data_end X lflags st0 = mod_pattern_start st0.nsamples
              + (st0.npat + 1) * pattern_bytes st0.startrekker st0.nchan := by
            unfold mod_data_end
            rw [hseek1, mod_load_patterns_short X st0.startrekker st0.nchan hn0 (st0.npat + 1) 0
              st0.song ⟨d1, mod_pattern_start st0.nsamples⟩ (by simp only; exact hroom)
              (by simp only; omega)]
          omega
  · intro st1 h1 hwow
    obtain ⟨t, st0, ht, hn, h0, hsp, htail⟩ := run_head_spec X song d1 lflags force st1
      (by omega) h1
    obtain ⟨_, _, l3, _, _, _, l7, _⟩ := mod_load_tail_locals X lflags st0 st1 htail
    rw [l3, l7] at hwow
    have hns : t.nsamples ≤ 31 := by
      rcases mod_check_tag_nsamples _ force t ht with e1 | e1 <;> omega
    have hend0 : mod_data_end X lflags st0 ≤ e := by
      unfold fmt_mod_data_end at hend
      rw [tag_read d1 (by omega)] at hend
      simp only [ht, h0] at hend
      exact hend
    obtain ⟨st0', h0', g1, g2, g3, g4, g5, g6, g7, g8, g9⟩ := head_agree_wow X song d1 d2 e
      1084 1084 t st0 hpre he2 (by omega) h0
      (fun hw => hwow ((mod_check_tag_startrekker _ force t ht).2.2.mp hw))
    have hps : mod_pattern_start st0.nsamples ≤ 1084 := by
      unfold mod_pattern_start; split <;> omega
    have hn0 : st0.nchan ≤ 64 := by
      rcases mod_load_head_nchan X song _ t st0 h0 with e1 | e1 | e1 <;> omega
    have hseek1 := seek_pattern_start st0.fp d1 (mod_pattern_start st0.nsamples) g2 (by omega)
    have hseek2 := seek_pattern_start st0'.fp d2 (mod_pattern_start st0.nsamples) g3
      (by omega)
    by_cases hroom : mod_pattern_start st0.nsamples
        + (st0.npat + 1) * pattern_bytes st0.startrekker st0.nchan ≤ d1.length
    · obtain ⟨sg, ea, _⟩ := mod_load_patterns_ok X st0.startrekker st0.nchan hn0 (st0.npat + 1) 0
        st0.song ⟨d1, mod_pattern_start st0.nsamples⟩ (by simp only; exact hroom)
      have hreach : mod_sample_reach X lflags st0.nsamples 1 (mod_apply_restart X st0 sg)
          ⟨d1, mod_pattern_start st0.nsamples
            + (st0.npat + 1) * pattern_bytes st0.startrekker st0.nchan⟩ ≤ e := by
        unfold mod_data_end at hend0
        rw [hseek1, ea] at hend0
        exact hend0
      have hpe := mod_sample_reach_ge X lflags st0.nsamples 1 (mod_apply_restart X st0 sg)
        ⟨d1, mod_pattern_start st0.nsamples
          + (st0.npat + 1) * pattern_bytes st0.startrekker st0.nchan⟩
      simp only at hpe
      obtain ⟨sg', pa, pb⟩ := patterns_agree X st0.startrekker st0.nchan hn0 (st0.npat + 1)
        st0.song d1 d2 e (mod_pattern_start st0.nsamples) hpre he1 he2 (by omega)
      rw [ea] at pa
      have hsg : sg' = sg := by
        cases pa; rfl
      rw [hsg] at pb
      obtain ⟨sa, ta, a1, a2, a3, a4, a5, a6, a7, a8, a9, a10⟩ := mod_load_tail_form X lflags
        st0 sg _ (by rw [hseek1]; exact ea)
      rw [htail] at ta
      cases ta
      obtain ⟨sb, tb, b1, b2, b3, b4, b5, b6, b7, b8, b9, b10⟩ := mod_load_tail_form X lflags
        st0' sg _ (by rw [g1, g4, g5, g6, g7, hseek2]; exact pb)
      have hres : mod_apply_restart X st0' sg = mod_apply_restart X st0 sg :=
        mod_apply_restart_congr X st0 st0' sg g8 g7
      have hsd := sample_data_agree X lflags hloc d1 d2 e hpre he1 he2 st0.nsamples 1
        (mod_apply_restart X st0 sg) _ hreach
      simp only [hres, g5, g4, hsd] at b2 b3 b4 b5 b6 b7 b8
      refine ⟨sb, ?_, ?_, ?_, ?_, ?_, ?_, ?_, ?_, ?_, ?_, ?_⟩
      · rw [fmt_mod_load_song_run_eq X song d2 lflags force (by omega), htag, ht]
        simp only
        rw [if_neg (by unfold MAX_CHANNELS; omega), h0']
        exact tb
      · rw [b1, a1, g4]
      · rw [b2, a2]
      · rw [b3, a3]
      · rw [b4, a4]
      · rw [b5, a5]
      · rw [b6, a6]
      · rw [b7, a7]
      · rw [b8, a8]
      · rw [b9, a9]
      · rw [b10, a10]
    · exfalso
      unfold mod_load_tail at htail
      simp only [hseek1] at htail
      rw [mod_load_patterns_short X st0.startrekker st0.nchan hn0 (st0.npat + 1) 0 st0.song
        ⟨d1, mod_pattern_start st0.nsamples⟩ (by simp only; exact hroom)
        (by simp only; omega)] at htail
      cases htail

/-- The end of the data of the run on a stream of zeros around a 31-sample tag that does not
have the WOW length: the end of the first pattern. -/
theorem zero_example_data_end_of (X : externals) (tag : String) (body : List Byte)
    (lflags : Nat) (t : mod_tag_t) (h4 : (cstr tag).length = 4)
    (ht : mod_check_tag (cstr tag) false = some t) (hn : t.nchan ≤ 64) (hns : t.nsamples = 31)
    (hnw : ¬ (t.test_wow = true ∧ 1084 + body.length = 3132))
    (hroom : 1084 + pattern_bytes t.startrekker t.nchan ≤ 1084 + body.length) :
    fmt_mod_data_end X empty_song (slurp_open (module_example [] tag body)) lflags false
      = 1084 + pattern_bytes t.startrekker t.nchan := by
  have hlen := module_example_length [] tag body (Nat.zero_le _) h4
  have hz : ∀ i, i < 1080 → (module_example [] tag body).getD i 0 = 0 :=
    fun i h2 => module_example_getD_zero [] tag body i (Nat.zero_le _) h2
  obtain ⟨st0, h0, hsp⟩ := mod_load_head_ok X empty_song ⟨module_example [] tag body, 1084⟩ t
    (by simp only; omega)
  simp only at hsp
  obtain ⟨e1, e2, _, e4, e5, e6⟩ := head_of_zero_orders X empty_song _ t st0 hsp hns
    (fun i _ h2 => hz i h2)
  have hss : st0.samplesize = 0 := by
    rw [hsp.samplesize, hns]
    exact hdr_length_sum_zero _ 31 20 (by decide) (fun i _ h2 => hz i h2)
  rw [hss, hlen, Nat.zero_add, if_neg hnw] at e6
  have hseek := seek_pattern_start st0.fp (module_example [] tag body) (mod_pattern_start 31)
    hsp.fp_data (by rw [hlen]; show 1084 ≤ _; omega)
  have hsm : ∀ m, (st0.song.samples m).length = 0 := by
    intro m
    rw [hsp.samples m]
    split
    · rename_i hm
      rw [hns] at hm
      show be16 (((module_example [] tag body).drop (20 + 30 * (m - 1))).take 30 |>.drop 22) * 2
        = 0
      rw [be16_drop_take _ _ 30 22 (by omega), hz _ (by omega), hz _ (by omega)]
      rfl
    · rfl
  unfold fmt_mod_data_end
  rw [tag_read _ (by omega)]
  simp only
  rw [module_example_tag _ _ _ (Nat.zero_le _) h4, ht]
  simp only [h0]
  unfold mod_data_end
  rw [e4, e5, e6, e1, hseek]
  obtain ⟨sg, ea, _, k2, _⟩ := mod_load_patterns_ok X t.startrekker t.nchan hn (0 + 1) 0 st0.song
    ⟨module_example [] tag body, mod_pattern_start 31⟩ (by
      simp only [Nat.zero_add, Nat.one_mul, hlen]
      exact hroom)
  rw [ea]
  simp only
  rw [mod_sample_reach_zero]
  · simp only [Nat.zero_add, Nat.one_mul]
    rfl
  · intro m
    unfold mod_apply_restart
    rw [e1, e2, if_neg (by decide), k2]
    exact hsm m

theorem zero_mk_data_end (X : externals) (n lflags : Nat) (h1 : 1024 ≤ n) (h2 : n ≠ 2048) :
    fmt_mod_data_end X empty_song (slurp_open (zero_example "M.K." n)) lflags false = 2108 := by
  unfold zero_example
  rw [zero_example_data_end_of X "M.K." _ lflags _ (by decide) (mod_check_tag_mk false)
    (by decide) rfl (by
      simp only [List.length_replicate]
      omega) (by
      simp only [List.length_replicate]
      show 1084 + 1024 ≤ 1084 + n
      omega)]
  rfl

theorem zero_mk_tag (n : Nat) :
    memeq (((zero_example "M.K." n).drop 1080).take 4) (cstr "M.K.") 4 = true := by
  unfold zero_example
  rw [module_example_tag _ _ _ (Nat.zero_le _) (by decide)]
  decide

/-- C19, witness: the amended statement at the `M.K.` stream of 1024 zero pattern bytes and the same stream followed by 6 more bytes, neither of the WOW length. -/
theorem fmt_mod_load_song_trailing_witness :
    fmt_mod_load_song_run example_externals empty_song
        (slurp_open (zero_example "M.K." 1024)) 1 false =
      .ok (decoded example_externals (zero_example "M.K." 1024) 1) ∧
    memeq (((zero_example "M.K." 1024).drop 1080).take 4) (cstr "M.K.") 4 = true ∧
    (zero_example "M.K." 1024).take 2108 = (zero_example "M.K." 1030).take 2108 ∧
    ∃ st2, fmt_mod_load_song_run example_externals empty_song
        (slurp_open (zero_example "M.K." 1030)) 1 false = .ok st2 ∧
      st2.nchan = (decoded example_externals (zero_example "M.K." 1024) 1).nchan :=
  ⟨zero_mk_ok example_externals 1024 1 (by decide) (by decide), zero_mk_tag 1024,
    zero_example_take "M.K." 1024 6 (by decide),
    ((fmt_mod_load_song_trailing example_externals empty_song (zero_example "M.K." 1024)
      (zero_example "M.K." 1030) 1 false 2108 example_reader_local
      (Nat.le_of_eq (zero_mk_data_end example_externals 1024 1 (by decide) (by decide)))
      (by decide)
      (Nat.le_of_eq (zero_example_length "M.K." 1024 (by decide)).symm)
      (by rw [zero_example_length "M.K." 1030 (by decide)]; decide)
      (zero_example_take "M.K." 1024 6 (by decide))).2 _
      (zero_mk_ok example_externals 1024 1 (by decide) (by decide))
      (fun _ => by
        rw [(zero_mk_state example_externals 1024 1 (by decide) (by decide)).1,
          (zero_mk_state example_externals 1024 1 (by decide) (by decide)).2.2.2.2.2.1,
          zero_example_length "M.K." 1024 (by decide),
          zero_example_length "M.K." 1030 (by decide)]
        decide)).elim
      fun st2 h => ⟨st2, h.1, h.2.1⟩⟩

end Schism
